import Mathlib

/-!
# Service-catalog reconciler (`command/agent/consul/client.go`)

A shallow embedding of the reconciler of the Consul service client: the
desired-state store, `merge`, `agentServiceUpdateRequired`, the id predicates,
`sync`, the loop of `Run`, the address resolver `getAddress`, the check builder
`createCheckReg`, the registration builder `serviceRegs` and the lifecycle API
(`RegisterAgent`, `RegisterTask`, `UpdateTask`, `RemoveTask`,
`AllocRegistrations`, `Shutdown`) and the connect builder `newConnect`,
together with the properties the specification claims about them.

Modelling conventions.

* A Go `map[string]V` is an association list `GoMap V`; the order of the list
  is the order in which a `for … range` visits the map.  Go leaves that order
  unspecified, so every theorem about a loop is stated for an arbitrary list.
  Keys of a Go map are unique; theorems that need it assume `GoMap.WF`.
  Where a function builds a map and then ranges over it (`UpdateTask`), the
  order is a parameter `RangeOrder`, and the theorems hold for every order.
* The lifecycle API works on `Lifecycle`: the queue `opCh` as the list of the
  batches sent, whether `shutdownCh` is closed, the allocation index, the
  agent-owned id sets and the calls made on the check watcher.  Where Go
  leaves the choice between two ready cases of a `select` to chance (`commit`
  once `shutdownCh` is closed), the choice is a parameter `send` of the
  function, and the theorems hold for both choices.
* `Run` as a whole is a state machine `RunMachine`: a step is a ready case of
  the `select` at which `Run` stands, or an act of the rest of the agent (a
  commit, the closing of `shutdownCh`); a schedule is a list of steps, and the
  theorems hold for every schedule.
* A Go slice of strings that may be `nil` is an `Option (List String)`:
  `none` is the nil slice, `some []` the empty non-nil slice
  (`reflect.DeepEqual` distinguishes the two).
* `time.Time` values are natural numbers (nanoseconds on one clock);
  `time.Duration` values are integers (nanoseconds), and sums and products of
  64-bit integers wrap around (`wrapInt64`).
* An error is a `String`; a Go function returning `(value, error)` returns an
  `Except String value`.
* Code the reconciler calls but that is not at hand is either modelled from
  the specification (its doc comment says so) or a field of the parameter
  `Lib` (URL handling, content hashes).
* The catalog agent is an interface `AgentAPI σ` over an abstract client state
  `σ`; every call may fail and may change `σ`.  `sync` records the calls it
  makes, in order, in a ghost trace.
-/

namespace Consul

/-! ## Go maps -/

/-- A Go `map[string]α`, as the list of its entries in iteration order. -/
abbrev GoMap (α : Type) := List (String × α)

namespace GoMap

variable {α : Type}

/-- Lookup `m[k]` with the comma-ok idiom. -/
def get? (m : GoMap α) (k : String) : Option α := List.lookup k m

/-- The `ok` of `_, ok := m[k]`. -/
def contains (m : GoMap α) (k : String) : Bool := (m.get? k).isSome

/-- The keys of the map, in iteration order. -/
def keys (m : GoMap α) : List String := m.map Prod.fst

/-- The statement `delete(m, k)`. -/
def delete (m : GoMap α) (k : String) : GoMap α := m.filter (fun e => e.1 != k)

/-- The assignment `m[k] = v`. -/
def set (m : GoMap α) (k : String) (v : α) : GoMap α := (k, v) :: m.delete k

/-- Keys of a Go map are pairwise distinct. -/
def WF (m : GoMap α) : Prop := m.keys.Nodup

instance (m : GoMap α) : Decidable m.WF := inferInstanceAs (Decidable m.keys.Nodup)

end GoMap

/-- Lookup in a `map[string]bool`: a missing key reads as `false`. -/
def lookupBool (m : GoMap Bool) (k : String) : Bool := (m.get? k).getD false

/-! ## Constants and id predicates -/

def nomadServicePrefix : String := "_nomad"

def nomadTaskPrefix : String := nomadServicePrefix ++ "-task-"

def nomadCheckPrefix : String := nomadServicePrefix ++ "-check-"

/-- Go `strings.HasPrefix`. -/
def stringsHasPrefixOf (s pre : String) : Bool := pre.toList.isPrefixOf s.toList

/-- Go `strings.HasSuffix`. -/
def stringsHasSuffixOf (s suf : String) : Bool := suf.toList.isSuffixOf s.toList

/-- The slice expression `s[:len(s)-n]`. -/
def dropRight (s : String) (n : Nat) : String := String.mk (s.toList.take (s.toList.length - n))

def isNomadCheck (id : String) : Bool := stringsHasPrefixOf id nomadCheckPrefix

def isOldNomadService (id : String) : Bool :=
  stringsHasPrefixOf id (nomadServicePrefix ++ "-executor")

def isNomadService (id : String) : Bool :=
  stringsHasPrefixOf id nomadTaskPrefix || isOldNomadService id

/-- The suffix Consul gives to the id of a sidecar proxy service. -/
def sidecarSuffix : String := "-sidecar-proxy"

/-! ## Catalog records (`consul/api`) -/

/-- A value stored in a proxy `Config` map (`map[string]interface{}`): the
reconciler itself stores a string and a port number; what the job supplies
may be of any other kind. -/
inductive ConfigValue where
  | str (s : String)
  | int (n : Int)
  | other (repr : String)
deriving DecidableEq, Repr

/-- The fields of `api.Upstream` the reconciler sets. -/
structure Upstream where
  DestinationName : String := ""
  LocalBindPort : Int := 0
deriving DecidableEq, Repr

/-- The fields of `api.AgentServiceConnectProxyConfig` the reconciler sets.
`Upstreams` is `none` for a nil slice. -/
structure AgentServiceConnectProxyConfig where
  Config : GoMap ConfigValue := []
  Upstreams : Option (List Upstream) := none
deriving DecidableEq, Repr

/-- The fields of the `api.AgentServiceRegistration` of a sidecar service that
`newConnect` sets. -/
structure SidecarRegistration where
  Address : String := ""
  Port : Int := 0
  Proxy : Option AgentServiceConnectProxyConfig := none
deriving DecidableEq, Repr

/-- The type `api.AgentServiceConnect`. -/
structure AgentServiceConnect where
  Native : Bool := false
  SidecarService : Option SidecarRegistration := none
deriving DecidableEq, Repr

/-- The fields of `api.AgentServiceRegistration` the reconciler sets or reads. -/
structure AgentServiceRegistration where
  Kind : String := ""
  ID : String
  Name : String
  Tags : Option (List String) := none
  Port : Int := 0
  Address : String := ""
  Meta : GoMap String := []
  Connect : Option AgentServiceConnect := none
deriving DecidableEq, Repr

/-- The fields of `api.AgentService` (a service as the catalog reports it). -/
structure AgentService where
  Kind : String := ""
  ID : String
  Service : String
  Tags : Option (List String) := none
  Port : Int := 0
  Address : String := ""
  Meta : GoMap String := []
  Connect : Option AgentServiceConnect := none
deriving DecidableEq, Repr

/-- The fields of `api.AgentCheckRegistration` (with its embedded
`AgentServiceCheck`) that `createCheckReg` fills in. -/
structure AgentCheckRegistration where
  ID : String
  Name : String := ""
  ServiceID : String
  Status : String := ""
  Timeout : String := ""
  Interval : String := ""
  TTL : String := ""
  HTTP : String := ""
  Method : String := ""
  Header : GoMap (List String) := []
  TCP : String := ""
  GRPC : String := ""
  GRPCUseTLS : Bool := false
  TLSSkipVerify : Bool := false
deriving DecidableEq, Repr

/-- The fields of `api.AgentCheck` (a check as the catalog reports it). -/
structure AgentCheck where
  CheckID : String
  Name : String := ""
  ServiceID : String
  Status : String := ""
deriving DecidableEq, Repr

def isNomadSidecar (id : String) (services : GoMap AgentServiceRegistration) : Bool :=
  if !stringsHasSuffixOf id sidecarSuffix then false
  else services.contains (dropRight id sidecarSuffix.length)

/-- Go `reflect.DeepEqual` on two `[]string`: a nil slice equals only a nil
slice, non-nil slices are compared element by element. -/
def deepEqualTags (a b : Option (List String)) : Bool := a == b

def agentServiceUpdateRequired (reg : AgentServiceRegistration) (svc : AgentService) : Bool :=
  !(reg.Kind == svc.Kind &&
    reg.ID == svc.ID &&
    reg.Port == svc.Port &&
    reg.Address == svc.Address &&
    reg.Name == svc.Service &&
    deepEqualTags reg.Tags svc.Tags)

/-! ## Operations and the desired-state store -/

/-- One batch of mutations, as submitted through `commit`. -/
structure operations where
  regServices : List AgentServiceRegistration := []
  regChecks : List AgentCheckRegistration := []
  deregServices : List String := []
  deregChecks : List String := []
deriving DecidableEq, Repr

/-! Durations (`time.Duration`) are integers counting nanoseconds; the Go type
is a 64-bit signed integer. -/

/-- The constant `time.Second`, in nanoseconds. -/
def Second : Int := 1000000000

/-- The constant `time.Minute`, in nanoseconds. -/
def Minute : Int := 60 * Second

def defaultRetryInterval : Int := Second

def defaultMaxRetryInterval : Int := 30 * Second

def defaultPeriodicInterval : Int := 30 * Second

def ttlCheckBuffer : Int := 31 * Second

def deregisterProbationPeriod : Int := Minute

/-- The part of `ServiceClient` that `merge`, `sync` and the loop of `Run` read
and write; the intervals default to what `NewServiceClient` sets. -/
structure ServiceClient where
  services : GoMap AgentServiceRegistration := []
  checks : GoMap AgentCheckRegistration := []
  explicitlyDeregisteredServices : GoMap Bool := []
  explicitlyDeregisteredChecks : GoMap Bool := []
  deregisterProbationExpiry : Nat := 0
  isClientAgent : Bool := true
  retryInterval : Int := defaultRetryInterval
  maxRetryInterval : Int := defaultMaxRetryInterval
  periodicInterval : Int := defaultPeriodicInterval
deriving DecidableEq, Repr

def clearExplicitlyDeregistered (c : ServiceClient) : ServiceClient :=
  { c with explicitlyDeregisteredServices := [], explicitlyDeregisteredChecks := [] }

/-- The loop `for _, s := range ops.regServices { c.services[s.ID] = s }`. -/
def mergeRegServices (m : GoMap AgentServiceRegistration) :
    List AgentServiceRegistration → GoMap AgentServiceRegistration
  | [] => m
  | s :: rest => mergeRegServices (m.set s.ID s) rest

/-- The loop `for _, check := range ops.regChecks { c.checks[check.ID] = check }`. -/
def mergeRegChecks (m : GoMap AgentCheckRegistration) :
    List AgentCheckRegistration → GoMap AgentCheckRegistration
  | [] => m
  | s :: rest => mergeRegChecks (m.set s.ID s) rest

/-- The loops over `deregServices` and `deregChecks`: delete the id from the
desired map and mark it in the explicit-deregister map. -/
def mergeDereg {α : Type} (m : GoMap α) (ex : GoMap Bool) : List String → GoMap α × GoMap Bool
  | [] => (m, ex)
  | id :: rest => mergeDereg (m.delete id) (ex.set id true) rest

def merge (c : ServiceClient) (ops : operations) : ServiceClient :=
  let services := mergeRegServices c.services ops.regServices
  let checks := mergeRegChecks c.checks ops.regChecks
  let s := mergeDereg services c.explicitlyDeregisteredServices ops.deregServices
  let k := mergeDereg checks c.explicitlyDeregisteredChecks ops.deregChecks
  { c with services := s.1, explicitlyDeregisteredServices := s.2,
           checks := k.1, explicitlyDeregisteredChecks := k.2 }

/-! ## The catalog client and `sync` -/

/-- A call on the catalog agent, as recorded in the trace of `sync`. -/
inductive Call where
  | Services
  | Checks
  | ServiceRegister (reg : AgentServiceRegistration)
  | ServiceDeregister (id : String)
  | CheckRegister (reg : AgentCheckRegistration)
  | CheckDeregister (id : String)
deriving DecidableEq, Repr

/-- The operations of `AgentAPI` that `sync` uses, over a client state `σ`.
An error is `some msg`; `none` is Go's `nil` error. -/
structure AgentAPI (σ : Type) where
  Services : σ → Except String (GoMap AgentService) × σ
  Checks : σ → Except String (GoMap AgentCheck) × σ
  CheckRegister : AgentCheckRegistration → σ → Option String × σ
  CheckDeregister : String → σ → Option String × σ
  ServiceRegister : AgentServiceRegistration → σ → Option String × σ
  ServiceDeregister : String → σ → Option String × σ

/-- The outcome of a piece of `sync`: the error returned (if any), the client
state reached and the calls made, oldest first. -/
structure Step (σ : Type) where
  err : Option String
  st : σ
  calls : List Call

/-- A `for … range` loop whose body either continues or returns an error. -/
def forEach {σ α : Type} (body : α → σ → Step σ) : List α → σ → Step σ
  | [], st => ⟨none, st, []⟩
  | x :: xs, st =>
    match body x st with
    | ⟨some e, st1, cs⟩ => ⟨some e, st1, cs⟩
    | ⟨none, st1, cs⟩ =>
      let r := forEach body xs st1
      ⟨r.err, r.st, cs ++ r.calls⟩

/-- Body of "Remove Nomad services in Consul but unknown locally". -/
def deregServiceBody {σ : Type} (api : AgentAPI σ) (c : ServiceClient) (inProbation : Bool)
    (e : String × AgentService) (st : σ) : Step σ :=
  let id := e.1
  if c.services.contains id then ⟨none, st, []⟩
  else if !isNomadService id || !c.isClientAgent then ⟨none, st, []⟩
  else if inProbation && !lookupBool c.explicitlyDeregisteredServices id then ⟨none, st, []⟩
  else if isNomadSidecar id c.services then ⟨none, st, []⟩
  else
    match api.ServiceDeregister id st with
    | (some err, st1) =>
      if isOldNomadService id then ⟨none, st1, [Call.ServiceDeregister id]⟩
      else ⟨some err, st1, [Call.ServiceDeregister id]⟩
    | (none, st1) => ⟨none, st1, [Call.ServiceDeregister id]⟩

/-- Whether the second loop of `sync` writes the desired entry `e`. -/
def serviceNeedsRegister (consulServices : GoMap AgentService)
    (e : String × AgentServiceRegistration) : Bool :=
  match consulServices.get? e.1 with
  | some existingSvc => agentServiceUpdateRequired e.2 existingSvc
  | none => true

/-- Body of "Add Nomad services missing from Consul, or where the service has
been updated". -/
def regServiceBody {σ : Type} (api : AgentAPI σ) (consulServices : GoMap AgentService)
    (e : String × AgentServiceRegistration) (st : σ) : Step σ :=
  if !serviceNeedsRegister consulServices e then ⟨none, st, []⟩
  else
    match api.ServiceRegister e.2 st with
    | (some err, st1) => ⟨some err, st1, [Call.ServiceRegister e.2]⟩
    | (none, st1) => ⟨none, st1, [Call.ServiceRegister e.2]⟩

/-- Body of "Remove Nomad checks in Consul but unknown locally". -/
def deregCheckBody {σ : Type} (api : AgentAPI σ) (c : ServiceClient) (inProbation : Bool)
    (e : String × AgentCheck) (st : σ) : Step σ :=
  let id := e.1
  let check := e.2
  if c.checks.contains id then ⟨none, st, []⟩
  else if !isNomadService check.ServiceID || !c.isClientAgent || !isNomadCheck check.CheckID then
    ⟨none, st, []⟩
  else if inProbation && !lookupBool c.explicitlyDeregisteredChecks id then ⟨none, st, []⟩
  else if isNomadSidecar check.ServiceID c.services then ⟨none, st, []⟩
  else
    match api.CheckDeregister id st with
    | (some err, st1) =>
      if isOldNomadService check.ServiceID then ⟨none, st1, [Call.CheckDeregister id]⟩
      else ⟨some err, st1, [Call.CheckDeregister id]⟩
    | (none, st1) => ⟨none, st1, [Call.CheckDeregister id]⟩

/-- Body of "Add Nomad checks missing from Consul". -/
def regCheckBody {σ : Type} (api : AgentAPI σ) (consulChecks : GoMap AgentCheck)
    (e : String × AgentCheckRegistration) (st : σ) : Step σ :=
  if consulChecks.contains e.1 then ⟨none, st, []⟩
  else
    match api.CheckRegister e.2 st with
    | (some err, st1) => ⟨some err, st1, [Call.CheckRegister e.2]⟩
    | (none, st1) => ⟨none, st1, [Call.CheckRegister e.2]⟩

/-- Sequencing of two pieces of `sync`: the second runs only if the first
returned no error. -/
def Step.andThen {σ : Type} (a : Step σ) (f : σ → Step σ) : Step σ :=
  match a.err with
  | some e => ⟨some e, a.st, a.calls⟩
  | none =>
    let b := f a.st
    ⟨b.err, b.st, a.calls ++ b.calls⟩

/-- The four loops of `sync`, after both catalog reads have succeeded. -/
def syncLoops {σ : Type} (api : AgentAPI σ) (c : ServiceClient) (inProbation : Bool)
    (consulServices : GoMap AgentService) (consulChecks : GoMap AgentCheck) (st : σ) : Step σ :=
  ((((forEach (deregServiceBody api c inProbation) consulServices st).andThen
    (forEach (regServiceBody api consulServices) c.services)).andThen
    (forEach (deregCheckBody api c inProbation) consulChecks)).andThen
    (forEach (regCheckBody api consulChecks) c.checks))

/-- The method `ServiceClient.sync`, run at time `now` on client state `st`. -/
def sync {σ : Type} (api : AgentAPI σ) (c : ServiceClient) (now : Nat) (st : σ) : Step σ :=
  match api.Services st with
  | (.error err, st1) => ⟨some ("error querying Consul services: " ++ err), st1, [Call.Services]⟩
  | (.ok consulServices, st1) =>
    match api.Checks st1 with
    | (.error err, st2) =>
      ⟨some ("error querying Consul checks: " ++ err), st2, [Call.Services, Call.Checks]⟩
    | (.ok consulChecks, st2) =>
      let inProbation := decide (now < c.deregisterProbationExpiry)
      let r := syncLoops api c inProbation consulServices consulChecks st2
      ⟨r.err, r.st, [Call.Services, Call.Checks] ++ r.calls⟩

/-! ## A catalog that is a map -/

/-- The state of the catalog agent: the services and checks it holds. -/
structure Catalog where
  services : GoMap AgentService := []
  checks : GoMap AgentCheck := []
deriving DecidableEq, Repr

/-- The catalog's record of a registered service. -/
def toAgentService (reg : AgentServiceRegistration) : AgentService :=
  { Kind := reg.Kind, ID := reg.ID, Service := reg.Name, Tags := reg.Tags, Port := reg.Port,
    Address := reg.Address, Meta := reg.Meta, Connect := reg.Connect }

/-- The catalog's record of a registered check. -/
def toAgentCheck (reg : AgentCheckRegistration) : AgentCheck :=
  { CheckID := reg.ID, Name := reg.Name, ServiceID := reg.ServiceID, Status := reg.Status }

/-- Modelled from the spec: the catalog agent is an external process, specified
only as "Services() → map id → service; Checks() → map id → check;
ServiceRegister(reg); ServiceDeregister(id); CheckRegister(reg);
CheckDeregister(id) … may fail with transport errors".  Here it is a map that
applies each successful write; `fails` tells which calls fail, and a failed
call changes nothing. -/
def mapCatalog (fails : Call → Bool) : AgentAPI Catalog where
  Services := fun s =>
    if fails Call.Services then (.error "transport error", s) else (.ok s.services, s)
  Checks := fun s =>
    if fails Call.Checks then (.error "transport error", s) else (.ok s.checks, s)
  CheckRegister := fun reg s =>
    if fails (Call.CheckRegister reg) then (some "transport error", s)
    else (none, { s with checks := s.checks.set reg.ID (toAgentCheck reg) })
  CheckDeregister := fun id s =>
    if fails (Call.CheckDeregister id) then (some "transport error", s)
    else (none, { s with checks := s.checks.delete id })
  ServiceRegister := fun reg s =>
    if fails (Call.ServiceRegister reg) then (some "transport error", s)
    else (none, { s with services := s.services.set reg.ID (toAgentService reg) })
  ServiceDeregister := fun id s =>
    if fails (Call.ServiceDeregister id) then (some "transport error", s)
    else (none, { s with services := s.services.delete id })

/-- A catalog agent none of whose calls fails. -/
def reliableCatalog : AgentAPI Catalog := mapCatalog (fun _ => false)

/-! ## Example states -/

/-- A catalog left by an earlier run: one task service with one check. -/
def strayCatalog : Catalog :=
  { services := [("_nomad-task-X", { ID := "_nomad-task-X", Service := "web" })],
    checks := [("_nomad-check-1", { CheckID := "_nomad-check-1", ServiceID := "_nomad-task-X" })] }

/-- A freshly started client agent (probation until time 60) with an empty
desired state. -/
def freshClient : ServiceClient := { deregisterProbationExpiry := 60 }

/-- A fresh client agent that has explicitly deregistered the stray service and
its check. -/
def markedClient : ServiceClient :=
  { deregisterProbationExpiry := 60,
    explicitlyDeregisteredServices := [("_nomad-task-X", true)],
    explicitlyDeregisteredChecks := [("_nomad-check-1", true)] }

/-- A server agent with an empty desired state, past probation. -/
def serverClient : ServiceClient := { deregisterProbationExpiry := 60, isClientAgent := false }

/-- A client agent, past probation at time 100, that wants one connect service. -/
def connectClient : ServiceClient :=
  { deregisterProbationExpiry := 60,
    services := [("_nomad-task-a", { ID := "_nomad-task-a", Name := "db" })] }

/-- A catalog holding the connect service, its sidecar and the sidecar's check. -/
def connectCatalog : Catalog :=
  { services := [("_nomad-task-a", { ID := "_nomad-task-a", Service := "db" }),
      ("_nomad-task-a-sidecar-proxy",
        { ID := "_nomad-task-a-sidecar-proxy", Service := "db-sidecar-proxy" })],
    checks := [("_nomad-check-s",
        { CheckID := "_nomad-check-s", ServiceID := "_nomad-task-a-sidecar-proxy" })] }

/-- A client agent, past probation at time 100, that wants the service the
catalog already holds unchanged, one service the catalog lacks, one check the
catalog already holds and one it lacks. -/
def updateClient : ServiceClient :=
  { deregisterProbationExpiry := 60,
    services := [("_nomad-task-a", { ID := "_nomad-task-a", Name := "db" }),
      ("_nomad-task-b", { ID := "_nomad-task-b", Name := "web", Port := 8080 })],
    checks := [("_nomad-check-s",
        { ID := "_nomad-check-s", ServiceID := "_nomad-task-a-sidecar-proxy", TCP := "changed" }),
      ("_nomad-check-b", { ID := "_nomad-check-b", ServiceID := "_nomad-task-b" })] }

/-- A catalog holding one service registered by a pre-0.7.1 executor. -/
def legacyCatalog : Catalog :=
  { services := [("_nomad-executor-old", { ID := "_nomad-executor-old", Service := "echo" })] }

/-- A catalog agent that refuses to deregister the legacy service. -/
def legacyDeregisterFails (call : Call) : Bool :=
  decide (call = Call.ServiceDeregister "_nomad-executor-old")

/-- A catalog holding a check with a managed check id on an agent service. -/
def agentCheckCatalog : Catalog :=
  { checks := [("_nomad-check-z", { CheckID := "_nomad-check-z", ServiceID := "_nomad-client-abc" })] }

/-- The elements of a Go `[]string`, in order; a nil slice has none. -/
def tagElements (t : Option (List String)) : List String := t.getD []

/-- A registration whose tag list is present but empty. -/
def regEmptyTags : AgentServiceRegistration :=
  { ID := "_nomad-task-a", Name := "db", Tags := some [] }

/-- A catalog entry that agrees with `regEmptyTags` on every compared field
and reports absent tags. -/
def svcNilTags : AgentService := { ID := "_nomad-task-a", Service := "db", Tags := none }

/-! ## Proof-side vocabulary -/

/-- The condition under which the first loop of `sync` deregisters the catalog
service id `id`. -/
def evictService (c : ServiceClient) (inProbation : Bool) (id : String) : Bool :=
  !c.services.contains id && isNomadService id && c.isClientAgent &&
    (!inProbation || lookupBool c.explicitlyDeregisteredServices id) &&
    !isNomadSidecar id c.services

/-- The condition under which the third loop of `sync` deregisters the catalog
check entry `e`. -/
def evictCheck (c : ServiceClient) (inProbation : Bool) (e : String × AgentCheck) : Bool :=
  !c.checks.contains e.1 && isNomadService e.2.ServiceID && c.isClientAgent &&
    isNomadCheck e.2.CheckID &&
    (!inProbation || lookupBool c.explicitlyDeregisteredChecks e.1) &&
    !isNomadSidecar e.2.ServiceID c.services

/-- Whether a call changes the catalog. -/
def Call.isWrite : Call → Bool
  | .Services => false
  | .Checks => false
  | _ => true

def Call.isServiceRegister : Call → Bool
  | .ServiceRegister _ => true
  | _ => false

def Call.isCheckRegister : Call → Bool
  | .CheckRegister _ => true
  | _ => false

/-- The id a `ServiceRegister` call registers. -/
def Call.registeredServiceID : Call → Option String
  | .ServiceRegister reg => some reg.ID
  | _ => none

/-- Every entry of the desired service map is stored under its own `ID`, as
`merge` stores it. -/
def ServicesKeyedByID (m : GoMap AgentServiceRegistration) : Prop :=
  ∀ e ∈ m, e.2.ID = e.1

/-- Every entry of the desired check map is stored under its own `ID`. -/
def ChecksKeyedByID (m : GoMap AgentCheckRegistration) : Prop :=
  ∀ e ∈ m, e.2.ID = e.1

instance (m : GoMap AgentServiceRegistration) : Decidable (ServicesKeyedByID m) :=
  inferInstanceAs (Decidable (∀ e ∈ m, e.2.ID = e.1))

instance (m : GoMap AgentCheckRegistration) : Decidable (ChecksKeyedByID m) :=
  inferInstanceAs (Decidable (∀ e ∈ m, e.2.ID = e.1))

/-- The calls the first loop of `sync` makes when it runs to its end. -/
def deregServiceCalls (c : ServiceClient) (inProbation : Bool)
    (consulServices : GoMap AgentService) : List Call :=
  (consulServices.filter (fun e => evictService c inProbation e.1)).map
    (fun e => Call.ServiceDeregister e.1)

/-- The calls the second loop of `sync` makes when it runs to its end. -/
def regServiceCalls (c : ServiceClient) (consulServices : GoMap AgentService) : List Call :=
  (c.services.filter (serviceNeedsRegister consulServices)).map
    (fun e => Call.ServiceRegister e.2)

/-- The calls the third loop of `sync` makes when it runs to its end. -/
def deregCheckCalls (c : ServiceClient) (inProbation : Bool)
    (consulChecks : GoMap AgentCheck) : List Call :=
  (consulChecks.filter (evictCheck c inProbation)).map (fun e => Call.CheckDeregister e.1)

/-- The calls the fourth loop of `sync` makes when it runs to its end. -/
def regCheckCalls (c : ServiceClient) (consulChecks : GoMap AgentCheck) : List Call :=
  (c.checks.filter (fun e => !consulChecks.contains e.1)).map (fun e => Call.CheckRegister e.2)

/-- The writes of a whole cycle, in the order `sync` issues them. -/
def plannedWrites (c : ServiceClient) (inProbation : Bool)
    (consulServices : GoMap AgentService) (consulChecks : GoMap AgentCheck) : List Call :=
  deregServiceCalls c inProbation consulServices ++ (regServiceCalls c consulServices ++
    (deregCheckCalls c inProbation consulChecks ++ regCheckCalls c consulChecks))

/-! ## The loop of Run and failures of catalog calls (definitions) -/

/-- Reduction of an integer to the range of a Go `int64` (two's complement
wrap-around of `+` and `*`). -/
def wrapInt64 (n : Int) : Int := (n + 2 ^ 63) % 2 ^ 64 - 2 ^ 63

/-- What wakes the loop of `Run` in its first `select`: the retry timer, the
shutdown signal, or a batch of operations. -/
inductive RunEvent where
  | timer
  | shutdown
  | ops (o : operations)
deriving DecidableEq, Repr

/-- The variables of the loop of `Run`: the client, the counter `failures` and
the duration the retry timer was last set to. -/
structure RunState where
  client : ServiceClient
  failures : Int := 0
  retryTimer : Int := 0
deriving DecidableEq, Repr

/-- The first `select` of the loop of `Run`: a batch of operations is merged,
the timer and the shutdown signal change nothing. -/
def runSelect (rs : RunState) : RunEvent → RunState
  | .ops o => { rs with client := merge rs.client o }
  | _ => rs

/-- The `if err := c.sync(); err != nil { … } else { … }` of the loop of `Run`
(logging left out). -/
def runSync {σ : Type} (api : AgentAPI σ) (rs : RunState) (now : Nat) (st : σ) :
    RunState × Step σ :=
  let r := sync api rs.client now st
  match r.err with
  | some _ =>
    let failures := wrapInt64 (rs.failures + 1)
    let backoff := wrapInt64 (rs.client.retryInterval * failures)
    let backoff := if backoff > rs.client.maxRetryInterval then rs.client.maxRetryInterval
      else backoff
    ({ rs with failures := failures, retryTimer := backoff }, r)
  | none =>
    let failures := if rs.failures > 0 then 0 else rs.failures
    ({ client := clearExplicitlyDeregistered rs.client, failures := failures,
       retryTimer := rs.client.periodicInterval }, r)

/-- One iteration of the loop of `Run`, up to the final shutdown check. -/
def runIteration {σ : Type} (api : AgentAPI σ) (rs : RunState) (ev : RunEvent) (now : Nat)
    (st : σ) : RunState × Step σ :=
  runSync api (runSelect rs ev) now st

/-- A catalog agent all of whose calls fail. -/
def deadCatalog : AgentAPI Catalog := mapCatalog (fun _ => true)

/-- The elements of a list up to and including the first one that satisfies `p`. -/
def takeThrough {α : Type} (p : α → Bool) : List α → List α
  | [] => []
  | x :: xs => if p x then [x] else x :: takeThrough p xs

/-- Whether `sync` carries on after the write `w` has failed: a deregistration
of a legacy service id, or of a check whose `ServiceID` is a legacy id. -/
def toleratedFailure (consulChecks : GoMap AgentCheck) : Call → Bool
  | .ServiceDeregister id => isOldNomadService id
  | .CheckDeregister id =>
    match consulChecks.get? id with
    | some check => isOldNomadService check.ServiceID
    | none => false
  | _ => false

/-- A write that fails and is not tolerated. -/
def fatalFailure (fails : Call → Bool) (consulChecks : GoMap AgentCheck) (w : Call) : Bool :=
  fails w && !toleratedFailure consulChecks w

/-- A catalog holding a legacy service and two stray task services. -/
def mixedCatalog : Catalog :=
  { services := [("_nomad-executor-old", { ID := "_nomad-executor-old", Service := "echo" }),
      ("_nomad-task-X", { ID := "_nomad-task-X", Service := "web" }),
      ("_nomad-task-Y", { ID := "_nomad-task-Y", Service := "api" })] }

/-- A catalog agent that refuses every `ServiceDeregister`. -/
def serviceDeregisterFails : Call → Bool
  | .ServiceDeregister _ => true
  | _ => false

/-! ## Address resolution and builders (definitions) -/

/-- The type `structs.Port`: `Value` is the host-visible port, `To` the port
inside the network namespace. -/
structure Port where
  Label : String := ""
  Value : Int := 0
  To : Int := 0
deriving DecidableEq, Repr

/-- The fields of `structs.NetworkResource` the reconciler reads. -/
structure NetworkResource where
  IP : String := ""
  ReservedPorts : List Port := []
  DynamicPorts : List Port := []
deriving DecidableEq, Repr

/-- The type `structs.Networks`. -/
abbrev Networks := List NetworkResource

/-- The type `drivers.DriverNetwork`. -/
structure DriverNetwork where
  PortMap : GoMap Int := []
  IP : String := ""
  AutoAdvertise : Bool := false
deriving DecidableEq, Repr

def AddressModeAuto : String := "auto"

def AddressModeHost : String := "host"

def AddressModeDriver : String := "driver"

/-- The ports of a network in the order a lookup by label visits them. -/
def NetworkResource.ports (n : NetworkResource) : List Port := n.ReservedPorts ++ n.DynamicPorts

/-- Modelled from the spec: `Networks.Port` is declared in `nomad/structs`, which
is not among the sources at hand.  The spec has it "look the port label up
across networks": it returns the IP and the value of the first port that
carries the label, network by network, and `("", 0)` when no port does. -/
def Networks.Port : Networks → String → String × Int
  | [], _ => ("", 0)
  | n :: rest, label =>
    match n.ports.find? (fun p => p.Label == label) with
    | some p => (n.IP, p.Value)
    | none => Networks.Port rest label

/-- Modelled from the spec: `DriverNetwork.Advertise` is declared in
`plugins/drivers`, which is not among the sources at hand: "the driver network
requests advertise"; it may be called on a nil driver network, which does not. -/
def Advertise : Option DriverNetwork → Bool
  | none => false
  | some d => d.AutoAdvertise

/-- Go `strconv.Atoi`: an optional sign, then one or more decimal digits, the
value within the range of a 64-bit `int`; anything else is an error. -/
def strconvAtoi (s : String) : Option Int :=
  let signed : Bool × List Char :=
    match s.toList with
    | '-' :: ds => (true, ds)
    | '+' :: ds => (false, ds)
    | ds => (false, ds)
  if signed.2.isEmpty || !signed.2.all Char.isDigit then none
  else
    let n : Nat := signed.2.foldl (fun acc ch => 10 * acc + (ch.toNat - 48)) 0
    let v : Int := if signed.1 then -(n : Int) else (n : Int)
    if v < -2 ^ 63 || v ≥ 2 ^ 63 then none else some v

/-- Go's `%q` verb on a string, without the escaping of special characters. -/
def quote (s : String) : String := "\"" ++ s ++ "\""

/-- The case `structs.AddressModeHost` of `getAddress`. -/
def getAddressHost (portLabel : String) (networks : Networks) : Except String (String × Int) :=
  if portLabel = "" then
    match networks with
    | [n] => .ok (n.IP, 0)
    | _ => .ok ("", 0)
  else
    let r := Networks.Port networks portLabel
    if r.1 = "" ∧ r.2 ≤ 0 then
      .error ("invalid port " ++ quote portLabel ++ ": port label not found")
    else .ok (r.1, r.2)

/-- The case `structs.AddressModeDriver` of `getAddress`. -/
def getAddressDriver (portLabel : String) (driverNet : Option DriverNetwork) :
    Except String (String × Int) :=
  match driverNet with
  | none => .error "cannot use address_mode=\"driver\": no driver network exists"
  | some d =>
    if portLabel = "" then .ok (d.IP, 0)
    else
      match d.PortMap.get? portLabel with
      | some port => .ok (d.IP, port)
      | none =>
        match strconvAtoi portLabel with
        | none =>
          .error ("invalid port label " ++ quote portLabel ++
            ": port labels in driver address_mode must be numeric or in the driver's port map")
        | some port =>
          if port ≤ 0 then
            .error ("invalid port: " ++ quote portLabel ++ ": port must be >0")
          else .ok (d.IP, port)

/-- The function `getAddress`: the `(ip, port)` to advertise, or an error.  The
`auto` case calls `getAddress` again, as the source does. -/
def getAddress (addrMode portLabel : String) (networks : Networks)
    (driverNet : Option DriverNetwork) : Except String (String × Int) :=
  if h : addrMode = AddressModeAuto then
    getAddress (if Advertise driverNet then AddressModeDriver else AddressModeHost)
      portLabel networks driverNet
  else if addrMode = AddressModeHost then getAddressHost portLabel networks
  else if addrMode = AddressModeDriver then getAddressDriver portLabel driverNet
  else .error ("invalid address mode " ++ quote addrMode)
termination_by (if addrMode = AddressModeAuto then 1 else 0)
decreasing_by
  simp only [h, if_true]
  split_ifs with h1 h2 h3
  · exact absurd h2 (by decide)
  · omega
  · exact absurd h3 (by decide)
  · omega

/-- A network whose IP is not set, with a port labelled `http` of value 0. -/
def unsetNetwork : NetworkResource :=
  { IP := "", DynamicPorts := [{ Label := "http", Value := 0 }] }

/-- A host network with a reserved and a dynamic port. -/
def hostNetwork : NetworkResource :=
  { IP := "192.168.0.7", ReservedPorts := [{ Label := "admin", Value := 9000 }],
    DynamicPorts := [{ Label := "http", Value := 23456, To := 8080 }] }

/-- A driver network that asks to be advertised and maps the label `8080`. -/
def driverNetwork : DriverNetwork :=
  { IP := "172.17.0.2", AutoAdvertise := true, PortMap := [("http", 80), ("8080", 81)] }

/-- The field of `structs.CheckRestart` that decides whether a check restarts
its task. -/
structure CheckRestart where
  Limit : Int := 0
deriving DecidableEq, Repr

/-- The fields of `structs.ServiceCheck` the reconciler reads.  `Kind` is the
field `Type` of the source; durations count nanoseconds; `CheckRestart` is
`none` for a nil pointer. -/
structure ServiceCheck where
  Name : String := ""
  Kind : String := ""
  Command : String := ""
  Args : List String := []
  Path : String := ""
  Protocol : String := ""
  PortLabel : String := ""
  AddressMode : String := ""
  Interval : Int := 0
  Timeout : Int := 0
  InitialStatus : String := ""
  TLSSkipVerify : Bool := false
  Method : String := ""
  Header : GoMap (List String) := []
  GRPCService : String := ""
  GRPCUseTLS : Bool := false
  CheckRestart : Option CheckRestart := none
deriving DecidableEq, Repr

def ServiceCheckHTTP : String := "http"

def ServiceCheckTCP : String := "tcp"

def ServiceCheckScript : String := "script"

def ServiceCheckGRPC : String := "grpc"

/-- Modelled from the spec: `ServiceCheck.RequiresPort` is declared in
`nomad/structs`, which is not among the sources at hand: "HTTP/TCP/GRPC
require a non-zero port". -/
def ServiceCheck.RequiresPort (sc : ServiceCheck) : Bool :=
  sc.Kind == ServiceCheckGRPC || sc.Kind == ServiceCheckHTTP || sc.Kind == ServiceCheckTCP

/-- Modelled from the spec: `ServiceCheck.TriggersRestarts` is declared in
`nomad/structs`, which is not among the sources at hand: it tells the "checks
that opt into restart", those with a restart block whose limit is positive. -/
def ServiceCheck.TriggersRestarts (sc : ServiceCheck) : Bool :=
  match sc.CheckRestart with
  | some r => decide (r.Limit > 0)
  | none => false

/-- Go `fmtFrac` of package `time`, digit by digit: the digits of the fraction
collected so far (trailing zeros dropped), what is left of the value, and
whether a digit has been written. -/
def fmtFracLoop : Nat → Nat → Bool → List Char → List Char × Nat × Bool
  | 0, v, print, acc => (acc, v, print)
  | prec + 1, v, print, acc =>
    let digit := v % 10
    let print := print || digit != 0
    fmtFracLoop prec (v / 10) print (if print then Char.ofNat (48 + digit) :: acc else acc)

/-- Go `fmtFrac` of package `time`: the fraction of `v / 10^prec` without its
trailing zeros, with the decimal point unless the fraction is 0, and the value
`v / 10^prec`. -/
def fmtFrac (v prec : Nat) : String × Nat :=
  let r := fmtFracLoop prec v false []
  (String.mk (if r.2.2 then '.' :: r.1 else r.1), r.2.1)

/-- Go `time.Duration.String`, for a duration in nanoseconds: `72h3m0.5s`,
`41s`, `1.5ms`, `0s`. -/
def durationString (d : Int) : String :=
  let u : Nat := d.natAbs
  let body : String :=
    if u < 1000000000 then
      if u = 0 then "0s"
      else if u < 1000 then toString u ++ "ns"
      else if u < 1000000 then toString (fmtFrac u 3).2 ++ (fmtFrac u 3).1 ++ "µs"
      else toString (fmtFrac u 6).2 ++ (fmtFrac u 6).1 ++ "ms"
    else
      let secs := (fmtFrac u 9).2
      let s := toString (secs % 60) ++ (fmtFrac u 9).1 ++ "s"
      let mins := secs / 60
      if mins > 0 then
        let s := toString (mins % 60) ++ "m" ++ s
        let hours := mins / 60
        if hours > 0 then toString hours ++ "h" ++ s else s
      else s
  if d < 0 then "-" ++ body else body

/-- Go `strconv.Itoa`. -/
def strconvItoa (n : Int) : String := toString n

/-- Go `net.JoinHostPort`: `host:port`, with the host in brackets when it
contains a colon or a percent sign. -/
def joinHostPort (host port : String) : String :=
  if host.toList.contains ':' || host.toList.contains '%' then "[" ++ host ++ "]:" ++ port
  else host ++ ":" ++ port

/-- The fields of `structs.ConsulUpstream` the reconciler reads. -/
structure ConsulUpstream where
  DestinationName : String := ""
  LocalBindPort : Int := 0
deriving DecidableEq, Repr

/-- The type `structs.ConsulProxy`; `Config` is `none` for a nil map. -/
structure ConsulProxy where
  Upstreams : List ConsulUpstream := []
  Config : Option (GoMap ConfigValue) := none
deriving DecidableEq, Repr

/-- The fields of `structs.ConsulSidecarService` the reconciler reads. -/
structure ConsulSidecarService where
  Proxy : Option ConsulProxy := none
deriving DecidableEq, Repr

/-- The type `structs.ConsulConnect`. -/
structure ConsulConnect where
  Native : Bool := false
  SidecarService : Option ConsulSidecarService := none
deriving DecidableEq, Repr

/-- The fields of `structs.Service` the reconciler reads; `Tags` and
`CanaryTags` are `none` for a nil slice. -/
structure Service where
  Name : String := ""
  PortLabel : String := ""
  AddressMode : String := ""
  Tags : Option (List String) := none
  CanaryTags : Option (List String) := none
  Checks : List ServiceCheck := []
  Connect : Option ConsulConnect := none
  Meta : GoMap String := []
deriving DecidableEq, Repr

/-- The fields of `TaskServices` the builders read; `DriverExec` tells whether
the script executor is non-nil. -/
structure TaskServices where
  AllocID : String := ""
  Name : String := ""
  Canary : Bool := false
  Services : List Service := []
  Networks : Networks := []
  DriverExec : Bool := false
  DriverNetwork : Option DriverNetwork := none
deriving DecidableEq, Repr

/-- The type `ServiceRegistration`: the internal fields, the service id and the
set of its check ids, and the fields `AllocRegistrations` fills in, the catalog
service (`none` for nil) and the catalog checks. -/
structure ServiceRegistration where
  serviceID : String
  checkIDs : GoMap Unit := []
  Service : Option AgentService := none
  Checks : List AgentCheck := []
deriving DecidableEq, Repr

/-- What the reconciler takes from code that is not modelled: Go's `net/url`
(parsing a reference; resolving it against the base `scheme://host` and
printing the result), and from `nomad/structs` the content hashes of a check
and of a service and the lookup of the Connect proxy port of a service in a
network (`NetworkResource.PortForService`). -/
structure Lib where
  URL : Type
  urlParse : String → Except String URL
  urlResolve : (scheme host : String) → URL → String
  checkHash : ServiceCheck → String → String
  serviceHash : Service → (allocID taskName : String) → (canary : Bool) → String
  portForService : NetworkResource → String → Option Port

/-- The function `createCheckReg`. -/
def createCheckReg (lib : Lib) (serviceID checkID : String) (check : ServiceCheck)
    (host : String) (port : Int) : Except String AgentCheckRegistration :=
  let chkReg : AgentCheckRegistration :=
    { ID := checkID, Name := check.Name, ServiceID := serviceID,
      Status := check.InitialStatus,
      Timeout := durationString check.Timeout,
      Interval := durationString check.Interval }
  if port == 0 && check.RequiresPort then
    .error (check.Kind ++ " checks require an address")
  else if check.Kind = ServiceCheckHTTP then
    let proto := if check.Protocol = "" then "http" else check.Protocol
    let chkReg := if check.TLSSkipVerify then { chkReg with TLSSkipVerify := true } else chkReg
    match lib.urlParse check.Path with
    | .error err => .error err
    | .ok relative =>
      .ok { chkReg with
        HTTP := lib.urlResolve proto (joinHostPort host (strconvItoa port)) relative,
        Method := check.Method,
        Header := check.Header }
  else if check.Kind = ServiceCheckTCP then
    .ok { chkReg with TCP := joinHostPort host (strconvItoa port) }
  else if check.Kind = ServiceCheckScript then
    .ok { chkReg with
      TTL := durationString (wrapInt64 (check.Interval + ttlCheckBuffer)),
      Interval := "" }
  else if check.Kind = ServiceCheckGRPC then
    let chkReg := { chkReg with
      GRPC := joinHostPort host (strconvItoa port) ++ "/" ++ check.GRPCService,
      GRPCUseTLS := check.GRPCUseTLS }
    .ok (if check.TLSSkipVerify then { chkReg with TLSSkipVerify := true } else chkReg)
  else .error ("check type " ++ quote check.Kind ++ " not valid")

/-- A library whose URLs are strings, for examples: every reference parses and
resolving concatenates. -/
def plainLib : Lib :=
  { URL := String
    urlParse := fun p => .ok p
    urlResolve := fun scheme host rel => scheme ++ "://" ++ host ++ rel
    checkHash := fun check serviceID => serviceID ++ "/" ++ check.Name
    serviceHash := fun service allocID taskName canary =>
      allocID ++ "/" ++ taskName ++ "/" ++ service.Name ++ "/" ++ toString canary
    portForService := fun n serviceName =>
      n.ports.find? (fun p => p.Label == "connect-proxy-" ++ serviceName) }

/-- A script check that runs every 10 seconds. -/
def scriptCheck : ServiceCheck :=
  { Name := "alive", Kind := "script", Interval := 10 * Second, Timeout := 2 * Second }

def makeAgentServiceID (lib : Lib) (role : String) (service : Service) : String :=
  nomadServicePrefix ++ "-" ++ role ++ "-" ++ lib.serviceHash service role "" false

def MakeTaskServiceID (allocID taskName : String) (service : Service) : String :=
  nomadTaskPrefix ++ allocID ++ "-" ++ taskName ++ "-" ++ service.Name ++ "-" ++
    service.PortLabel

def MakeCheckID (lib : Lib) (serviceID : String) (check : ServiceCheck) : String :=
  nomadCheckPrefix ++ lib.checkHash check serviceID

/-- The function `getConnectPort`. -/
def getConnectPort (lib : Lib) (serviceName : String) (networks : Networks) :
    Except String (NetworkResource × Port) :=
  match networks with
  | [n] =>
    match lib.portForService n serviceName with
    | some port => .ok (n, port)
    | none => .error ("No Connect port defined for service " ++ quote serviceName)
  | _ =>
    .error ("Connect only supported with exactly 1 network (found " ++
      toString networks.length ++ ")")

/-- The function `newConnect`; `none` is the nil `*api.AgentServiceConnect`. -/
def newConnect (lib : Lib) (serviceName : String) (nc : Option ConsulConnect)
    (networks : Networks) : Except String (Option AgentServiceConnect) :=
  match nc with
  | none => .ok none
  | some nc =>
    match nc.SidecarService with
    | none => .ok (some { Native := nc.Native })
    | some sidecar =>
      match getConnectPort lib serviceName networks with
      | .error err => .error err
      | .ok (net, port) =>
        let proxyConfig : GoMap ConfigValue :=
          match sidecar.Proxy with
          | some proxy => proxy.Config.getD []
          | none => []
        let proxyConfig := proxyConfig.set "bind_address" (ConfigValue.str "0.0.0.0")
        let proxyConfig := proxyConfig.set "bind_port" (ConfigValue.int port.To)
        let upstreams : Option (List Upstream) :=
          match sidecar.Proxy with
          | none => none
          | some proxy =>
            if proxy.Upstreams.length = 0 then none
            else some (proxy.Upstreams.map (fun nu =>
              { DestinationName := nu.DestinationName, LocalBindPort := nu.LocalBindPort }))
        let proxy : AgentServiceConnectProxyConfig :=
          { Config := proxyConfig, Upstreams := upstreams }
        let sidecarReg : SidecarRegistration :=
          { Address := net.IP, Port := port.Value, Proxy := some proxy }
        .ok (some { Native := nc.Native, SidecarService := some sidecarReg })

/-- The loop of `checkRegs`: the operations with the check registrations
appended so far, and the check ids collected, or the first error. -/
def checkRegsLoop (lib : Lib) (serviceID : String) (service : Service) (task : TaskServices) :
    List ServiceCheck → operations → List String → operations × Except String (List String)
  | [], ops, checkIDs => (ops, .ok checkIDs)
  | check :: rest, ops, checkIDs =>
    let checkID := MakeCheckID lib serviceID check
    let checkIDs := checkIDs ++ [checkID]
    if check.Kind = ServiceCheckScript then
      match createCheckReg lib serviceID checkID check "" 0 with
      | .error err =>
        (ops, .error ("failed to add script check " ++ quote check.Name ++ ": " ++ err))
      | .ok checkReg =>
        checkRegsLoop lib serviceID service task rest
          { ops with regChecks := ops.regChecks ++ [checkReg] } checkIDs
    else
      let portLabel := if check.PortLabel = "" then service.PortLabel else check.PortLabel
      let addrMode := if check.AddressMode = "" then AddressModeHost else check.AddressMode
      match getAddress addrMode portLabel task.Networks task.DriverNetwork with
      | .error err =>
        (ops, .error ("error getting address for check " ++ quote check.Name ++ ": " ++ err))
      | .ok (ip, port) =>
        match createCheckReg lib serviceID checkID check ip port with
        | .error err =>
          (ops, .error ("failed to add check " ++ quote check.Name ++ ": " ++ err))
        | .ok checkReg =>
          checkRegsLoop lib serviceID service task rest
            { ops with regChecks := ops.regChecks ++ [checkReg] } checkIDs

/-- The method `checkRegs`: `.ok none` is the nil slice of the fast path. -/
def checkRegs (lib : Lib) (ops : operations) (serviceID : String) (service : Service)
    (task : TaskServices) : operations × Except String (Option (List String)) :=
  if service.Checks.length = 0 then (ops, .ok none)
  else
    match checkRegsLoop lib serviceID service task service.Checks ops [] with
    | (ops1, .error err) => (ops1, .error err)
    | (ops1, .ok checkIDs) => (ops1, .ok (some checkIDs))

/-- The loop `for k, v := range service.Meta { meta[k] = v }`. -/
def copyMeta (m : GoMap String) : GoMap String → GoMap String
  | [] => m
  | (k, v) :: rest => copyMeta (m.set k v) rest

/-- The loop `for _, cid := range checkIDs { sreg.checkIDs[cid] = struct{}{} }`. -/
def addCheckIDs (m : GoMap Unit) : List String → GoMap Unit
  | [] => m
  | cid :: rest => addCheckIDs (m.set cid ()) rest

/-- The method `serviceRegs`.  The operations are passed by pointer in the
source: what they hold when `serviceRegs` returns is the first component, also
when an error is returned. -/
def serviceRegs (lib : Lib) (ops : operations) (service : Service) (task : TaskServices) :
    operations × Except String ServiceRegistration :=
  let id := MakeTaskServiceID task.AllocID task.Name service
  let addrMode := if service.AddressMode = "" then AddressModeAuto else service.AddressMode
  match getAddress addrMode service.PortLabel task.Networks task.DriverNetwork with
  | .error err =>
    (ops, .error ("unable to get address for service " ++ quote service.Name ++ ": " ++ err))
  | .ok (ip, port) =>
    let tags : List String :=
      if task.Canary ∧ (tagElements service.CanaryTags).length > 0 then
        tagElements service.CanaryTags
      else tagElements service.Tags
    match newConnect lib service.Name service.Connect task.Networks with
    | .error err =>
      (ops, .error ("invalid Consul Connect configuration for service " ++
        quote service.Name ++ ": " ++ err))
    | .ok connect =>
      let meta := (copyMeta [] service.Meta).set "external-source" "nomad"
      let serviceReg : AgentServiceRegistration :=
        { ID := id, Name := service.Name, Tags := some tags, Address := ip, Port := port,
          Meta := meta, Connect := connect }
      let ops1 := { ops with regServices := ops.regServices ++ [serviceReg] }
      match checkRegs lib ops1 id service task with
      | (ops2, .error err) => (ops2, .error err)
      | (ops2, .ok checkIDs) =>
        (ops2, .ok { serviceID := id, checkIDs := addCheckIDs [] (checkIDs.getD []) })

/-- A canary task with one network. -/
def canaryTask : TaskServices :=
  { AllocID := "a1", Name := "web", Canary := true, Networks := [hostNetwork] }

/-- A service with tags and canary tags. -/
def taggedService : Service :=
  { Name := "frontend", PortLabel := "http", Tags := some ["prod", "v1"],
    CanaryTags := some ["canary", "v2"] }

/-- The registration `serviceRegs` builds for `taggedService` in `canaryTask`. -/
def canaryRegistration : AgentServiceRegistration :=
  { ID := "_nomad-task-a1-web-frontend-http", Name := "frontend",
    Tags := some ["canary", "v2"], Address := "192.168.0.7", Port := 23456,
    Meta := [("external-source", "nomad")] }

/-! ## Identity and the lifecycle API (definitions) -/

/-- Go `net.SplitHostPort`: the host and the port of `host:port`,
`[host]:port` or `[host%zone]:port`; the port is what follows the last colon.
Positions count characters. -/
def splitHostPort (hostport : String) : Except String (String × String) :=
  let s := hostport.toList
  let addrErr (why : String) : Except String (String × String) :=
    .error (if hostport = "" then why else "address " ++ hostport ++ ": " ++ why)
  let missingPort := "missing port in address"
  let tooManyColons := "too many colons in address"
  if !s.contains ':' then addrErr missingPort
  else
    let i := s.length - 1 - s.reverse.indexOf ':'
    let rest (host : List Char) (j k : Nat) : Except String (String × String) :=
      if (s.drop j).contains '[' then addrErr "unexpected '[' in address"
      else if (s.drop k).contains ']' then addrErr "unexpected ']' in address"
      else .ok (String.mk host, String.mk (s.drop (i + 1)))
    if s.head? = some '[' then
      if !s.contains ']' then addrErr "missing ']' in address"
      else
        let close := s.indexOf ']'
        if close + 1 = s.length then addrErr missingPort
        else if close + 1 = i then rest ((s.take close).drop 1) 1 (close + 1)
        else if s.get? (close + 1) = some ':' then addrErr tooManyColons
        else addrErr missingPort
    else
      let host := s.take i
      if host.contains ':' then addrErr tooManyColons
      else rest host 0 0

/-- The type `TaskRegistration`. -/
structure TaskRegistration where
  Services : GoMap ServiceRegistration := []
deriving DecidableEq, Repr

/-- The type `AllocRegistration`. -/
structure AllocRegistration where
  Tasks : GoMap TaskRegistration := []
deriving DecidableEq, Repr

/-- The method `ServiceRegistration.copy`: only the internal fields are copied. -/
def ServiceRegistration.copy (s : ServiceRegistration) : ServiceRegistration :=
  { serviceID := s.serviceID, checkIDs := s.checkIDs }

/-- The method `TaskRegistration.copy`: a map with the same keys that holds the
copies. -/
def TaskRegistration.copy (t : TaskRegistration) : TaskRegistration :=
  { Services := t.Services.map (fun e => (e.1, e.2.copy)) }

/-- The method `AllocRegistration.copy`. -/
def AllocRegistration.copy (a : AllocRegistration) : AllocRegistration :=
  { Tasks := a.Tasks.map (fun e => (e.1, e.2.copy)) }

/-- A call on the check watcher; the restarter handed to `Watch` is left out. -/
inductive WatchCall where
  | Watch (allocID taskName checkID : String) (check : ServiceCheck)
  | Unwatch (cid : String)
deriving DecidableEq, Repr

/-- The fields of `ServiceClient` that the lifecycle API (`RegisterAgent`,
`RegisterTask`, `UpdateTask`, `RemoveTask`, `AllocRegistrations`, `Shutdown`)
reads and writes; the desired store, which only `Run` touches, is
`ServiceClient` above.  `opCh` lists the batches sent and not yet received,
oldest first; `shutdownCh` tells whether that channel is closed; `checkWatcher`
lists the calls made on the check watcher, oldest first. -/
structure Lifecycle where
  opCh : List operations := []
  shutdownCh : Bool := false
  allocRegistrations : GoMap AllocRegistration := []
  agentServices : GoMap Unit := []
  agentChecks : GoMap Unit := []
  seen : Bool := false
  checkWatcher : List WatchCall := []
deriving DecidableEq, Repr

/-- The capacity of the channel `opCh` (`make(chan *operations, 8)`). -/
def opChCap : Nat := 8

/-- The method `commit`: a `select` over the send of the batch on `opCh` and
the receive on `shutdownCh`.  While `shutdownCh` is open only the send can be
taken; a send on a full channel blocks the caller until `Run` receives, and
the queue of the model holds the batch from the call on.  Once `shutdownCh` is
closed the receive is ready: on a full channel it is the only ready case and
the batch is dropped; with room on the channel both cases are ready and Go
takes one of them at random, so the batch is sent in some runs and dropped in
the others.  `send` tells whether the `select` takes the send when both cases
are ready. -/
def commit (send : Bool) (c : Lifecycle) (ops : operations) : Lifecycle :=
  if c.shutdownCh && !(send && decide (c.opCh.length < opChCap)) then c
  else { c with opCh := c.opCh ++ [ops] }

/-- The loop over `service.Checks` in `RegisterAgent`. -/
def registerAgentChecks (lib : Lib) (id : String) (service : Service)
    (serviceReg : AgentServiceRegistration) :
    List ServiceCheck → operations → Except String operations
  | [], ops => .ok ops
  | check :: rest, ops =>
    let checkID := MakeCheckID lib id check
    if check.Kind = ServiceCheckScript then
      .error ("service " ++ quote service.Name ++
        " contains invalid check: agent checks do not support scripts")
    else
      let addr : Except String (String × Int) :=
        if check.PortLabel ≠ "" then
          match splitHostPort check.PortLabel with
          | .error err =>
            .error ("error parsing port label " ++ quote service.PortLabel ++ " from check " ++
              quote check.Name ++ ": " ++ err)
          | .ok (host, rawport) =>
            match strconvAtoi rawport with
            | none =>
              .error ("error parsing port " ++ quote rawport ++ " from check " ++
                quote check.Name ++ ": strconv.Atoi: parsing " ++ quote rawport)
            | some port => .ok (host, port)
        else .ok (serviceReg.Address, serviceReg.Port)
      match addr with
      | .error err => .error err
      | .ok (checkHost, checkPort) =>
        match createCheckReg lib id checkID check checkHost checkPort with
        | .error err => .error ("failed to add check " ++ quote check.Name ++ ": " ++ err)
        | .ok checkReg =>
          registerAgentChecks lib id service serviceReg rest
            { ops with regChecks := ops.regChecks ++ [checkReg] }

/-- The loop over `services` in `RegisterAgent`: the batch built, or the error
returned. -/
def registerAgentLoop (lib : Lib) (role : String) :
    List Service → operations → Except String operations
  | [], ops => .ok ops
  | service :: rest, ops =>
    let id := makeAgentServiceID lib role service
    match splitHostPort service.PortLabel with
    | .error err =>
      .error ("error parsing port label " ++ quote service.PortLabel ++ " from service " ++
        quote service.Name ++ ": " ++ err)
    | .ok (host, rawport) =>
      match strconvAtoi rawport with
      | none =>
        .error ("error parsing port " ++ quote rawport ++ " from service " ++
          quote service.Name ++ ": strconv.Atoi: parsing " ++ quote rawport)
      | some port =>
        let serviceReg : AgentServiceRegistration :=
          { ID := id, Name := service.Name, Tags := service.Tags, Address := host, Port := port,
            Meta := [("external-source", "nomad")] }
        match registerAgentChecks lib id service serviceReg service.Checks
            { ops with regServices := ops.regServices ++ [serviceReg] } with
        | .error err => .error err
        | .ok ops1 => registerAgentLoop lib role rest ops1

/-- The loop `for _, id := range … { set[id] = struct{}{} }`. -/
def recordIDs (m : GoMap Unit) : List String → GoMap Unit
  | [] => m
  | id :: rest => recordIDs (m.set id ()) rest

/-- The method `RegisterAgent`: the error returned (`none` for nil) and the
state it leaves.  It holds `agentLock` from the test of `shutdownCh` on, and
`Shutdown` closes `shutdownCh` under that lock: at the call of `commit` the
channel is open and the send is the only case its `select` can take. -/
def RegisterAgent (lib : Lib) (c : Lifecycle) (role : String) (services : List Service) :
    Option String × Lifecycle :=
  match registerAgentLoop lib role services {} with
  | .error err => (some err, c)
  | .ok ops =>
    if c.shutdownCh then (none, c)
    else
      let c1 := commit true c ops
      (none, { c1 with
        agentServices := recordIDs c1.agentServices (ops.regServices.map (fun r => r.ID)),
        agentChecks := recordIDs c1.agentChecks (ops.regChecks.map (fun r => r.ID)) })

/-- The method `addTaskRegistration`, on the allocation index. -/
def addTaskRegistration (index : GoMap AllocRegistration) (allocID taskName : String)
    (reg : TaskRegistration) : GoMap AllocRegistration :=
  match index.get? allocID with
  | none => index.set allocID { Tasks := GoMap.set [] taskName reg }
  | some alloc => index.set allocID { Tasks := alloc.Tasks.set taskName reg }

/-- The method `removeTaskRegistration`, on the allocation index. -/
def removeTaskRegistration (index : GoMap AllocRegistration) (allocID taskName : String) :
    GoMap AllocRegistration :=
  match index.get? allocID with
  | none => index
  | some alloc =>
    let tasks := alloc.Tasks.delete taskName
    if tasks.length = 0 then index.delete allocID
    else index.set allocID { Tasks := tasks }

/-- The loop `for _, service := range … { sreg, err := c.serviceRegs(ops,
service, task); …; t.Services[sreg.serviceID] = sreg }` of `RegisterTask` and
of `UpdateTask`: the batch and the task registration, or the first error. -/
def serviceRegsLoop (lib : Lib) (task : TaskServices) :
    List Service → operations → GoMap ServiceRegistration →
      Except String (operations × GoMap ServiceRegistration)
  | [], ops, t => .ok (ops, t)
  | service :: rest, ops, t =>
    match serviceRegs lib ops service task with
    | (_, .error err) => .error err
    | (ops1, .ok sreg) => serviceRegsLoop lib task rest ops1 (t.set sreg.serviceID sreg)

/-- The loop "Start watching checks": the `Watch` calls for the checks of
`services` that trigger restarts. -/
def watchCalls (lib : Lib) (task : TaskServices) (services : List Service) : List WatchCall :=
  services.flatMap (fun service =>
    (service.Checks.filter (fun check => check.TriggersRestarts)).map (fun check =>
      WatchCall.Watch task.AllocID task.Name
        (MakeCheckID lib (MakeTaskServiceID task.AllocID task.Name service) check) check))

/-- The method `RegisterTask`: the error returned (`none` for nil) and the
state it leaves; `send` is the case the `select` of `commit` takes when both
are ready. -/
def RegisterTask (send : Bool) (lib : Lib) (c : Lifecycle) (task : TaskServices) :
    Option String × Lifecycle :=
  if task.Services.length = 0 then (none, c)
  else
    match serviceRegsLoop lib task task.Services {} [] with
    | .error err => (some err, c)
    | .ok (ops, t) =>
      let c1 := { c with allocRegistrations :=
        addTaskRegistration c.allocRegistrations task.AllocID task.Name { Services := t } }
      let c2 := commit send c1 ops
      (none, { c2 with checkWatcher := c2.checkWatcher ++ watchCalls lib task task.Services })

/-- Go leaves the order in which `range` visits the entries of a map
unspecified.  A `RangeOrder` fixes one: it rearranges the entries of every
map. -/
structure RangeOrder where
  range : {α : Type} → GoMap α → GoMap α
  perm : ∀ {α : Type} (m : GoMap α), (range m).Perm m

/-- The order in which the entries are listed. -/
def listOrder : RangeOrder := ⟨fun m => m, fun _ => List.Perm.refl _⟩

/-- The loop `for _, s := range task.Services { ids[MakeTaskServiceID(task.AllocID,
task.Name, s)] = s }` of `UpdateTask`. -/
def serviceIDs (task : TaskServices) (m : GoMap Service) : List Service → GoMap Service
  | [] => m
  | s :: rest => serviceIDs task (m.set (MakeTaskServiceID task.AllocID task.Name s) s) rest

/-- The loop `for _, check := range existingSvc.Checks {
existingChecks[MakeCheckID(existingID, check)] = check }` of `UpdateTask`. -/
def checkIDMap (lib : Lib) (existingID : String) (m : GoMap ServiceCheck) :
    List ServiceCheck → GoMap ServiceCheck
  | [] => m
  | check :: rest => checkIDMap lib existingID (m.set (MakeCheckID lib existingID check) check) rest

/-- What the loops of `UpdateTask` work on: the batch `ops`, the map
`taskReg.Services`, the map `newIDs`, and the calls made on the check watcher
so far. -/
structure UpdateState where
  ops : operations := {}
  taskReg : GoMap ServiceRegistration := []
  newIDs : GoMap Service := []
  watcher : List WatchCall := []
deriving DecidableEq, Repr

/-- What the loop "Register new checks" of `UpdateTask` works on: the map
`existingChecks`, the set `sreg.checkIDs`, the batch and the calls made on the
check watcher so far. -/
structure CheckDiff where
  existingChecks : GoMap ServiceCheck := []
  checkIDs : GoMap Unit := []
  ops : operations := {}
  watcher : List WatchCall := []
deriving DecidableEq, Repr

/-- The loop "Register new checks" of `UpdateTask`, over `newSvc.Checks`: the
state it reaches and the error it returns, if any. -/
def updateChecksLoop (lib : Lib) (existingID : String) (newSvc : Service)
    (newTask : TaskServices) : List ServiceCheck → CheckDiff → CheckDiff × Option String
  | [], d => (d, none)
  | check :: rest, d =>
    let checkID := MakeCheckID lib existingID check
    let d1 : CheckDiff :=
      if d.existingChecks.contains checkID then
        { d with existingChecks := d.existingChecks.delete checkID,
                 checkIDs := d.checkIDs.set checkID () }
      else d
    match checkRegs lib d1.ops existingID newSvc newTask with
    | (ops1, .error err) => ({ d1 with ops := ops1 }, some err)
    | (ops1, .ok newCheckIDs) =>
      let d2 : CheckDiff :=
        { d1 with ops := ops1, checkIDs := addCheckIDs d1.checkIDs (newCheckIDs.getD []) }
      let d3 : CheckDiff :=
        if check.TriggersRestarts then
          { d2 with watcher := d2.watcher ++
              [WatchCall.Watch newTask.AllocID newTask.Name checkID check] }
        else d2
      updateChecksLoop lib existingID newSvc newTask rest d3

/-- The loop "Loop over existing Service IDs to see if they have been removed"
of `UpdateTask`, over the entries of `existingIDs` in the order `range` visits
them: the state it reaches and the error it returns, if any. -/
def updateExistingLoop (lib : Lib) (ord : RangeOrder) (old newTask : TaskServices) :
    List (String × Service) → UpdateState → UpdateState × Option String
  | [], s => (s, none)
  | (existingID, existingSvc) :: rest, s =>
    match s.newIDs.get? existingID with
    | none =>
      let s1 : UpdateState :=
        { s with
          ops := { s.ops with
            deregServices := s.ops.deregServices ++ [existingID],
            deregChecks := s.ops.deregChecks ++
              existingSvc.Checks.map (fun check => MakeCheckID lib existingID check) },
          watcher := s.watcher ++
            (existingSvc.Checks.filter (fun check => check.TriggersRestarts)).map
              (fun check => WatchCall.Unwatch (MakeCheckID lib existingID check)) }
      updateExistingLoop lib ord old newTask rest s1
    | some newSvc =>
      let oldHash := lib.serviceHash existingSvc old.AllocID old.Name old.Canary
      let newHash := lib.serviceHash newSvc newTask.AllocID newTask.Name newTask.Canary
      let newIDs := if oldHash = newHash then s.newIDs.delete existingID else s.newIDs
      let existingChecks := checkIDMap lib existingID [] existingSvc.Checks
      match updateChecksLoop lib existingID newSvc newTask newSvc.Checks
          { existingChecks := existingChecks, checkIDs := [], ops := s.ops,
            watcher := s.watcher } with
      | (d, some err) => ({ s with ops := d.ops, newIDs := newIDs, watcher := d.watcher }, some err)
      | (d, none) =>
        let removed := ord.range d.existingChecks
        let sreg : ServiceRegistration := { serviceID := existingID, checkIDs := d.checkIDs }
        let ops1 : operations := { d.ops with deregChecks := d.ops.deregChecks ++ removed.keys }
        let s1 : UpdateState :=
          { ops := ops1,
            taskReg := s.taskReg.set existingID sreg,
            newIDs := newIDs,
            watcher := d.watcher ++
              (removed.filter (fun e => e.2.TriggersRestarts)).map
                (fun e => WatchCall.Unwatch e.1) }
        updateExistingLoop lib ord old newTask rest s1

/-- The method `UpdateTask`: the error returned (`none` for nil) and the state
it leaves.  The calls made on the check watcher before an error stay made.
`send` is the case the `select` of `commit` takes when both are ready. -/
def UpdateTask (send : Bool) (lib : Lib) (ord : RangeOrder) (c : Lifecycle)
    (old newTask : TaskServices) : Option String × Lifecycle :=
  let existingIDs := serviceIDs old [] old.Services
  let newIDs := serviceIDs newTask [] newTask.Services
  match updateExistingLoop lib ord old newTask (ord.range existingIDs) { newIDs := newIDs } with
  | (s, some err) => (some err, { c with checkWatcher := c.checkWatcher ++ s.watcher })
  | (s, none) =>
    let remaining := (ord.range s.newIDs).map (fun e => e.2)
    match serviceRegsLoop lib newTask remaining s.ops s.taskReg with
    | .error err => (some err, { c with checkWatcher := c.checkWatcher ++ s.watcher })
    | .ok (ops, taskReg) =>
      let reg : TaskRegistration := { Services := taskReg }
      let c1 := { c with allocRegistrations :=
        addTaskRegistration c.allocRegistrations newTask.AllocID newTask.Name reg }
      let c2 := commit send c1 ops
      (none, { c2 with checkWatcher :=
        c2.checkWatcher ++ s.watcher ++ watchCalls lib newTask remaining })

/-- The batch `RemoveTask` builds: the id of every service of the task and of
every check of these services, to deregister. -/
def removeTaskOps (lib : Lib) (task : TaskServices) : operations :=
  let id := fun service => MakeTaskServiceID task.AllocID task.Name service
  { deregServices := task.Services.map id,
    deregChecks := task.Services.flatMap (fun service =>
      service.Checks.map (fun check => MakeCheckID lib (id service) check)) }

/-- The method `RemoveTask`: the state it leaves; `send` is the case the
`select` of `commit` takes when both are ready. -/
def RemoveTask (send : Bool) (lib : Lib) (c : Lifecycle) (task : TaskServices) : Lifecycle :=
  let id := fun service => MakeTaskServiceID task.AllocID task.Name service
  let ops := removeTaskOps lib task
  let unwatched := task.Services.flatMap (fun service =>
    (service.Checks.filter (fun check => check.TriggersRestarts)).map (fun check =>
      WatchCall.Unwatch (MakeCheckID lib (id service) check)))
  let c1 := { c with
    checkWatcher := c.checkWatcher ++ unwatched,
    allocRegistrations := removeTaskRegistration c.allocRegistrations task.AllocID task.Name }
  commit send c1 ops

/-- The body of the loop "Populate the object" of `AllocRegistrations` for one
service registration. -/
def populate (services : GoMap AgentService) (checks : GoMap AgentCheck) (serviceID : String)
    (sreg : ServiceRegistration) : ServiceRegistration :=
  { sreg with
    Service := services.get? serviceID,
    Checks := sreg.Checks ++ sreg.checkIDs.filterMap (fun e => checks.get? e.1) }

/-- The loop "Populate the object" of `AllocRegistrations`. -/
def populateAll (services : GoMap AgentService) (checks : GoMap AgentCheck)
    (reg : AllocRegistration) : AllocRegistration :=
  { Tasks := reg.Tasks.map (fun t =>
      (t.1, { Services := t.2.Services.map (fun e => (e.1, populate services checks e.1 e.2)) })) }

/-- What `AllocRegistrations` returns and leaves: the registrations (`none` for
nil) or the error, the state of the lifecycle API, the state of the catalog
client and the calls made on it. -/
structure AllocView (σ : Type) where
  result : Except String (Option AllocRegistration)
  client : Lifecycle
  st : σ
  calls : List Call

/-- The method `AllocRegistrations`.  The entries are filled in on the copy, so
the allocation index of the client is what it was. -/
def AllocRegistrations {σ : Type} (api : AgentAPI σ) (c : Lifecycle) (allocID : String)
    (st : σ) : AllocView σ :=
  match c.allocRegistrations.get? allocID with
  | none => ⟨.ok none, c, st, []⟩
  | some regInternal =>
    let reg := regInternal.copy
    match api.Services st with
    | (.error err, st1) => ⟨.error err, c, st1, [Call.Services]⟩
    | (.ok services, st1) =>
      match api.Checks st1 with
      | (.error err, st2) => ⟨.error err, c, st2, [Call.Services, Call.Checks]⟩
      | (.ok checks, st2) =>
        ⟨.ok (some (populateAll services checks reg)), c, st2, [Call.Services, Call.Checks]⟩

/-- Whether `serviceRegs` builds the service for the task; the outcome does not
depend on the batch it appends to. -/
def serviceBuilds (lib : Lib) (task : TaskServices) (service : Service) : Bool :=
  match (serviceRegs lib {} service task).2 with
  | .ok _ => true
  | .error _ => false

/-- The registration the task index records for a service that builds: its id
and the ids of its checks. -/
def indexEntry (lib : Lib) (task : TaskServices) (service : Service) : ServiceRegistration :=
  { serviceID := MakeTaskServiceID task.AllocID task.Name service,
    checkIDs := addCheckIDs [] (service.Checks.map
      (MakeCheckID lib (MakeTaskServiceID task.AllocID task.Name service))) }

/-- The ids of the checks of the services, in the order the builders visit
them. -/
def taskCheckIDs (lib : Lib) (task : TaskServices) (services : List Service) : List String :=
  services.flatMap (fun service => service.Checks.map
    (MakeCheckID lib (MakeTaskServiceID task.AllocID task.Name service)))

/-- Whether a literal port label fails to split as `host:port` with an integer
port. -/
def badPortLabel (label : String) : Bool :=
  match splitHostPort label with
  | .error _ => true
  | .ok (_, rawport) => (strconvAtoi rawport).isNone

/-- Two agent services: the first is valid, the port of the second is not a
number. -/
def agentServices : List Service :=
  [{ Name := "nomad", PortLabel := "127.0.0.1:4646" },
   { Name := "nomad-rpc", PortLabel := "127.0.0.1:rpc" }]

/-- A task without script executor whose service has a script check. -/
def scriptTask : TaskServices :=
  { AllocID := "a1", Name := "web", DriverExec := false, Networks := [hostNetwork],
    Services := [{ Name := "frontend", PortLabel := "http", Checks := [scriptCheck] }] }

/-- An HTTP check that restarts its task. -/
def httpCheck : ServiceCheck :=
  { Name := "alive", Kind := "http", Path := "/health", Interval := 10 * Second,
    Timeout := 2 * Second, CheckRestart := some { Limit := 3 } }

/-- A service with one HTTP check. -/
def webService : Service :=
  { Name := "frontend", PortLabel := "http", Tags := some ["prod"], Checks := [httpCheck] }

/-- A task with one service that has one HTTP check. -/
def webTask : TaskServices :=
  { AllocID := "a1", Name := "web", Networks := [hostNetwork], Services := [webService] }

/-- A task without services. -/
def idleTask : TaskServices := { AllocID := "a1", Name := "idle", Networks := [hostNetwork] }

/-! ## UpdateTask (definitions) -/

/-- A library whose check hash covers the path of the check. -/
def pathLib : Lib :=
  { plainLib with
    checkHash := fun check serviceID => serviceID ++ "/" ++ check.Name ++ check.Path }

/-- The task `webTask` after the path of its check has changed. -/
def webTaskV2 : TaskServices :=
  { webTask with
    Services := [{ webService with Checks := [{ httpCheck with Path := "/healthz" }] }] }

/-- The registration of the check of `webTaskV2`. -/
def healthzRegistration : AgentCheckRegistration :=
  { ID := "_nomad-check-_nomad-task-a1-web-frontend-http/alive/healthz", Name := "alive",
    ServiceID := "_nomad-task-a1-web-frontend-http", Timeout := "2s", Interval := "10s",
    HTTP := "http://192.168.0.7:23456/healthz" }

/-- The batch `UpdateTask` sends when `webTask` becomes `webTaskV2`. -/
def healthzBatch : operations :=
  { regChecks := [healthzRegistration],
    deregChecks := ["_nomad-check-_nomad-task-a1-web-frontend-http/alive/health"] }

/-- The registration of the service of `webTask`. -/
def frontendRegistration : AgentServiceRegistration :=
  { ID := "_nomad-task-a1-web-frontend-http", Name := "frontend", Tags := some ["prod"],
    Address := "192.168.0.7", Port := 23456, Meta := [("external-source", "nomad")] }

/-- The registration of the check of `webTask`, under `pathLib`. -/
def healthRegistration : AgentCheckRegistration :=
  { ID := "_nomad-check-_nomad-task-a1-web-frontend-http/alive/health", Name := "alive",
    ServiceID := "_nomad-task-a1-web-frontend-http", Timeout := "2s", Interval := "10s",
    HTTP := "http://192.168.0.7:23456/health" }

/-- The desired store of a client agent that holds the service of `webTask` and
its check; the probation window ends at time 60. -/
def webStore : ServiceClient :=
  { services := [("_nomad-task-a1-web-frontend-http", frontendRegistration)],
    checks := [("_nomad-check-_nomad-task-a1-web-frontend-http/alive/health",
      healthRegistration)],
    deregisterProbationExpiry := 60 }

/-! ## RemoveTask and AllocRegistrations (definitions) -/

/-- The task registration the allocation index holds for an allocation and a
task name. -/
def taskRegistrationOf (index : GoMap AllocRegistration) (allocID taskName : String) :
    Option TaskRegistration :=
  (index.get? allocID).bind (fun alloc => alloc.Tasks.get? taskName)

/-- A catalog that holds the service of `webTask` and its check. -/
def webCatalog : Catalog :=
  { services := [("_nomad-task-a1-web-frontend-http", toAgentService frontendRegistration)],
    checks := [("_nomad-check-_nomad-task-a1-web-frontend-http/alive/health",
      toAgentCheck healthRegistration)] }

/-- What the allocation index records for the allocation `a1` once the task
`web` is registered under `pathLib`. -/
def webAllocRegistration : AllocRegistration :=
  { Tasks := [("web", { Services := [("_nomad-task-a1-web-frontend-http",
      { serviceID := "_nomad-task-a1-web-frontend-http",
        checkIDs := [("_nomad-check-_nomad-task-a1-web-frontend-http/alive/health", ())] })] })] }

/-- A client whose allocation index holds the allocation `a1`. -/
def webIndex : Lifecycle := { allocRegistrations := [("a1", webAllocRegistration)] }

/-! ## Shutdown, the connect block and the state machine of Run (definitions) -/

/-- The loops of `Shutdown` over the agent-owned ids: every id is passed to the
deregister call, a failure is logged and the loop goes on.  The state of the
catalog client reached and the calls made. -/
def deregisterAgentIDs {σ : Type} (call : String → σ → Option String × σ) (mk : String → Call) :
    List String → σ → σ × List Call
  | [], st => (st, [])
  | id :: rest, st =>
    let r := deregisterAgentIDs call mk rest (call id st).2
    (r.1, mk id :: r.2)

/-- What `Shutdown` returns and leaves: the error (`none` for nil), the state
of the lifecycle API, the state of the catalog client and the calls made on
it. -/
structure ShutdownView (σ : Type) where
  err : Option String
  client : Lifecycle
  st : σ
  calls : List Call

/-- The method `Shutdown`.  Between closing `shutdownCh` and reading the flag
`seen` it waits for `Run`, a concurrent task, to exit (or for the deadline):
the flag `seen` of `c` and the state `st` of the catalog client are what they
are when that wait is over. -/
def Shutdown {σ : Type} (api : AgentAPI σ) (c : Lifecycle) (st : σ) : ShutdownView σ :=
  if c.shutdownCh then ⟨none, c, st, []⟩
  else
    let c1 := { c with shutdownCh := true }
    if !c1.seen then ⟨none, c1, st, []⟩
    else
      let r1 := deregisterAgentIDs api.ServiceDeregister Call.ServiceDeregister
        c1.agentServices.keys st
      let r2 := deregisterAgentIDs api.CheckDeregister Call.CheckDeregister
        c1.agentChecks.keys r1.1
      ⟨none, c1, r2.1, r1.2 ++ r2.2⟩

/-- Where `Run` stands: in the loop `INIT` that waits for contact with the
catalog, at the first `select` of the main loop, at the `select` that ends an
iteration of the main loop, or returned. -/
inductive RunPhase where
  | init
  | loop
  | check
  | exited
deriving DecidableEq, Repr

/-- What `Run` has done, for the record: a batch merged into the desired
store, or a `sync` attempted, with the error it returned. -/
inductive RunAction where
  | merged (ops : operations)
  | synced (err : Option String)
deriving DecidableEq, Repr

/-- The state of `Run` and of what it shares with the lifecycle API: the queue
`opCh`, `shutdownCh` and the flag `seen` (in `life`), the variables of the
loop (in `rs`), the state of the catalog client, and the record of what `Run`
has done, oldest first. -/
structure RunMachine (σ : Type) where
  phase : RunPhase := .init
  life : Lifecycle := {}
  rs : RunState
  st : σ
  trace : List RunAction := []

/-- What happens next: `Run` takes a ready case of the `select` it stands at
(`init`, `timer`, `shutdown`, `ops`, or `check` for the `select` that ends an
iteration), or the rest of the agent acts: the `select` of a caller's `commit`
takes a case (the send of the batch if `send`, the receive on `shutdownCh`
otherwise), or `Shutdown` closes `shutdownCh`. -/
inductive RunChoice where
  | init
  | timer
  | shutdown
  | ops
  | check
  | commit (ops : operations) (send : Bool)
  | close
deriving DecidableEq, Repr

/-- The `sync` of an iteration of the main loop and the bookkeeping after it;
`Run` then stands at the `select` that ends the iteration. -/
def runSyncStep {σ : Type} (api : AgentAPI σ) (now : Nat) (m : RunMachine σ) : RunMachine σ :=
  let r := runSync api m.rs now m.st
  { m with rs := r.1, st := r.2.st, trace := m.trace ++ [RunAction.synced r.2.err],
           phase := .check }

/-- The loop `for len(c.opCh) > 0 { c.merge(<-c.opCh) }`. -/
def drainOps (rs : RunState) : List operations → RunState
  | [] => rs
  | ops :: rest => drainOps (runSelect rs (.ops ops)) rest

/-- One step of `Run` or of its environment, `none` when the choice is not
ready.  `now` is the time `sync` reads when the step runs one.  The timer may
fire at any time, which covers every setting of it.  The send of a `commit` is
ready when the channel has room, its receive on `shutdownCh` when that channel
is closed. -/
def runStep {σ : Type} (api : AgentAPI σ) (now : Nat) :
    RunChoice → RunMachine σ → Option (RunMachine σ)
  | .commit ops send, m =>
    if (send && decide (m.life.opCh.length < opChCap)) || (!send && m.life.shutdownCh) then
      some { m with life := commit send m.life ops }
    else none
  | .close, m => some { m with life := { m.life with shutdownCh := true } }
  | .init, m =>
    match m.phase with
    | .init => some { m with life := { m.life with seen := true }, phase := .loop }
    | _ => none
  | .timer, m =>
    match m.phase with
    | .loop => some (runSyncStep api now m)
    | _ => none
  | .shutdown, m =>
    if m.life.shutdownCh then
      match m.phase with
      | .init => some { m with phase := .exited }
      | .loop => some (runSyncStep api now m)
      | _ => none
    else none
  | .ops, m =>
    match m.life.opCh with
    | [] => none
    | ops :: rest =>
      let m1 : RunMachine σ :=
        { m with life := { m.life with opCh := rest }, rs := runSelect m.rs (.ops ops),
                 trace := m.trace ++ [RunAction.merged ops] }
      match m.phase with
      | .init => some m1
      | .loop => some (runSyncStep api now m1)
      | _ => none
  | .check, m =>
    match m.phase with
    | .check =>
      if m.life.shutdownCh then
        if m.life.opCh.length > 0 then
          some { m with life := { m.life with opCh := [] }, rs := drainOps m.rs m.life.opCh,
                        trace := m.trace ++ m.life.opCh.map RunAction.merged, phase := .loop }
        else some { m with phase := .exited }
      else some { m with phase := .loop }
    | _ => none

/-- A run: the steps of a schedule, one after the other; `none` when a step of
the schedule is not ready. -/
def runSteps {σ : Type} (api : AgentAPI σ) :
    List (Nat × RunChoice) → RunMachine σ → Option (RunMachine σ)
  | [], m => some m
  | (now, ch) :: rest, m =>
    match runStep api now ch m with
    | none => none
    | some m1 => runSteps api rest m1

/-- The batches a record says were merged, in order. -/
def mergedOps : List RunAction → List operations
  | [] => []
  | .merged ops :: rest => ops :: mergedOps rest
  | .synced _ :: rest => mergedOps rest

/-- Whether the record ends with an attempt to sync. -/
def endsWithSync (t : List RunAction) : Bool :=
  match t.getLast? with
  | some (.synced _) => true
  | _ => false

/-- An agent service with one TCP check; address and port are valid. -/
def httpAgentService : Service :=
  { Name := "nomad-client", PortLabel := "127.0.0.1:4646",
    Checks := [{ Name := "alive", Kind := "tcp", Interval := 10 * Second, Timeout := 2 * Second }] }

/-- A network whose dynamic port `connect-proxy-db` is the port of the sidecar
of the service `db`. -/
def sidecarNetwork : NetworkResource :=
  { IP := "192.168.0.7",
    DynamicPorts := [{ Label := "connect-proxy-db", Value := 23456, To := 8080 }] }

/-- A sidecar that has one upstream and whose proxy configuration sets
`bind_address` and another key. -/
def dbSidecar : ConsulSidecarService :=
  { Proxy := some
      { Upstreams := [{ DestinationName := "cache", LocalBindPort := 6379 }],
        Config := some [("bind_address", ConfigValue.str "127.0.0.1"),
          ("protocol", ConfigValue.str "http")] } }

/-- A connect block with the sidecar `dbSidecar`. -/
def sidecarConnect : ConsulConnect := { SidecarService := some dbSidecar }

/-- The sidecar registration `newConnect` builds for `sidecarConnect` on
`sidecarNetwork`. -/
def dbSidecarRegistration : SidecarRegistration :=
  { Address := "192.168.0.7", Port := 23456,
    Proxy := some
      { Config := [("bind_port", ConfigValue.int 8080),
          ("bind_address", ConfigValue.str "0.0.0.0"),
          ("protocol", ConfigValue.str "http")],
        Upstreams := some [{ DestinationName := "cache", LocalBindPort := 6379 }] } }

/-! ## Order of writes and the comparison with the catalog (definitions) -/

/-- The place of a call in a cycle of `sync`: the reads, then the four loops
in the order of the source. -/
def Call.stage : Call → Nat
  | .Services => 0
  | .Checks => 0
  | .ServiceDeregister _ => 1
  | .ServiceRegister _ => 2
  | .CheckDeregister _ => 3
  | .CheckRegister _ => 4

/-- A client agent, past probation at time 100, that wants one service with
one check. -/
def orderClient : ServiceClient :=
  { deregisterProbationExpiry := 60,
    services := [("_nomad-task-b", { ID := "_nomad-task-b", Name := "web", Port := 8080 })],
    checks := [("_nomad-check-b", { ID := "_nomad-check-b", ServiceID := "_nomad-task-b" })] }

/-- A desired registration for the id of `svcNilTags` with metadata and a
sidecar that the catalog entry does not have. -/
def regWithMeta : AgentServiceRegistration :=
  { ID := "_nomad-task-a", Name := "db", Meta := [("external-source", "nomad")],
    Connect := some { SidecarService := some { Address := "192.168.0.7", Port := 23456 } } }

/-- A client agent, past probation at time 100, that wants `regWithMeta`. -/
def metaClient : ServiceClient :=
  { deregisterProbationExpiry := 60, services := [("_nomad-task-a", regWithMeta)] }

/-- A catalog that holds `svcNilTags`, an entry without metadata and without
connect block. -/
def plainEntryCatalog : Catalog := { services := [("_nomad-task-a", svcNilTags)] }

/-- A client agent, past probation at time 100, that wants `regEmptyTags`. -/
def emptyTagsClient : ServiceClient :=
  { deregisterProbationExpiry := 60, services := [("_nomad-task-a", regEmptyTags)] }

/-- What a catalog that leaves empty tag lists out of its reports says of a
service. -/
def omitEmptyTags (svc : AgentService) : AgentService :=
  if svc.Tags = some [] then { svc with Tags := none } else svc

/-- A catalog agent that never fails and whose report of the services leaves
empty tag lists out. -/
def omitEmptyCatalog : AgentAPI Catalog :=
  { reliableCatalog with
    Services := fun s => (.ok (s.services.map (fun e => (e.1, omitEmptyTags e.2))), s) }

/-- A workload service without tags. -/
def taglessService : Service := { Name := "db", PortLabel := "http" }

/-! ## Shutdown drain and the check watcher (definitions) -/

/-- The desired store after the actions of a record: a merge applies `merge`,
a `sync` that returned nil clears the explicit-deregister sets. -/
def replayStore : List RunAction → ServiceClient → ServiceClient
  | [], c => c
  | .merged ops :: rest, c => replayStore rest (merge c ops)
  | .synced none :: rest, c => replayStore rest (clearExplicitlyDeregistered c)
  | .synced (some _) :: rest, c => replayStore rest c

/-- A batch that registers one service. -/
def webBatch : operations :=
  { regServices := [{ ID := "_nomad-task-b", Name := "web", Port := 8080 }] }

/-- A client agent at the start of `Run`, in front of an empty catalog. -/
def startMachine : RunMachine Catalog := { rs := { client := freshClient }, st := {} }

/-- The state of `startMachine` after a batch was committed and shutdown was
raised, contact with the catalog not being made. -/
def waitingMachine : RunMachine Catalog :=
  { life := { opCh := [webBatch], shutdownCh := true }, rs := { client := freshClient },
    st := {} }

/-- The state of `startMachine` after a batch was committed, contact was made
and shutdown was raised. -/
def runningMachine : RunMachine Catalog :=
  { phase := .loop, life := { opCh := [webBatch], shutdownCh := true, seen := true },
    rs := { client := freshClient }, st := {} }

/-- A service that asks for the address of the driver network. -/
def adminService : Service := { Name := "admin", PortLabel := "admin", AddressMode := "driver" }

/-- The task `webTask` after the path of its check has changed and the service
`adminService` was added; the driver of the task has no network, so this
service does not build. -/
def brokenTask : TaskServices :=
  { webTask with
    Services := [{ webService with Checks := [{ httpCheck with Path := "/healthz" }] },
      adminService] }

/-- The batches that the commits of a schedule send on `opCh`, in order. -/
def sentBatches : List (Nat × RunChoice) → List operations
  | [] => []
  | (_, .commit ops true) :: rest => ops :: sentBatches rest
  | _ :: rest => sentBatches rest

/-! ## Lemmas on loops -/

section Loops

variable {σ α : Type}

theorem forEach_calls_initial (body : α → σ → Step σ) (g : α → List Call)
    (hg : ∀ x st, (body x st).calls = g x) :
    ∀ (l : List α) (st : σ), (forEach body l st).calls <+: l.flatMap g := by
  intro l
  induction l with
  | nil => intro st; simp [forEach]
  | cons x xs ih =>
    intro st
    unfold forEach
    have hx := hg x st
    rcases hbx : body x st with ⟨e, st1, cs⟩
    rw [hbx] at hx
    simp only at hx
    subst hx
    cases e with
    | some e => simp only [List.flatMap_cons]; exact List.prefix_append _ _
    | none =>
      simp only [List.flatMap_cons]
      exact (List.prefix_append_right_inj _).mpr (ih st1)

theorem forEach_calls_of_ok (body : α → σ → Step σ) (g : α → List Call)
    (hg : ∀ x st, (body x st).calls = g x) :
    ∀ (l : List α) (st : σ), (forEach body l st).err = none →
      (forEach body l st).calls = l.flatMap g := by
  intro l
  induction l with
  | nil => intro st _; simp [forEach]
  | cons x xs ih =>
    intro st h
    unfold forEach at h ⊢
    have hx := hg x st
    rcases hbx : body x st with ⟨e, st1, cs⟩
    rw [hbx] at hx h
    simp only at hx
    subst hx
    cases e with
    | some e => simp at h
    | none =>
      simp only [List.flatMap_cons]
      simp only at h
      rw [ih st1 h]

theorem forEach_err_none (body : α → σ → Step σ) :
    ∀ (l : List α), (∀ x ∈ l, ∀ st, (body x st).err = none) →
      ∀ st, (forEach body l st).err = none := by
  intro l
  induction l with
  | nil => intro _ st; simp [forEach]
  | cons x xs ih =>
    intro hb st
    unfold forEach
    have hx := hb x (List.mem_cons_self x xs) st
    rcases hbx : body x st with ⟨e, st1, cs⟩
    rw [hbx] at hx
    simp only at hx
    subst hx
    exact ih (fun y hy => hb y (List.mem_cons_of_mem x hy)) st1

theorem andThen_calls (a : Step σ) (f : σ → Step σ) :
    (a.andThen f).calls =
      a.calls ++ (match a.err with | none => (f a.st).calls | some _ => []) := by
  unfold Step.andThen
  cases a.err <;> simp

theorem andThen_err_none (a : Step σ) (f : σ → Step σ) :
    (a.andThen f).err = none ↔ a.err = none ∧ (f a.st).err = none := by
  unfold Step.andThen
  cases h : a.err <;> simp

theorem andThen_st_of_ok (a : Step σ) (f : σ → Step σ) (h : a.err = none) :
    (a.andThen f).st = (f a.st).st := by
  unfold Step.andThen
  rw [h]

theorem flatMap_ite_singleton {β : Type} (p : α → Bool) (f : α → β) (l : List α) :
    l.flatMap (fun x => if p x then [f x] else []) = (l.filter p).map f := by
  induction l with
  | nil => rfl
  | cons x xs ih =>
    simp only [List.flatMap_cons, ih, List.filter_cons]
    cases p x <;> simp

end Loops

section Bodies

variable {σ : Type} (api : AgentAPI σ) (c : ServiceClient) (ip : Bool)

theorem deregServiceBody_calls (e : String × AgentService) (st : σ) :
    (deregServiceBody api c ip e st).calls =
      if evictService c ip e.1 then [Call.ServiceDeregister e.1] else [] := by
  unfold deregServiceBody evictService
  dsimp only
  rcases hd : api.ServiceDeregister e.1 st with ⟨_ | _, _⟩ <;>
    split_ifs <;> simp_all

theorem regServiceBody_calls (svcs : GoMap AgentService)
    (e : String × AgentServiceRegistration) (st : σ) :
    (regServiceBody api svcs e st).calls =
      if serviceNeedsRegister svcs e then [Call.ServiceRegister e.2] else [] := by
  unfold regServiceBody
  cases h : serviceNeedsRegister svcs e <;> simp
  rcases api.ServiceRegister e.2 st with ⟨_ | _, _⟩ <;> rfl

theorem deregCheckBody_calls (e : String × AgentCheck) (st : σ) :
    (deregCheckBody api c ip e st).calls =
      if evictCheck c ip e then [Call.CheckDeregister e.1] else [] := by
  unfold deregCheckBody evictCheck
  dsimp only
  rcases hd : api.CheckDeregister e.1 st with ⟨_ | _, _⟩ <;>
    split_ifs <;> simp_all

theorem regCheckBody_calls (chks : GoMap AgentCheck)
    (e : String × AgentCheckRegistration) (st : σ) :
    (regCheckBody api chks e st).calls =
      if chks.contains e.1 then [] else [Call.CheckRegister e.2] := by
  unfold regCheckBody
  cases h : chks.contains e.1 <;> simp
  rcases api.CheckRegister e.2 st with ⟨_ | _, _⟩ <;> rfl

end Bodies

section SyncStructure

variable {σ : Type} (api : AgentAPI σ) (c : ServiceClient) (ip : Bool)
  (svcs : GoMap AgentService) (chks : GoMap AgentCheck)

theorem loop1_initial (st : σ) :
    (forEach (deregServiceBody api c ip) svcs st).calls <+: deregServiceCalls c ip svcs := by
  have h := forEach_calls_initial (deregServiceBody api c ip) _
    (deregServiceBody_calls api c ip) svcs st
  rw [flatMap_ite_singleton (fun e : String × AgentService => evictService c ip e.1)
    (fun e => Call.ServiceDeregister e.1)] at h
  exact h

theorem loop1_ok (st : σ) (h : (forEach (deregServiceBody api c ip) svcs st).err = none) :
    (forEach (deregServiceBody api c ip) svcs st).calls = deregServiceCalls c ip svcs := by
  rw [forEach_calls_of_ok (deregServiceBody api c ip) _
    (deregServiceBody_calls api c ip) svcs st h]
  exact flatMap_ite_singleton (fun e : String × AgentService => evictService c ip e.1)
    (fun e => Call.ServiceDeregister e.1) svcs

theorem loop2_initial (st : σ) :
    (forEach (regServiceBody api svcs) c.services st).calls <+: regServiceCalls c svcs := by
  have h := forEach_calls_initial (regServiceBody api svcs) _
    (regServiceBody_calls api svcs) c.services st
  rw [flatMap_ite_singleton (serviceNeedsRegister svcs)
    (fun e => Call.ServiceRegister e.2)] at h
  exact h

theorem loop2_ok (st : σ) (h : (forEach (regServiceBody api svcs) c.services st).err = none) :
    (forEach (regServiceBody api svcs) c.services st).calls = regServiceCalls c svcs := by
  rw [forEach_calls_of_ok (regServiceBody api svcs) _
    (regServiceBody_calls api svcs) c.services st h]
  exact flatMap_ite_singleton (serviceNeedsRegister svcs)
    (fun e => Call.ServiceRegister e.2) c.services

theorem loop3_initial (st : σ) :
    (forEach (deregCheckBody api c ip) chks st).calls <+: deregCheckCalls c ip chks := by
  have h := forEach_calls_initial (deregCheckBody api c ip) _
    (deregCheckBody_calls api c ip) chks st
  rw [flatMap_ite_singleton (evictCheck c ip) (fun e => Call.CheckDeregister e.1)] at h
  exact h

theorem loop3_ok (st : σ) (h : (forEach (deregCheckBody api c ip) chks st).err = none) :
    (forEach (deregCheckBody api c ip) chks st).calls = deregCheckCalls c ip chks := by
  rw [forEach_calls_of_ok (deregCheckBody api c ip) _
    (deregCheckBody_calls api c ip) chks st h]
  exact flatMap_ite_singleton (evictCheck c ip) (fun e => Call.CheckDeregister e.1) chks

theorem regCheckBody_calls_not (e : String × AgentCheckRegistration) (st : σ) :
    (regCheckBody api chks e st).calls =
      if !chks.contains e.1 then [Call.CheckRegister e.2] else [] := by
  rw [regCheckBody_calls]
  cases chks.contains e.1 <;> rfl

theorem loop4_initial (st : σ) :
    (forEach (regCheckBody api chks) c.checks st).calls <+: regCheckCalls c chks := by
  have h := forEach_calls_initial (regCheckBody api chks) _
    (regCheckBody_calls_not api chks) c.checks st
  rw [flatMap_ite_singleton (fun e : String × AgentCheckRegistration => !chks.contains e.1)
    (fun e => Call.CheckRegister e.2)] at h
  exact h

theorem loop4_ok (st : σ) (h : (forEach (regCheckBody api chks) c.checks st).err = none) :
    (forEach (regCheckBody api chks) c.checks st).calls = regCheckCalls c chks := by
  rw [forEach_calls_of_ok (regCheckBody api chks) _
    (regCheckBody_calls_not api chks) c.checks st h]
  exact flatMap_ite_singleton (fun e : String × AgentCheckRegistration => !chks.contains e.1)
    (fun e => Call.CheckRegister e.2) c.checks

/-- A sequence of two pieces issues a prefix of the two plans put together. -/
theorem andThen_initial (a : Step σ) (f : σ → Step σ) (p q : List Call)
    (ha : a.calls <+: p) (ha2 : a.err = none → a.calls = p)
    (hf : ∀ st, (f st).calls <+: q) : (a.andThen f).calls <+: p ++ q := by
  rw [andThen_calls]
  cases h : a.err with
  | some e =>
    simp only [List.append_nil]
    exact ha.trans (List.prefix_append _ _)
  | none =>
    simp only
    rw [ha2 h]
    exact (List.prefix_append_right_inj _).mpr (hf _)

theorem andThen_ok (a : Step σ) (f : σ → Step σ) (p q : List Call)
    (ha2 : a.err = none → a.calls = p)
    (hf : ∀ st, (f st).err = none → (f st).calls = q)
    (h : (a.andThen f).err = none) : (a.andThen f).calls = p ++ q := by
  rw [andThen_err_none] at h
  rw [andThen_calls, h.1, ha2 h.1]
  simp only
  rw [hf _ h.2]

/-- Whatever fails, the writes of `sync` are an initial part of the plan. -/
theorem syncLoops_initial (st : σ) :
    (syncLoops api c ip svcs chks st).calls <+: plannedWrites c ip svcs chks := by
  unfold syncLoops plannedWrites
  have h1 := loop1_initial api c ip svcs st
  have h1o := loop1_ok api c ip svcs st
  have h12 := andThen_initial _ (forEach (regServiceBody api svcs) c.services) _ _ h1 h1o
    (loop2_initial api c svcs)
  have h12o := andThen_ok _ (forEach (regServiceBody api svcs) c.services) _ _ h1o
    (loop2_ok api c svcs)
  have h123 := andThen_initial _ (forEach (deregCheckBody api c ip) chks) _ _ h12 h12o
    (loop3_initial api c ip chks)
  have h123o := andThen_ok _ (forEach (deregCheckBody api c ip) chks) _ _ h12o
    (loop3_ok api c ip chks)
  have h := andThen_initial _ (forEach (regCheckBody api chks) c.checks) _ _ h123 h123o
    (loop4_initial api c chks)
  simpa [List.append_assoc] using h

/-- A cycle that returns no error has issued the whole plan. -/
theorem syncLoops_ok (st : σ) (h : (syncLoops api c ip svcs chks st).err = none) :
    (syncLoops api c ip svcs chks st).calls = plannedWrites c ip svcs chks := by
  unfold syncLoops plannedWrites at *
  have h1o := loop1_ok api c ip svcs st
  have h12o := andThen_ok _ (forEach (regServiceBody api svcs) c.services) _ _ h1o
    (loop2_ok api c svcs)
  have h123o := andThen_ok _ (forEach (deregCheckBody api c ip) chks) _ _ h12o
    (loop3_ok api c ip chks)
  have := andThen_ok _ (forEach (regCheckBody api chks) c.checks) _ _ h123o
    (loop4_ok api c chks) h
  simpa [List.append_assoc] using this

end SyncStructure

section SyncCalls

variable {σ : Type} (api : AgentAPI σ) (c : ServiceClient) (now : Nat) (st : σ)

/-- Unfolding of `sync` once both reads are known to succeed. -/
theorem sync_of_reads {svcs : GoMap AgentService} {chks : GoMap AgentCheck} {st1 st2 : σ}
    (hs : api.Services st = (.ok svcs, st1)) (hc : api.Checks st1 = (.ok chks, st2)) :
    sync api c now st =
      ⟨(syncLoops api c (decide (now < c.deregisterProbationExpiry)) svcs chks st2).err,
       (syncLoops api c (decide (now < c.deregisterProbationExpiry)) svcs chks st2).st,
       [Call.Services, Call.Checks] ++
        (syncLoops api c (decide (now < c.deregisterProbationExpiry)) svcs chks st2).calls⟩ := by
  unfold sync
  rw [hs]
  simp only
  rw [hc]

/-- Every call of `sync` is a read, or a write of the plan for the snapshots
the two reads returned. -/
theorem sync_call_cases (call : Call) (h : call ∈ (sync api c now st).calls) :
    call = Call.Services ∨ call = Call.Checks ∨
      ∃ svcs chks st1 st2, api.Services st = (.ok svcs, st1) ∧ api.Checks st1 = (.ok chks, st2) ∧
        call ∈ plannedWrites c (decide (now < c.deregisterProbationExpiry)) svcs chks := by
  rcases hs : api.Services st with ⟨_ | svcs, st1⟩
  · unfold sync at h
    rw [hs] at h
    simp at h
    exact Or.inl h
  · rcases hc : api.Checks st1 with ⟨_ | chks, st2⟩
    · unfold sync at h
      rw [hs] at h
      simp only at h
      rw [hc] at h
      simp at h
      rcases h with h | h
      · exact Or.inl h
      · exact Or.inr (Or.inl h)
    · rw [sync_of_reads api c now st hs hc] at h
      simp only [List.mem_append, List.mem_cons, List.mem_singleton, List.not_mem_nil,
        or_false] at h
      rcases h with (h | h) | h
      · exact Or.inl h
      · exact Or.inr (Or.inl h)
      · exact Or.inr (Or.inr ⟨svcs, chks, st1, st2, rfl, hc,
          (syncLoops_initial api c _ svcs chks st2).subset h⟩)

end SyncCalls

section Planned

variable (c : ServiceClient) (ip : Bool) (svcs : GoMap AgentService) (chks : GoMap AgentCheck)

theorem mem_planned_serviceDeregister (id : String) :
    Call.ServiceDeregister id ∈ plannedWrites c ip svcs chks ↔
      id ∈ svcs.keys ∧ evictService c ip id = true := by
  simp only [plannedWrites, deregServiceCalls, regServiceCalls, deregCheckCalls, regCheckCalls,
    List.mem_append, List.mem_map, List.mem_filter, GoMap.keys]
  constructor
  · rintro (⟨e, ⟨he, hev⟩, heq⟩ | ⟨e, _, heq⟩ | ⟨e, _, heq⟩ | ⟨e, _, heq⟩)
    · injection heq with heq
      subst heq
      exact ⟨⟨e, he, rfl⟩, hev⟩
    all_goals cases heq
  · rintro ⟨⟨e, he, rfl⟩, hev⟩
    exact Or.inl ⟨e, ⟨he, hev⟩, rfl⟩

theorem mem_planned_checkDeregister (id : String) :
    Call.CheckDeregister id ∈ plannedWrites c ip svcs chks ↔
      ∃ chk, (id, chk) ∈ chks ∧ evictCheck c ip (id, chk) = true := by
  simp only [plannedWrites, deregServiceCalls, regServiceCalls, deregCheckCalls, regCheckCalls,
    List.mem_append, List.mem_map, List.mem_filter]
  constructor
  · rintro (⟨e, _, heq⟩ | ⟨e, _, heq⟩ | ⟨e, ⟨he, hev⟩, heq⟩ | ⟨e, _, heq⟩)
    · cases heq
    · cases heq
    · injection heq with heq
      subst heq
      exact ⟨e.2, he, hev⟩
    · cases heq
  · rintro ⟨chk, he, hev⟩
    exact Or.inr (Or.inr (Or.inl ⟨(id, chk), ⟨he, hev⟩, rfl⟩))

theorem mem_planned_serviceRegister (reg : AgentServiceRegistration) :
    Call.ServiceRegister reg ∈ plannedWrites c ip svcs chks ↔
      ∃ k, (k, reg) ∈ c.services ∧ serviceNeedsRegister svcs (k, reg) = true := by
  simp only [plannedWrites, deregServiceCalls, regServiceCalls, deregCheckCalls, regCheckCalls,
    List.mem_append, List.mem_map, List.mem_filter]
  constructor
  · rintro (⟨e, _, heq⟩ | ⟨e, ⟨he, hev⟩, heq⟩ | ⟨e, _, heq⟩ | ⟨e, _, heq⟩)
    · cases heq
    · injection heq with heq
      subst heq
      exact ⟨e.1, he, hev⟩
    · cases heq
    · cases heq
  · rintro ⟨k, he, hev⟩
    exact Or.inr (Or.inl ⟨(k, reg), ⟨he, hev⟩, rfl⟩)

theorem mem_planned_checkRegister (reg : AgentCheckRegistration) :
    Call.CheckRegister reg ∈ plannedWrites c ip svcs chks ↔
      ∃ k, (k, reg) ∈ c.checks ∧ chks.contains k = false := by
  simp only [plannedWrites, deregServiceCalls, regServiceCalls, deregCheckCalls, regCheckCalls,
    List.mem_append, List.mem_map, List.mem_filter]
  constructor
  · rintro (⟨e, _, heq⟩ | ⟨e, _, heq⟩ | ⟨e, _, heq⟩ | ⟨e, ⟨he, hev⟩, heq⟩)
    · cases heq
    · cases heq
    · cases heq
    · injection heq with heq
      subst heq
      exact ⟨e.1, he, by simpa using hev⟩
  · rintro ⟨k, he, hev⟩
    exact Or.inr (Or.inr (Or.inr ⟨(k, reg), ⟨he, by simpa using hev⟩, rfl⟩))

end Planned

section Strings

theorem stringsHasSuffixOf_append (a suf : String) : stringsHasSuffixOf (a ++ suf) suf = true := by
  unfold stringsHasSuffixOf
  rw [List.isSuffixOf_iff_suffix]
  simp only [String.toList, String.data_append]
  exact List.suffix_append _ _

theorem dropRight_append (a suf : String) : dropRight (a ++ suf) suf.length = a := by
  unfold dropRight
  simp only [String.toList, String.data_append, List.length_append, String.length]
  simp

/-- The id of the sidecar of `parent` is recognised exactly when `parent` is desired. -/
theorem isNomadSidecar_append (parent : String) (services : GoMap AgentServiceRegistration) :
    isNomadSidecar (parent ++ "-sidecar-proxy") services = services.contains parent := by
  unfold isNomadSidecar
  have h1 : stringsHasSuffixOf (parent ++ "-sidecar-proxy") sidecarSuffix = true :=
    stringsHasSuffixOf_append parent "-sidecar-proxy"
  have h2 : dropRight (parent ++ "-sidecar-proxy") sidecarSuffix.length = parent :=
    dropRight_append parent "-sidecar-proxy"
  rw [h1, h2]
  simp

end Strings

section Maps

variable {α : Type}

theorem GoMap.WF.eq_of_mem {m : GoMap α} (h : m.WF) {k : String} {a b : α}
    (ha : (k, a) ∈ m) (hb : (k, b) ∈ m) : a = b := by
  induction m with
  | nil => cases ha
  | cons e es ih =>
    unfold GoMap.WF GoMap.keys at h
    simp only [List.map_cons, List.nodup_cons, List.mem_map, not_exists, not_and] at h
    rcases List.mem_cons.mp ha with ha | ha <;> rcases List.mem_cons.mp hb with hb | hb
    · rw [← ha] at hb
      exact (Prod.mk.inj hb).2.symm
    · exact absurd (by rw [← ha]) (h.1 _ hb)
    · exact absurd (by rw [← hb]) (h.1 _ ha)
    · exact ih h.2 ha hb

end Maps

section PlannedFilters

variable (c : ServiceClient) (ip : Bool) (svcs : GoMap AgentService) (chks : GoMap AgentCheck)

theorem planned_filter_serviceRegister :
    (plannedWrites c ip svcs chks).filter Call.isServiceRegister = regServiceCalls c svcs := by
  simp only [plannedWrites, deregServiceCalls, regServiceCalls, deregCheckCalls, regCheckCalls,
    List.filter_append, List.filter_map]
  have h1 : (Call.isServiceRegister ∘ fun e : String × AgentService =>
      Call.ServiceDeregister e.1) = fun _ => false := rfl
  have h2 : (Call.isServiceRegister ∘ fun e : String × AgentServiceRegistration =>
      Call.ServiceRegister e.2) = fun _ => true := rfl
  have h3 : (Call.isServiceRegister ∘ fun e : String × AgentCheck =>
      Call.CheckDeregister e.1) = fun _ => false := rfl
  have h4 : (Call.isServiceRegister ∘ fun e : String × AgentCheckRegistration =>
      Call.CheckRegister e.2) = fun _ => false := rfl
  rw [h1, h2, h3, h4]
  simp

theorem planned_filter_checkRegister :
    (plannedWrites c ip svcs chks).filter Call.isCheckRegister = regCheckCalls c chks := by
  simp only [plannedWrites, deregServiceCalls, regServiceCalls, deregCheckCalls, regCheckCalls,
    List.filter_append, List.filter_map]
  have h1 : (Call.isCheckRegister ∘ fun e : String × AgentService =>
      Call.ServiceDeregister e.1) = fun _ => false := rfl
  have h2 : (Call.isCheckRegister ∘ fun e : String × AgentServiceRegistration =>
      Call.ServiceRegister e.2) = fun _ => false := rfl
  have h3 : (Call.isCheckRegister ∘ fun e : String × AgentCheck =>
      Call.CheckDeregister e.1) = fun _ => false := rfl
  have h4 : (Call.isCheckRegister ∘ fun e : String × AgentCheckRegistration =>
      Call.CheckRegister e.2) = fun _ => true := rfl
  rw [h1, h2, h3, h4]
  simp

theorem planned_count_serviceDeregister (hwf : svcs.WF) (id : String) (hid : id ∈ svcs.keys)
    (hev : evictService c ip id = true) :
    (plannedWrites c ip svcs chks).count (Call.ServiceDeregister id) = 1 := by
  have hmem : Call.ServiceDeregister id ∈ deregServiceCalls c ip svcs := by
    simp only [deregServiceCalls, List.mem_map, List.mem_filter]
    simp only [GoMap.keys, List.mem_map] at hid
    obtain ⟨e, he, rfl⟩ := hid
    exact ⟨e, ⟨he, hev⟩, rfl⟩
  have hnd : (deregServiceCalls c ip svcs).Nodup := by
    have h1 : deregServiceCalls c ip svcs =
        ((svcs.filter (fun e => evictService c ip e.1)).map Prod.fst).map Call.ServiceDeregister := by
      simp [deregServiceCalls, List.map_map, Function.comp_def]
    rw [h1]
    refine List.Nodup.map (fun a b h => by injection h) ?_
    exact List.Nodup.sublist ((List.filter_sublist _).map Prod.fst) hwf
  have h0 : Call.ServiceDeregister id ∉ regServiceCalls c svcs ++
      (deregCheckCalls c ip chks ++ regCheckCalls c chks) := by
    simp [regServiceCalls, deregCheckCalls, regCheckCalls]
  unfold plannedWrites
  rw [List.count_append, List.count_eq_one_of_mem hnd hmem, List.count_eq_zero_of_not_mem h0]

end PlannedFilters

section Completion

variable {σ : Type} (api : AgentAPI σ) (c : ServiceClient) (ip : Bool)
  (svcs : GoMap AgentService) (chks : GoMap AgentCheck)

theorem deregServiceBody_err_none (hok : ∀ id s, (api.ServiceDeregister id s).1 = none)
    (e : String × AgentService) (st : σ) : (deregServiceBody api c ip e st).err = none := by
  unfold deregServiceBody
  dsimp only
  have := hok e.1 st
  rcases hd : api.ServiceDeregister e.1 st with ⟨_ | _, _⟩ <;> rw [hd] at this <;>
    split_ifs <;> simp_all

theorem regServiceBody_err_none (hok : ∀ r s, (api.ServiceRegister r s).1 = none)
    (e : String × AgentServiceRegistration) (st : σ) :
    (regServiceBody api svcs e st).err = none := by
  unfold regServiceBody
  have := hok e.2 st
  rcases hd : api.ServiceRegister e.2 st with ⟨_ | _, _⟩ <;> rw [hd] at this <;>
    split_ifs <;> simp_all

/-- The first loop's calls open the trace of the cycle. -/
theorem loop1_prefix_of_syncLoops (st : σ) :
    (forEach (deregServiceBody api c ip) svcs st).calls <+:
      (syncLoops api c ip svcs chks st).calls := by
  unfold syncLoops
  simp only [andThen_calls, List.append_assoc]
  exact List.prefix_append _ _

/-- The first two loops' calls open the trace of the cycle. -/
theorem loop12_prefix_of_syncLoops (st : σ) :
    ((forEach (deregServiceBody api c ip) svcs st).andThen
        (forEach (regServiceBody api svcs) c.services)).calls <+:
      (syncLoops api c ip svcs chks st).calls := by
  unfold syncLoops
  rw [andThen_calls (((forEach (deregServiceBody api c ip) svcs st).andThen
        (forEach (regServiceBody api svcs) c.services)).andThen _),
    andThen_calls ((forEach (deregServiceBody api c ip) svcs st).andThen
        (forEach (regServiceBody api svcs) c.services))]
  simp only [List.append_assoc]
  exact List.prefix_append _ _

end Completion

/-! ## Safety of `sync` -/

/-- C1 (restart safety). While the current time is before
`deregisterProbationExpiry`, every id `sync` passes to `ServiceDeregister` is
marked in `explicitlyDeregisteredServices` and every id it passes to
`CheckDeregister` is marked in `explicitlyDeregisteredChecks`; this holds for
every catalog client, client state, desired state and catalog contents. -/
theorem sync_restart_safety {σ : Type} (api : AgentAPI σ) (c : ServiceClient) (now : Nat) (st : σ)
    (hp : now < c.deregisterProbationExpiry) (id : String) :
    (Call.ServiceDeregister id ∈ (sync api c now st).calls →
        lookupBool c.explicitlyDeregisteredServices id = true) ∧
      (Call.CheckDeregister id ∈ (sync api c now st).calls →
        lookupBool c.explicitlyDeregisteredChecks id = true) := by
  have hip : decide (now < c.deregisterProbationExpiry) = true := by simpa using hp
  constructor
  · intro h
    rcases sync_call_cases api c now st _ h with h | h | ⟨svcs, chks, st1, st2, _, _, h⟩
    · cases h
    · cases h
    · rw [hip, mem_planned_serviceDeregister] at h
      have := h.2
      simp only [evictService, Bool.and_eq_true, Bool.or_eq_true, Bool.not_true,
        Bool.false_eq_true, false_or] at this
      exact this.1.2
  · intro h
    rcases sync_call_cases api c now st _ h with h | h | ⟨svcs, chks, st1, st2, _, _, h⟩
    · cases h
    · cases h
    · rw [hip, mem_planned_checkDeregister] at h
      obtain ⟨chk, _, this⟩ := h
      simp only [evictCheck, Bool.and_eq_true, Bool.or_eq_true, Bool.not_true,
        Bool.false_eq_true, false_or] at this
      exact this.1.2

/-- C2 (sidecar safety). If `parent` is a key of the desired service map, `sync`
never calls `ServiceDeregister` on `parent ++ "-sidecar-proxy"`, and never calls
`CheckDeregister` on a catalog check whose `ServiceID` is that id, whatever the
probation status and the explicit-deregister sets. -/
theorem sync_sidecar_safety {σ : Type} (api : AgentAPI σ) (c : ServiceClient) (now : Nat) (st : σ)
    (parent : String) (hpar : c.services.contains parent = true) :
    Call.ServiceDeregister (parent ++ "-sidecar-proxy") ∉ (sync api c now st).calls ∧
      ∀ svcs chks st1 st2, api.Services st = (.ok svcs, st1) → api.Checks st1 = (.ok chks, st2) →
        chks.WF → ∀ k chk, (k, chk) ∈ chks → chk.ServiceID = parent ++ "-sidecar-proxy" →
          Call.CheckDeregister k ∉ (sync api c now st).calls := by
  have hside : isNomadSidecar (parent ++ "-sidecar-proxy") c.services = true := by
    rw [isNomadSidecar_append]; exact hpar
  constructor
  · intro h
    rcases sync_call_cases api c now st _ h with h | h | ⟨svcs, chks, st1, st2, _, _, h⟩
    · cases h
    · cases h
    · rw [mem_planned_serviceDeregister] at h
      have := h.2
      simp [evictService, hside] at this
  · intro svcs chks st1 st2 hs hc hwf k chk hmem hsid h
    rcases sync_call_cases api c now st _ h with h | h | ⟨svcs', chks', st1', st2', hs', hc', h⟩
    · cases h
    · cases h
    · rw [hs] at hs'
      injection hs' with e1 e2
      injection e1 with e1
      subst e1 e2
      rw [hc] at hc'
      injection hc' with e1 e2
      injection e1 with e1
      subst e1 e2
      rw [mem_planned_checkDeregister] at h
      obtain ⟨chk', hmem', hev⟩ := h
      have := hwf.eq_of_mem hmem hmem'
      subst this
      simp [evictCheck, hsid, hside] at hev

/-- C3 (no eviction by server agents). When `isClientAgent` is false, `sync`
calls neither `ServiceDeregister` nor `CheckDeregister`, for any id, desired
state, catalog contents, probation status and explicit-deregister sets. -/
theorem sync_server_never_evicts {σ : Type} (api : AgentAPI σ) (c : ServiceClient) (now : Nat)
    (st : σ) (hsrv : c.isClientAgent = false) (id : String) :
    Call.ServiceDeregister id ∉ (sync api c now st).calls ∧
      Call.CheckDeregister id ∉ (sync api c now st).calls := by
  constructor
  · intro h
    rcases sync_call_cases api c now st _ h with h | h | ⟨svcs, chks, st1, st2, _, _, h⟩
    · cases h
    · cases h
    · rw [mem_planned_serviceDeregister] at h
      have := h.2
      simp [evictService, hsrv] at this
  · intro h
    rcases sync_call_cases api c now st _ h with h | h | ⟨svcs, chks, st1, st2, _, _, h⟩
    · cases h
    · cases h
    · rw [mem_planned_checkDeregister] at h
      obtain ⟨chk, _, this⟩ := h
      simp [evictCheck, hsrv] at this


/-- Witness of C1: inside probation the explicitly deregistered stray service
and check are the only entries deregistered. -/
theorem sync_restart_safety_witness :
    5 < markedClient.deregisterProbationExpiry ∧
      Call.ServiceDeregister "_nomad-task-X" ∈ (sync reliableCatalog markedClient 5 strayCatalog).calls ∧
      ((Call.ServiceDeregister "_nomad-task-X" ∈
            (sync reliableCatalog markedClient 5 strayCatalog).calls →
          lookupBool markedClient.explicitlyDeregisteredServices "_nomad-task-X" = true) ∧
        (Call.CheckDeregister "_nomad-task-X" ∈
            (sync reliableCatalog markedClient 5 strayCatalog).calls →
          lookupBool markedClient.explicitlyDeregisteredChecks "_nomad-task-X" = true)) :=
  ⟨by decide, by decide,
    sync_restart_safety reliableCatalog markedClient 5 strayCatalog (by decide) "_nomad-task-X"⟩

/-- Witness of C2: the sidecar of the desired service `_nomad-task-a` and the
sidecar's check survive a cycle outside probation. -/
theorem sync_sidecar_safety_witness :
    connectClient.services.contains "_nomad-task-a" = true ∧
      (Call.ServiceDeregister ("_nomad-task-a" ++ "-sidecar-proxy") ∉
          (sync reliableCatalog connectClient 100 connectCatalog).calls ∧
        ∀ svcs chks st1 st2, reliableCatalog.Services connectCatalog = (.ok svcs, st1) →
          reliableCatalog.Checks st1 = (.ok chks, st2) → chks.WF →
          ∀ k chk, (k, chk) ∈ chks → chk.ServiceID = "_nomad-task-a" ++ "-sidecar-proxy" →
            Call.CheckDeregister k ∉ (sync reliableCatalog connectClient 100 connectCatalog).calls) :=
  ⟨by decide, sync_sidecar_safety reliableCatalog connectClient 100 connectCatalog
    "_nomad-task-a" (by decide)⟩

/-- Witness of C3: a server agent past probation leaves the stray entries alone. -/
theorem sync_server_never_evicts_witness :
    serverClient.isClientAgent = false ∧
      (Call.ServiceDeregister "_nomad-task-X" ∉
          (sync reliableCatalog serverClient 100 strayCatalog).calls ∧
        Call.CheckDeregister "_nomad-task-X" ∉
          (sync reliableCatalog serverClient 100 strayCatalog).calls) :=
  ⟨by decide, sync_server_never_evicts reliableCatalog serverClient 100 strayCatalog
    (by decide) "_nomad-task-X"⟩

/-! ## What `sync` writes -/

/-- C6 (stray eviction after probation). On a client agent, when the current
time is not before `deregisterProbationExpiry`, both catalog reads succeed and
no `ServiceDeregister` call fails, `sync` calls `ServiceDeregister` exactly once
for every catalog service id that is not in the desired store, is a managed id
and is not a sidecar of a desired service, and never for any other id. -/
theorem sync_evicts_strays_after_probation {σ : Type} (api : AgentAPI σ) (c : ServiceClient)
    (now : Nat) (st st1 st2 : σ) (svcs : GoMap AgentService) (chks : GoMap AgentCheck)
    (hcl : c.isClientAgent = true) (hnp : ¬ now < c.deregisterProbationExpiry)
    (hs : api.Services st = (.ok svcs, st1)) (hc : api.Checks st1 = (.ok chks, st2))
    (hwf : svcs.WF) (hok : ∀ id s, (api.ServiceDeregister id s).1 = none) (id : String) :
    (sync api c now st).calls.count (Call.ServiceDeregister id) =
      if id ∈ svcs.keys ∧ c.services.contains id = false ∧ isNomadService id = true ∧
          isNomadSidecar id c.services = false then 1 else 0 := by
  have hip : decide (now < c.deregisterProbationExpiry) = false := by simpa using hnp
  rw [sync_of_reads api c now st hs hc, hip]
  simp only [List.count_append]
  have hr : List.count (Call.ServiceDeregister id) [Call.Services, Call.Checks] = 0 := by
    simp
  rw [hr, Nat.zero_add]
  have hpre := syncLoops_initial api c false svcs chks st2
  split_ifs with hcond
  · obtain ⟨hid, hnd, hm, hns⟩ := hcond
    have hev : evictService c false id = true := by
      simp [evictService, hnd, hm, hcl, hns]
    have hle := hpre.sublist.count_le (Call.ServiceDeregister id)
    rw [planned_count_serviceDeregister c false svcs chks hwf id hid hev] at hle
    have h1ok : (forEach (deregServiceBody api c false) svcs st2).err = none :=
      forEach_err_none _ _ (fun e _ s => deregServiceBody_err_none api c false hok e s) st2
    have h1 := loop1_prefix_of_syncLoops api c false svcs chks st2
    rw [loop1_ok api c false svcs st2 h1ok] at h1
    have hge := h1.sublist.count_le (Call.ServiceDeregister id)
    have hmem : Call.ServiceDeregister id ∈ deregServiceCalls c false svcs := by
      simp only [deregServiceCalls, List.mem_map, List.mem_filter]
      simp only [GoMap.keys, List.mem_map] at hid
      obtain ⟨e, he, rfl⟩ := hid
      exact ⟨e, ⟨he, hev⟩, rfl⟩
    have hpos := List.count_pos_iff.mpr hmem
    omega
  · apply List.count_eq_zero_of_not_mem
    intro hmem
    have := (mem_planned_serviceDeregister c false svcs chks id).mp (hpre.subset hmem)
    apply hcond
    have hev := this.2
    simp only [evictService, Bool.and_eq_true, Bool.not_eq_true', Bool.or_eq_true] at hev
    exact ⟨this.1, hev.1.1.1.1, hev.1.1.1.2, hev.2⟩

/-- Witness and example of C6: with an empty desired store and the catalog
service `_nomad-task-X`, a cycle after probation deregisters that id once. -/
theorem sync_evicts_strays_after_probation_witness :
    (sync reliableCatalog freshClient 100 strayCatalog).calls.count
        (Call.ServiceDeregister "_nomad-task-X") = 1 :=
  sync_evicts_strays_after_probation reliableCatalog freshClient 100 strayCatalog strayCatalog
    strayCatalog strayCatalog.services strayCatalog.checks (by decide) (by decide) rfl rfl
    (by decide) (fun _ _ => rfl) "_nomad-task-X"

/-- C7 (service registration rule). When both catalog reads succeed, the
`ServiceRegister` calls of `sync` are, in iteration order, an initial part of
the desired registrations whose id is absent from the catalog snapshot or for
which `agentServiceUpdateRequired` holds against the catalog entry; they are
all of them when the cycle returns no error, and also when no
`ServiceDeregister` and no `ServiceRegister` call fails.  With the desired map
keyed by id, no id is registered twice. -/
theorem sync_service_register_rule {σ : Type} (api : AgentAPI σ) (c : ServiceClient)
    (now : Nat) (st st1 st2 : σ) (svcs : GoMap AgentService) (chks : GoMap AgentCheck)
    (hs : api.Services st = (.ok svcs, st1)) (hc : api.Checks st1 = (.ok chks, st2)) :
    ((sync api c now st).calls.filter Call.isServiceRegister <+:
        (c.services.filter
          (fun e => (svcs.get? e.1).all (fun svc => agentServiceUpdateRequired e.2 svc))).map
          (fun e => Call.ServiceRegister e.2)) ∧
      ((sync api c now st).err = none →
        (sync api c now st).calls.filter Call.isServiceRegister =
          (c.services.filter
            (fun e => (svcs.get? e.1).all (fun svc => agentServiceUpdateRequired e.2 svc))).map
            (fun e => Call.ServiceRegister e.2)) ∧
      ((∀ id s, (api.ServiceDeregister id s).1 = none) →
        (∀ r s, (api.ServiceRegister r s).1 = none) →
        (sync api c now st).calls.filter Call.isServiceRegister =
          (c.services.filter
            (fun e => (svcs.get? e.1).all (fun svc => agentServiceUpdateRequired e.2 svc))).map
            (fun e => Call.ServiceRegister e.2)) ∧
      (c.services.WF → ServicesKeyedByID c.services →
        ((sync api c now st).calls.filterMap Call.registeredServiceID).Nodup) := by
  have hfun : (fun e : String × AgentServiceRegistration =>
      (svcs.get? e.1).all (fun svc => agentServiceUpdateRequired e.2 svc)) =
      serviceNeedsRegister svcs := by
    funext e
    unfold serviceNeedsRegister
    cases svcs.get? e.1 <;> rfl
  rw [hfun]
  change _ <+: regServiceCalls c svcs ∧ (_ → _ = regServiceCalls c svcs) ∧
    (_ → _ → _ = regServiceCalls c svcs) ∧ _
  rw [sync_of_reads api c now st hs hc]
  simp only [List.filter_append, List.filterMap_append]
  have hr : List.filter Call.isServiceRegister [Call.Services, Call.Checks] = [] := rfl
  have hr2 : List.filterMap Call.registeredServiceID [Call.Services, Call.Checks] = [] := rfl
  rw [hr, hr2, List.nil_append, List.nil_append]
  generalize hip : decide (now < c.deregisterProbationExpiry) = ip
  have hpre := syncLoops_initial api c ip svcs chks st2
  have hfp := hpre.filter Call.isServiceRegister
  rw [planned_filter_serviceRegister] at hfp
  refine ⟨hfp, ?_, ?_, ?_⟩
  · intro herr
    rw [syncLoops_ok api c ip svcs chks st2 herr, planned_filter_serviceRegister]
  · intro hd hr
    have h1ok : (forEach (deregServiceBody api c ip) svcs st2).err = none :=
      forEach_err_none _ _ (fun e _ s => deregServiceBody_err_none api c ip hd e s) st2
    have h12ok : ((forEach (deregServiceBody api c ip) svcs st2).andThen
        (forEach (regServiceBody api svcs) c.services)).err = none := by
      rw [andThen_err_none]
      exact ⟨h1ok, forEach_err_none _ _
        (fun e _ s => regServiceBody_err_none api svcs hr e s) _⟩
    have h12 := loop12_prefix_of_syncLoops api c ip svcs chks st2
    rw [andThen_ok _ _ _ _ (loop1_ok api c ip svcs st2) (loop2_ok api c svcs) h12ok] at h12
    have h12f := h12.filter Call.isServiceRegister
    have hd1 : List.filter Call.isServiceRegister (deregServiceCalls c ip svcs) = [] := by
      simp only [deregServiceCalls, List.filter_map]
      have h1 : (Call.isServiceRegister ∘ fun e : String × AgentService =>
        Call.ServiceDeregister e.1) = fun _ => false := rfl
      rw [h1]; simp
    have hr1 : List.filter Call.isServiceRegister (regServiceCalls c svcs) =
        regServiceCalls c svcs := by
      simp only [regServiceCalls, List.filter_map]
      have h2 : (Call.isServiceRegister ∘ fun e : String × AgentServiceRegistration =>
        Call.ServiceRegister e.2) = fun _ => true := rfl
      rw [h2]; simp
    rw [List.filter_append, hd1, hr1, List.nil_append] at h12f
    exact hfp.eq_of_length (Nat.le_antisymm hfp.length_le h12f.length_le)
  · intro hwf hkeys
    have hfm : List.filterMap Call.registeredServiceID
        (syncLoops api c ip svcs chks st2).calls =
        List.filterMap Call.registeredServiceID
          (List.filter Call.isServiceRegister (syncLoops api c ip svcs chks st2).calls) := by
      induction (syncLoops api c ip svcs chks st2).calls with
      | nil => rfl
      | cons x xs ih =>
        cases x <;> simp [List.filterMap_cons, List.filter_cons, Call.registeredServiceID,
          Call.isServiceRegister, ih]
    rw [hfm]
    have h2 := (hfp.filterMap Call.registeredServiceID).sublist
    refine List.Nodup.sublist h2 ?_
    have h3 : List.filterMap Call.registeredServiceID (regServiceCalls c svcs) =
        (c.services.filter (serviceNeedsRegister svcs)).map Prod.fst := by
      simp only [regServiceCalls, List.filterMap_map]
      rw [← List.filterMap_eq_map]
      apply List.filterMap_congr
      intro e he
      have := hkeys e (List.mem_of_mem_filter he)
      simp [Call.registeredServiceID, this]
    rw [h3]
    exact List.Nodup.sublist ((List.filter_sublist _).map Prod.fst) hwf

/-- Witness of C7: of two desired services, the one the catalog holds
unchanged gets no write and the missing one is registered once. -/
theorem sync_service_register_rule_witness :
    (sync reliableCatalog updateClient 100 connectCatalog).calls.filter Call.isServiceRegister =
      [Call.ServiceRegister { ID := "_nomad-task-b", Name := "web", Port := 8080 }] :=
  ((sync_service_register_rule reliableCatalog updateClient 100 connectCatalog connectCatalog
    connectCatalog connectCatalog.services connectCatalog.checks rfl rfl).2.1
      (by decide)).trans (by decide)

section CompletionChecks

variable {σ : Type} (api : AgentAPI σ) (c : ServiceClient) (ip : Bool)
  (svcs : GoMap AgentService) (chks : GoMap AgentCheck)

theorem deregCheckBody_err_none (hok : ∀ id s, (api.CheckDeregister id s).1 = none)
    (e : String × AgentCheck) (st : σ) : (deregCheckBody api c ip e st).err = none := by
  unfold deregCheckBody
  dsimp only
  have := hok e.1 st
  rcases hd : api.CheckDeregister e.1 st with ⟨_ | _, _⟩ <;> rw [hd] at this <;>
    split_ifs <;> simp_all

theorem regCheckBody_err_none (hok : ∀ r s, (api.CheckRegister r s).1 = none)
    (e : String × AgentCheckRegistration) (st : σ) :
    (regCheckBody api chks e st).err = none := by
  unfold regCheckBody
  have := hok e.2 st
  rcases hd : api.CheckRegister e.2 st with ⟨_ | _, _⟩ <;> rw [hd] at this <;>
    split_ifs <;> simp_all

/-- A cycle none of whose writes can fail returns no error. -/
theorem syncLoops_err_none (hsd : ∀ id s, (api.ServiceDeregister id s).1 = none)
    (hsr : ∀ r s, (api.ServiceRegister r s).1 = none)
    (hcd : ∀ id s, (api.CheckDeregister id s).1 = none)
    (hcr : ∀ r s, (api.CheckRegister r s).1 = none) (st : σ) :
    (syncLoops api c ip svcs chks st).err = none := by
  unfold syncLoops
  simp only [andThen_err_none]
  exact ⟨⟨⟨forEach_err_none _ _ (fun e _ s => deregServiceBody_err_none api c ip hsd e s) _,
    forEach_err_none _ _ (fun e _ s => regServiceBody_err_none api svcs hsr e s) _⟩,
    forEach_err_none _ _ (fun e _ s => deregCheckBody_err_none api c ip hcd e s) _⟩,
    forEach_err_none _ _ (fun e _ s => regCheckBody_err_none api chks hcr e s) _⟩

end CompletionChecks

/-- C8 (check registration rule). When both catalog reads succeed, the
`CheckRegister` calls of `sync` are, in iteration order, an initial part of the
desired checks whose id is absent from the catalog checks snapshot; they are
all of them when the cycle returns no error, in particular when no write
fails.  A desired check whose id is present in the catalog is never
re-registered, whatever the catalog entry holds. -/
theorem sync_check_register_rule {σ : Type} (api : AgentAPI σ) (c : ServiceClient)
    (now : Nat) (st st1 st2 : σ) (svcs : GoMap AgentService) (chks : GoMap AgentCheck)
    (hs : api.Services st = (.ok svcs, st1)) (hc : api.Checks st1 = (.ok chks, st2)) :
    ((sync api c now st).calls.filter Call.isCheckRegister <+:
        (c.checks.filter (fun e => !chks.contains e.1)).map (fun e => Call.CheckRegister e.2)) ∧
      ((sync api c now st).err = none →
        (sync api c now st).calls.filter Call.isCheckRegister =
          (c.checks.filter (fun e => !chks.contains e.1)).map (fun e => Call.CheckRegister e.2)) ∧
      ((∀ id s, (api.ServiceDeregister id s).1 = none) →
        (∀ r s, (api.ServiceRegister r s).1 = none) →
        (∀ id s, (api.CheckDeregister id s).1 = none) →
        (∀ r s, (api.CheckRegister r s).1 = none) →
        (sync api c now st).calls.filter Call.isCheckRegister =
          (c.checks.filter (fun e => !chks.contains e.1)).map (fun e => Call.CheckRegister e.2)) ∧
      (ChecksKeyedByID c.checks → ∀ k reg, (k, reg) ∈ c.checks → chks.contains k = true →
        Call.CheckRegister reg ∉ (sync api c now st).calls) := by
  change _ <+: regCheckCalls c chks ∧ (_ → _ = regCheckCalls c chks) ∧
    (_ → _ → _ → _ → _ = regCheckCalls c chks) ∧ _
  rw [sync_of_reads api c now st hs hc]
  simp only [List.filter_append]
  have hr : List.filter Call.isCheckRegister [Call.Services, Call.Checks] = [] := rfl
  rw [hr, List.nil_append]
  generalize hip : decide (now < c.deregisterProbationExpiry) = ip
  have hpre := syncLoops_initial api c ip svcs chks st2
  have hfp := hpre.filter Call.isCheckRegister
  rw [planned_filter_checkRegister] at hfp
  have hall : (syncLoops api c ip svcs chks st2).err = none →
      List.filter Call.isCheckRegister (syncLoops api c ip svcs chks st2).calls =
        regCheckCalls c chks := by
    intro herr
    rw [syncLoops_ok api c ip svcs chks st2 herr, planned_filter_checkRegister]
  refine ⟨hfp, hall, ?_, ?_⟩
  · intro hsd hsr hcd hcr
    exact hall (syncLoops_err_none api c ip svcs chks hsd hsr hcd hcr st2)
  · intro hkeys k reg hmem hpres hcall
    simp only [List.mem_append, List.mem_cons, List.mem_singleton, List.not_mem_nil,
      or_false] at hcall
    rcases hcall with (h | h) | h
    · cases h
    · cases h
    · have := (mem_planned_checkRegister c ip svcs chks reg).mp (hpre.subset h)
      obtain ⟨k2, hmem2, habs⟩ := this
      have e1 := hkeys _ hmem
      have e2 := hkeys _ hmem2
      simp only at e1 e2
      rw [← e2, e1, hpres] at habs
      cases habs

/-- Witness of C8: the desired check the catalog lacks is registered once; the
one it holds, with different content, is left alone. -/
theorem sync_check_register_rule_witness :
    (sync reliableCatalog updateClient 100 connectCatalog).calls.filter Call.isCheckRegister =
      [Call.CheckRegister { ID := "_nomad-check-b", ServiceID := "_nomad-task-b" }] :=
  ((sync_check_register_rule reliableCatalog updateClient 100 connectCatalog connectCatalog
    connectCatalog connectCatalog.services connectCatalog.checks rfl rfl).2.1
      (by decide)).trans (by decide)

/-! ## The update predicate -/

/-- Counterexample to C9 as stated: `regEmptyTags` and `svcNilTags` agree on
kind, id, port, address and name and their tag sequences have the same (no)
elements, yet `agentServiceUpdateRequired` returns true, because
`reflect.DeepEqual` tells a nil slice from an empty one. -/
theorem agentServiceUpdateRequired_nil_vs_empty :
    agentServiceUpdateRequired regEmptyTags svcNilTags = true ∧
      regEmptyTags.Kind = svcNilTags.Kind ∧ regEmptyTags.ID = svcNilTags.ID ∧
      regEmptyTags.Port = svcNilTags.Port ∧ regEmptyTags.Address = svcNilTags.Address ∧
      regEmptyTags.Name = svcNilTags.Service ∧
      tagElements regEmptyTags.Tags = tagElements svcNilTags.Tags := by
  decide

/-- C9, amended. `agentServiceUpdateRequired reg svc` is false exactly when
kind, id, port, address and name are equal and the tag lists are deep-equal:
both absent, or both present with the same elements in the same order.  In
particular two present tag lists that are different orderings of the same tags
make it true. -/
theorem agentServiceUpdateRequired_iff (reg : AgentServiceRegistration) (svc : AgentService) :
    (agentServiceUpdateRequired reg svc = false ↔
      reg.Kind = svc.Kind ∧ reg.ID = svc.ID ∧ reg.Port = svc.Port ∧
        reg.Address = svc.Address ∧ reg.Name = svc.Service ∧
        ((reg.Tags = none ∧ svc.Tags = none) ∨
          ∃ t, reg.Tags = some t ∧ svc.Tags = some t)) ∧
      (∀ t1 t2, reg.Tags = some t1 → svc.Tags = some t2 → t1.Perm t2 → t1 ≠ t2 →
        agentServiceUpdateRequired reg svc = true) := by
  have htags : deepEqualTags reg.Tags svc.Tags = true ↔
      ((reg.Tags = none ∧ svc.Tags = none) ∨ ∃ t, reg.Tags = some t ∧ svc.Tags = some t) := by
    unfold deepEqualTags
    rw [beq_iff_eq]
    constructor
    · intro h
      cases hr : reg.Tags with
      | none => left; exact ⟨rfl, by rw [← h, hr]⟩
      | some t => right; exact ⟨t, rfl, by rw [← h, hr]⟩
    · rintro (⟨h1, h2⟩ | ⟨t, h1, h2⟩) <;> rw [h1, h2]
  constructor
  · unfold agentServiceUpdateRequired
    rw [Bool.not_eq_false', Bool.and_eq_true, Bool.and_eq_true, Bool.and_eq_true,
      Bool.and_eq_true, Bool.and_eq_true, htags]
    simp only [beq_iff_eq, and_assoc]
  · intro t1 t2 h1 h2 _ hne
    unfold agentServiceUpdateRequired deepEqualTags
    have : (reg.Tags == svc.Tags) = false := by
      rw [h1, h2]
      simpa using hne
    rw [this]
    simp

/-- Witness of the amended C9: the tags `a, b` against `b, a`. -/
theorem agentServiceUpdateRequired_iff_witness :
    agentServiceUpdateRequired
      { ID := "_nomad-task-a", Name := "db", Tags := some ["a", "b"] }
      { ID := "_nomad-task-a", Service := "db", Tags := some ["b", "a"] } = true :=
  (agentServiceUpdateRequired_iff
    { ID := "_nomad-task-a", Name := "db", Tags := some ["a", "b"] }
    { ID := "_nomad-task-a", Service := "db", Tags := some ["b", "a"] }).2
    ["a", "b"] ["b", "a"] rfl rfl (List.Perm.swap "b" "a" []) (by decide)

/-! ## Lemmas on Go maps -/

section MapLemmas

variable {α : Type}

theorem GoMap.get?_nil (k : String) : GoMap.get? ([] : GoMap α) k = none := rfl

theorem GoMap.get?_cons (a : String) (v : α) (m : GoMap α) (k : String) :
    GoMap.get? ((a, v) :: m) k = if k = a then some v else GoMap.get? m k := by
  unfold GoMap.get?
  rw [List.lookup_cons]
  by_cases h : k = a
  · subst h; simp
  · have : (k == a) = false := by simpa using h
    rw [this]; simp [h]

theorem GoMap.get?_delete (m : GoMap α) (k k2 : String) :
    (m.delete k).get? k2 = if k2 = k then none else m.get? k2 := by
  induction m with
  | nil => simp [GoMap.delete, GoMap.get?_nil]
  | cons e es ih =>
    obtain ⟨a, v⟩ := e
    unfold GoMap.delete at ih ⊢
    rw [List.filter_cons]
    by_cases hak : a = k
    · subst hak
      simp only [bne_self_eq_false, Bool.false_eq_true, if_false]
      rw [ih, GoMap.get?_cons]
      by_cases h2 : k2 = a <;> simp [h2]
    · have : (a != k) = true := by simpa using hak
      simp only [this, if_true]
      rw [GoMap.get?_cons, GoMap.get?_cons, ih]
      by_cases h2 : k2 = a
      · subst h2; simp [hak]
      · simp [h2]

theorem GoMap.get?_set (m : GoMap α) (k : String) (v : α) (k2 : String) :
    (m.set k v).get? k2 = if k2 = k then some v else m.get? k2 := by
  unfold GoMap.set
  rw [GoMap.get?_cons, GoMap.get?_delete]
  by_cases h : k2 = k <;> simp [h]

theorem GoMap.keys_delete_sublist (m : GoMap α) (k : String) :
    (m.delete k).keys.Sublist m.keys :=
  (List.filter_sublist _).map Prod.fst

theorem GoMap.not_mem_keys_delete (m : GoMap α) (k : String) : k ∉ (m.delete k).keys := by
  unfold GoMap.delete GoMap.keys
  simp

theorem GoMap.WF.delete {m : GoMap α} (h : m.WF) (k : String) : (m.delete k).WF :=
  List.Nodup.sublist (GoMap.keys_delete_sublist m k) h

theorem GoMap.WF.set {m : GoMap α} (h : m.WF) (k : String) (v : α) : (m.set k v).WF := by
  unfold GoMap.WF GoMap.set GoMap.keys
  rw [List.map_cons, List.nodup_cons]
  exact ⟨GoMap.not_mem_keys_delete m k, h.delete k⟩

theorem GoMap.mem_delete {m : GoMap α} {k : String} {e : String × α} :
    e ∈ m.delete k ↔ e ∈ m ∧ e.1 ≠ k := by
  unfold GoMap.delete
  simp [List.mem_filter]

theorem GoMap.get?_eq_some_of_mem {m : GoMap α} (h : m.WF) {k : String} {v : α}
    (hm : (k, v) ∈ m) : m.get? k = some v := by
  induction m with
  | nil => cases hm
  | cons e es ih =>
    obtain ⟨a, w⟩ := e
    rw [GoMap.get?_cons]
    unfold GoMap.WF GoMap.keys at h
    simp only [List.map_cons, List.nodup_cons, List.mem_map, not_exists, not_and] at h
    rcases List.mem_cons.mp hm with hm | hm
    · injection hm with h1 h2
      subst h1 h2
      simp
    · have hne : k ≠ a := fun hka => h.1 (k, v) hm hka
      simp only [hne, if_false]
      exact ih h.2 hm

theorem GoMap.mem_of_get?_eq_some {m : GoMap α} {k : String} {v : α}
    (h : m.get? k = some v) : (k, v) ∈ m := by
  induction m with
  | nil => cases h
  | cons e es ih =>
    obtain ⟨a, w⟩ := e
    rw [GoMap.get?_cons] at h
    by_cases hka : k = a
    · subst hka
      simp only [if_true] at h
      injection h with h
      subst h
      exact List.mem_cons_self _ _
    · simp only [hka, if_false] at h
      exact List.mem_cons_of_mem _ (ih h)

theorem GoMap.contains_iff_mem_keys (m : GoMap α) (k : String) :
    m.contains k = true ↔ k ∈ m.keys := by
  induction m with
  | nil => simp [GoMap.contains, GoMap.get?_nil, GoMap.keys]
  | cons e es ih =>
    obtain ⟨a, w⟩ := e
    unfold GoMap.contains at ih ⊢
    rw [GoMap.get?_cons]
    by_cases hka : k = a
    · subst hka; simp [GoMap.keys]
    · simp only [hka, if_false]
      rw [ih]
      simp [GoMap.keys, hka]

end MapLemmas

/-! ## `merge` -/

section Merge

theorem mergeRegServices_get? (l : List AgentServiceRegistration)
    (m : GoMap AgentServiceRegistration) (id : String) :
    (mergeRegServices m l).get? id =
      ((l.reverse.find? (fun r => r.ID == id)).orElse (fun _ => m.get? id)) := by
  induction l generalizing m with
  | nil => simp [mergeRegServices]
  | cons s rest ih =>
    unfold mergeRegServices
    rw [ih, List.reverse_cons, List.find?_append, GoMap.get?_set]
    cases hf : List.find? (fun r => r.ID == id) rest.reverse with
    | some r => simp
    | none =>
      by_cases h : id = s.ID
      · subst h; simp
      · have : (s.ID == id) = false := by simpa using fun e => h e.symm
        simp [List.find?_cons, this, h]

theorem mergeRegChecks_get? (l : List AgentCheckRegistration)
    (m : GoMap AgentCheckRegistration) (id : String) :
    (mergeRegChecks m l).get? id =
      ((l.reverse.find? (fun r => r.ID == id)).orElse (fun _ => m.get? id)) := by
  induction l generalizing m with
  | nil => simp [mergeRegChecks]
  | cons s rest ih =>
    unfold mergeRegChecks
    rw [ih, List.reverse_cons, List.find?_append, GoMap.get?_set]
    cases hf : List.find? (fun r => r.ID == id) rest.reverse with
    | some r => simp
    | none =>
      by_cases h : id = s.ID
      · subst h; simp
      · have : (s.ID == id) = false := by simpa using fun e => h e.symm
        simp [List.find?_cons, this, h]

theorem mergeDereg_get? {α : Type} (l : List String) (m : GoMap α) (ex : GoMap Bool)
    (id : String) :
    (mergeDereg m ex l).1.get? id = (if id ∈ l then none else m.get? id) ∧
      lookupBool (mergeDereg m ex l).2 id = (if id ∈ l then true else lookupBool ex id) := by
  induction l generalizing m ex with
  | nil => simp [mergeDereg]
  | cons k rest ih =>
    unfold mergeDereg
    obtain ⟨h1, h2⟩ := ih (m.delete k) (ex.set k true)
    rw [h1, h2]
    unfold lookupBool
    rw [GoMap.get?_delete, GoMap.get?_set]
    by_cases hr : id ∈ rest
    · simp [hr]
    · by_cases hk : id = k
      · simp [hk]
      · simp [hr, hk]

end Merge

/-- C10 (merge semantics). After `merge c ops`, for every id: if the id is in
`deregServices` it is absent from the desired services and marked in
`explicitlyDeregisteredServices` (whether or not it was ever desired, and also
when the same batch registers it); otherwise it maps to the last registration
of the batch carrying that `ID`, or keeps its previous entry when the batch has
none, and its explicit-deregister status is unchanged.  The same holds for
checks with `regChecks`, `deregChecks` and `explicitlyDeregisteredChecks`. -/
theorem merge_semantics (c : ServiceClient) (ops : operations) (id : String) :
    (merge c ops).services.get? id =
        (if id ∈ ops.deregServices then none
         else (ops.regServices.reverse.find? (fun r => r.ID == id)).orElse
           (fun _ => c.services.get? id)) ∧
      lookupBool (merge c ops).explicitlyDeregisteredServices id =
        (if id ∈ ops.deregServices then true
         else lookupBool c.explicitlyDeregisteredServices id) ∧
      (merge c ops).checks.get? id =
        (if id ∈ ops.deregChecks then none
         else (ops.regChecks.reverse.find? (fun r => r.ID == id)).orElse
           (fun _ => c.checks.get? id)) ∧
      lookupBool (merge c ops).explicitlyDeregisteredChecks id =
        (if id ∈ ops.deregChecks then true
         else lookupBool c.explicitlyDeregisteredChecks id) := by
  unfold merge
  simp only
  have hs := mergeDereg_get? ops.deregServices (mergeRegServices c.services ops.regServices)
    c.explicitlyDeregisteredServices id
  have hk := mergeDereg_get? ops.deregChecks (mergeRegChecks c.checks ops.regChecks)
    c.explicitlyDeregisteredChecks id
  rw [mergeRegServices_get?] at hs
  rw [mergeRegChecks_get?] at hk
  exact ⟨hs.1, hs.2, hk.1, hk.2⟩

/-! ## One cycle against a catalog that never fails -/

section Reliable

variable (c : ServiceClient) (ip : Bool)

theorem deregServiceBody_reliable (e : String × AgentService) (s : Catalog) :
    (deregServiceBody reliableCatalog c ip e s).err = none ∧
      (deregServiceBody reliableCatalog c ip e s).st =
        (if evictService c ip e.1 then { s with services := s.services.delete e.1 } else s) := by
  unfold deregServiceBody evictService reliableCatalog mapCatalog
  dsimp only
  split_ifs <;> simp_all

theorem regServiceBody_reliable (svcs : GoMap AgentService)
    (e : String × AgentServiceRegistration) (s : Catalog) :
    (regServiceBody reliableCatalog svcs e s).err = none ∧
      (regServiceBody reliableCatalog svcs e s).st =
        (if serviceNeedsRegister svcs e then
          { s with services := s.services.set e.2.ID (toAgentService e.2) } else s) := by
  unfold regServiceBody reliableCatalog mapCatalog
  dsimp only
  split_ifs <;> simp_all

theorem deregCheckBody_reliable (e : String × AgentCheck) (s : Catalog) :
    (deregCheckBody reliableCatalog c ip e s).err = none ∧
      (deregCheckBody reliableCatalog c ip e s).st =
        (if evictCheck c ip e then { s with checks := s.checks.delete e.1 } else s) := by
  unfold deregCheckBody evictCheck reliableCatalog mapCatalog
  dsimp only
  split_ifs <;> simp_all

theorem regCheckBody_reliable (chks : GoMap AgentCheck)
    (e : String × AgentCheckRegistration) (s : Catalog) :
    (regCheckBody reliableCatalog chks e s).err = none ∧
      (regCheckBody reliableCatalog chks e s).st =
        (if chks.contains e.1 then s
         else { s with checks := s.checks.set e.2.ID (toAgentCheck e.2) }) := by
  unfold regCheckBody reliableCatalog mapCatalog
  dsimp only
  split_ifs <;> simp_all

end Reliable

section ReliableLoops

variable (c : ServiceClient) (ip : Bool)

theorem forEach_cons_of_ok {σ α : Type} (body : α → σ → Step σ) (x : α) (xs : List α) (s : σ)
    (h : (body x s).err = none) :
    (forEach body (x :: xs) s).err = (forEach body xs (body x s).st).err ∧
      (forEach body (x :: xs) s).st = (forEach body xs (body x s).st).st := by
  rcases hbx : body x s with ⟨e, st1, cs⟩
  rw [hbx] at h
  simp only at h
  subst h
  simp only [forEach, hbx, and_self]

theorem loop1_reliable (L : GoMap AgentService) (s : Catalog) :
    (forEach (deregServiceBody reliableCatalog c ip) L s).err = none ∧
      (forEach (deregServiceBody reliableCatalog c ip) L s).st.checks = s.checks ∧
      ∀ k, (forEach (deregServiceBody reliableCatalog c ip) L s).st.services.get? k =
        if L.any (fun e => e.1 == k && evictService c ip e.1) then none
        else s.services.get? k := by
  induction L generalizing s with
  | nil => simp [forEach]
  | cons e es ih =>
    obtain ⟨hb1, hb2⟩ := deregServiceBody_reliable c ip e s
    obtain ⟨h1, h2⟩ := forEach_cons_of_ok _ e es s hb1
    rw [h1, h2, hb2]
    by_cases hev : evictService c ip e.1 = true
    · rw [if_pos hev]
      obtain ⟨i1, i2, i3⟩ := ih { s with services := s.services.delete e.1 }
      refine ⟨i1, i2, fun k => ?_⟩
      rw [i3, List.any_cons]
      simp only [GoMap.get?_delete, hev, Bool.and_true]
      by_cases hk : k = e.1
      · subst hk
        simp only [beq_self_eq_true, Bool.true_or, if_true, ite_self]
      · have : (e.1 == k) = false := by simpa using fun h => hk h.symm
        simp only [hk, if_false, this, Bool.false_or]
    · rw [if_neg hev]
      obtain ⟨i1, i2, i3⟩ := ih s
      refine ⟨i1, i2, fun k => ?_⟩
      have hev2 : evictService c ip e.1 = false := by simpa using hev
      rw [i3, List.any_cons, hev2, Bool.and_false, Bool.false_or]

theorem loop2_reliable (svcs : GoMap AgentService) (D : GoMap AgentServiceRegistration)
    (s : Catalog) :
    (forEach (regServiceBody reliableCatalog svcs) D s).err = none ∧
      (forEach (regServiceBody reliableCatalog svcs) D s).st.checks = s.checks ∧
      ∀ k, (forEach (regServiceBody reliableCatalog svcs) D s).st.services.get? k =
        ((D.reverse.find? (fun e => serviceNeedsRegister svcs e && e.2.ID == k)).map
          (fun e => toAgentService e.2)).orElse (fun _ => s.services.get? k) := by
  induction D generalizing s with
  | nil => simp [forEach]
  | cons e es ih =>
    obtain ⟨hb1, hb2⟩ := regServiceBody_reliable svcs e s
    obtain ⟨h1, h2⟩ := forEach_cons_of_ok _ e es s hb1
    rw [h1, h2, hb2]
    by_cases hn : serviceNeedsRegister svcs e = true
    · rw [if_pos hn]
      obtain ⟨i1, i2, i3⟩ := ih { s with services := s.services.set e.2.ID (toAgentService e.2) }
      refine ⟨i1, i2, fun k => ?_⟩
      rw [i3, List.reverse_cons, List.find?_append]
      simp only [GoMap.get?_set]
      cases hf : List.find? (fun e => serviceNeedsRegister svcs e && e.2.ID == k) es.reverse with
      | some r => simp
      | none =>
        by_cases hk : k = e.2.ID
        · subst hk; simp [hn]
        · have : (e.2.ID == k) = false := by simpa using fun h => hk h.symm
          simp [this, hk]
    · rw [if_neg hn]
      obtain ⟨i1, i2, i3⟩ := ih s
      refine ⟨i1, i2, fun k => ?_⟩
      have hn2 : serviceNeedsRegister svcs e = false := by simpa using hn
      rw [i3, List.reverse_cons, List.find?_append]
      cases hf : List.find? (fun e => serviceNeedsRegister svcs e && e.2.ID == k) es.reverse with
      | some r => simp
      | none => simp [hn2]

theorem loop3_reliable (L : GoMap AgentCheck) (s : Catalog) :
    (forEach (deregCheckBody reliableCatalog c ip) L s).err = none ∧
      (forEach (deregCheckBody reliableCatalog c ip) L s).st.services = s.services ∧
      ∀ k, (forEach (deregCheckBody reliableCatalog c ip) L s).st.checks.get? k =
        if L.any (fun e => e.1 == k && evictCheck c ip e) then none
        else s.checks.get? k := by
  induction L generalizing s with
  | nil => simp [forEach]
  | cons e es ih =>
    obtain ⟨hb1, hb2⟩ := deregCheckBody_reliable c ip e s
    obtain ⟨h1, h2⟩ := forEach_cons_of_ok _ e es s hb1
    rw [h1, h2, hb2]
    by_cases hev : evictCheck c ip e = true
    · rw [if_pos hev]
      obtain ⟨i1, i2, i3⟩ := ih { s with checks := s.checks.delete e.1 }
      refine ⟨i1, i2, fun k => ?_⟩
      rw [i3, List.any_cons]
      simp only [GoMap.get?_delete, hev, Bool.and_true]
      by_cases hk : k = e.1
      · subst hk
        simp only [beq_self_eq_true, Bool.true_or, if_true, ite_self]
      · have : (e.1 == k) = false := by simpa using fun h => hk h.symm
        simp only [hk, if_false, this, Bool.false_or]
    · rw [if_neg hev]
      obtain ⟨i1, i2, i3⟩ := ih s
      refine ⟨i1, i2, fun k => ?_⟩
      have hev2 : evictCheck c ip e = false := by simpa using hev
      rw [i3, List.any_cons, hev2, Bool.and_false, Bool.false_or]

theorem loop4_reliable (chks : GoMap AgentCheck) (D : GoMap AgentCheckRegistration)
    (s : Catalog) :
    (forEach (regCheckBody reliableCatalog chks) D s).err = none ∧
      (forEach (regCheckBody reliableCatalog chks) D s).st.services = s.services ∧
      ∀ k, (forEach (regCheckBody reliableCatalog chks) D s).st.checks.get? k =
        ((D.reverse.find? (fun e => !chks.contains e.1 && e.2.ID == k)).map
          (fun e => toAgentCheck e.2)).orElse (fun _ => s.checks.get? k) := by
  induction D generalizing s with
  | nil => simp [forEach]
  | cons e es ih =>
    obtain ⟨hb1, hb2⟩ := regCheckBody_reliable chks e s
    obtain ⟨h1, h2⟩ := forEach_cons_of_ok _ e es s hb1
    rw [h1, h2, hb2]
    by_cases hn : chks.contains e.1 = true
    · rw [if_pos hn]
      obtain ⟨i1, i2, i3⟩ := ih s
      refine ⟨i1, i2, fun k => ?_⟩
      rw [i3, List.reverse_cons, List.find?_append]
      cases hf : List.find? (fun e => !chks.contains e.1 && e.2.ID == k) es.reverse with
      | some r => simp
      | none => simp [hn]
    · rw [if_neg hn]
      have hn2 : chks.contains e.1 = false := by simpa using hn
      obtain ⟨i1, i2, i3⟩ := ih { s with checks := s.checks.set e.2.ID (toAgentCheck e.2) }
      refine ⟨i1, i2, fun k => ?_⟩
      rw [i3, List.reverse_cons, List.find?_append]
      simp only [GoMap.get?_set]
      cases hf : List.find? (fun e => !chks.contains e.1 && e.2.ID == k) es.reverse with
      | some r => simp
      | none =>
        by_cases hk : k = e.2.ID
        · subst hk; simp [hn2]
        · have : (e.2.ID == k) = false := by simpa using fun h => hk h.symm
          simp [this, hk]

end ReliableLoops

/-- The catalog after one cycle in which no call fails, entry by entry. -/
theorem sync_reliable (c : ServiceClient) (now : Nat) (cat : Catalog) :
    (sync reliableCatalog c now cat).err = none ∧
      (∀ k, (sync reliableCatalog c now cat).st.services.get? k =
        ((c.services.reverse.find?
            (fun e => serviceNeedsRegister cat.services e && e.2.ID == k)).map
          (fun e => toAgentService e.2)).orElse
          (fun _ => if cat.services.any (fun e => e.1 == k &&
              evictService c (decide (now < c.deregisterProbationExpiry)) e.1) then none
            else cat.services.get? k)) ∧
      (∀ k, (sync reliableCatalog c now cat).st.checks.get? k =
        ((c.checks.reverse.find?
            (fun e => !cat.checks.contains e.1 && e.2.ID == k)).map
          (fun e => toAgentCheck e.2)).orElse
          (fun _ => if cat.checks.any (fun e => e.1 == k &&
              evictCheck c (decide (now < c.deregisterProbationExpiry)) e) then none
            else cat.checks.get? k)) := by
  have hs : reliableCatalog.Services cat = (.ok cat.services, cat) := rfl
  have hc : reliableCatalog.Checks cat = (.ok cat.checks, cat) := rfl
  rw [sync_of_reads reliableCatalog c now cat hs hc]
  simp only
  generalize decide (now < c.deregisterProbationExpiry) = ip
  unfold syncLoops
  obtain ⟨a1, a2, a3⟩ := loop1_reliable c ip cat.services cat
  obtain ⟨b1, b2, b3⟩ := loop2_reliable cat.services c.services
    (forEach (deregServiceBody reliableCatalog c ip) cat.services cat).st
  have hA : ((forEach (deregServiceBody reliableCatalog c ip) cat.services cat).andThen
      (forEach (regServiceBody reliableCatalog cat.services) c.services)).err = none :=
    (andThen_err_none _ _).mpr ⟨a1, b1⟩
  have hAst := andThen_st_of_ok _
    (forEach (regServiceBody reliableCatalog cat.services) c.services) a1
  obtain ⟨c1, c2, c3⟩ := loop3_reliable c ip cat.checks
    ((forEach (deregServiceBody reliableCatalog c ip) cat.services cat).andThen
      (forEach (regServiceBody reliableCatalog cat.services) c.services)).st
  have hB := (andThen_err_none _
    (forEach (deregCheckBody reliableCatalog c ip) cat.checks)).mpr ⟨hA, c1⟩
  have hBst := andThen_st_of_ok _
    (forEach (deregCheckBody reliableCatalog c ip) cat.checks) hA
  obtain ⟨d1, d2, d3⟩ := loop4_reliable cat.checks c.checks
    (((forEach (deregServiceBody reliableCatalog c ip) cat.services cat).andThen
      (forEach (regServiceBody reliableCatalog cat.services) c.services)).andThen
      (forEach (deregCheckBody reliableCatalog c ip) cat.checks)).st
  have hC := (andThen_err_none _
    (forEach (regCheckBody reliableCatalog cat.checks) c.checks)).mpr ⟨hB, d1⟩
  have hCst := andThen_st_of_ok _
    (forEach (regCheckBody reliableCatalog cat.checks) c.checks) hB
  refine ⟨hC, ?_, ?_⟩
  · intro k
    rw [hCst, d2, hBst, c2, hAst, b3, a3]
  · intro k
    rw [hCst, d3, hBst, c3, hAst, b2, a2]

section AnyLemmas

variable {α : Type}

theorem GoMap.get?_eq_none_of_not_mem_keys (m : GoMap α) (k : String) (h : k ∉ m.keys) :
    m.get? k = none := by
  cases hg : m.get? k with
  | none => rfl
  | some v =>
    have := (GoMap.contains_iff_mem_keys m k).mp (by simp [GoMap.contains, hg])
    exact absurd this h

theorem GoMap.any_key (m : GoMap α) (k : String) (f : String → Bool) :
    m.any (fun e => e.1 == k && f e.1) = (decide (k ∈ m.keys) && f k) := by
  induction m with
  | nil => simp [GoMap.keys]
  | cons e es ih =>
    rw [List.any_cons, ih]
    by_cases hk : e.1 = k
    · subst hk; simp [GoMap.keys]
    · have h1 : (e.1 == k) = false := by simpa using hk
      have h2 : decide (k ∈ GoMap.keys (e :: es)) = decide (k ∈ GoMap.keys es) := by
        simp only [GoMap.keys, List.map_cons, List.mem_cons]
        have : ¬ k = e.1 := fun h => hk h.symm
        simp [this]
      rw [h1, h2]; simp

theorem GoMap.any_entry (m : GoMap α) (hwf : m.WF) (k : String) (f : String × α → Bool) :
    m.any (fun e => e.1 == k && f e) =
      (match m.get? k with
       | some v => f (k, v)
       | none => false) := by
  induction m with
  | nil => simp [GoMap.get?_nil]
  | cons e es ih =>
    obtain ⟨a, v⟩ := e
    have hwf2 : GoMap.WF es := by
      unfold GoMap.WF GoMap.keys at hwf ⊢
      exact (List.nodup_cons.mp hwf).2
    have hnot : a ∉ GoMap.keys es := by
      unfold GoMap.WF GoMap.keys at hwf
      exact (List.nodup_cons.mp hwf).1
    rw [List.any_cons, ih hwf2, GoMap.get?_cons]
    by_cases hk : k = a
    · subst hk
      rw [GoMap.get?_eq_none_of_not_mem_keys es k hnot]
      simp
    · have h1 : (a == k) = false := by simpa using fun h => hk h.symm
      simp [h1, hk]

end AnyLemmas

/-- Services of the catalog after one cycle in which no call fails: a desired
registration that was written, else the former entry unless it was evicted. -/
theorem sync_reliable_services (c : ServiceClient) (now : Nat) (cat : Catalog) (k : String) :
    (sync reliableCatalog c now cat).st.services.get? k =
      ((c.services.reverse.find?
          (fun e => serviceNeedsRegister cat.services e && e.2.ID == k)).map
        (fun e => toAgentService e.2)).orElse
        (fun _ => if evictService c (decide (now < c.deregisterProbationExpiry)) k then none
          else cat.services.get? k) := by
  rw [(sync_reliable c now cat).2.1 k, GoMap.any_key]
  congr 1
  funext _
  by_cases hk : k ∈ cat.services.keys
  · simp [hk]
  · simp [hk, GoMap.get?_eq_none_of_not_mem_keys _ _ hk]

/-- Checks of the catalog after one cycle in which no call fails. -/
theorem sync_reliable_checks (c : ServiceClient) (now : Nat) (cat : Catalog)
    (hwf : cat.checks.WF) (k : String) :
    (sync reliableCatalog c now cat).st.checks.get? k =
      ((c.checks.reverse.find?
          (fun e => !cat.checks.contains e.1 && e.2.ID == k)).map
        (fun e => toAgentCheck e.2)).orElse
        (fun _ => (cat.checks.get? k).filter
          (fun chk => !evictCheck c (decide (now < c.deregisterProbationExpiry)) (k, chk))) := by
  rw [(sync_reliable c now cat).2.2 k, GoMap.any_entry _ hwf]
  congr 1
  funext _
  cases hg : cat.checks.get? k with
  | none => simp
  | some chk =>
    simp only [Option.filter]
    by_cases hev : evictCheck c (decide (now < c.deregisterProbationExpiry)) (k, chk) = true
    · simp [hev]
    · simp [hev]

section Helpers

theorem evictService_iff (c : ServiceClient) (ip : Bool) (k : String) :
    evictService c ip k = true ↔
      c.services.contains k = false ∧ isNomadService k = true ∧ c.isClientAgent = true ∧
        (ip = true → lookupBool c.explicitlyDeregisteredServices k = true) ∧
        isNomadSidecar k c.services = false := by
  unfold evictService
  cases c.services.contains k <;> cases isNomadService k <;> cases c.isClientAgent <;>
    cases ip <;> cases lookupBool c.explicitlyDeregisteredServices k <;>
    cases isNomadSidecar k c.services <;> simp

theorem evictCheck_iff (c : ServiceClient) (ip : Bool) (e : String × AgentCheck) :
    evictCheck c ip e = true ↔
      c.checks.contains e.1 = false ∧ isNomadService e.2.ServiceID = true ∧
        c.isClientAgent = true ∧ isNomadCheck e.2.CheckID = true ∧
        (ip = true → lookupBool c.explicitlyDeregisteredChecks e.1 = true) ∧
        isNomadSidecar e.2.ServiceID c.services = false := by
  unfold evictCheck
  cases c.checks.contains e.1 <;> cases isNomadService e.2.ServiceID <;>
    cases c.isClientAgent <;> cases isNomadCheck e.2.CheckID <;>
    cases ip <;> cases lookupBool c.explicitlyDeregisteredChecks e.1 <;>
    cases isNomadSidecar e.2.ServiceID c.services <;> simp

theorem find?_reverse_some {α : Type} {l : List α} {p : α → Bool} {e : α}
    (h : l.reverse.find? p = some e) : e ∈ l ∧ p e = true :=
  ⟨List.mem_reverse.mp (List.mem_of_find?_eq_some h), List.find?_some h⟩

theorem find?_reverse_none {α : Type} {l : List α} {p : α → Bool}
    (h : l.reverse.find? p = none) : ∀ e ∈ l, p e = false := by
  intro e he
  have := List.find?_eq_none.mp h e (List.mem_reverse.mpr he)
  simpa using this

theorem GoMap.exists_mem_of_contains {α : Type} {m : GoMap α} {k : String}
    (h : m.contains k = true) : ∃ v, (k, v) ∈ m := by
  unfold GoMap.contains at h
  cases hg : m.get? k with
  | none => rw [hg] at h; cases h
  | some v => exact ⟨v, GoMap.mem_of_get?_eq_some hg⟩

theorem GoMap.contains_of_mem {α : Type} {m : GoMap α} {e : String × α}
    (h : e ∈ m) : m.contains e.1 = true :=
  (GoMap.contains_iff_mem_keys m e.1).mpr (List.mem_map_of_mem Prod.fst h)

end Helpers

/-- C5, amended (convergence). On a client agent outside the probation window,
with the desired maps keyed by id, one `sync` against a catalog that applies
each write and never fails returns no error and leaves in the catalog exactly:
every desired service id, and every service id it held before that is unmanaged
or is the sidecar of a desired service; every desired check id, and every check
it held before whose `ServiceID` is unmanaged, whose `CheckID` is not a managed
check id, or whose `ServiceID` is the sidecar of a desired service. -/
theorem sync_converges (c : ServiceClient) (now : Nat) (cat : Catalog)
    (hcl : c.isClientAgent = true) (hnp : ¬ now < c.deregisterProbationExpiry)
    (hks : ServicesKeyedByID c.services) (hkc : ChecksKeyedByID c.checks)
    (hwf : cat.checks.WF) :
    (sync reliableCatalog c now cat).err = none ∧
      (∀ k, (sync reliableCatalog c now cat).st.services.contains k = true ↔
        (c.services.contains k = true ∨
          (cat.services.contains k = true ∧
            (isNomadService k = false ∨ isNomadSidecar k c.services = true)))) ∧
      (∀ k, (sync reliableCatalog c now cat).st.checks.contains k = true ↔
        (c.checks.contains k = true ∨
          ∃ chk, cat.checks.get? k = some chk ∧
            (isNomadService chk.ServiceID = false ∨ isNomadCheck chk.CheckID = false ∨
              isNomadSidecar chk.ServiceID c.services = true))) := by
  have hip : decide (now < c.deregisterProbationExpiry) = false := by simpa using hnp
  refine ⟨(sync_reliable c now cat).1, ?_, ?_⟩
  · intro k
    have hpost := sync_reliable_services c now cat k
    rw [hip] at hpost
    unfold GoMap.contains
    rw [hpost]
    have hev := evictService_iff c false k
    cases hf : c.services.reverse.find?
        (fun e => serviceNeedsRegister cat.services e && e.2.ID == k) with
    | some e =>
      obtain ⟨hmem, hp⟩ := find?_reverse_some hf
      simp only [Bool.and_eq_true, beq_iff_eq] at hp
      have hkey : e.1 = k := by rw [← hks e hmem]; exact hp.2
      have hd : c.services.contains k = true := hkey ▸ GoMap.contains_of_mem hmem
      unfold GoMap.contains at hd
      simp [hd]
    | none =>
      simp only [Option.map_none', Option.orElse_none]
      by_cases hd : c.services.contains k = true
      · obtain ⟨reg, hmem⟩ := GoMap.exists_mem_of_contains hd
        have hp := find?_reverse_none hf _ hmem
        have hid : reg.ID = k := hks _ hmem
        simp only [hid, beq_self_eq_true, Bool.and_true] at hp
        have hne : evictService c false k = false := by
          cases h : evictService c false k
          · rfl
          · rw [hev] at h; rw [h.1] at hd; cases hd
        unfold serviceNeedsRegister at hp
        simp only at hp
        unfold GoMap.contains at hd
        cases hg : cat.services.get? k with
        | none => rw [hg] at hp; cases hp
        | some svc => simp [hne, hd]
      · have hd2 : c.services.contains k = false := by simpa using hd
        unfold GoMap.contains at hd hd2
        by_cases hm : isNomadService k = true ∧ isNomadSidecar k c.services = false
        · have : evictService c false k = true := by
            rw [hev]; exact ⟨hd2, hm.1, hcl, (fun h => by cases h), hm.2⟩
          simp [this, hd2, hm.1, hm.2]
        · have : evictService c false k = false := by
            cases h : evictService c false k
            · rfl
            · rw [hev] at h; exact absurd ⟨h.2.1, h.2.2.2.2⟩ hm
          have hm2 : isNomadService k = false ∨ isNomadSidecar k c.services = true := by
            cases h1 : isNomadService k <;> cases h2 : isNomadSidecar k c.services <;>
              simp_all
          simp [this, hd2, hm2]
  · intro k
    have hpost := sync_reliable_checks c now cat hwf k
    rw [hip] at hpost
    unfold GoMap.contains
    rw [hpost]
    cases hf : c.checks.reverse.find?
        (fun e => !cat.checks.contains e.1 && e.2.ID == k) with
    | some e =>
      obtain ⟨hmem, hp⟩ := find?_reverse_some hf
      simp only [Bool.and_eq_true, beq_iff_eq] at hp
      have hkey : e.1 = k := by rw [← hkc e hmem]; exact hp.2
      have hd : c.checks.contains k = true := hkey ▸ GoMap.contains_of_mem hmem
      unfold GoMap.contains at hd
      simp [hd]
    | none =>
      simp only [Option.map_none', Option.orElse_none]
      by_cases hd : c.checks.contains k = true
      · obtain ⟨reg, hmem⟩ := GoMap.exists_mem_of_contains hd
        have hp := find?_reverse_none hf _ hmem
        have hid : reg.ID = k := hkc _ hmem
        simp only [hid, beq_self_eq_true, Bool.and_true, Bool.not_eq_false'] at hp
        unfold GoMap.contains at hp hd
        cases hg : cat.checks.get? k with
        | none => rw [hg] at hp; cases hp
        | some chk =>
          have hne : evictCheck c false (k, chk) = false := by
            cases h : evictCheck c false (k, chk)
            · rfl
            · rw [evictCheck_iff] at h
              have := h.1
              unfold GoMap.contains at this
              simp only at this
              rw [this] at hd; cases hd
          simp [Option.filter, hne, hd]
      · have hd2 : c.checks.contains k = false := by simpa using hd
        unfold GoMap.contains at hd hd2
        cases hg : cat.checks.get? k with
        | none => simp [Option.filter, hd2]
        | some chk =>
          have hev := evictCheck_iff c false (k, chk)
          simp only at hev
          by_cases hm : isNomadService chk.ServiceID = true ∧ isNomadCheck chk.CheckID = true ∧
              isNomadSidecar chk.ServiceID c.services = false
          · have : evictCheck c false (k, chk) = true := by
              rw [hev]
              exact ⟨by unfold GoMap.contains; exact hd2, hm.1, hcl, hm.2.1,
                (fun h => by cases h), hm.2.2⟩
            simp [Option.filter, this, hd2, hm.1, hm.2.1, hm.2.2]
          · have : evictCheck c false (k, chk) = false := by
              cases h : evictCheck c false (k, chk)
              · rfl
              · rw [hev] at h; exact absurd ⟨h.2.1, h.2.2.2.1, h.2.2.2.2.2⟩ hm
            have hm2 : isNomadService chk.ServiceID = false ∨ isNomadCheck chk.CheckID = false ∨
                isNomadSidecar chk.ServiceID c.services = true := by
              cases h1 : isNomadService chk.ServiceID <;> cases h2 : isNomadCheck chk.CheckID <;>
                cases h3 : isNomadSidecar chk.ServiceID c.services <;> simp_all
            simp [Option.filter, this, hd2, hm2]

section Invariant

theorem forEach_invariant {σ α : Type} (body : α → σ → Step σ) (P : σ → Prop)
    (hb : ∀ x s, P s → P (body x s).st) (l : List α) (s : σ) (hs : P s) :
    P (forEach body l s).st := by
  induction l generalizing s with
  | nil => simpa [forEach] using hs
  | cons x xs ih =>
    have hx := hb x s hs
    unfold forEach
    rcases hbx : body x s with ⟨e, st1, cs⟩
    rw [hbx] at hx
    cases e with
    | some e => exact hx
    | none => exact ih st1 hx

theorem andThen_invariant {σ : Type} (a : Step σ) (f : σ → Step σ) (P : σ → Prop)
    (ha : P a.st) (hf : ∀ s, P s → P (f s).st) : P (a.andThen f).st := by
  unfold Step.andThen
  cases a.err with
  | some e => exact ha
  | none => exact hf _ ha

/-- A cycle against a catalog that never fails keeps the keys of the catalog's
check map distinct. -/
theorem sync_reliable_checks_WF (c : ServiceClient) (now : Nat) (cat : Catalog)
    (hwf : cat.checks.WF) : (sync reliableCatalog c now cat).st.checks.WF := by
  have hs : reliableCatalog.Services cat = (.ok cat.services, cat) := rfl
  have hc : reliableCatalog.Checks cat = (.ok cat.checks, cat) := rfl
  rw [sync_of_reads reliableCatalog c now cat hs hc]
  simp only
  generalize decide (now < c.deregisterProbationExpiry) = ip
  unfold syncLoops
  refine andThen_invariant _ _ (fun s : Catalog => s.checks.WF) ?_ ?_
  · refine andThen_invariant _ _ (fun s : Catalog => s.checks.WF) ?_ ?_
    · refine andThen_invariant _ _ (fun s : Catalog => s.checks.WF) ?_ ?_
      · refine forEach_invariant _ (fun s : Catalog => s.checks.WF) ?_ _ _ hwf
        intro e s h
        rw [(deregServiceBody_reliable c ip e s).2]
        split_ifs
        · exact h
        · exact h
      · intro s0 h0
        refine forEach_invariant _ (fun s : Catalog => s.checks.WF) ?_ _ _ h0
        intro e s h
        rw [(regServiceBody_reliable cat.services e s).2]
        split_ifs
        · exact h
        · exact h
    · intro s0 h0
      refine forEach_invariant _ (fun s : Catalog => s.checks.WF) ?_ _ _ h0
      intro e s h
      rw [(deregCheckBody_reliable c ip e s).2]
      split_ifs
      · exact GoMap.WF.delete h _
      · exact h
  · intro s0 h0
    refine forEach_invariant _ (fun s : Catalog => s.checks.WF) ?_ _ _ h0
    intro e s h
    rw [(regCheckBody_reliable cat.checks e s).2]
    split_ifs
    · exact h
    · exact GoMap.WF.set h _ _

end Invariant

section Idempotence

theorem agentServiceUpdateRequired_toAgentService (reg : AgentServiceRegistration) :
    agentServiceUpdateRequired reg (toAgentService reg) = false := by
  simp [agentServiceUpdateRequired, toAgentService, deepEqualTags]

theorem mapCatalog_Services (fails : Call → Bool) (s s1 : Catalog) (svcs : GoMap AgentService)
    (h : (mapCatalog fails).Services s = (.ok svcs, s1)) : svcs = s.services ∧ s1 = s := by
  unfold mapCatalog at h
  simp only at h
  split_ifs at h
  · injection h with h1 h2; cases h1
  · injection h with h1 h2
    injection h1 with h1
    exact ⟨h1.symm, h2.symm⟩

theorem mapCatalog_Checks (fails : Call → Bool) (s s1 : Catalog) (chks : GoMap AgentCheck)
    (h : (mapCatalog fails).Checks s = (.ok chks, s1)) : chks = s.checks ∧ s1 = s := by
  unfold mapCatalog at h
  simp only at h
  split_ifs at h
  · injection h with h1 h2; cases h1
  · injection h with h1 h2
    injection h1 with h1
    exact ⟨h1.symm, h2.symm⟩

end Idempotence

/-- C4, amended (idempotence). Let a first `sync` run against a catalog that
applies each write and in which no call fails, with the desired maps keyed by
id.  Then a second `sync` on the resulting catalog, with the same desired
state, agent role and probation status, and with explicit-deregister sets that
are unchanged or smaller (the run loop clears them), issues no
`ServiceRegister`, `ServiceDeregister`, `CheckRegister` or `CheckDeregister`
call, whether or not calls of the second cycle can fail. -/
theorem sync_idempotent (c c2 : ServiceClient) (now now2 : Nat) (cat : Catalog)
    (fails2 : Call → Bool)
    (hwfs : c.services.WF) (hks : ServicesKeyedByID c.services)
    (hkc : ChecksKeyedByID c.checks) (hwfc : cat.checks.WF)
    (hds : c2.services = c.services) (hdc : c2.checks = c.checks)
    (hag : c2.isClientAgent = c.isClientAgent)
    (hip : decide (now2 < c2.deregisterProbationExpiry) =
      decide (now < c.deregisterProbationExpiry))
    (hexs : ∀ id, lookupBool c2.explicitlyDeregisteredServices id = true →
      lookupBool c.explicitlyDeregisteredServices id = true)
    (hexc : ∀ id, lookupBool c2.explicitlyDeregisteredChecks id = true →
      lookupBool c.explicitlyDeregisteredChecks id = true) :
    ∀ call ∈ (sync (mapCatalog fails2) c2 now2 (sync reliableCatalog c now cat).st).calls,
      call.isWrite = false := by
  intro call hcall
  rcases sync_call_cases _ c2 now2 _ call hcall with h | h | ⟨svcs, chks, st1, st2, hs, hc, h⟩
  · rw [h]; rfl
  · rw [h]; rfl
  · exfalso
    obtain ⟨e1, e2⟩ := mapCatalog_Services _ _ _ _ hs
    subst e2
    obtain ⟨e3, e4⟩ := mapCatalog_Checks _ _ _ _ hc
    subst e4
    subst e1 e3
    rw [hip] at h
    generalize hipdef : decide (now < c.deregisterProbationExpiry) = ip at h
    have hsvc := fun k => sync_reliable_services c now cat k
    have hchk := fun k => sync_reliable_checks c now cat hwfc k
    rw [hipdef] at hsvc hchk
    have hpwf := sync_reliable_checks_WF c now cat hwfc
    have hmonoS : ∀ id, evictService c2 ip id = true → evictService c ip id = true := by
      intro id hev
      rw [evictService_iff] at hev ⊢
      rw [hds, hag] at hev
      exact ⟨hev.1, hev.2.1, hev.2.2.1, fun hp => hexs id (hev.2.2.2.1 hp), hev.2.2.2.2⟩
    have hmonoC : ∀ e, evictCheck c2 ip e = true → evictCheck c ip e = true := by
      intro e hev
      rw [evictCheck_iff] at hev ⊢
      rw [hds, hdc, hag] at hev
      exact ⟨hev.1, hev.2.1, hev.2.2.1, hev.2.2.2.1, fun hp => hexc e.1 (hev.2.2.2.2.1 hp),
        hev.2.2.2.2.2⟩
    cases call with
    | Services => simp [plannedWrites, deregServiceCalls, regServiceCalls, deregCheckCalls,
        regCheckCalls] at h
    | Checks => simp [plannedWrites, deregServiceCalls, regServiceCalls, deregCheckCalls,
        regCheckCalls] at h
    | ServiceDeregister id =>
      rw [mem_planned_serviceDeregister] at h
      obtain ⟨hmem, hev⟩ := h
      have hev1 := hmonoS id hev
      have hnd := ((evictService_iff c ip id).mp hev1).1
      have hcon := (GoMap.contains_iff_mem_keys _ id).mpr hmem
      unfold GoMap.contains at hcon
      rw [hsvc id] at hcon
      cases hf : c.services.reverse.find?
          (fun e => serviceNeedsRegister cat.services e && e.2.ID == id) with
      | some e =>
        obtain ⟨hm, hp⟩ := find?_reverse_some hf
        simp only [Bool.and_eq_true, beq_iff_eq] at hp
        have hkey : e.1 = id := by rw [← hks e hm]; exact hp.2
        have := GoMap.contains_of_mem hm
        rw [hkey, hnd] at this
        cases this
      | none =>
        rw [hf] at hcon
        simp [hev1] at hcon
    | ServiceRegister reg =>
      rw [mem_planned_serviceRegister] at h
      obtain ⟨k, hmem, hneed⟩ := h
      rw [hds] at hmem
      have hd := GoMap.contains_of_mem hmem
      simp only at hd
      have hne : evictService c ip k = false := by
        cases hx : evictService c ip k
        · rfl
        · rw [evictService_iff] at hx; rw [hx.1] at hd; cases hd
      unfold serviceNeedsRegister at hneed
      simp only at hneed
      rw [hsvc k] at hneed
      cases hf : c.services.reverse.find?
          (fun e => serviceNeedsRegister cat.services e && e.2.ID == k) with
      | some e =>
        obtain ⟨hm, hp⟩ := find?_reverse_some hf
        simp only [Bool.and_eq_true, beq_iff_eq] at hp
        have hkey : e.1 = k := by rw [← hks e hm]; exact hp.2
        obtain ⟨ek, ev⟩ := e
        simp only at hkey
        subst hkey
        have := hwfs.eq_of_mem hm hmem
        subst this
        rw [hf] at hneed
        simp [agentServiceUpdateRequired_toAgentService] at hneed
      | none =>
        rw [hf] at hneed
        have hp := find?_reverse_none hf _ hmem
        have hid : reg.ID = k := hks _ hmem
        simp only [hid, beq_self_eq_true, Bool.and_true] at hp
        unfold serviceNeedsRegister at hp
        simp only at hp
        simp only [Option.map_none', Option.orElse_none, hne, Bool.false_eq_true,
          if_false] at hneed
        cases hg : cat.services.get? k with
        | none => rw [hg] at hp; cases hp
        | some svc =>
          rw [hg] at hp hneed
          simp only at hp
          simp [hp] at hneed
    | CheckRegister reg =>
      rw [mem_planned_checkRegister] at h
      obtain ⟨k, hmem, habs⟩ := h
      rw [hdc] at hmem
      have hd := GoMap.contains_of_mem hmem
      simp only at hd
      unfold GoMap.contains at habs
      rw [hchk k] at habs
      cases hf : c.checks.reverse.find?
          (fun e => !cat.checks.contains e.1 && e.2.ID == k) with
      | some e =>
        rw [hf] at habs
        simp at habs
      | none =>
        rw [hf] at habs
        have hp := find?_reverse_none hf _ hmem
        have hid : reg.ID = k := hkc _ hmem
        simp only [hid, beq_self_eq_true, Bool.and_true, Bool.not_eq_false'] at hp
        unfold GoMap.contains at hp
        cases hg : cat.checks.get? k with
        | none => rw [hg] at hp; cases hp
        | some chk =>
          have hne : evictCheck c ip (k, chk) = false := by
            cases hx : evictCheck c ip (k, chk)
            · rfl
            · rw [evictCheck_iff] at hx
              have := hx.1
              simp only at this
              rw [this] at hd; cases hd
          rw [hg] at habs
          simp [Option.filter, hne] at habs
    | CheckDeregister id =>
      rw [mem_planned_checkDeregister] at h
      obtain ⟨chk, hmem, hev⟩ := h
      have hev1 := hmonoC _ hev
      have hnd := ((evictCheck_iff c ip (id, chk)).mp hev1).1
      simp only at hnd
      have hget := GoMap.get?_eq_some_of_mem hpwf hmem
      rw [hchk id] at hget
      cases hf : c.checks.reverse.find?
          (fun e => !cat.checks.contains e.1 && e.2.ID == id) with
      | some e =>
        obtain ⟨hm, hp⟩ := find?_reverse_some hf
        simp only [Bool.and_eq_true, beq_iff_eq] at hp
        have hkey : e.1 = id := by rw [← hkc e hm]; exact hp.2
        have := GoMap.contains_of_mem hm
        rw [hkey, hnd] at this
        cases this
      | none =>
        rw [hf] at hget
        simp only [Option.map_none', Option.orElse_none] at hget
        cases hg : cat.checks.get? id with
        | none => rw [hg] at hget; simp [Option.filter] at hget
        | some chk0 =>
          rw [hg] at hget
          simp only [Option.filter] at hget
          split_ifs at hget with hcond
          · injection hget with hget
            subst hget
            rw [hev1] at hcond
            simp at hcond
          · simp at hget

/-! ## Invariants of the desired store -/

section MergeInvariant

theorem mergeRegServices_keyed (l : List AgentServiceRegistration)
    (m : GoMap AgentServiceRegistration) (hwf : m.WF) (hk : ServicesKeyedByID m) :
    (mergeRegServices m l).WF ∧ ServicesKeyedByID (mergeRegServices m l) := by
  induction l generalizing m with
  | nil => exact ⟨hwf, hk⟩
  | cons s rest ih =>
    unfold mergeRegServices
    refine ih _ (hwf.set _ _) ?_
    intro e he
    unfold GoMap.set at he
    rcases List.mem_cons.mp he with he | he
    · rw [he]
    · exact hk e (GoMap.mem_delete.mp he).1

theorem mergeRegChecks_keyed (l : List AgentCheckRegistration)
    (m : GoMap AgentCheckRegistration) (hwf : m.WF) (hk : ChecksKeyedByID m) :
    (mergeRegChecks m l).WF ∧ ChecksKeyedByID (mergeRegChecks m l) := by
  induction l generalizing m with
  | nil => exact ⟨hwf, hk⟩
  | cons s rest ih =>
    unfold mergeRegChecks
    refine ih _ (hwf.set _ _) ?_
    intro e he
    unfold GoMap.set at he
    rcases List.mem_cons.mp he with he | he
    · rw [he]
    · exact hk e (GoMap.mem_delete.mp he).1

theorem mergeDereg_sub {α : Type} (l : List String) (m : GoMap α) (ex : GoMap Bool)
    (hwf : m.WF) : (mergeDereg m ex l).1.WF ∧ ∀ e ∈ (mergeDereg m ex l).1, e ∈ m := by
  induction l generalizing m ex with
  | nil => exact ⟨hwf, fun e he => he⟩
  | cons k rest ih =>
    unfold mergeDereg
    obtain ⟨h1, h2⟩ := ih (m.delete k) (ex.set k true) (hwf.delete k)
    exact ⟨h1, fun e he => (GoMap.mem_delete.mp (h2 e he)).1⟩

/-- The desired maps stay keyed by id, with distinct keys, under `merge`; the
empty store of `NewServiceClient` has both properties. -/
theorem merge_keyed (c : ServiceClient) (ops : operations)
    (hs : c.services.WF ∧ ServicesKeyedByID c.services)
    (hc : c.checks.WF ∧ ChecksKeyedByID c.checks) :
    ((merge c ops).services.WF ∧ ServicesKeyedByID (merge c ops).services) ∧
      ((merge c ops).checks.WF ∧ ChecksKeyedByID (merge c ops).checks) := by
  unfold merge
  simp only
  obtain ⟨s1, s2⟩ := mergeRegServices_keyed ops.regServices c.services hs.1 hs.2
  obtain ⟨c1, c2⟩ := mergeRegChecks_keyed ops.regChecks c.checks hc.1 hc.2
  obtain ⟨s3, s4⟩ := mergeDereg_sub ops.deregServices _ c.explicitlyDeregisteredServices s1
  obtain ⟨c3, c4⟩ := mergeDereg_sub ops.deregChecks _ c.explicitlyDeregisteredChecks c1
  exact ⟨⟨s3, fun e he => s2 e (s4 e he)⟩, ⟨c3, fun e he => c2 e (c4 e he)⟩⟩

end MergeInvariant

/-- Counterexample to C4 as stated. The catalog is a map that applies each
successful call; the deregistration of the legacy service fails, which `sync`
tolerates, so the first cycle returns no error and changes nothing, and the
second cycle issues the same `ServiceDeregister` again. -/
theorem sync_not_idempotent_after_tolerated_failure :
    (sync (mapCatalog legacyDeregisterFails) freshClient 100 legacyCatalog).err = none ∧
      (sync (mapCatalog legacyDeregisterFails) freshClient 100 legacyCatalog).st = legacyCatalog ∧
      Call.ServiceDeregister "_nomad-executor-old" ∈
        (sync (mapCatalog legacyDeregisterFails) freshClient 100
          (sync (mapCatalog legacyDeregisterFails) freshClient 100 legacyCatalog).st).calls := by
  decide

/-- Witness of the amended C4: the first cycle registers a service and a check,
the second issues no write. -/
theorem sync_idempotent_witness :
    Call.ServiceRegister { ID := "_nomad-task-b", Name := "web", Port := 8080 } ∈
        (sync reliableCatalog updateClient 100 connectCatalog).calls ∧
      ∀ call ∈ (sync (mapCatalog (fun _ => false)) updateClient 100
          (sync reliableCatalog updateClient 100 connectCatalog).st).calls,
        call.isWrite = false :=
  ⟨by decide, sync_idempotent updateClient updateClient 100 100 connectCatalog (fun _ => false)
    (by decide) (by decide) (by decide) (by decide) rfl rfl rfl rfl (fun _ h => h)
    (fun _ h => h)⟩

/-- Counterexample to C5 as stated: four cycles, none of whose calls fails,
that leave a managed id in the catalog which is not desired.  Inside probation
the stray service and check stay (and a second cycle changes nothing); a server
agent never evicts; the sidecar of a desired service stays; a managed check id
on an unmanaged service stays. -/
theorem sync_does_not_converge :
    ((sync reliableCatalog freshClient 5 strayCatalog).st = strayCatalog ∧
        isNomadService "_nomad-task-X" = true ∧ isNomadCheck "_nomad-check-1" = true ∧
        strayCatalog.services.contains "_nomad-task-X" = true ∧
        strayCatalog.checks.contains "_nomad-check-1" = true ∧
        freshClient.services.contains "_nomad-task-X" = false ∧
        freshClient.checks.contains "_nomad-check-1" = false) ∧
      (sync reliableCatalog serverClient 100 strayCatalog).st = strayCatalog ∧
      ((sync reliableCatalog connectClient 100 connectCatalog).st = connectCatalog ∧
        isNomadService "_nomad-task-a-sidecar-proxy" = true ∧
        connectCatalog.services.contains "_nomad-task-a-sidecar-proxy" = true ∧
        connectClient.services.contains "_nomad-task-a-sidecar-proxy" = false) ∧
      ((sync reliableCatalog { deregisterProbationExpiry := 60 } 100 agentCheckCatalog).st =
          agentCheckCatalog ∧
        isNomadCheck "_nomad-check-z" = true ∧
        agentCheckCatalog.checks.contains "_nomad-check-z" = true) := by
  decide

/-- Witness of the amended C5: after one cycle the catalog holds the two desired
services and the sidecar, and the two desired checks. -/
theorem sync_converges_witness :
    (sync reliableCatalog updateClient 100 connectCatalog).st.services.keys =
        ["_nomad-task-b", "_nomad-task-a", "_nomad-task-a-sidecar-proxy"] ∧
      ((sync reliableCatalog updateClient 100 connectCatalog).st.services.contains
          "_nomad-task-b" = true ↔
        (updateClient.services.contains "_nomad-task-b" = true ∨
          (connectCatalog.services.contains "_nomad-task-b" = true ∧
            (isNomadService "_nomad-task-b" = false ∨
              isNomadSidecar "_nomad-task-b" updateClient.services = true)))) :=
  ⟨by decide, (sync_converges updateClient 100 connectCatalog (by decide) (by decide)
    (by decide) (by decide) (by decide)).2.1 "_nomad-task-b"⟩

/-! ## The loop of Run and failures of catalog calls -/

theorem runSync_of_ok {σ : Type} (api : AgentAPI σ) (rs : RunState) (now : Nat) (st : σ)
    (h : (sync api rs.client now st).err = none) :
    (runSync api rs now st).1 =
      { client := clearExplicitlyDeregistered rs.client,
        failures := if rs.failures > 0 then 0 else rs.failures,
        retryTimer := rs.client.periodicInterval } := by
  simp only [runSync, h]

theorem runSync_of_err {σ : Type} (api : AgentAPI σ) (rs : RunState) (now : Nat) (st : σ)
    (h : (sync api rs.client now st).err ≠ none) :
    (runSync api rs now st).1 =
      { rs with
        failures := wrapInt64 (rs.failures + 1),
        retryTimer :=
          if wrapInt64 (rs.client.retryInterval * wrapInt64 (rs.failures + 1)) >
              rs.client.maxRetryInterval then rs.client.maxRetryInterval
          else wrapInt64 (rs.client.retryInterval * wrapInt64 (rs.failures + 1)) } := by
  cases he : (sync api rs.client now st).err with
  | none => exact absurd he h
  | some e => simp only [runSync, he]

/-- C11 (explicit-deregister sets survive failures). In one iteration of the
loop of `Run`, with `c` the client as it is when `sync` is called: if `sync`
returns an error the client, and so both explicit-deregister sets, is exactly
what it was before the call; if `sync` returns nil both sets are empty
afterwards and the desired maps are unchanged.  `sync` itself takes the client
by value and hands back only the catalog's state and the calls made. -/
theorem run_explicit_sets {σ : Type} (api : AgentAPI σ) (rs : RunState) (ev : RunEvent)
    (now : Nat) (st : σ) :
    ((sync api (runSelect rs ev).client now st).err ≠ none →
        (runIteration api rs ev now st).1.client = (runSelect rs ev).client) ∧
      ((sync api (runSelect rs ev).client now st).err = none →
        (runIteration api rs ev now st).1.client.explicitlyDeregisteredServices = [] ∧
        (runIteration api rs ev now st).1.client.explicitlyDeregisteredChecks = [] ∧
        (runIteration api rs ev now st).1.client.services = (runSelect rs ev).client.services ∧
        (runIteration api rs ev now st).1.client.checks = (runSelect rs ev).client.checks) := by
  unfold runIteration
  constructor
  · intro h
    rw [runSync_of_err api _ now st h]
  · intro h
    rw [runSync_of_ok api _ now st h]
    simp [clearExplicitlyDeregistered]

/-- Witness of C11: a failed cycle keeps the marks of `markedClient`, a
successful one clears them. -/
theorem run_explicit_sets_witness :
    (runIteration deadCatalog { client := markedClient } RunEvent.timer 5 strayCatalog).1.client =
        markedClient ∧
      (runIteration reliableCatalog { client := markedClient } RunEvent.timer 5
        strayCatalog).1.client.explicitlyDeregisteredServices = [] :=
  ⟨(run_explicit_sets deadCatalog { client := markedClient } RunEvent.timer 5 strayCatalog).1
      (by decide),
    ((run_explicit_sets reliableCatalog { client := markedClient } RunEvent.timer 5
      strayCatalog).2 (by decide)).1⟩

theorem wrapInt64_of_range (x : Int) (h1 : -2 ^ 63 ≤ x) (h2 : x < 2 ^ 63) : wrapInt64 x = x := by
  unfold wrapInt64
  have : (x + 2 ^ 63) % 2 ^ 64 = x + 2 ^ 63 := Int.emod_eq_of_lt (by omega) (by omega)
  omega

theorem runSelect_failures (rs : RunState) (ev : RunEvent) :
    (runSelect rs ev).failures = rs.failures := by
  cases ev <;> rfl

theorem runSelect_intervals (rs : RunState) (ev : RunEvent) :
    (runSelect rs ev).client.retryInterval = rs.client.retryInterval ∧
      (runSelect rs ev).client.maxRetryInterval = rs.client.maxRetryInterval ∧
      (runSelect rs ev).client.periodicInterval = rs.client.periodicInterval := by
  cases ev <;> exact ⟨rfl, rfl, rfl⟩

/-- C12 (backoff law). In one iteration of the loop of `Run`: if `sync` fails
and this is the `n`-th consecutive failure (`failures = n - 1` before, `n ≥ 1`),
the counter becomes `n` and the retry timer is reset to
`min (retryInterval * n) maxRetryInterval`, as long as `n` and
`retryInterval * n` fit the 64-bit integers the code computes with; with the
defaults (1s, 30s) the delay is `min n 30` seconds for every `n` up to
9 223 372 036, that is 1s, 2s, 3s, …, 30s, 30s, ….  If `sync` succeeds the
counter is 0 and the timer is reset to `periodicInterval`. -/
theorem run_backoff_law {σ : Type} (api : AgentAPI σ) (rs : RunState) (ev : RunEvent)
    (now : Nat) (st : σ) :
    (∀ n : Int, (sync api (runSelect rs ev).client now st).err ≠ none →
        1 ≤ n → rs.failures = n - 1 → n < 2 ^ 63 →
        -2 ^ 63 ≤ rs.client.retryInterval * n → rs.client.retryInterval * n < 2 ^ 63 →
        (runIteration api rs ev now st).1.failures = n ∧
          (runIteration api rs ev now st).1.retryTimer =
            min (rs.client.retryInterval * n) rs.client.maxRetryInterval) ∧
      (∀ n : Int, (sync api (runSelect rs ev).client now st).err ≠ none →
        1 ≤ n → n ≤ 9223372036 → rs.failures = n - 1 →
        rs.client.retryInterval = defaultRetryInterval →
        rs.client.maxRetryInterval = defaultMaxRetryInterval →
        (runIteration api rs ev now st).1.retryTimer = min n 30 * Second) ∧
      ((sync api (runSelect rs ev).client now st).err = none → 0 ≤ rs.failures →
        (runIteration api rs ev now st).1.failures = 0 ∧
          (runIteration api rs ev now st).1.retryTimer = rs.client.periodicInterval) := by
  obtain ⟨hi1, hi2, hi3⟩ := runSelect_intervals rs ev
  have hf := runSelect_failures rs ev
  have key : ∀ n : Int, (sync api (runSelect rs ev).client now st).err ≠ none →
      1 ≤ n → rs.failures = n - 1 → n < 2 ^ 63 →
      -2 ^ 63 ≤ rs.client.retryInterval * n → rs.client.retryInterval * n < 2 ^ 63 →
      (runIteration api rs ev now st).1.failures = n ∧
        (runIteration api rs ev now st).1.retryTimer =
          min (rs.client.retryInterval * n) rs.client.maxRetryInterval := by
    intro n herr h1 hn hlt hlo hhi
    unfold runIteration
    rw [runSync_of_err api _ now st herr]
    simp only [hf, hi1, hi2]
    have e1 : wrapInt64 (rs.failures + 1) = n := by
      rw [hn]
      have : n - 1 + 1 = n := by omega
      rw [this]
      exact wrapInt64_of_range n (by omega) hlt
    rw [e1, wrapInt64_of_range _ hlo hhi]
    refine ⟨rfl, ?_⟩
    split_ifs with hgt
    · exact (min_eq_right (le_of_lt hgt)).symm
    · exact (min_eq_left (not_lt.mp hgt)).symm
  refine ⟨key, ?_, ?_⟩
  · intro n herr h1 hle hn hr hm
    have hsec : Second = 1000000000 := rfl
    have hlt : n < 2 ^ 63 := by omega
    have hlo : -2 ^ 63 ≤ rs.client.retryInterval * n := by
      rw [hr]; unfold defaultRetryInterval; rw [hsec]; omega
    have hhi : rs.client.retryInterval * n < 2 ^ 63 := by
      rw [hr]; unfold defaultRetryInterval; rw [hsec]; omega
    rw [(key n herr h1 hn hlt hlo hhi).2, hr, hm]
    unfold defaultRetryInterval defaultMaxRetryInterval
    rw [hsec]
    rcases le_total n 30 with h | h
    · rw [min_eq_left h, min_eq_left (by omega)]; ring
    · rw [min_eq_right h, min_eq_right (by omega)]
  · intro hok hpos
    unfold runIteration
    rw [runSync_of_ok api _ now st hok]
    simp only [hf, hi3]
    refine ⟨?_, trivial⟩
    split_ifs with h
    · rfl
    · omega

/-- Witness of C12: with the default intervals the third consecutive failure
sets the timer to 3s, the fortieth to 30s, and a success to 30s. -/
theorem run_backoff_law_witness :
    (runIteration deadCatalog { client := freshClient, failures := 2 } RunEvent.timer 5
        strayCatalog).1.retryTimer = min 3 30 * Second ∧
      (runIteration deadCatalog { client := freshClient, failures := 39 } RunEvent.timer 5
        strayCatalog).1.retryTimer = min 40 30 * Second ∧
      ((runIteration reliableCatalog { client := freshClient, failures := 39 } RunEvent.timer 5
          strayCatalog).1.failures = 0 ∧
        (runIteration reliableCatalog { client := freshClient, failures := 39 } RunEvent.timer 5
          strayCatalog).1.retryTimer = freshClient.periodicInterval) :=
  ⟨(run_backoff_law deadCatalog { client := freshClient, failures := 2 } RunEvent.timer 5
      strayCatalog).2.1 3 (by decide) (by decide) (by decide) rfl rfl rfl,
    (run_backoff_law deadCatalog { client := freshClient, failures := 39 } RunEvent.timer 5
      strayCatalog).2.1 40 (by decide) (by decide) (by decide) rfl rfl rfl,
    (run_backoff_law reliableCatalog { client := freshClient, failures := 39 } RunEvent.timer 5
      strayCatalog).2.2 (by decide) (by decide)⟩

/-- C13 (a failed read aborts the cycle). If `Services()` fails, `sync` returns
an error and `Services()` is the only call it makes; if `Services()` succeeds
and `Checks()` fails, `sync` returns an error and the two reads are its only
calls. -/
theorem sync_read_failure {σ : Type} (api : AgentAPI σ) (c : ServiceClient) (now : Nat)
    (st : σ) :
    (∀ e st1, api.Services st = (.error e, st1) →
        (sync api c now st).err ≠ none ∧ (sync api c now st).calls = [Call.Services]) ∧
      (∀ svcs st1 e st2, api.Services st = (.ok svcs, st1) → api.Checks st1 = (.error e, st2) →
        (sync api c now st).err ≠ none ∧
          (sync api c now st).calls = [Call.Services, Call.Checks]) := by
  constructor
  · intro e st1 hs
    unfold sync
    rw [hs]
    simp
  · intro svcs st1 e st2 hs hc
    unfold sync
    rw [hs]
    simp only
    rw [hc]
    simp

/-- Witness of C13: a catalog agent all of whose calls fail, and one whose
`Checks()` alone fails. -/
theorem sync_read_failure_witness :
    ((sync deadCatalog freshClient 100 strayCatalog).err ≠ none ∧
        (sync deadCatalog freshClient 100 strayCatalog).calls = [Call.Services]) ∧
      ((sync (mapCatalog (fun call => decide (call = Call.Checks))) freshClient 100
            strayCatalog).err ≠ none ∧
        (sync (mapCatalog (fun call => decide (call = Call.Checks))) freshClient 100
            strayCatalog).calls = [Call.Services, Call.Checks]) :=
  ⟨(sync_read_failure deadCatalog freshClient 100 strayCatalog).1 "transport error"
      strayCatalog rfl,
    (sync_read_failure (mapCatalog (fun call => decide (call = Call.Checks))) freshClient 100
      strayCatalog).2 strayCatalog.services strayCatalog "transport error" strayCatalog rfl rfl⟩

section TakeThrough

variable {α β : Type}

theorem takeThrough_of_none (p : α → Bool) (l : List α) (h : l.any p = false) :
    takeThrough p l = l := by
  induction l with
  | nil => rfl
  | cons x xs ih =>
    rw [List.any_cons, Bool.or_eq_false_iff] at h
    simp [takeThrough, h.1, ih h.2]

theorem takeThrough_append (p : α → Bool) (a b : List α) :
    takeThrough p (a ++ b) = if a.any p then takeThrough p a else a ++ takeThrough p b := by
  induction a with
  | nil => simp
  | cons x xs ih =>
    rw [List.cons_append, List.any_cons]
    by_cases hx : p x = true
    · simp [takeThrough, hx]
    · have hx2 : p x = false := by simpa using hx
      simp only [takeThrough, hx2, Bool.false_eq_true, if_false, Bool.false_or]
      rw [ih]
      split_ifs <;> rfl

end TakeThrough

section Static

variable {σ α : Type}

/-- A loop whose body's calls and error depend on the element only: the calls
are those of the elements up to the first failing one, the error is that
element's. -/
theorem forEach_static (body : α → σ → Step σ) (p : α → Bool) (w : α → Call)
    (F : Call → Bool) (err : String)
    (hc : ∀ x s, (body x s).calls = if p x then [w x] else [])
    (l : List α)
    (he : ∀ x ∈ l, ∀ s, (body x s).err = if p x && F (w x) then some err else none)
    (s : σ) :
    (forEach body l s).calls = takeThrough F ((l.filter p).map w) ∧
      (forEach body l s).err = if ((l.filter p).map w).any F then some err else none := by
  induction l generalizing s with
  | nil => simp [forEach, takeThrough]
  | cons x xs ih =>
    have hcx := hc x s
    have hex := he x (List.mem_cons_self x xs) s
    have ih2 := fun s1 => ih (fun y hy => he y (List.mem_cons_of_mem x hy)) s1
    unfold forEach
    rcases hbx : body x s with ⟨e, st1, cs⟩
    rw [hbx] at hcx hex
    simp only at hcx hex
    subst hcx hex
    by_cases hp : p x = true
    · have hfil : List.filter p (x :: xs) = x :: List.filter p xs := by
        simp [List.filter_cons, hp]
      rw [hfil, List.map_cons, List.any_cons]
      by_cases hF : F (w x) = true
      · simp [hp, hF, takeThrough]
      · have hF2 : F (w x) = false := by simpa using hF
        obtain ⟨i1, i2⟩ := ih2 st1
        rw [hF2, Bool.false_or]
        simp [hp, hF2, takeThrough, i1, i2]
    · have hp2 : p x = false := by simpa using hp
      have hfil : List.filter p (x :: xs) = List.filter p xs := by
        simp [List.filter_cons, hp2]
      rw [hfil]
      obtain ⟨i1, i2⟩ := ih2 st1
      simp [hp2, i1, i2]

theorem andThen_static (a : Step σ) (f : σ → Step σ) (F : Call → Bool) (err : String)
    (A B : List Call)
    (ha : a.calls = takeThrough F A ∧ a.err = if A.any F then some err else none)
    (hf : ∀ s, (f s).calls = takeThrough F B ∧
      (f s).err = if B.any F then some err else none) :
    (a.andThen f).calls = takeThrough F (A ++ B) ∧
      (a.andThen f).err = if (A ++ B).any F then some err else none := by
  rw [takeThrough_append, List.any_append]
  by_cases hA : A.any F = true
  · have he : a.err = some err := by rw [ha.2]; simp [hA]
    unfold Step.andThen
    rw [he]
    simp [ha.1, hA]
  · have hA2 : A.any F = false := by simpa using hA
    have he : a.err = none := by rw [ha.2]; simp [hA2]
    unfold Step.andThen
    rw [he]
    simp [ha.1, hA2, (hf a.st).1, (hf a.st).2, takeThrough_of_none F A hA2]

end Static

section Oracle

variable (fails : Call → Bool) (c : ServiceClient) (ip : Bool)

theorem deregServiceBody_oracle_err (chks : GoMap AgentCheck) (e : String × AgentService)
    (s : Catalog) :
    (deregServiceBody (mapCatalog fails) c ip e s).err =
      if evictService c ip e.1 && fatalFailure fails chks (Call.ServiceDeregister e.1) then
        some "transport error" else none := by
  unfold deregServiceBody evictService fatalFailure toleratedFailure mapCatalog
  dsimp only
  split_ifs <;> simp_all

theorem regServiceBody_oracle_err (svcs : GoMap AgentService) (chks : GoMap AgentCheck)
    (e : String × AgentServiceRegistration) (s : Catalog) :
    (regServiceBody (mapCatalog fails) svcs e s).err =
      if serviceNeedsRegister svcs e && fatalFailure fails chks (Call.ServiceRegister e.2) then
        some "transport error" else none := by
  unfold regServiceBody fatalFailure toleratedFailure mapCatalog
  dsimp only
  split_ifs <;> simp_all

theorem deregCheckBody_oracle_err (chks : GoMap AgentCheck) (hwf : chks.WF)
    (e : String × AgentCheck) (he : e ∈ chks) (s : Catalog) :
    (deregCheckBody (mapCatalog fails) c ip e s).err =
      if evictCheck c ip e && fatalFailure fails chks (Call.CheckDeregister e.1) then
        some "transport error" else none := by
  have hg : chks.get? e.1 = some e.2 := GoMap.get?_eq_some_of_mem hwf he
  unfold deregCheckBody evictCheck fatalFailure toleratedFailure mapCatalog
  dsimp only
  rw [hg]
  dsimp only
  split_ifs <;> simp_all

theorem regCheckBody_oracle_err (chks : GoMap AgentCheck)
    (e : String × AgentCheckRegistration) (s : Catalog) :
    (regCheckBody (mapCatalog fails) chks e s).err =
      if !chks.contains e.1 && fatalFailure fails chks (Call.CheckRegister e.2) then
        some "transport error" else none := by
  unfold regCheckBody fatalFailure toleratedFailure mapCatalog
  dsimp only
  split_ifs <;> simp_all

end Oracle

/-- A failed deregistration of a legacy service id never ends the first loop,
whatever the catalog agent does. -/
theorem deregServiceBody_tolerates {σ : Type} (api : AgentAPI σ) (c : ServiceClient) (ip : Bool)
    (e : String × AgentService) (st : σ) (h : isOldNomadService e.1 = true) :
    (deregServiceBody api c ip e st).err = none := by
  unfold deregServiceBody
  dsimp only
  rcases hd : api.ServiceDeregister e.1 st with ⟨_ | _, _⟩ <;> split_ifs <;> simp_all

/-- A failed deregistration of a check of a legacy service never ends the third
loop, whatever the catalog agent does. -/
theorem deregCheckBody_tolerates {σ : Type} (api : AgentAPI σ) (c : ServiceClient) (ip : Bool)
    (e : String × AgentCheck) (st : σ) (h : isOldNomadService e.2.ServiceID = true) :
    (deregCheckBody api c ip e st).err = none := by
  unfold deregCheckBody
  dsimp only
  rcases hd : api.CheckDeregister e.1 st with ⟨_ | _, _⟩ <;> split_ifs <;> simp_all

/-- C14 (write failures). Against a catalog agent in which the calls `fails`
selects fail, with both reads succeeding: `sync` issues the planned writes in
order up to and including the first one that fails without being tolerated,
and returns that write's error; a failed `ServiceDeregister` of a legacy
(`_nomad-executor`) id, or a failed `CheckDeregister` of a check whose
`ServiceID` is a legacy id, is tolerated: the cycle goes on past it, and if no
other write fails the whole plan is issued and `sync` returns nil. -/
theorem sync_write_failures (fails : Call → Bool) (c : ServiceClient) (now : Nat)
    (cat : Catalog) (hwf : cat.checks.WF)
    (hS : fails Call.Services = false) (hC : fails Call.Checks = false) :
    (sync (mapCatalog fails) c now cat).calls =
        [Call.Services, Call.Checks] ++
          takeThrough (fun w => fails w && !toleratedFailure cat.checks w)
            (plannedWrites c (decide (now < c.deregisterProbationExpiry))
              cat.services cat.checks) ∧
      (sync (mapCatalog fails) c now cat).err =
        (if (plannedWrites c (decide (now < c.deregisterProbationExpiry))
              cat.services cat.checks).any
            (fun w => fails w && !toleratedFailure cat.checks w) then
          some "transport error" else none) ∧
      (∀ id, toleratedFailure cat.checks (Call.ServiceDeregister id) = isOldNomadService id) ∧
      (∀ id chk, (id, chk) ∈ cat.checks →
        toleratedFailure cat.checks (Call.CheckDeregister id) =
          isOldNomadService chk.ServiceID) ∧
      (∀ reg, toleratedFailure cat.checks (Call.ServiceRegister reg) = false) ∧
      (∀ reg, toleratedFailure cat.checks (Call.CheckRegister reg) = false) := by
  have hs : (mapCatalog fails).Services cat = (.ok cat.services, cat) := by
    simp [mapCatalog, hS]
  have hc : (mapCatalog fails).Checks cat = (.ok cat.checks, cat) := by
    simp [mapCatalog, hC]
  rw [sync_of_reads (mapCatalog fails) c now cat hs hc]
  simp only
  generalize decide (now < c.deregisterProbationExpiry) = ip
  have hF : (fun w => fails w && !toleratedFailure cat.checks w) =
      fatalFailure fails cat.checks := rfl
  rw [hF]
  have h1 : ∀ s, (forEach (deregServiceBody (mapCatalog fails) c ip) cat.services s).calls =
        takeThrough (fatalFailure fails cat.checks) (deregServiceCalls c ip cat.services) ∧
      (forEach (deregServiceBody (mapCatalog fails) c ip) cat.services s).err =
        if (deregServiceCalls c ip cat.services).any (fatalFailure fails cat.checks) then
          some "transport error" else none := fun s =>
    forEach_static _ (fun e : String × AgentService => evictService c ip e.1)
      (fun e => Call.ServiceDeregister e.1) _ _
      (deregServiceBody_calls (mapCatalog fails) c ip) _
      (fun e _ s => deregServiceBody_oracle_err fails c ip cat.checks e s) s
  have h2 : ∀ s, (forEach (regServiceBody (mapCatalog fails) cat.services) c.services s).calls =
        takeThrough (fatalFailure fails cat.checks) (regServiceCalls c cat.services) ∧
      (forEach (regServiceBody (mapCatalog fails) cat.services) c.services s).err =
        if (regServiceCalls c cat.services).any (fatalFailure fails cat.checks) then
          some "transport error" else none := fun s =>
    forEach_static _ (serviceNeedsRegister cat.services)
      (fun e => Call.ServiceRegister e.2) _ _
      (regServiceBody_calls (mapCatalog fails) cat.services) _
      (fun e _ s => regServiceBody_oracle_err fails cat.services cat.checks e s) s
  have h3 : ∀ s, (forEach (deregCheckBody (mapCatalog fails) c ip) cat.checks s).calls =
        takeThrough (fatalFailure fails cat.checks) (deregCheckCalls c ip cat.checks) ∧
      (forEach (deregCheckBody (mapCatalog fails) c ip) cat.checks s).err =
        if (deregCheckCalls c ip cat.checks).any (fatalFailure fails cat.checks) then
          some "transport error" else none := fun s =>
    forEach_static _ (evictCheck c ip)
      (fun e => Call.CheckDeregister e.1) _ _
      (deregCheckBody_calls (mapCatalog fails) c ip) _
      (fun e he s => deregCheckBody_oracle_err fails c ip cat.checks hwf e he s) s
  have h4 : ∀ s, (forEach (regCheckBody (mapCatalog fails) cat.checks) c.checks s).calls =
        takeThrough (fatalFailure fails cat.checks) (regCheckCalls c cat.checks) ∧
      (forEach (regCheckBody (mapCatalog fails) cat.checks) c.checks s).err =
        if (regCheckCalls c cat.checks).any (fatalFailure fails cat.checks) then
          some "transport error" else none := fun s =>
    forEach_static _ (fun e : String × AgentCheckRegistration => !cat.checks.contains e.1)
      (fun e => Call.CheckRegister e.2) _ _
      (regCheckBody_calls_not (mapCatalog fails) cat.checks) _
      (fun e _ s => regCheckBody_oracle_err fails cat.checks e s) s
  have h12 := andThen_static _ (forEach (regServiceBody (mapCatalog fails) cat.services)
    c.services) (fatalFailure fails cat.checks) "transport error" _ _ (h1 cat) h2
  have h123 := andThen_static _ (forEach (deregCheckBody (mapCatalog fails) c ip) cat.checks)
    (fatalFailure fails cat.checks) "transport error" _ _ h12 h3
  have h1234 := andThen_static _ (forEach (regCheckBody (mapCatalog fails) cat.checks) c.checks)
    (fatalFailure fails cat.checks) "transport error" _ _ h123 h4
  have hplan : plannedWrites c ip cat.services cat.checks =
      ((deregServiceCalls c ip cat.services ++ regServiceCalls c cat.services) ++
        deregCheckCalls c ip cat.checks) ++ regCheckCalls c cat.checks := by
    simp [plannedWrites, List.append_assoc]
  rw [hplan]
  unfold syncLoops
  refine ⟨by rw [h1234.1], h1234.2, fun id => rfl, ?_, fun reg => rfl, fun reg => rfl⟩
  intro id chk hmem
  have hg := GoMap.get?_eq_some_of_mem hwf hmem
  simp only [toleratedFailure, hg]

/-- Witness of C14: every `ServiceDeregister` fails; the failure on the legacy
id is passed over, the one on `_nomad-task-X` ends the cycle, and
`_nomad-task-Y` is never tried. -/
theorem sync_write_failures_witness :
    (sync (mapCatalog serviceDeregisterFails) freshClient 100 mixedCatalog).calls =
        [Call.Services, Call.Checks, Call.ServiceDeregister "_nomad-executor-old",
          Call.ServiceDeregister "_nomad-task-X"] ∧
      (sync (mapCatalog serviceDeregisterFails) freshClient 100 mixedCatalog).err =
        some "transport error" :=
  ⟨(sync_write_failures serviceDeregisterFails freshClient 100 mixedCatalog (by decide) rfl
      rfl).1.trans (by decide),
    (sync_write_failures serviceDeregisterFails freshClient 100 mixedCatalog (by decide) rfl
      rfl).2.1.trans (by decide)⟩

/-! ## Address resolution and builders -/

section GetAddress

variable (label : String) (networks : Networks) (driverNet : Option DriverNetwork)

theorem getAddress_auto :
    getAddress "auto" label networks driverNet =
      getAddress (if Advertise driverNet then "driver" else "host") label networks driverNet := by
  rw [getAddress]
  simp [AddressModeAuto, AddressModeDriver, AddressModeHost]

theorem getAddress_host :
    getAddress "host" label networks driverNet = getAddressHost label networks := by
  rw [getAddress]
  simp [AddressModeAuto, AddressModeHost]

theorem getAddress_driver :
    getAddress "driver" label networks driverNet = getAddressDriver label driverNet := by
  rw [getAddress]
  simp [AddressModeAuto, AddressModeHost, AddressModeDriver]

theorem getAddress_other (mode : String) (h1 : mode ≠ "auto") (h2 : mode ≠ "host")
    (h3 : mode ≠ "driver") :
    getAddress mode label networks driverNet = .error ("invalid address mode " ++ quote mode) := by
  rw [getAddress]
  simp [AddressModeAuto, AddressModeHost, AddressModeDriver, h1, h2, h3]

end GetAddress

/-- C15 (driver mode). `getAddress "driver"` fails for every label when the
driver network is nil.  Otherwise, trying the cases in this order: the empty
label gives `(driverNet.IP, 0)`; a label that is a key of the driver's port map
gives `(driverNet.IP, PortMap[label])`, numeric or not; a label that
`strconv.Atoi` parses to `n > 0` gives `(driverNet.IP, n)`; every other label
gives an error.  The host networks do not influence the result. -/
theorem getAddress_driver_mode (label : String) (networks networks2 : Networks)
    (d : DriverNetwork) :
    (∃ e, getAddress "driver" label networks none = .error e) ∧
      getAddress "driver" "" networks (some d) = .ok (d.IP, 0) ∧
      (∀ p, label ≠ "" → d.PortMap.get? label = some p →
        getAddress "driver" label networks (some d) = .ok (d.IP, p)) ∧
      (∀ n, d.PortMap.get? label = none → strconvAtoi label = some n → 0 < n →
        getAddress "driver" label networks (some d) = .ok (d.IP, n)) ∧
      (label ≠ "" → d.PortMap.get? label = none →
        (strconvAtoi label = none ∨ ∃ n, strconvAtoi label = some n ∧ n ≤ 0) →
        ∃ e, getAddress "driver" label networks (some d) = .error e) ∧
      (∀ dn, getAddress "driver" label networks dn = getAddress "driver" label networks2 dn) := by
  simp only [getAddress_driver]
  refine ⟨⟨_, rfl⟩, ?_, ?_, ?_, ?_, ?_⟩
  · simp [getAddressDriver]
  · intro p hl hp
    simp [getAddressDriver, hl, hp]
  · intro n hp ha hn
    have hl : label ≠ "" := by
      intro h; subst h; simp [strconvAtoi] at ha
    simp [getAddressDriver, hl, hp, ha, not_le.mpr hn]
  · intro hl hp ha
    rcases ha with ha | ⟨n, ha, hn⟩
    · simp [getAddressDriver, hl, hp, ha]
    · simp [getAddressDriver, hl, hp, ha, hn]
  · intro dn
    trivial

/-- Witness of C15: the label `8080` is a key of the port map and also a
number; the port map wins. -/
theorem getAddress_driver_mode_witness :
    getAddress "driver" "8080" [hostNetwork] (some driverNetwork) = .ok ("172.17.0.2", 81) :=
  (getAddress_driver_mode "8080" [hostNetwork] [] driverNetwork).2.2.1 81 (by decide) (by decide)

section PortLookup

theorem find?_label_none (ps : List Port) (label : String)
    (h : ∀ q ∈ ps, q.Label ≠ label) : ps.find? (fun p => p.Label == label) = none := by
  rw [List.find?_eq_none]
  intro q hq
  simpa using h q hq

theorem find?_label_first (ps qs : List Port) (p : Port) (label : String)
    (h : ∀ q ∈ ps, q.Label ≠ label) (hp : p.Label = label) :
    (ps ++ p :: qs).find? (fun p => p.Label == label) = some p := by
  rw [List.find?_append, find?_label_none ps label h]
  simp [List.find?_cons, hp]

/-- `Networks.Port` finds nothing when no port carries the label. -/
theorem networksPort_of_none (networks : Networks) (label : String)
    (h : ∀ m ∈ networks, ∀ q ∈ m.ports, q.Label ≠ label) :
    Networks.Port networks label = ("", 0) := by
  induction networks with
  | nil => rfl
  | cons n rest ih =>
    unfold Networks.Port
    rw [find?_label_none n.ports label (h n (List.mem_cons_self n rest))]
    exact ih (fun m hm => h m (List.mem_cons_of_mem n hm))

/-- `Networks.Port` returns the first port that carries the label. -/
theorem networksPort_of_first (pre post : Networks) (n : NetworkResource)
    (ps qs : List Port) (p : Port) (label : String)
    (hpre : ∀ m ∈ pre, ∀ q ∈ m.ports, q.Label ≠ label)
    (hn : n.ports = ps ++ p :: qs) (hps : ∀ q ∈ ps, q.Label ≠ label) (hp : p.Label = label) :
    Networks.Port (pre ++ n :: post) label = (n.IP, p.Value) := by
  induction pre with
  | nil =>
    simp only [List.nil_append]
    unfold Networks.Port
    rw [hn, find?_label_first ps qs p label hps hp]
  | cons m rest ih =>
    simp only [List.cons_append]
    unfold Networks.Port
    rw [find?_label_none m.ports label (hpre m (List.mem_cons_self m rest))]
    exact ih (fun k hk => hpre k (List.mem_cons_of_mem m hk))

end PortLookup

/-- Counterexample to C16 as stated: the first (and only) network port that
carries the label `http` has the ip `""` and the port 0, and `getAddress`
returns an error instead of that pair. -/
theorem getAddress_host_unset_port :
    [unsetNetwork].map NetworkResource.ports = [[{ Label := "http", Value := 0 }]] ∧
      unsetNetwork.IP = "" ∧
      getAddress "host" "http" [unsetNetwork] none =
        .error "invalid port \"http\": port label not found" := by
  refine ⟨by decide, by decide, ?_⟩
  rw [getAddress_host]
  rfl

/-- C16, amended (host mode). With an empty label `getAddress "host"` returns
`(networks[0].IP, 0)` when there is exactly one network and `("", 0)` otherwise,
without error.  With a non-empty label it looks at the first network port that
carries the label: it returns that port's `(ip, port)` unless the ip is empty
and the port is not positive, in which case it returns an error; it returns an
error when no network has a port with that label.  The driver network does not
influence the result. -/
theorem getAddress_host_mode (label : String) (networks : Networks)
    (dn dn2 : Option DriverNetwork) :
    (∀ n, getAddress "host" "" [n] dn = .ok (n.IP, 0)) ∧
      (networks.length ≠ 1 → getAddress "host" "" networks dn = .ok ("", 0)) ∧
      (∀ pre n post ps p qs, label ≠ "" → networks = pre ++ n :: post →
        (∀ m ∈ pre, ∀ q ∈ m.ports, q.Label ≠ label) →
        n.ports = ps ++ p :: qs → (∀ q ∈ ps, q.Label ≠ label) → p.Label = label →
        ((n.IP ≠ "" ∨ 0 < p.Value) →
            getAddress "host" label networks dn = .ok (n.IP, p.Value)) ∧
          (n.IP = "" ∧ p.Value ≤ 0 → ∃ e, getAddress "host" label networks dn = .error e)) ∧
      (label ≠ "" → (∀ m ∈ networks, ∀ q ∈ m.ports, q.Label ≠ label) →
        ∃ e, getAddress "host" label networks dn = .error e) ∧
      getAddress "host" label networks dn = getAddress "host" label networks dn2 := by
  simp only [getAddress_host]
  refine ⟨fun n => by simp [getAddressHost], ?_, ?_, ?_, trivial⟩
  · intro hlen
    unfold getAddressHost
    simp only [if_true]
    match networks, hlen with
    | [], _ => rfl
    | [n], h => exact absurd rfl h
    | _ :: _ :: _, _ => rfl
  · intro pre n post ps p qs hl hnet hpre hn hps hp
    subst hnet
    have hport := networksPort_of_first pre post n ps qs p label hpre hn hps hp
    unfold getAddressHost
    simp only [hl, if_false, hport]
    constructor
    · intro h
      have : ¬ (n.IP = "" ∧ p.Value ≤ 0) := by
        rintro ⟨h1, h2⟩
        rcases h with h | h
        · exact h h1
        · omega
      simp [this]
    · intro h
      simp [h]
  · intro hl hnone
    have hport := networksPort_of_none networks label hnone
    unfold getAddressHost
    simp [hl, hport]

/-- Witness of the amended C16: the label `http` is found on the dynamic port of
the host network. -/
theorem getAddress_host_mode_witness :
    getAddress "host" "http" [hostNetwork] (some driverNetwork) = .ok ("192.168.0.7", 23456) :=
  ((getAddress_host_mode "http" [hostNetwork] (some driverNetwork) none).2.2.1
    [] hostNetwork [] [{ Label := "admin", Value := 9000 }]
    { Label := "http", Value := 23456, To := 8080 } [] (by decide) rfl
    (by decide) rfl (by decide) rfl).1 (by decide)

/-- C17 (auto mode). `getAddress "auto"` equals `getAddress "driver"` when the
driver network is present and asks to be advertised, and `getAddress "host"`
otherwise, a nil driver network included; a mode other than `auto`, `host` and
`driver` yields an error.  `getAddress` is a total function: its `auto` case
calls it once more with a mode that is not `auto`, which is what its
termination measure records. -/
theorem getAddress_auto_mode (mode label : String) (networks : Networks)
    (dn : Option DriverNetwork) :
    (∀ d, dn = some d → d.AutoAdvertise = true →
        getAddress "auto" label networks dn = getAddress "driver" label networks dn) ∧
      ((dn = none ∨ ∃ d, dn = some d ∧ d.AutoAdvertise = false) →
        getAddress "auto" label networks dn = getAddress "host" label networks dn) ∧
      (∃ m, m ≠ "auto" ∧ getAddress "auto" label networks dn = getAddress m label networks dn) ∧
      (mode ≠ "auto" → mode ≠ "host" → mode ≠ "driver" →
        ∃ e, getAddress mode label networks dn = .error e) := by
  refine ⟨?_, ?_, ?_, ?_⟩
  · intro d hd ha
    rw [getAddress_auto, hd]
    simp [Advertise, ha]
  · intro h
    rw [getAddress_auto]
    rcases h with h | ⟨d, hd, ha⟩
    · simp [h, Advertise]
    · simp [hd, Advertise, ha]
  · refine ⟨if Advertise dn then "driver" else "host", ?_, getAddress_auto label networks dn⟩
    split_ifs <;> decide
  · intro h1 h2 h3
    exact ⟨_, getAddress_other label networks dn mode h1 h2 h3⟩

/-- Witness of C17: a driver network that asks to be advertised, and none. -/
theorem getAddress_auto_mode_witness :
    getAddress "auto" "http" [hostNetwork] (some driverNetwork) =
        getAddress "driver" "http" [hostNetwork] (some driverNetwork) ∧
      getAddress "auto" "http" [hostNetwork] none = getAddress "host" "http" [hostNetwork] none ∧
      ∃ e, getAddress "bridge" "http" [hostNetwork] none = .error e :=
  ⟨(getAddress_auto_mode "bridge" "http" [hostNetwork] (some driverNetwork)).1 driverNetwork rfl
      rfl,
    (getAddress_auto_mode "bridge" "http" [hostNetwork] none).2.1 (Or.inl rfl),
    (getAddress_auto_mode "bridge" "http" [hostNetwork] none).2.2.2 (by decide) (by decide)
      (by decide)⟩

/-- Unfolding of `createCheckReg` for a script check. -/
theorem createCheckReg_of_script (lib : Lib) (serviceID checkID : String) (check : ServiceCheck)
    (host : String) (port : Int) (hk : check.Kind = "script") :
    createCheckReg lib serviceID checkID check host port =
      .ok { ID := checkID, Name := check.Name, ServiceID := serviceID,
            Status := check.InitialStatus, Timeout := durationString check.Timeout,
            Interval := "",
            TTL := durationString (wrapInt64 (check.Interval + ttlCheckBuffer)) } := by
  unfold createCheckReg
  simp [ServiceCheck.RequiresPort, hk, ServiceCheckGRPC, ServiceCheckHTTP, ServiceCheckTCP,
    ServiceCheckScript]

/-- Counterexample to C18 as stated: for a script check with an interval of 10s
the TTL is `41s`, the duration string of the interval plus 31s, and not `11s`,
that of the interval plus 1s. -/
theorem createCheckReg_script_ttl_is_not_plus_one :
    createCheckReg plainLib "_nomad-task-a" "_nomad-check-1" scriptCheck "" 0 =
        .ok { ID := "_nomad-check-1", Name := "alive", ServiceID := "_nomad-task-a",
              Timeout := "2s", Interval := "", TTL := "41s" } ∧
      durationString (scriptCheck.Interval + 1 * Second) = "11s" := by
  constructor
  · rw [createCheckReg_of_script _ _ _ _ _ _ rfl]
    rfl
  · decide

/-- C18, amended (script check TTL). For every script check `createCheckReg`
succeeds, whatever the port; the registration has an empty `Interval`, and its
`TTL` is the duration string of the check's interval plus `ttlCheckBuffer`,
which is 31 seconds (the sum taken in 64 bits). -/
theorem createCheckReg_script_ttl (lib : Lib) (serviceID checkID : String)
    (check : ServiceCheck) (host : String) (port : Int) (hk : check.Kind = "script") :
    ∃ reg, createCheckReg lib serviceID checkID check host port = .ok reg ∧
      reg.Interval = "" ∧
      reg.TTL = durationString (wrapInt64 (check.Interval + 31 * Second)) ∧
      (-2 ^ 63 ≤ check.Interval + 31 * Second → check.Interval + 31 * Second < 2 ^ 63 →
        reg.TTL = durationString (check.Interval + 31 * Second)) := by
  refine ⟨_, createCheckReg_of_script lib serviceID checkID check host port hk, rfl, rfl, ?_⟩
  intro h1 h2
  simp only [ttlCheckBuffer]
  rw [wrapInt64_of_range _ h1 h2]

/-- Witness of the amended C18: an interval of 10s gives the TTL `41s`. -/
theorem createCheckReg_script_ttl_witness :
    ∃ reg, createCheckReg plainLib "_nomad-task-a" "_nomad-check-1" scriptCheck "" 0 = .ok reg ∧
      reg.Interval = "" ∧
      reg.TTL = durationString (wrapInt64 (scriptCheck.Interval + 31 * Second)) ∧
      (-2 ^ 63 ≤ scriptCheck.Interval + 31 * Second →
        scriptCheck.Interval + 31 * Second < 2 ^ 63 →
        reg.TTL = durationString (scriptCheck.Interval + 31 * Second)) :=
  createCheckReg_script_ttl plainLib "_nomad-task-a" "_nomad-check-1" scriptCheck "" 0 rfl

/-- C19 (check builder failures). `createCheckReg` returns an error when the
kind is `http`, `tcp` or `grpc` and the port is 0, and when the kind is none of
`http`, `tcp`, `script`, `grpc`; for `tcp` and `grpc` with a port other than 0,
and for `script` with any port, it succeeds; and every registration it returns
carries the given check id, the check's name, the owning service id, the
initial status and the timeout as a duration string. -/
theorem createCheckReg_failures (lib : Lib) (serviceID checkID : String)
    (check : ServiceCheck) (host : String) (port : Int) :
    ((check.Kind = "http" ∨ check.Kind = "tcp" ∨ check.Kind = "grpc") → port = 0 →
        ∃ e, createCheckReg lib serviceID checkID check host port = .error e) ∧
      (check.Kind ≠ "http" → check.Kind ≠ "tcp" → check.Kind ≠ "script" →
        check.Kind ≠ "grpc" →
        ∃ e, createCheckReg lib serviceID checkID check host port = .error e) ∧
      ((check.Kind = "tcp" ∨ check.Kind = "grpc") → port ≠ 0 →
        ∃ reg, createCheckReg lib serviceID checkID check host port = .ok reg) ∧
      (check.Kind = "script" →
        ∃ reg, createCheckReg lib serviceID checkID check host port = .ok reg) ∧
      (∀ reg, createCheckReg lib serviceID checkID check host port = .ok reg →
        reg.ID = checkID ∧ reg.Name = check.Name ∧ reg.ServiceID = serviceID ∧
          reg.Status = check.InitialStatus ∧ reg.Timeout = durationString check.Timeout) := by
  refine ⟨?_, ?_, ?_, ?_, ?_⟩
  · intro hk hp
    subst hp
    unfold createCheckReg
    rcases hk with hk | hk | hk <;>
      simp [ServiceCheck.RequiresPort, hk, ServiceCheckGRPC, ServiceCheckHTTP, ServiceCheckTCP]
  · intro h1 h2 h3 h4
    unfold createCheckReg
    simp [ServiceCheck.RequiresPort, h1, h2, h3, h4, ServiceCheckGRPC, ServiceCheckHTTP,
      ServiceCheckTCP, ServiceCheckScript]
  · intro hk hp
    unfold createCheckReg
    rcases hk with hk | hk <;>
      simp [ServiceCheck.RequiresPort, hk, hp, ServiceCheckGRPC, ServiceCheckHTTP,
        ServiceCheckTCP, ServiceCheckScript]
  · intro hk
    exact ⟨_, createCheckReg_of_script lib serviceID checkID check host port hk⟩
  · intro reg h
    unfold createCheckReg at h
    simp only at h
    split_ifs at h <;>
      first
      | (injection h with h; subst h; exact ⟨rfl, rfl, rfl, rfl, rfl⟩)
      | (rcases hu : lib.urlParse check.Path with e | rel <;> rw [hu] at h <;>
          first
          | (injection h with h; subst h; exact ⟨rfl, rfl, rfl, rfl, rfl⟩)
          | cases h)

/-- Witness of C19: a `tcp` check without a port fails, with a port it
succeeds. -/
theorem createCheckReg_failures_witness :
    (∃ e, createCheckReg plainLib "_nomad-task-a" "_nomad-check-2"
        { Name := "up", Kind := "tcp" } "10.0.0.1" 0 = .error e) ∧
      (∃ reg, createCheckReg plainLib "_nomad-task-a" "_nomad-check-2"
        { Name := "up", Kind := "tcp" } "10.0.0.1" 8080 = .ok reg) :=
  ⟨(createCheckReg_failures plainLib "_nomad-task-a" "_nomad-check-2"
      { Name := "up", Kind := "tcp" } "10.0.0.1" 0).1 (Or.inr (Or.inl rfl)) rfl,
    (createCheckReg_failures plainLib "_nomad-task-a" "_nomad-check-2"
      { Name := "up", Kind := "tcp" } "10.0.0.1" 8080).2.2.1 (Or.inl rfl) (by decide)⟩

section ServiceRegs

theorem checkRegsLoop_regServices (lib : Lib) (serviceID : String) (service : Service)
    (task : TaskServices) (checks : List ServiceCheck) (ops : operations) (ids : List String) :
    (checkRegsLoop lib serviceID service task checks ops ids).1.regServices =
      ops.regServices := by
  induction checks generalizing ops ids with
  | nil => rfl
  | cons check rest ih =>
    unfold checkRegsLoop
    simp only
    split_ifs <;> (repeat' split) <;> first | rfl | rw [ih]

theorem checkRegs_regServices (lib : Lib) (ops : operations) (serviceID : String)
    (service : Service) (task : TaskServices) :
    (checkRegs lib ops serviceID service task).1.regServices = ops.regServices := by
  unfold checkRegs
  split_ifs
  · rfl
  · have h := checkRegsLoop_regServices lib serviceID service task service.Checks ops []
    split <;> rename_i heq <;> rw [heq] at h <;> exact h

end ServiceRegs

/-- C20 (canary tag selection). When `serviceRegs` succeeds it has appended one
service registration to the operations; that registration has the task service
id, and its tag list is present and holds exactly the elements of
`service.CanaryTags`, in order, when `task.Canary` is true and `CanaryTags` is
not empty, and exactly the elements of `service.Tags`, in order, in every other
case. -/
theorem serviceRegs_tags (lib : Lib) (ops ops2 : operations) (service : Service)
    (task : TaskServices) (sreg : ServiceRegistration)
    (h : serviceRegs lib ops service task = (ops2, .ok sreg)) :
    ∃ reg, ops2.regServices = ops.regServices ++ [reg] ∧
      reg.ID = MakeTaskServiceID task.AllocID task.Name service ∧
      (task.Canary = true → tagElements service.CanaryTags ≠ [] →
        reg.Tags = some (tagElements service.CanaryTags)) ∧
      ((task.Canary = false ∨ tagElements service.CanaryTags = []) →
        reg.Tags = some (tagElements service.Tags)) := by
  unfold serviceRegs at h
  simp only at h
  split at h
  · cases h
  · rename_i ip port hga
    split at h
    · cases h
    · rename_i connect hnc
      split at h
      · cases h
      · rename_i ops3 checkIDs hcr
        have hreg := checkRegs_regServices lib
          { ops with regServices := ops.regServices ++
            [{ ID := MakeTaskServiceID task.AllocID task.Name service, Name := service.Name,
               Tags := some (if task.Canary ∧ (tagElements service.CanaryTags).length > 0 then
                 tagElements service.CanaryTags else tagElements service.Tags),
               Address := ip, Port := port,
               Meta := (copyMeta [] service.Meta).set "external-source" "nomad",
               Connect := connect }] }
          (MakeTaskServiceID task.AllocID task.Name service) service task
        rw [hcr] at hreg
        simp only at hreg
        injection h with h1 h2
        subst h1
        refine ⟨_, hreg, rfl, ?_, ?_⟩
        · intro hc hne
          have : (tagElements service.CanaryTags).length > 0 :=
            List.length_pos.mpr hne
          simp [hc, this]
        · intro hor
          rcases hor with hc | he
          · simp [hc]
          · simp [he]

theorem serviceRegs_canary_eval :
    serviceRegs plainLib {} taggedService canaryTask =
      ({ regServices := [canaryRegistration] },
        .ok { serviceID := "_nomad-task-a1-web-frontend-http" }) := by
  have hga : getAddress AddressModeAuto "http" [hostNetwork] none =
      .ok ("192.168.0.7", 23456) := by
    rw [show AddressModeAuto = "auto" from rfl, getAddress_auto]
    simp only [Advertise]
    rw [if_neg (by decide), getAddress_host]
    rfl
  unfold serviceRegs
  simp only [taggedService, canaryTask, if_true, hga]
  rfl

/-- Witness of C20: a canary task gets the canary tags. -/
theorem serviceRegs_tags_witness :
    ∃ reg, [canaryRegistration] = [] ++ [reg] ∧
      reg.ID = MakeTaskServiceID canaryTask.AllocID canaryTask.Name taggedService ∧
      (canaryTask.Canary = true → tagElements taggedService.CanaryTags ≠ [] →
        reg.Tags = some (tagElements taggedService.CanaryTags)) ∧
      ((canaryTask.Canary = false ∨ tagElements taggedService.CanaryTags = []) →
        reg.Tags = some (tagElements taggedService.Tags)) :=
  serviceRegs_tags plainLib {} { regServices := [canaryRegistration] } taggedService canaryTask
    { serviceID := "_nomad-task-a1-web-frontend-http" } serviceRegs_canary_eval

/-! ## Identity and the lifecycle API -/

section Identity

/-- C21, at a failing input: in one allocation, the task `web` with the
service `api-db` and the task `web-api` with the service `db` get the same
service id from `MakeTaskServiceID`, so a workload service id does not
determine its task. -/
theorem MakeTaskServiceID_not_injective :
    MakeTaskServiceID "a1" "web" { Name := "api-db", PortLabel := "p" } =
        MakeTaskServiceID "a1" "web-api" { Name := "db", PortLabel := "p" } ∧
      ¬ ∀ (allocId1 taskName1 : String) (service1 : Service) (allocId2 taskName2 : String)
          (service2 : Service),
        MakeTaskServiceID allocId1 taskName1 service1 =
            MakeTaskServiceID allocId2 taskName2 service2 →
          allocId1 = allocId2 ∧ taskName1 = taskName2 := by
  refine ⟨by decide, fun h => ?_⟩
  have := (h "a1" "web" { Name := "api-db", PortLabel := "p" } "a1" "web-api"
    { Name := "db", PortLabel := "p" } (by decide)).2
  exact absurd this (by decide)

theorem isNomadService_makeAgentServiceID (lib : Lib) (role : String) (service : Service)
    (hrole : role = "client" ∨ role = "server") :
    isNomadService (makeAgentServiceID lib role service) = false := by
  rcases hrole with rfl | rfl <;>
    simp [isNomadService, isOldNomadService, stringsHasPrefixOf, makeAgentServiceID,
      nomadTaskPrefix, nomadServicePrefix, String.toList, String.data_append, List.isPrefixOf]

theorem isNomadService_MakeTaskServiceID (allocID taskName : String) (service : Service) :
    isNomadService (MakeTaskServiceID allocID taskName service) = true := by
  simp [isNomadService, stringsHasPrefixOf, MakeTaskServiceID, String.toList,
    String.data_append, List.append_assoc]

end Identity

/-- C22 (agent entries are never evicted by `sync`). For the roles `client` and
`server` and every service, `isNomadService (makeAgentServiceID role service)`
is false, while `isNomadService (MakeTaskServiceID …)` is true for every
allocation, task and service; so `sync` never calls `ServiceDeregister` on such
an agent service id, and never calls `CheckDeregister` on a catalog check whose
`ServiceID` is such an id. -/
theorem sync_agent_entries_safe {σ : Type} (lib : Lib) (api : AgentAPI σ) (c : ServiceClient)
    (now : Nat) (st : σ) (role : String) (service : Service)
    (hrole : role = "client" ∨ role = "server") :
    isNomadService (makeAgentServiceID lib role service) = false ∧
      (∀ allocID taskName svc, isNomadService (MakeTaskServiceID allocID taskName svc) = true) ∧
      Call.ServiceDeregister (makeAgentServiceID lib role service) ∉ (sync api c now st).calls ∧
      ∀ svcs chks st1 st2, api.Services st = (.ok svcs, st1) → api.Checks st1 = (.ok chks, st2) →
        chks.WF → ∀ k chk, (k, chk) ∈ chks →
          chk.ServiceID = makeAgentServiceID lib role service →
          Call.CheckDeregister k ∉ (sync api c now st).calls := by
  have hagent := isNomadService_makeAgentServiceID lib role service hrole
  refine ⟨hagent, isNomadService_MakeTaskServiceID, ?_, ?_⟩
  · intro h
    rcases sync_call_cases api c now st _ h with h | h | ⟨svcs, chks, st1, st2, _, _, h⟩
    · cases h
    · cases h
    · rw [mem_planned_serviceDeregister] at h
      have := h.2
      simp [evictService, hagent] at this
  · intro svcs chks st1 st2 hs hc hwf k chk hmem hsid h
    rcases sync_call_cases api c now st _ h with h | h | ⟨svcs', chks', st1', st2', hs', hc', h⟩
    · cases h
    · cases h
    · rw [hs] at hs'
      injection hs' with e1 e2
      injection e1 with e1
      subst e1 e2
      rw [hc] at hc'
      injection hc' with e1 e2
      injection e1 with e1
      subst e1 e2
      rw [mem_planned_checkDeregister] at h
      obtain ⟨chk', hmem', hev⟩ := h
      have := hwf.eq_of_mem hmem hmem'
      subst this
      simp [evictCheck, hsid, hagent] at hev

section Builders

variable (lib : Lib)

/-- A registration `createCheckReg` returns carries the ids it was given. -/
theorem createCheckReg_ids {serviceID checkID : String} {check : ServiceCheck} {host : String}
    {port : Int} {reg : AgentCheckRegistration}
    (h : createCheckReg lib serviceID checkID check host port = .ok reg) :
    reg.ID = checkID ∧ reg.ServiceID = serviceID := by
  unfold createCheckReg at h
  simp only at h
  split_ifs at h <;> (try split at h) <;>
    first
      | (injection h with h; subst h; exact ⟨rfl, rfl⟩)
      | cases h

theorem checkRegsLoop_ok_step {serviceID : String} {check : ServiceCheck}
    {rest : List ServiceCheck} {ops ops1 : operations} {ids ids1 : List String}
    {reg : AgentCheckRegistration}
    (hid : reg.ID = MakeCheckID lib serviceID check ∧ reg.ServiceID = serviceID)
    (h : ids1 = (ids ++ [MakeCheckID lib serviceID check]) ++
        rest.map (MakeCheckID lib serviceID) ∧
      ∃ regs : List AgentCheckRegistration,
        ops1 = { ({ ops with regChecks := ops.regChecks ++ [reg] } : operations) with
          regChecks := ops.regChecks ++ [reg] ++ regs } ∧
        regs.map (fun r => r.ID) = rest.map (MakeCheckID lib serviceID) ∧
        ∀ r ∈ regs, r.ServiceID = serviceID) :
    ids1 = ids ++ (check :: rest).map (MakeCheckID lib serviceID) ∧
      ∃ regs : List AgentCheckRegistration,
        ops1 = { ops with regChecks := ops.regChecks ++ regs } ∧
        regs.map (fun r => r.ID) = (check :: rest).map (MakeCheckID lib serviceID) ∧
        ∀ r ∈ regs, r.ServiceID = serviceID := by
  obtain ⟨hids, regs, hops, hmap, hsid⟩ := h
  refine ⟨by simp [hids], reg :: regs, by simp [hops], by simp [hmap, hid.1], ?_⟩
  intro r hr
  rcases List.mem_cons.mp hr with rfl | hr
  · exact hid.2
  · exact hsid r hr

/-- When the loop of `checkRegs` succeeds it has collected the id of every
check and appended one registration per check, in order. -/
theorem checkRegsLoop_ok (serviceID : String) (service : Service) (task : TaskServices) :
    ∀ (checks : List ServiceCheck) (ops : operations) (ids : List String) (ops1 : operations)
      (ids1 : List String),
      checkRegsLoop lib serviceID service task checks ops ids = (ops1, .ok ids1) →
      ids1 = ids ++ checks.map (MakeCheckID lib serviceID) ∧
        ∃ regs : List AgentCheckRegistration,
          ops1 = { ops with regChecks := ops.regChecks ++ regs } ∧
          regs.map (fun r => r.ID) = checks.map (MakeCheckID lib serviceID) ∧
          ∀ r ∈ regs, r.ServiceID = serviceID := by
  intro checks
  induction checks with
  | nil =>
    intro ops ids ops1 ids1 h
    simp only [checkRegsLoop, Prod.mk.injEq, Except.ok.injEq] at h
    obtain ⟨rfl, rfl⟩ := h
    exact ⟨by simp, [], by simp, rfl, by simp⟩
  | cons check rest ih =>
    intro ops ids ops1 ids1 h
    unfold checkRegsLoop at h
    simp only at h
    split_ifs at h <;> (repeat' split at h) <;>
      first
        | exact checkRegsLoop_ok_step lib (createCheckReg_ids lib ‹_›) (ih _ _ _ _ h)
        | simp at h

/-- Whether the loop of `checkRegs` succeeds, and the ids it then returns
beyond those it was given, do not depend on the batch it appends to. -/
theorem checkRegsLoop_result_indep (serviceID : String) (service : Service)
    (task : TaskServices) :
    ∀ (checks : List ServiceCheck) (ops ops2 : operations) (ids : List String),
      (checkRegsLoop lib serviceID service task checks ops ids).2 =
        (checkRegsLoop lib serviceID service task checks ops2 ids).2 := by
  intro checks
  induction checks with
  | nil => intro ops ops2 ids; rfl
  | cons check rest ih =>
    intro ops ops2 ids
    unfold checkRegsLoop
    simp only
    split_ifs <;> (repeat' split) <;> first | rfl | exact ih _ _ _

theorem checkRegs_ok {ops : operations} {serviceID : String} {service : Service}
    {task : TaskServices} {ops1 : operations} {ids : Option (List String)}
    (h : checkRegs lib ops serviceID service task = (ops1, .ok ids)) :
    ids.getD [] = service.Checks.map (MakeCheckID lib serviceID) ∧
      ∃ regs : List AgentCheckRegistration,
        ops1 = { ops with regChecks := ops.regChecks ++ regs } ∧
        regs.map (fun r => r.ID) = service.Checks.map (MakeCheckID lib serviceID) ∧
        ∀ r ∈ regs, r.ServiceID = serviceID := by
  unfold checkRegs at h
  split_ifs at h with h0
  · simp only [Prod.mk.injEq, Except.ok.injEq] at h
    obtain ⟨rfl, rfl⟩ := h
    have : service.Checks = [] := List.length_eq_zero.mp h0
    exact ⟨by simp [this], [], by simp, by simp [this], by simp⟩
  · split at h
    · simp at h
    · rename_i ops2 checkIDs hloop
      simp only [Prod.mk.injEq, Except.ok.injEq] at h
      obtain ⟨rfl, rfl⟩ := h
      obtain ⟨hids, regs, hops, hmap, hsid⟩ := checkRegsLoop_ok lib _ _ _ _ _ _ _ _ hloop
      exact ⟨by simp [hids], regs, hops, hmap, hsid⟩

theorem checkRegs_result_indep (ops ops2 : operations) (serviceID : String) (service : Service)
    (task : TaskServices) :
    (checkRegs lib ops serviceID service task).2 = (checkRegs lib ops2 serviceID service task).2 := by
  unfold checkRegs
  split_ifs with h0
  · rfl
  · have h := checkRegsLoop_result_indep lib serviceID service task service.Checks ops ops2 []
    rcases h1 : checkRegsLoop lib serviceID service task service.Checks ops [] with ⟨o1, r1⟩
    rcases h2 : checkRegsLoop lib serviceID service task service.Checks ops2 [] with ⟨o2, r2⟩
    rw [h1, h2] at h
    simp only at h
    subst h
    cases r1 <;> rfl

/-- The registration of a service in the task index, when the service builds. -/
theorem serviceRegs_ok {ops : operations} {service : Service} {task : TaskServices}
    {ops1 : operations} {sreg : ServiceRegistration}
    (h : serviceRegs lib ops service task = (ops1, .ok sreg)) :
    sreg = { serviceID := MakeTaskServiceID task.AllocID task.Name service,
             checkIDs := addCheckIDs [] (service.Checks.map
               (MakeCheckID lib (MakeTaskServiceID task.AllocID task.Name service))) } ∧
      ∃ (reg : AgentServiceRegistration) (regs : List AgentCheckRegistration),
        ops1 = { ops with regServices := ops.regServices ++ [reg],
                          regChecks := ops.regChecks ++ regs } ∧
        reg.ID = MakeTaskServiceID task.AllocID task.Name service ∧
        regs.map (fun r => r.ID) = service.Checks.map
          (MakeCheckID lib (MakeTaskServiceID task.AllocID task.Name service)) ∧
        ∀ r ∈ regs, r.ServiceID = MakeTaskServiceID task.AllocID task.Name service := by
  unfold serviceRegs at h
  simp only at h
  split at h
  · simp at h
  · split at h
    · simp at h
    · split at h
      · simp at h
      · rename_i ops2 checkIDs hcr
        simp only [Prod.mk.injEq, Except.ok.injEq] at h
        obtain ⟨rfl, rfl⟩ := h
        obtain ⟨hids, regs, hops, hmap, hsid⟩ := checkRegs_ok lib hcr
        refine ⟨by rw [hids], _, regs, hops, rfl, hmap, hsid⟩

theorem serviceRegs_result_indep (ops ops2 : operations) (service : Service)
    (task : TaskServices) :
    (serviceRegs lib ops service task).2 = (serviceRegs lib ops2 service task).2 := by
  unfold serviceRegs
  simp only
  split
  · rfl
  · split
    · rfl
    · generalize h1 : checkRegs lib _ _ service task = r1
      generalize h2 : checkRegs lib _ _ service task = r2
      have h : r1.2 = r2.2 := by
        rw [← h1, ← h2]
        exact checkRegs_result_indep lib _ _ _ _ _
      rcases r1 with ⟨o1, r1⟩
      rcases r2 with ⟨o2, r2⟩
      simp only at h
      subst h
      cases r1 <;> rfl

theorem foldl_set_get? {α β : Type} (key : β → String) (val : β → α) (l : List β)
    (m : GoMap α) (k : String) :
    (l.foldl (fun m x => m.set (key x) (val x)) m).get? k =
      ((l.reverse.find? (fun x => key x == k)).map val).orElse (fun _ => m.get? k) := by
  induction l generalizing m with
  | nil => simp
  | cons x rest ih =>
    rw [List.foldl_cons, ih, List.reverse_cons, List.find?_append, GoMap.get?_set]
    cases hf : List.find? (fun x => key x == k) rest.reverse with
    | some r => simp
    | none =>
      by_cases h : k = key x
      · subst h; simp
      · have : (key x == k) = false := by simpa using fun e => h e.symm
        simp [List.find?_cons, this, h]

theorem foldl_set_WF {α β : Type} (key : β → String) (val : β → α) (l : List β)
    (m : GoMap α) (h : m.WF) : (l.foldl (fun m x => m.set (key x) (val x)) m).WF := by
  induction l generalizing m with
  | nil => exact h
  | cons x rest ih => exact ih _ (h.set _ _)

theorem serviceRegs_of_builds {task : TaskServices} {service : Service}
    (h : serviceBuilds lib task service = true) (ops : operations) :
    ∃ ops1, serviceRegs lib ops service task = (ops1, .ok (indexEntry lib task service)) := by
  unfold serviceBuilds at h
  rw [serviceRegs_result_indep lib {} ops] at h
  rcases hs : serviceRegs lib ops service task with ⟨ops1, r⟩
  rw [hs] at h
  cases r with
  | error e => simp at h
  | ok sreg =>
    have := (serviceRegs_ok lib hs).1
    subst this
    exact ⟨ops1, rfl⟩

theorem serviceRegs_of_not_builds {task : TaskServices} {service : Service}
    (h : serviceBuilds lib task service = false) (ops : operations) :
    ∃ ops1 err, serviceRegs lib ops service task = (ops1, .error err) := by
  unfold serviceBuilds at h
  rw [serviceRegs_result_indep lib {} ops] at h
  rcases hs : serviceRegs lib ops service task with ⟨ops1, r⟩
  rw [hs] at h
  cases r with
  | error e => exact ⟨ops1, e, rfl⟩
  | ok sreg => simp at h

/-- The loop over the services returns an error as soon as one service does
not build. -/
theorem serviceRegsLoop_error (task : TaskServices) :
    ∀ (services : List Service) (ops : operations) (t : GoMap ServiceRegistration),
      (∃ service ∈ services, serviceBuilds lib task service = false) →
      ∃ err, serviceRegsLoop lib task services ops t = .error err := by
  intro services
  induction services with
  | nil => intro ops t h; simp at h
  | cons s rest ih =>
    intro ops t h
    unfold serviceRegsLoop
    cases hb : serviceBuilds lib task s with
    | false =>
      obtain ⟨ops1, err, he⟩ := serviceRegs_of_not_builds lib hb ops
      rw [he]
      exact ⟨err, rfl⟩
    | true =>
      obtain ⟨ops1, he⟩ := serviceRegs_of_builds lib hb ops
      rw [he]
      simp only
      apply ih
      obtain ⟨service, hmem, hnb⟩ := h
      rcases List.mem_cons.mp hmem with rfl | hmem
      · rw [hb] at hnb; cases hnb
      · exact ⟨service, hmem, hnb⟩

/-- When every service builds, the loop over the services appends one service
registration per service and one check registration per check, in order, and
records every service in the task registration. -/
theorem serviceRegsLoop_ok (task : TaskServices) :
    ∀ (services : List Service) (ops : operations) (t : GoMap ServiceRegistration),
      (∀ service ∈ services, serviceBuilds lib task service = true) →
      ∃ (regs : List AgentServiceRegistration) (cregs : List AgentCheckRegistration),
        serviceRegsLoop lib task services ops t =
          .ok ({ ops with regServices := ops.regServices ++ regs,
                          regChecks := ops.regChecks ++ cregs },
            services.foldl (fun t s =>
              t.set (MakeTaskServiceID task.AllocID task.Name s) (indexEntry lib task s)) t) ∧
        regs.map (fun r => r.ID) =
          services.map (MakeTaskServiceID task.AllocID task.Name) ∧
        cregs.map (fun r => r.ID) = taskCheckIDs lib task services := by
  intro services
  induction services with
  | nil =>
    intro ops t _
    exact ⟨[], [], by simp [serviceRegsLoop], rfl, rfl⟩
  | cons s rest ih =>
    intro ops t h
    obtain ⟨ops1, he⟩ := serviceRegs_of_builds lib (h s (List.mem_cons_self _ _)) ops
    obtain ⟨_, reg, regs, hops, hid, hmap, _⟩ := serviceRegs_ok lib he
    obtain ⟨regs', cregs', hloop, hm1, hm2⟩ :=
      ih ops1 (t.set (MakeTaskServiceID task.AllocID task.Name s) (indexEntry lib task s))
        (fun x hx => h x (List.mem_cons_of_mem _ hx))
    refine ⟨reg :: regs', regs ++ cregs', ?_, ?_, ?_⟩
    · unfold serviceRegsLoop
      rw [he]
      simp only [indexEntry] at hloop ⊢
      rw [hloop, hops]
      simp [indexEntry]
    · simp [hm1, hid]
    · simp [hm2, hmap, taskCheckIDs]

/-- The loop over the services succeeds only when every service builds. -/
theorem serviceRegsLoop_builds (task : TaskServices) (services : List Service)
    (ops : operations) (t : GoMap ServiceRegistration) {r : operations × GoMap ServiceRegistration}
    (h : serviceRegsLoop lib task services ops t = .ok r) :
    ∀ service ∈ services, serviceBuilds lib task service = true := by
  intro service hmem
  by_contra hb
  have hb : serviceBuilds lib task service = false := by simpa using hb
  obtain ⟨err, he⟩ := serviceRegsLoop_error lib task services ops t ⟨service, hmem, hb⟩
  rw [he] at h
  cases h

end Builders

section Agent

variable (lib : Lib)

theorem registerAgentChecks_error (id : String) (service : Service)
    (serviceReg : AgentServiceRegistration) :
    ∀ (checks : List ServiceCheck) (ops : operations),
      (∃ check ∈ checks, (check.PortLabel ≠ "" ∧ badPortLabel check.PortLabel = true) ∨
        check.Kind = ServiceCheckScript) →
      ∃ err, registerAgentChecks lib id service serviceReg checks ops = .error err := by
  intro checks
  induction checks with
  | nil => intro ops h; simp at h
  | cons check rest ih =>
    intro ops h
    unfold registerAgentChecks
    simp only
    by_cases hk : check.Kind = ServiceCheckScript
    · rw [if_pos hk]
      exact ⟨_, rfl⟩
    · rw [if_neg hk]
      have hrest : (∃ c ∈ rest, (c.PortLabel ≠ "" ∧ badPortLabel c.PortLabel = true) ∨
          c.Kind = ServiceCheckScript) ∨
          (check.PortLabel ≠ "" ∧ badPortLabel check.PortLabel = true) := by
        obtain ⟨c, hmem, hc⟩ := h
        rcases List.mem_cons.mp hmem with rfl | hmem
        · rcases hc with hc | hc
          · exact Or.inr hc
          · exact absurd hc hk
        · exact Or.inl ⟨c, hmem, hc⟩
      rcases hrest with hrest | ⟨hne, hbad⟩
      · split
        · exact ⟨_, rfl⟩
        · split
          · exact ⟨_, rfl⟩
          · exact ih _ hrest
      · rw [if_pos hne]
        unfold badPortLabel at hbad
        rcases he : splitHostPort check.PortLabel with e | ⟨host, rawport⟩
        · exact ⟨_, rfl⟩
        · rw [he] at hbad
          cases ha : strconvAtoi rawport with
          | none => simp only [ha]; exact ⟨_, rfl⟩
          | some v => simp [ha] at hbad

theorem registerAgentLoop_error (role : String) :
    ∀ (services : List Service) (ops : operations),
      (∃ service ∈ services, badPortLabel service.PortLabel = true ∨
        ∃ check ∈ service.Checks,
          (check.PortLabel ≠ "" ∧ badPortLabel check.PortLabel = true) ∨
            check.Kind = ServiceCheckScript) →
      ∃ err, registerAgentLoop lib role services ops = .error err := by
  intro services
  induction services with
  | nil => intro ops h; simp at h
  | cons service rest ih =>
    intro ops h
    unfold registerAgentLoop
    simp only
    rcases hs : splitHostPort service.PortLabel with e | ⟨host, rawport⟩
    · exact ⟨_, rfl⟩
    · simp only
      cases ha : strconvAtoi rawport with
      | none => exact ⟨_, rfl⟩
      | some port =>
        simp only
        obtain ⟨s, hmem, hc⟩ := h
        rcases List.mem_cons.mp hmem with rfl | hmem
        · rcases hc with hc | hc
          · simp [badPortLabel, hs, ha] at hc
          · obtain ⟨err, he⟩ := registerAgentChecks_error lib _ s _ s.Checks _ hc
            rw [he]
            exact ⟨_, rfl⟩
        · split
          · exact ⟨_, rfl⟩
          · exact ih _ ⟨s, hmem, hc⟩

end Agent

/-- C23 (validation of `RegisterAgent` is atomic). If the port label of some
service does not split as `host:port` with an integer port, or the non-empty
port label of some check does not, or some service has a check of kind script,
`RegisterAgent` returns an error, sends no batch (the queue is what it was,
whatever valid services precede the bad one) and leaves the agent-owned service
and check id sets as they were. -/
theorem RegisterAgent_validation_atomic (lib : Lib) (c : Lifecycle) (role : String)
    (services : List Service)
    (hbad : ∃ service ∈ services, badPortLabel service.PortLabel = true ∨
      ∃ check ∈ service.Checks,
        (check.PortLabel ≠ "" ∧ badPortLabel check.PortLabel = true) ∨
          check.Kind = ServiceCheckScript) :
    (∃ err, (RegisterAgent lib c role services).1 = some err) ∧
      (RegisterAgent lib c role services).2.opCh = c.opCh ∧
      (RegisterAgent lib c role services).2.agentServices = c.agentServices ∧
      (RegisterAgent lib c role services).2.agentChecks = c.agentChecks := by
  obtain ⟨err, he⟩ := registerAgentLoop_error lib role services {} hbad
  unfold RegisterAgent
  rw [he]
  exact ⟨⟨err, rfl⟩, rfl, rfl, rfl⟩

/-- Witness of C23: the valid service `nomad` precedes one whose port is not a
number; nothing is sent and nothing is recorded. -/
theorem RegisterAgent_validation_atomic_witness :
    (∃ err, (RegisterAgent plainLib {} "client" agentServices).1 = some err) ∧
      (RegisterAgent plainLib {} "client" agentServices).2.opCh = [] ∧
      (RegisterAgent plainLib {} "client" agentServices).2.agentServices = [] ∧
      (RegisterAgent plainLib {} "client" agentServices).2.agentChecks = [] :=
  RegisterAgent_validation_atomic plainLib {} "client" agentServices
    ⟨{ Name := "nomad-rpc", PortLabel := "127.0.0.1:rpc" }, by decide, Or.inl (by decide)⟩

theorem getAddress_eq (addrMode portLabel : String) (networks : Networks)
    (driverNet : Option DriverNetwork) :
    getAddress addrMode portLabel networks driverNet =
      if addrMode = "auto" then
        if Advertise driverNet then getAddressDriver portLabel driverNet
        else getAddressHost portLabel networks
      else if addrMode = "host" then getAddressHost portLabel networks
      else if addrMode = "driver" then getAddressDriver portLabel driverNet
      else .error ("invalid address mode " ++ quote addrMode) := by
  by_cases h1 : addrMode = "auto"
  · subst h1
    rw [getAddress_auto, if_pos rfl]
    cases Advertise driverNet
    · simp only [Bool.false_eq_true, if_false]; exact getAddress_host _ _ _
    · simp only [if_true]; exact getAddress_driver _ _ _
  · rw [if_neg h1]
    by_cases h2 : addrMode = "host"
    · subst h2; rw [if_pos rfl]; exact getAddress_host _ _ _
    · rw [if_neg h2]
      by_cases h3 : addrMode = "driver"
      · subst h3; rw [if_pos rfl]; exact getAddress_driver _ _ _
      · rw [if_neg h3]; exact getAddress_other _ _ _ _ h1 h2 h3

theorem scriptTask_builds :
    ∀ service ∈ scriptTask.Services, serviceBuilds plainLib scriptTask service = true := by
  intro service h
  simp only [scriptTask, List.mem_singleton] at h
  subst h
  simp only [serviceBuilds, serviceRegs, getAddress_eq]
  rfl

section Index

theorem commit_allocRegistrations (send : Bool) (c : Lifecycle) (ops : operations) :
    (commit send c ops).allocRegistrations = c.allocRegistrations := by
  unfold commit
  split_ifs <;> rfl

theorem commit_checkWatcher (send : Bool) (c : Lifecycle) (ops : operations) :
    (commit send c ops).checkWatcher = c.checkWatcher := by
  unfold commit
  split_ifs <;> rfl

theorem commit_opCh_of_open (send : Bool) (c : Lifecycle) (ops : operations)
    (h : c.shutdownCh = false) : (commit send c ops).opCh = c.opCh ++ [ops] := by
  unfold commit
  rw [h]
  rfl

/-- The `select` of `commit` sends the batch or drops it, and it drops it only
once `shutdownCh` is closed. -/
theorem commit_opCh_cases (send : Bool) (c : Lifecycle) (ops : operations) :
    (commit send c ops).opCh = c.opCh ++ [ops] ∨
      ((commit send c ops).opCh = c.opCh ∧ c.shutdownCh = true) := by
  unfold commit
  split_ifs with h
  · right
    simp only [Bool.and_eq_true] at h
    exact ⟨rfl, h.1⟩
  · left
    rfl

/-- Once `shutdownCh` is closed, the `select` of `commit` may take either
case while the channel has room. -/
theorem commit_of_closed (send : Bool) (c : Lifecycle) (ops : operations)
    (h : c.shutdownCh = true) (hroom : c.opCh.length < opChCap) :
    commit send c ops = if send then { c with opCh := c.opCh ++ [ops] } else c := by
  unfold commit
  cases send <;> simp [h, hroom]

theorem addTaskRegistration_get? (index : GoMap AllocRegistration) (allocID taskName : String)
    (reg : TaskRegistration) :
    ∃ alloc, (addTaskRegistration index allocID taskName reg).get? allocID = some alloc ∧
      alloc.Tasks.get? taskName = some reg := by
  unfold addTaskRegistration
  split
  · exact ⟨_, by rw [GoMap.get?_set, if_pos rfl], by rw [GoMap.get?_set, if_pos rfl]⟩
  · exact ⟨_, by rw [GoMap.get?_set, if_pos rfl], by rw [GoMap.get?_set, if_pos rfl]⟩

theorem addCheckIDs_contains (l : List String) (m : GoMap Unit) (cid : String) :
    (addCheckIDs m l).contains cid = (decide (cid ∈ l) || m.contains cid) := by
  induction l generalizing m with
  | nil => simp [addCheckIDs]
  | cons x rest ih =>
    unfold addCheckIDs
    rw [ih]
    unfold GoMap.contains
    rw [GoMap.get?_set]
    by_cases h : cid = x
    · subst h; simp
    · simp [h]

end Index

/-- C24, at a failing input: `RegisterTask` returns no error for a task whose
`DriverExec` is nil and whose service has a check of kind script; it sends the
batch with the registration of the script check (`shutdownCh` is open, so the
`select` of `commit` can only send). -/
theorem RegisterTask_script_check_without_executor (send : Bool) :
    scriptTask.DriverExec = false ∧
      (∃ service ∈ scriptTask.Services, ∃ check ∈ service.Checks,
        check.Kind = ServiceCheckScript) ∧
      (RegisterTask send plainLib {} scriptTask).1 = none ∧
      ((RegisterTask send plainLib {} scriptTask).2.opCh.map
        (fun ops => ops.regChecks.map (fun r => (r.ID, r.TTL)))) =
        [[("_nomad-check-_nomad-task-a1-web-frontend-http/alive", "41s")]] := by
  refine ⟨rfl, ⟨_, List.mem_cons_self _ _, _, List.mem_cons_self _ _, rfl⟩, ?_, ?_⟩
  · simp only [RegisterTask, scriptTask, serviceRegsLoop, serviceRegs, getAddress_eq]
    rfl
  · simp only [RegisterTask, scriptTask, serviceRegsLoop, serviceRegs, getAddress_eq]
    rfl

theorem webTask_builds :
    ∀ service ∈ webTask.Services, serviceBuilds plainLib webTask service = true := by
  intro service h
  simp only [webTask, List.mem_singleton] at h
  subst h
  simp only [serviceBuilds, serviceRegs, webService, checkRegs, checkRegsLoop, httpCheck,
    getAddress_eq]
  rfl

/-- Counterexample to C25 as stated: every service of a task without services
builds, yet `RegisterTask` returns at its fast path: it sends no batch and the
allocation index stays empty. -/
theorem RegisterTask_no_services_sends_nothing :
    (∀ service ∈ idleTask.Services, serviceBuilds plainLib idleTask service = true) ∧
      (RegisterTask true plainLib {} idleTask).1 = none ∧
      (RegisterTask true plainLib {} idleTask).2.opCh = [] ∧
      (RegisterTask true plainLib {} idleTask).2.allocRegistrations = [] ∧
      ¬ ∀ (send : Bool) (lib : Lib) (c : Lifecycle) (task : TaskServices),
          c.shutdownCh = false →
          (∀ service ∈ task.Services, serviceBuilds lib task service = true) →
          ∃ ops, (RegisterTask send lib c task).2.opCh = c.opCh ++ [ops] := by
  refine ⟨by simp [idleTask], rfl, rfl, rfl, fun h => ?_⟩
  obtain ⟨ops, hops⟩ := h true plainLib {} idleTask rfl (by simp [idleTask])
  have : (RegisterTask true plainLib {} idleTask).2.opCh = [] := rfl
  rw [this] at hops
  simp at hops

/-- C25, amended (`RegisterTask` is atomic on builder errors). If some service
of the task does not build (address, connect configuration or a check),
`RegisterTask` returns an error and leaves the state as it was: no batch is
sent, the allocation index is unchanged and no watch is installed.  A task
without services returns nil at the fast path and changes nothing.  If the
task has a service and all its services build, `RegisterTask` returns nil and
hands `commit` one batch, which holds one service registration per service and
one check registration per check, in order, and no deregistration; the batch
is queued while `shutdownCh` is open, and once it is closed it is queued or
dropped, as the `select` of `commit` chooses; the allocation index then maps
the allocation and the task name to a task registration that records, under
the id of every service, that id and the set of check ids of the last service
of the task with this id. -/
theorem RegisterTask_atomic (send : Bool) (lib : Lib) (c : Lifecycle) (task : TaskServices) :
    ((∃ service ∈ task.Services, serviceBuilds lib task service = false) →
      (∃ err, (RegisterTask send lib c task).1 = some err) ∧
        (RegisterTask send lib c task).2 = c) ∧
    (task.Services = [] → RegisterTask send lib c task = (none, c)) ∧
    (task.Services ≠ [] →
      (∀ service ∈ task.Services, serviceBuilds lib task service = true) →
      ∃ ops : operations,
        (RegisterTask send lib c task).1 = none ∧
        (RegisterTask send lib c task).2.opCh = (commit send c ops).opCh ∧
        (c.shutdownCh = false → (RegisterTask send lib c task).2.opCh = c.opCh ++ [ops]) ∧
        ((RegisterTask send lib c task).2.opCh = c.opCh ++ [ops] ∨
          ((RegisterTask send lib c task).2.opCh = c.opCh ∧ c.shutdownCh = true)) ∧
        ops.regServices.map (fun r => r.ID) =
          task.Services.map (MakeTaskServiceID task.AllocID task.Name) ∧
        ops.regChecks.map (fun r => r.ID) =
          task.Services.flatMap (fun service => service.Checks.map
            (MakeCheckID lib (MakeTaskServiceID task.AllocID task.Name service))) ∧
        ops.deregServices = [] ∧ ops.deregChecks = [] ∧
        ∃ alloc treg,
          (RegisterTask send lib c task).2.allocRegistrations.get? task.AllocID = some alloc ∧
          alloc.Tasks.get? task.Name = some treg ∧
          ∀ service,
            task.Services.reverse.find? (fun s =>
              MakeTaskServiceID task.AllocID task.Name s ==
                MakeTaskServiceID task.AllocID task.Name service) = some service →
            ∃ sreg,
              treg.Services.get? (MakeTaskServiceID task.AllocID task.Name service) =
                some sreg ∧
              sreg.serviceID = MakeTaskServiceID task.AllocID task.Name service ∧
              ∀ cid, sreg.checkIDs.contains cid = true ↔
                ∃ check ∈ service.Checks,
                  MakeCheckID lib (MakeTaskServiceID task.AllocID task.Name service) check =
                    cid) := by
  refine ⟨fun hbad => ?_, fun hnil => ?_, fun hne hall => ?_⟩
  · have hne : ¬ task.Services.length = 0 := by
      obtain ⟨s, hs, _⟩ := hbad
      intro h0
      rw [List.length_eq_zero.mp h0] at hs
      cases hs
    obtain ⟨err, he⟩ := serviceRegsLoop_error lib task task.Services {} [] hbad
    unfold RegisterTask
    rw [if_neg hne, he]
    exact ⟨⟨err, rfl⟩, rfl⟩
  · unfold RegisterTask
    rw [if_pos (by rw [hnil]; rfl)]
  · have hlen : ¬ task.Services.length = 0 := fun h0 => hne (List.length_eq_zero.mp h0)
    obtain ⟨regs, cregs, hloop, hm1, hm2⟩ := serviceRegsLoop_ok lib task task.Services {} [] hall
    have hR1 : (RegisterTask send lib c task).1 = none := by
      unfold RegisterTask
      rw [if_neg hlen, hloop]
    have hR2 : (RegisterTask send lib c task).2.opCh =
        (commit send c { regServices := regs, regChecks := cregs }).opCh := by
      unfold RegisterTask
      rw [if_neg hlen, hloop]
      unfold commit
      simp only
      split_ifs <;> simp
    have hR3 : (RegisterTask send lib c task).2.allocRegistrations =
        addTaskRegistration c.allocRegistrations task.AllocID task.Name
          ⟨task.Services.foldl (fun t s =>
            t.set (MakeTaskServiceID task.AllocID task.Name s) (indexEntry lib task s)) []⟩ := by
      unfold RegisterTask
      rw [if_neg hlen, hloop]
      simp only [commit_allocRegistrations]
    refine ⟨{ regServices := regs, regChecks := cregs }, hR1, hR2,
      fun hopen => hR2.trans (commit_opCh_of_open send c _ hopen),
      hR2 ▸ commit_opCh_cases send c _, hm1, hm2, rfl, rfl, ?_⟩
    obtain ⟨alloc, hga, hgt⟩ := addTaskRegistration_get? c.allocRegistrations task.AllocID
      task.Name ⟨task.Services.foldl (fun t s =>
        t.set (MakeTaskServiceID task.AllocID task.Name s) (indexEntry lib task s)) []⟩
    refine ⟨alloc, _, hR3 ▸ hga, hgt, ?_⟩
    intro service hlast
    refine ⟨indexEntry lib task service, ?_, rfl, ?_⟩
    · simp only
      rw [foldl_set_get?, hlast]
      rfl
    · intro cid
      simp only [indexEntry]
      rw [addCheckIDs_contains]
      simp [GoMap.contains, GoMap.get?_nil]

/-- Witness of C25 (amended): the task `web` with one service and one check. -/
theorem RegisterTask_atomic_witness :
    ∃ ops : operations,
      (RegisterTask true plainLib {} webTask).1 = none ∧
      (RegisterTask true plainLib {} webTask).2.opCh = (commit true {} ops).opCh ∧
      (({} : Lifecycle).shutdownCh = false →
        (RegisterTask true plainLib {} webTask).2.opCh = ({} : Lifecycle).opCh ++ [ops]) ∧
      ((RegisterTask true plainLib {} webTask).2.opCh = ({} : Lifecycle).opCh ++ [ops] ∨
        ((RegisterTask true plainLib {} webTask).2.opCh = ({} : Lifecycle).opCh ∧
          ({} : Lifecycle).shutdownCh = true)) ∧
      ops.regServices.map (fun r => r.ID) =
        webTask.Services.map (MakeTaskServiceID webTask.AllocID webTask.Name) ∧
      ops.regChecks.map (fun r => r.ID) =
        webTask.Services.flatMap (fun service => service.Checks.map
          (MakeCheckID plainLib (MakeTaskServiceID webTask.AllocID webTask.Name service))) ∧
      ops.deregServices = [] ∧ ops.deregChecks = [] ∧
      ∃ alloc treg,
        (RegisterTask true plainLib {} webTask).2.allocRegistrations.get? webTask.AllocID =
          some alloc ∧
        alloc.Tasks.get? webTask.Name = some treg ∧
        ∀ service,
          webTask.Services.reverse.find? (fun s =>
            MakeTaskServiceID webTask.AllocID webTask.Name s ==
              MakeTaskServiceID webTask.AllocID webTask.Name service) = some service →
          ∃ sreg,
            treg.Services.get? (MakeTaskServiceID webTask.AllocID webTask.Name service) =
              some sreg ∧
            sreg.serviceID = MakeTaskServiceID webTask.AllocID webTask.Name service ∧
            ∀ cid, sreg.checkIDs.contains cid = true ↔
              ∃ check ∈ service.Checks,
                MakeCheckID plainLib (MakeTaskServiceID webTask.AllocID webTask.Name service)
                  check = cid :=
  (RegisterTask_atomic true plainLib {} webTask).2.2 (by decide) webTask_builds

/-! ## UpdateTask -/

/-- Witness of C22: the agent service `nomad` of a client agent. -/
theorem sync_agent_entries_safe_witness :
    isNomadService (makeAgentServiceID plainLib "client" { Name := "nomad" }) = false ∧
      (∀ allocID taskName svc, isNomadService (MakeTaskServiceID allocID taskName svc) = true) ∧
      Call.ServiceDeregister (makeAgentServiceID plainLib "client" { Name := "nomad" }) ∉
        (sync reliableCatalog freshClient 100 strayCatalog).calls ∧
      ∀ svcs chks st1 st2, reliableCatalog.Services strayCatalog = (.ok svcs, st1) →
        reliableCatalog.Checks st1 = (.ok chks, st2) →
        chks.WF → ∀ k chk, (k, chk) ∈ chks →
          chk.ServiceID = makeAgentServiceID plainLib "client" { Name := "nomad" } →
          Call.CheckDeregister k ∉ (sync reliableCatalog freshClient 100 strayCatalog).calls :=
  sync_agent_entries_safe plainLib reliableCatalog freshClient 100 strayCatalog "client"
    { Name := "nomad" } (Or.inl rfl)

section Update

variable (lib : Lib)

/-- Whatever its outcome, the loop of `checkRegs` touches the check
registrations of the batch only. -/
theorem checkRegsLoop_frame (serviceID : String) (service : Service) (task : TaskServices) :
    ∀ (checks : List ServiceCheck) (ops : operations) (ids : List String),
      ∃ regs : List AgentCheckRegistration,
        (checkRegsLoop lib serviceID service task checks ops ids).1 =
          { ops with regChecks := ops.regChecks ++ regs } := by
  intro checks
  induction checks with
  | nil => intro ops ids; exact ⟨[], by simp [checkRegsLoop]⟩
  | cons check rest ih =>
    intro ops ids
    have key : ∀ checkReg : AgentCheckRegistration, ∃ regs : List AgentCheckRegistration,
        (checkRegsLoop lib serviceID service task rest
          { ops with regChecks := ops.regChecks ++ [checkReg] }
          (ids ++ [MakeCheckID lib serviceID check])).1 =
          { ops with regChecks := ops.regChecks ++ regs } := by
      intro checkReg
      obtain ⟨regs, h⟩ := ih { ops with regChecks := ops.regChecks ++ [checkReg] }
        (ids ++ [MakeCheckID lib serviceID check])
      exact ⟨checkReg :: regs, by rw [h]; simp⟩
    unfold checkRegsLoop
    simp only
    split_ifs <;> (repeat' split) <;> first | exact key _ | exact ⟨[], by simp⟩

theorem checkRegs_frame (ops : operations) (serviceID : String) (service : Service)
    (task : TaskServices) :
    ∃ regs : List AgentCheckRegistration,
      (checkRegs lib ops serviceID service task).1 =
        { ops with regChecks := ops.regChecks ++ regs } := by
  unfold checkRegs
  split_ifs
  · exact ⟨[], by simp⟩
  · obtain ⟨regs, h⟩ := checkRegsLoop_frame lib serviceID service task service.Checks ops []
    refine ⟨regs, ?_⟩
    split <;> rename_i heq <;> rw [heq] at h <;> exact h

/-- Whatever its outcome, the loop "Register new checks" touches the check
registrations of the batch only. -/
theorem updateChecksLoop_frame (existingID : String) (newSvc : Service) (newTask : TaskServices) :
    ∀ (checks : List ServiceCheck) (d : CheckDiff),
      ∃ regs : List AgentCheckRegistration,
        (updateChecksLoop lib existingID newSvc newTask checks d).1.ops =
          { d.ops with regChecks := d.ops.regChecks ++ regs } := by
  intro checks
  induction checks with
  | nil => intro d; exact ⟨[], by simp [updateChecksLoop]⟩
  | cons check rest ih =>
    intro d
    unfold updateChecksLoop
    simp only
    generalize hd1 : (if d.existingChecks.contains (MakeCheckID lib existingID check) = true then
      ({ d with existingChecks := d.existingChecks.delete (MakeCheckID lib existingID check),
                checkIDs := d.checkIDs.set (MakeCheckID lib existingID check) () } : CheckDiff)
      else d) = d1
    have hops : d1.ops = d.ops := by
      rw [← hd1]; split_ifs <;> rfl
    obtain ⟨regs, hf⟩ := checkRegs_frame lib d1.ops existingID newSvc newTask
    rcases hcr : checkRegs lib d1.ops existingID newSvc newTask with ⟨ops1, r⟩
    rw [hcr] at hf
    simp only at hf
    cases r with
    | error err => exact ⟨regs, by simp [hf, hops]⟩
    | ok ids =>
      have key : ∀ d2 : CheckDiff, d2.ops = ops1 → ∃ regs2 : List AgentCheckRegistration,
          (updateChecksLoop lib existingID newSvc newTask rest d2).1.ops =
            { d.ops with regChecks := d.ops.regChecks ++ regs2 } := by
        intro d2 hd2
        obtain ⟨regs2, h2⟩ := ih d2
        exact ⟨regs ++ regs2, by rw [h2, hd2, hf, hops]; simp⟩
      simp only
      split_ifs <;> exact key _ rfl

variable (ord : RangeOrder) (old newTask : TaskServices)

/-- The loop over the existing service ids adds no service registration. -/
theorem updateExistingLoop_regServices :
    ∀ (l : List (String × Service)) (s : UpdateState),
      (updateExistingLoop lib ord old newTask l s).1.ops.regServices = s.ops.regServices := by
  intro l
  induction l with
  | nil => intro s; rfl
  | cons e rest ih =>
    intro s
    obtain ⟨k, v⟩ := e
    unfold updateExistingLoop
    split
    · rw [ih]
    · rename_i newSvc _
      simp only
      obtain ⟨regs, hf⟩ := updateChecksLoop_frame lib k newSvc newTask newSvc.Checks
        { existingChecks := checkIDMap lib k [] v.Checks, checkIDs := [], ops := s.ops,
          watcher := s.watcher }
      split
      · rename_i d err hd
        rw [hd] at hf
        simp only at hf ⊢
        rw [hf]
      · rename_i d hd
        rw [hd] at hf
        simp only at hf
        rw [ih]
        simp only
        rw [hf]

/-- The map `newIDs` only loses entries in the loop over the existing ids. -/
theorem updateExistingLoop_newIDs_sublist :
    ∀ (l : List (String × Service)) (s : UpdateState),
      (updateExistingLoop lib ord old newTask l s).1.newIDs.Sublist s.newIDs := by
  intro l
  induction l with
  | nil => intro s; exact List.Sublist.refl _
  | cons e rest ih =>
    intro s
    obtain ⟨k, v⟩ := e
    have hsub : ∀ b : Prop, [Decidable b] →
        (if b then s.newIDs.delete k else s.newIDs).Sublist s.newIDs := by
      intro b _
      split_ifs
      · exact List.filter_sublist _
      · exact List.Sublist.refl _
    unfold updateExistingLoop
    split
    · exact ih _
    · simp only
      split
      · exact hsub _
      · exact (ih _).trans (hsub _)

/-- An id that `newIDs` holds and that is not among the ids deregistered so
far is not deregistered by the loop over the existing ids. -/
theorem updateExistingLoop_deregServices_of_not_mem (id : String) :
    ∀ (l : List (String × Service)) (s : UpdateState),
      id ∉ l.map Prod.fst → id ∉ s.ops.deregServices →
      id ∉ (updateExistingLoop lib ord old newTask l s).1.ops.deregServices := by
  intro l
  induction l with
  | nil => intro s _ h; exact h
  | cons e rest ih =>
    intro s hk hd
    obtain ⟨k, v⟩ := e
    simp only [List.map_cons, List.mem_cons, not_or] at hk
    unfold updateExistingLoop
    split
    · apply ih _ hk.2
      simp only [List.mem_append, List.mem_singleton, not_or]
      exact ⟨hd, hk.1⟩
    · rename_i newSvc _
      simp only
      obtain ⟨regs, hf⟩ := updateChecksLoop_frame lib k newSvc newTask newSvc.Checks
        { existingChecks := checkIDMap lib k [] v.Checks, checkIDs := [], ops := s.ops,
          watcher := s.watcher }
      split
      · rename_i d err hd1
        rw [hd1] at hf
        simp only at hf ⊢
        rw [hf]
        exact hd
      · rename_i d hd1
        rw [hd1] at hf
        simp only at hf
        apply ih _ hk.2
        simp only
        rw [hf]
        exact hd

theorem updateExistingLoop_deregServices_of_new (id : String) (n : Service) :
    ∀ (l : List (String × Service)) (s : UpdateState),
      (l.map Prod.fst).Nodup → s.newIDs.get? id = some n → id ∉ s.ops.deregServices →
      id ∉ (updateExistingLoop lib ord old newTask l s).1.ops.deregServices := by
  intro l
  induction l with
  | nil => intro s _ _ h; exact h
  | cons e rest ih =>
    intro s hnd hg hd
    obtain ⟨k, v⟩ := e
    simp only [List.map_cons, List.nodup_cons] at hnd
    unfold updateExistingLoop
    split
    · rename_i hnone
      have hne : id ≠ k := fun h => by rw [h, hnone] at hg; cases hg
      refine ih _ hnd.2 ?_ ?_
      · exact hg
      · simp only [List.mem_append, List.mem_singleton, not_or]
        exact ⟨hd, hne⟩
    · rename_i newSvc _
      simp only
      obtain ⟨regs, hf⟩ := updateChecksLoop_frame lib k newSvc newTask newSvc.Checks
        { existingChecks := checkIDMap lib k [] v.Checks, checkIDs := [], ops := s.ops,
          watcher := s.watcher }
      split
      · rename_i d err hd1
        rw [hd1] at hf
        simp only at hf ⊢
        rw [hf]
        exact hd
      · rename_i d hd1
        rw [hd1] at hf
        simp only at hf
        by_cases hik : id = k
        · subst hik
          apply updateExistingLoop_deregServices_of_not_mem lib ord old newTask id _ _ hnd.1
          simp only
          rw [hf]
          exact hd
        · apply ih _ hnd.2
          · simp only
            split_ifs
            · rw [GoMap.get?_delete, if_neg hik]; exact hg
            · exact hg
          · simp only
            rw [hf]
            exact hd

end Update

section UpdateTask

variable (lib : Lib) (ord : RangeOrder) (old newTask : TaskServices)

theorem GoMap.get?_none_of_sublist {α : Type} {m1 m : GoMap α} (h : m1.Sublist m) {k : String}
    (hk : m.get? k = none) : m1.get? k = none := by
  apply GoMap.get?_eq_none_of_not_mem_keys
  intro hmem
  have h2 : k ∈ m.keys := (h.map Prod.fst).subset hmem
  have h3 := (GoMap.contains_iff_mem_keys m k).mpr h2
  simp [GoMap.contains, hk] at h3

/-- A service id that both tasks have, with the same hash, is no longer in
`newIDs` after the loop over the existing ids. -/
theorem updateExistingLoop_newIDs_removed (id : String) (o n : Service)
    (hhash : lib.serviceHash o old.AllocID old.Name old.Canary =
      lib.serviceHash n newTask.AllocID newTask.Name newTask.Canary) :
    ∀ (l : List (String × Service)) (s : UpdateState),
      (l.map Prod.fst).Nodup → (id, o) ∈ l → s.newIDs.get? id = some n →
      (updateExistingLoop lib ord old newTask l s).2 = none →
      (updateExistingLoop lib ord old newTask l s).1.newIDs.get? id = none := by
  intro l
  induction l with
  | nil => intro s _ h; cases h
  | cons e rest ih =>
    intro s hnd hmem hg hok
    obtain ⟨k, v⟩ := e
    simp only [List.map_cons, List.nodup_cons] at hnd
    have hcase : (k = id ∧ v = o) ∨ (k ≠ id ∧ (id, o) ∈ rest) := by
      rcases List.mem_cons.mp hmem with h | h
      · injection h with h1 h2
        exact Or.inl ⟨h1.symm, h2.symm⟩
      · refine Or.inr ⟨fun hk => hnd.1 ?_, h⟩
        rw [hk]
        exact List.mem_map_of_mem Prod.fst h
    unfold updateExistingLoop at hok ⊢
    rcases hcase with ⟨rfl, rfl⟩ | ⟨hne, hrest⟩
    · rw [hg] at hok ⊢
      simp only at hok ⊢
      split at hok
      · cases hok
      · rename_i d hd
        apply GoMap.get?_none_of_sublist (updateExistingLoop_newIDs_sublist lib ord old newTask _ _)
        simp only
        rw [if_pos hhash, GoMap.get?_delete, if_pos rfl]
    · split at hok
      · rename_i hnone
        refine ih _ hnd.2 hrest ?_ hok
        exact hg
      · rename_i newSvc hsome
        simp only at hok ⊢
        split at hok
        · cases hok
        · rename_i d hd
          refine ih _ hnd.2 hrest ?_ hok
          simp only
          split_ifs
          · rw [GoMap.get?_delete, if_neg (fun h => hne h.symm)]; exact hg
          · exact hg

theorem serviceIDs_eq_foldl (task : TaskServices) (l : List Service) (m : GoMap Service) :
    serviceIDs task m l =
      l.foldl (fun m s => m.set (MakeTaskServiceID task.AllocID task.Name s) s) m := by
  induction l generalizing m with
  | nil => rfl
  | cons s rest ih => unfold serviceIDs; rw [ih]; rfl

theorem serviceIDs_WF (task : TaskServices) (l : List Service) :
    (serviceIDs task [] l).WF := by
  rw [serviceIDs_eq_foldl]
  exact foldl_set_WF _ _ l [] List.nodup_nil

/-- Every entry of the map of service ids is stored under the id of its
service. -/
theorem serviceIDs_keyed (task : TaskServices) :
    ∀ (l : List Service) (m : GoMap Service),
      (∀ e ∈ m, e.1 = MakeTaskServiceID task.AllocID task.Name e.2) →
      ∀ e ∈ serviceIDs task m l, e.1 = MakeTaskServiceID task.AllocID task.Name e.2 := by
  intro l
  induction l with
  | nil => intro m h; exact h
  | cons s rest ih =>
    intro m h
    unfold serviceIDs
    apply ih
    intro e he
    unfold GoMap.set at he
    rcases List.mem_cons.mp he with rfl | he
    · rfl
    · exact h e (GoMap.mem_delete.mp he).1

/-- The batch the queue has received from `UpdateTask` is the one its two
loops have built. -/
theorem UpdateTask_batch {send : Bool} {c : Lifecycle} {ops : operations}
    (h : (UpdateTask send lib ord c old newTask).2.opCh = c.opCh ++ [ops]) :
    ∃ s taskReg,
      updateExistingLoop lib ord old newTask (ord.range (serviceIDs old [] old.Services))
        { newIDs := serviceIDs newTask [] newTask.Services } = (s, none) ∧
      serviceRegsLoop lib newTask ((ord.range s.newIDs).map (fun e => e.2)) s.ops s.taskReg =
        .ok (ops, taskReg) := by
  have hlen : ∀ x : operations, c.opCh ≠ c.opCh ++ [x] := by
    intro x hx
    have := congrArg List.length hx
    simp at this
  unfold UpdateTask at h
  simp only at h
  split at h
  · exact absurd h (hlen ops)
  · rename_i s hs
    split at h
    · exact absurd h (hlen ops)
    · rename_i ops1 taskReg hloop
      refine ⟨s, taskReg, hs, ?_⟩
      rw [hloop]
      unfold commit at h
      simp only at h
      split_ifs at h
      · exact absurd h (hlen ops)
      · simp only [List.append_cancel_left_eq, List.cons.injEq, and_true] at h
        rw [h]

end UpdateTask

/-- C26 (`UpdateTask` leaves an unchanged service alone). For every service id
that is a key of both `existingIDs` and `newIDs` and whose old and new service
have the same hash (over the allocation id, the task name and the canary
flag), the batch that `UpdateTask` sends holds no service registration and no
service deregistration for that id, whatever the checks of the two services
are. -/
theorem UpdateTask_unchanged_service (send : Bool) (lib : Lib) (ord : RangeOrder)
    (c : Lifecycle)
    (old newTask : TaskServices) (id : String) (o n : Service) (ops : operations)
    (hold : (serviceIDs old [] old.Services).get? id = some o)
    (hnew : (serviceIDs newTask [] newTask.Services).get? id = some n)
    (hhash : lib.serviceHash o old.AllocID old.Name old.Canary =
      lib.serviceHash n newTask.AllocID newTask.Name newTask.Canary)
    (hbatch : (UpdateTask send lib ord c old newTask).2.opCh = c.opCh ++ [ops]) :
    (∀ reg ∈ ops.regServices, reg.ID ≠ id) ∧ id ∉ ops.deregServices := by
  obtain ⟨s, taskReg, hs, hloop⟩ := UpdateTask_batch lib ord old newTask hbatch
  have hperm := ord.perm (serviceIDs old [] old.Services)
  have hnd : ((ord.range (serviceIDs old [] old.Services)).map Prod.fst).Nodup :=
    (hperm.map Prod.fst).nodup_iff.mpr (serviceIDs_WF old old.Services)
  have hmem : (id, o) ∈ ord.range (serviceIDs old [] old.Services) :=
    hperm.mem_iff.mpr (GoMap.mem_of_get?_eq_some hold)
  have hS := congrArg Prod.fst hs
  have hE := congrArg Prod.snd hs
  simp only at hS hE
  have hreg : s.ops.regServices = [] := by
    rw [← hS, updateExistingLoop_regServices]
  have hdereg : id ∉ s.ops.deregServices := by
    rw [← hS]
    exact updateExistingLoop_deregServices_of_new lib ord old newTask id n _ _ hnd hnew
      (by simp)
  have hgone : s.newIDs.get? id = none := by
    rw [← hS]
    exact updateExistingLoop_newIDs_removed lib ord old newTask id o n hhash _ _ hnd hmem hnew hE
  have hsub : s.newIDs.Sublist (serviceIDs newTask [] newTask.Services) := by
    rw [← hS]
    exact updateExistingLoop_newIDs_sublist lib ord old newTask _ _
  have hb := serviceRegsLoop_builds lib newTask _ _ _ hloop
  obtain ⟨regs, cregs, hok, hm1, _⟩ := serviceRegsLoop_ok lib newTask _ s.ops s.taskReg hb
  rw [hok] at hloop
  injection hloop with hloop
  injection hloop with hops _
  subst hops
  constructor
  · intro reg hr
    simp only [hreg, List.nil_append] at hr
    have h1 : reg.ID ∈ regs.map (fun r => r.ID) := List.mem_map_of_mem _ hr
    rw [hm1, List.map_map] at h1
    obtain ⟨e, he, heq⟩ := List.mem_map.mp h1
    have he2 : e ∈ s.newIDs := (ord.perm s.newIDs).mem_iff.mp he
    have hkey := serviceIDs_keyed newTask newTask.Services [] (by simp) e (hsub.subset he2)
    intro hid
    have hc := GoMap.contains_of_mem he2
    simp only [Function.comp] at heq
    rw [hkey, heq, hid] at hc
    simp [GoMap.contains, hgone] at hc
  · exact hdereg

section CheckOnly

variable (lib : Lib) (ord : RangeOrder)

theorem RangeOrder.range_nil {α : Type} : ord.range ([] : GoMap α) = [] :=
  List.Perm.eq_nil (ord.perm [])

theorem RangeOrder.range_singleton {α : Type} (e : String × α) : ord.range [e] = [e] :=
  List.perm_singleton.mp (ord.perm [e])

theorem GoMap.set_nil {α : Type} (k : String) (v : α) : GoMap.set [] k v = [(k, v)] := rfl

/-- The state `UpdateTask` leaves when a task with one service and one check is
updated to a task whose service has the same id and hash and whose one check
has another id. -/
theorem UpdateTask_check_only (send : Bool) (c : Lifecycle) (old newTask : TaskServices)
    (svc svc2 : Service)
    (chk chk2 : ServiceCheck) (o1 : operations) (ids : Option (List String))
    (hold : old.Services = [svc]) (hnew : newTask.Services = [svc2])
    (hid : MakeTaskServiceID newTask.AllocID newTask.Name svc2 =
      MakeTaskServiceID old.AllocID old.Name svc)
    (hhash : lib.serviceHash svc old.AllocID old.Name old.Canary =
      lib.serviceHash svc2 newTask.AllocID newTask.Name newTask.Canary)
    (hc : svc.Checks = [chk]) (hc2 : svc2.Checks = [chk2])
    (hne : MakeCheckID lib (MakeTaskServiceID old.AllocID old.Name svc) chk2 ≠
      MakeCheckID lib (MakeTaskServiceID old.AllocID old.Name svc) chk)
    (hbuild : checkRegs lib {} (MakeTaskServiceID old.AllocID old.Name svc) svc2 newTask =
      (o1, .ok ids)) :
    ∃ reg : AgentCheckRegistration,
      reg.ID = MakeCheckID lib (MakeTaskServiceID old.AllocID old.Name svc) chk2 ∧
      reg.ServiceID = MakeTaskServiceID old.AllocID old.Name svc ∧
      o1 = { regChecks := [reg] } ∧
      (UpdateTask send lib ord c old newTask).1 = none ∧
      (UpdateTask send lib ord c old newTask).2.opCh =
        (commit send c
          { regChecks := [reg],
            deregChecks := [MakeCheckID lib (MakeTaskServiceID old.AllocID old.Name svc)
              chk] }).opCh := by
  obtain ⟨hids, regs, ho1, hmap, hsid⟩ := checkRegs_ok lib hbuild
  rw [hc2] at hmap hids
  have hregs : ∃ reg, regs = [reg] := by
    match regs, hmap with
    | [reg], _ => exact ⟨reg, rfl⟩
    | [], h => simp at h
    | _ :: _ :: _, h => simp at h
  obtain ⟨reg, rfl⟩ := hregs
  simp only [List.map_cons, List.map_nil, List.cons.injEq, and_true] at hmap
  have ho1' : o1 = { regChecks := [reg] } := by rw [ho1]; rfl
  subst ho1'
  refine ⟨reg, hmap, hsid reg (List.mem_singleton_self _), rfl, ?_⟩
  have hcont : GoMap.contains
      [(MakeCheckID lib (MakeTaskServiceID old.AllocID old.Name svc) chk, chk)]
      (MakeCheckID lib (MakeTaskServiceID old.AllocID old.Name svc) chk2) = false := by
    simp [GoMap.contains, GoMap.get?_cons, GoMap.get?_nil, hne]
  have hget : GoMap.get? [(MakeTaskServiceID old.AllocID old.Name svc, svc2)]
      (MakeTaskServiceID old.AllocID old.Name svc) = some svc2 := by
    rw [GoMap.get?_cons, if_pos rfl]
  have hdel : GoMap.delete [(MakeTaskServiceID old.AllocID old.Name svc, svc2)]
      (MakeTaskServiceID old.AllocID old.Name svc) = [] := by
    simp [GoMap.delete]
  have hE : updateExistingLoop lib ord old newTask
      [(MakeTaskServiceID old.AllocID old.Name svc, svc)]
      { newIDs := [(MakeTaskServiceID old.AllocID old.Name svc, svc2)] } =
      ({ ops := { regChecks := [reg],
                  deregChecks := [MakeCheckID lib (MakeTaskServiceID old.AllocID old.Name svc)
                    chk] },
         taskReg := (GoMap.set [] (MakeTaskServiceID old.AllocID old.Name svc)
            { serviceID := MakeTaskServiceID old.AllocID old.Name svc,
              checkIDs := addCheckIDs [] (ids.getD []) }),
         newIDs := [],
         watcher := (if chk2.TriggersRestarts then
             [WatchCall.Watch newTask.AllocID newTask.Name
               (MakeCheckID lib (MakeTaskServiceID old.AllocID old.Name svc) chk2) chk2]
           else []) ++
           (if chk.TriggersRestarts then
             [WatchCall.Unwatch (MakeCheckID lib (MakeTaskServiceID old.AllocID old.Name svc) chk)]
           else []) }, none) := by
    cases h2 : chk2.TriggersRestarts <;> cases h1 : chk.TriggersRestarts <;>
      simp only [updateExistingLoop, hget, hhash, if_true, hdel, hc, hc2, checkIDMap,
        GoMap.set_nil, updateChecksLoop, hcont, Bool.false_eq_true, if_false, hbuild,
        RangeOrder.range_singleton, GoMap.keys, List.map_cons, List.map_nil, List.filter_cons,
        List.filter_nil, List.nil_append, List.append_nil, h1, h2]
  constructor
  · simp only [UpdateTask, hold, hnew, serviceIDs, hid, GoMap.set_nil,
      RangeOrder.range_singleton, hE, RangeOrder.range_nil, List.map_nil, serviceRegsLoop]
  · simp only [UpdateTask, hold, hnew, serviceIDs, hid, GoMap.set_nil,
      RangeOrder.range_singleton, hE, RangeOrder.range_nil, List.map_nil, serviceRegsLoop]
    unfold commit
    simp only
    split_ifs <;> rfl

/-- In the same situation, when the new check does not build, `UpdateTask`
sends nothing. -/
theorem UpdateTask_check_only_fails (send : Bool) (c : Lifecycle) (old newTask : TaskServices)
    (svc svc2 : Service) (chk2 : ServiceCheck) (o1 : operations) (err : String)
    (hold : old.Services = [svc]) (hnew : newTask.Services = [svc2])
    (hid : MakeTaskServiceID newTask.AllocID newTask.Name svc2 =
      MakeTaskServiceID old.AllocID old.Name svc)
    (hc2 : svc2.Checks = [chk2])
    (hbuild : checkRegs lib {} (MakeTaskServiceID old.AllocID old.Name svc) svc2 newTask =
      (o1, .error err)) :
    (UpdateTask send lib ord c old newTask).2.opCh = c.opCh := by
  have hget : GoMap.get? [(MakeTaskServiceID old.AllocID old.Name svc, svc2)]
      (MakeTaskServiceID old.AllocID old.Name svc) = some svc2 := by
    rw [GoMap.get?_cons, if_pos rfl]
  have hE : (updateExistingLoop lib ord old newTask
      [(MakeTaskServiceID old.AllocID old.Name svc, svc)]
      { newIDs := [(MakeTaskServiceID old.AllocID old.Name svc, svc2)] }).2 = some err := by
    simp only [updateExistingLoop, hget, hc2, updateChecksLoop]
    split_ifs <;> simp only [hbuild]
  simp only [UpdateTask, hold, hnew, serviceIDs, hid, GoMap.set_nil, RangeOrder.range_singleton]
  split
  · rfl
  · rename_i s hs
    rw [hs] at hE
    cases hE

end CheckOnly

section EndToEnd

/-- The calls of a cycle in which no catalog call fails: the two reads, then
the whole plan. -/
theorem sync_reliable_calls (c : ServiceClient) (now : Nat) (cat : Catalog) :
    (sync reliableCatalog c now cat).calls =
      [Call.Services, Call.Checks] ++
        plannedWrites c (decide (now < c.deregisterProbationExpiry)) cat.services cat.checks := by
  have hs : reliableCatalog.Services cat = (.ok cat.services, cat) := rfl
  have hc : reliableCatalog.Checks cat = (.ok cat.checks, cat) := rfl
  have herr := (sync_reliable c now cat).1
  rw [sync_of_reads reliableCatalog c now cat hs hc] at herr ⊢
  simp only at herr ⊢
  rw [syncLoops_ok reliableCatalog c _ cat.services cat.checks cat herr]

theorem plannedWrites_isWrite (c : ServiceClient) (ip : Bool) (svcs : GoMap AgentService)
    (chks : GoMap AgentCheck) :
    (plannedWrites c ip svcs chks).filter Call.isWrite = plannedWrites c ip svcs chks := by
  rw [List.filter_eq_self]
  intro call h
  simp only [plannedWrites, deregServiceCalls, regServiceCalls, deregCheckCalls, regCheckCalls,
    List.mem_append, List.mem_map] at h
  rcases h with ⟨_, _, rfl⟩ | ⟨_, _, rfl⟩ | ⟨_, _, rfl⟩ | ⟨_, _, rfl⟩ <;> rfl

/-- The writes of a cycle in which no catalog call fails are the plan. -/
theorem sync_reliable_writes (c : ServiceClient) (now : Nat) (cat : Catalog) :
    (sync reliableCatalog c now cat).calls.filter Call.isWrite =
      plannedWrites c (decide (now < c.deregisterProbationExpiry)) cat.services cat.checks := by
  rw [sync_reliable_calls, List.filter_append, plannedWrites_isWrite]
  rfl

theorem isNomadCheck_MakeCheckID (lib : Lib) (serviceID : String) (check : ServiceCheck) :
    isNomadCheck (MakeCheckID lib serviceID check) = true := by
  simp [isNomadCheck, stringsHasPrefixOf, MakeCheckID, String.toList, String.data_append]

theorem dropRight_ne_of_suffix (s suf : String) (hpos : 0 < suf.length)
    (h : stringsHasSuffixOf s suf = true) : dropRight s suf.length ≠ s := by
  unfold stringsHasSuffixOf at h
  rw [List.isSuffixOf_iff_suffix] at h
  have hle := h.length_le
  intro heq
  have hl := congrArg String.length heq
  unfold dropRight at hl
  simp only [String.length, String.toList] at hl hle hpos
  rw [List.length_take] at hl
  omega

/-- A service alone in the desired store is not taken for its own sidecar. -/
theorem isNomadSidecar_self (id : String) (reg : AgentServiceRegistration) :
    isNomadSidecar id [(id, reg)] = false := by
  unfold isNomadSidecar
  cases h : stringsHasSuffixOf id sidecarSuffix with
  | false => rfl
  | true =>
    have hne := dropRight_ne_of_suffix id sidecarSuffix (by decide) h
    simp [GoMap.contains, GoMap.get?_cons, GoMap.get?_nil, hne]

theorem webTask_update_eval :
    (UpdateTask true pathLib listOrder {} webTask webTaskV2).2.opCh = [] ++ [healthzBatch] := by
  have hb : checkRegs pathLib {} (MakeTaskServiceID webTask.AllocID webTask.Name webService)
      { webService with Checks := [{ httpCheck with Path := "/healthz" }] } webTaskV2 =
      ({ regChecks := [healthzRegistration] },
        .ok (some ["_nomad-check-_nomad-task-a1-web-frontend-http/alive/healthz"])) := by
    simp only [checkRegs, checkRegsLoop, webService, httpCheck, webTaskV2, webTask,
      getAddress_eq]
    rfl
  obtain ⟨reg, _, _, ho1, _, hop⟩ := UpdateTask_check_only pathLib listOrder true {} webTask
    webTaskV2 webService { webService with Checks := [{ httpCheck with Path := "/healthz" }] }
    httpCheck { httpCheck with Path := "/healthz" } _ _ rfl rfl rfl rfl rfl rfl (by decide) hb
  injection ho1 with _ h2 _ _
  injection h2 with h2 _
  subst h2
  rw [hop]
  rfl

/-- C28 (check-only update, end to end). On a client agent whose desired store
holds the service `sid` of a task and its one HTTP check `oldID`, and whose
catalog holds the records of these two registrations, let `UpdateTask old
newTask` send a batch, where `newTask` differs from `old` only in the path of
that check, the id of the check changes (to `newID`) and the hash of the
service does not.  Merging the batch and running one `sync` in which no
catalog call fails writes exactly `CheckDeregister oldID`, then
`CheckRegister` of a registration with the id `newID`, and no
`ServiceRegister` or `ServiceDeregister`; the current time is arbitrary, so
this holds within the probation window too. -/
theorem check_only_update_end_to_end (send : Bool) (lib : Lib) (ord : RangeOrder)
    (c : Lifecycle)
    (store : ServiceClient) (now : Nat) (old newTask : TaskServices) (svc svc2 : Service)
    (chk chk2 : ServiceCheck) (path sid oldID newID : String) (sreg : AgentServiceRegistration)
    (creg : AgentCheckRegistration) (ops : operations)
    (hold : old.Services = [svc]) (hc : svc.Checks = [chk])
    (hhttp : chk.Kind = ServiceCheckHTTP)
    (hchk2 : chk2 = { chk with Path := path })
    (hsvc2 : svc2 = { svc with Checks := [chk2] })
    (hnewTask : newTask = { old with Services := [svc2] })
    (hsid : sid = MakeTaskServiceID old.AllocID old.Name svc)
    (holdID : oldID = MakeCheckID lib sid chk) (hnewID : newID = MakeCheckID lib sid chk2)
    (hne : newID ≠ oldID)
    (hhash : lib.serviceHash svc old.AllocID old.Name old.Canary =
      lib.serviceHash svc2 newTask.AllocID newTask.Name newTask.Canary)
    (hclient : store.isClientAgent = true)
    (hsvcs : store.services = [(sid, sreg)])
    (hchks : store.checks = [(oldID, creg)])
    (hcid : creg.ID = oldID) (hcsid : creg.ServiceID = sid)
    (hbatch : (UpdateTask send lib ord c old newTask).2.opCh = c.opCh ++ [ops]) :
    ∃ reg : AgentCheckRegistration,
      reg.ID = newID ∧
      (sync reliableCatalog (merge store ops) now
        { services := [(sid, toAgentService sreg)],
          checks := [(oldID, toAgentCheck creg)] }).calls.filter Call.isWrite =
        [Call.CheckDeregister oldID, Call.CheckRegister reg] := by
  have _ := hhttp
  have _ := hchk2
  have hnew : newTask.Services = [svc2] := by rw [hnewTask]
  have hc2 : svc2.Checks = [chk2] := by rw [hsvc2]
  have hid : MakeTaskServiceID newTask.AllocID newTask.Name svc2 =
      MakeTaskServiceID old.AllocID old.Name svc := by rw [hnewTask, hsvc2]; rfl
  subst hsid
  subst holdID
  subst hnewID
  -- the batch
  have hbuilt : ∃ o1 ids, checkRegs lib {} (MakeTaskServiceID old.AllocID old.Name svc) svc2
      newTask = (o1, .ok ids) := by
    rcases hcr : checkRegs lib {} (MakeTaskServiceID old.AllocID old.Name svc) svc2 newTask
      with ⟨o1, r⟩
    cases r with
    | ok ids => exact ⟨o1, ids, rfl⟩
    | error err =>
      exfalso
      have := UpdateTask_check_only_fails lib ord send c old newTask svc svc2 chk2 o1 err hold
        hnew hid hc2 hcr
      rw [this] at hbatch
      have := congrArg List.length hbatch
      simp at this
  obtain ⟨o1, ids, hbuild⟩ := hbuilt
  obtain ⟨reg, hrid, _, _, _, hop⟩ := UpdateTask_check_only lib ord send c old newTask svc svc2
    chk chk2 o1 ids hold hnew hid hhash hc hc2 hne hbuild
  have hops : ops =
      { regChecks := [reg],
        deregChecks := [MakeCheckID lib (MakeTaskServiceID old.AllocID old.Name svc) chk] } := by
    rw [hop] at hbatch
    unfold commit at hbatch
    split_ifs at hbatch
    · have := congrArg List.length hbatch
      simp at this
    · simp only [List.append_cancel_left_eq, List.cons.injEq, and_true] at hbatch
      exact hbatch.symm
  refine ⟨reg, hrid, ?_⟩
  rw [sync_reliable_writes]
  -- the desired store after the merge
  have hne2 : MakeCheckID lib (MakeTaskServiceID old.AllocID old.Name svc) chk ≠ reg.ID := by
    rw [hrid]; exact fun h => hne h.symm
  generalize hsidE : MakeTaskServiceID old.AllocID old.Name svc = sid at *
  generalize holdE : MakeCheckID lib sid chk = oldID at *
  have hm_services : (merge store ops).services = [(sid, sreg)] := by
    simp [hops, merge, mergeRegServices, mergeDereg, hsvcs]
  have hm_checks : (merge store ops).checks = [(reg.ID, reg)] := by
    have hb : (reg.ID != oldID) = true := by simpa using Ne.symm hne2
    simp [hops, merge, mergeRegChecks, mergeDereg, hchks, GoMap.set, GoMap.delete, hne2,
      List.filter_cons, hb]
  have hm_explicit : lookupBool (merge store ops).explicitlyDeregisteredChecks oldID = true := by
    simp [hops, merge, mergeDereg, lookupBool, GoMap.get?_set]
  have hm_client : (merge store ops).isClientAgent = true := hclient
  generalize merge store ops = c2 at hm_services hm_checks hm_explicit hm_client
  generalize decide (now < c2.deregisterProbationExpiry) = ip
  have hev_s : evictService c2 ip sid = false := by
    simp [evictService, hm_services, GoMap.contains, GoMap.get?_cons]
  have hreg_s : serviceNeedsRegister [(sid, toAgentService sreg)] (sid, sreg) = false := by
    simp [serviceNeedsRegister, GoMap.get?_cons, agentServiceUpdateRequired_toAgentService]
  have hev_c : evictCheck c2 ip (oldID, toAgentCheck creg) = true := by
    simp [evictCheck, hm_checks, hm_services, hm_client, hm_explicit, GoMap.contains,
      GoMap.get?_cons, GoMap.get?_nil, hne2, toAgentCheck, hcsid, hcid, isNomadSidecar_self]
    rw [← hsidE, ← holdE]
    simp [isNomadService_MakeTaskServiceID, isNomadCheck_MakeCheckID]
  have hreg_c : GoMap.contains [(oldID, toAgentCheck creg)] reg.ID = false := by
    simp [GoMap.contains, GoMap.get?_cons, GoMap.get?_nil]
    exact fun h => hne2 h.symm
  simp [plannedWrites, deregServiceCalls, regServiceCalls, deregCheckCalls, regCheckCalls,
    hm_services, hm_checks, hev_s, hreg_s, hev_c, hreg_c]

end EndToEnd

section SameCheck

variable (lib : Lib) (ord : RangeOrder)

/-- The batch `UpdateTask` sends when a task with one service and one check is
updated to itself. -/
theorem UpdateTask_same_check (send : Bool) (c : Lifecycle) (task : TaskServices)
    (svc : Service)
    (chk : ServiceCheck) (o1 : operations) (ids : Option (List String))
    (hsvc : task.Services = [svc]) (hc : svc.Checks = [chk])
    (hbuild : checkRegs lib {} (MakeTaskServiceID task.AllocID task.Name svc) svc task =
      (o1, .ok ids)) :
    (UpdateTask send lib ord c task task).2.opCh = (commit send c o1).opCh ∧
      o1.regChecks.map (fun r => r.ID) =
        [MakeCheckID lib (MakeTaskServiceID task.AllocID task.Name svc) chk] := by
  obtain ⟨hids, regs, ho1, hmap, hsid⟩ := checkRegs_ok lib hbuild
  rw [hc] at hmap hids
  have ho1' : o1 = { regChecks := regs } := by rw [ho1]; rfl
  subst ho1'
  refine ⟨?_, hmap⟩
  have hcont : GoMap.contains
      [(MakeCheckID lib (MakeTaskServiceID task.AllocID task.Name svc) chk, chk)]
      (MakeCheckID lib (MakeTaskServiceID task.AllocID task.Name svc) chk) = true := by
    simp [GoMap.contains, GoMap.get?_cons]
  have hget : GoMap.get? [(MakeTaskServiceID task.AllocID task.Name svc, svc)]
      (MakeTaskServiceID task.AllocID task.Name svc) = some svc := by
    rw [GoMap.get?_cons, if_pos rfl]
  have hdel : GoMap.delete [(MakeTaskServiceID task.AllocID task.Name svc, svc)]
      (MakeTaskServiceID task.AllocID task.Name svc) = [] := by
    simp [GoMap.delete]
  have hdelc : GoMap.delete
      [(MakeCheckID lib (MakeTaskServiceID task.AllocID task.Name svc) chk, chk)]
      (MakeCheckID lib (MakeTaskServiceID task.AllocID task.Name svc) chk) = [] := by
    simp [GoMap.delete]
  have hE : ∃ t w, updateExistingLoop lib ord task task
      [(MakeTaskServiceID task.AllocID task.Name svc, svc)]
      { newIDs := [(MakeTaskServiceID task.AllocID task.Name svc, svc)] } =
      ({ ops := { regChecks := regs }, taskReg := t, newIDs := [], watcher := w }, none) := by
    cases h1 : chk.TriggersRestarts <;>
      simp only [updateExistingLoop, hget, if_true, hdel, hc, checkIDMap,
        GoMap.set_nil, updateChecksLoop, hcont, hdelc, hbuild, RangeOrder.range_nil, GoMap.keys,
        List.map_nil, List.filter_nil, List.append_nil, h1, Bool.false_eq_true, if_false] <;>
      exact ⟨_, _, rfl⟩
  obtain ⟨t, w, hE⟩ := hE
  simp only [UpdateTask, hsvc, serviceIDs, GoMap.set_nil, RangeOrder.range_singleton, hE,
    RangeOrder.range_nil, List.map_nil, serviceRegsLoop]
  unfold commit
  simp only
  split_ifs <;> rfl

end SameCheck

/-- C27, at a failing input: when `webTask` is updated to itself, the id of its
check is a check id of the old service and of the new one, and the batch
`UpdateTask` sends still holds a registration of that check (and no
deregistration). -/
theorem UpdateTask_registers_unchanged_check (send : Bool) :
    (UpdateTask send pathLib listOrder {} webTask webTask).2.opCh =
      [{ regChecks := [healthRegistration] }] := by
  have hb : checkRegs pathLib {} (MakeTaskServiceID webTask.AllocID webTask.Name webService)
      webService webTask =
      ({ regChecks := [healthRegistration] },
        .ok (some ["_nomad-check-_nomad-task-a1-web-frontend-http/alive/health"])) := by
    simp only [checkRegs, checkRegsLoop, webService, httpCheck, webTask, getAddress_eq]
    rfl
  rw [(UpdateTask_same_check pathLib listOrder send {} webTask webService httpCheck _ _ rfl rfl
    hb).1]
  exact commit_opCh_of_open send {} _ rfl

/-- Witness of C26: the service of `webTask` keeps its hash when the path of
its check changes; the batch has no service operation for its id. -/
theorem UpdateTask_unchanged_service_witness :
    (∀ reg ∈ healthzBatch.regServices, reg.ID ≠ "_nomad-task-a1-web-frontend-http") ∧
      "_nomad-task-a1-web-frontend-http" ∉ healthzBatch.deregServices :=
  UpdateTask_unchanged_service true pathLib listOrder {} webTask webTaskV2
    "_nomad-task-a1-web-frontend-http" webService
    { webService with Checks := [{ httpCheck with Path := "/healthz" }] } healthzBatch
    rfl rfl rfl webTask_update_eval

/-- Witness of C28: inside the probation window (time 5, expiry 60) the update
of the path of the check of `webTask` costs one `CheckDeregister` and one
`CheckRegister`. -/
theorem check_only_update_end_to_end_witness :
    5 < (merge webStore healthzBatch).deregisterProbationExpiry ∧
    ∃ reg : AgentCheckRegistration,
      reg.ID = "_nomad-check-_nomad-task-a1-web-frontend-http/alive/healthz" ∧
      (sync reliableCatalog (merge webStore healthzBatch) 5
        { services := [("_nomad-task-a1-web-frontend-http", toAgentService frontendRegistration)],
          checks := [("_nomad-check-_nomad-task-a1-web-frontend-http/alive/health",
            toAgentCheck healthRegistration)] }).calls.filter Call.isWrite =
        [Call.CheckDeregister "_nomad-check-_nomad-task-a1-web-frontend-http/alive/health",
         Call.CheckRegister reg] :=
  ⟨by decide,
    check_only_update_end_to_end true pathLib listOrder {} webStore 5 webTask webTaskV2
      webService
      { webService with Checks := [{ httpCheck with Path := "/healthz" }] } httpCheck
      { httpCheck with Path := "/healthz" } "/healthz" "_nomad-task-a1-web-frontend-http"
      "_nomad-check-_nomad-task-a1-web-frontend-http/alive/health"
      "_nomad-check-_nomad-task-a1-web-frontend-http/alive/healthz"
      frontendRegistration healthRegistration healthzBatch
      rfl rfl rfl rfl rfl rfl rfl rfl rfl (by decide) rfl rfl rfl rfl rfl rfl
      webTask_update_eval⟩

/-! ## RemoveTask and AllocRegistrations -/

section Remove

theorem GoMap.get?_of_length_zero {α : Type} {m : GoMap α} (h : m.length = 0) (k : String) :
    m.get? k = none := by
  rw [List.length_eq_zero.mp h]
  rfl

theorem removeTaskRegistration_self (index : GoMap AllocRegistration) (allocID taskName : String) :
    taskRegistrationOf (removeTaskRegistration index allocID taskName) allocID taskName =
      none := by
  unfold removeTaskRegistration taskRegistrationOf
  split
  · rename_i h
    rw [h]
    rfl
  · simp only
    split_ifs
    · rw [GoMap.get?_delete, if_pos rfl]
      rfl
    · rw [GoMap.get?_set, if_pos rfl]
      simp only [Option.bind]
      rw [GoMap.get?_delete, if_pos rfl]

theorem removeTaskRegistration_other (index : GoMap AllocRegistration)
    (allocID taskName a t : String) (h : a ≠ allocID ∨ t ≠ taskName) :
    taskRegistrationOf (removeTaskRegistration index allocID taskName) a t =
      taskRegistrationOf index a t := by
  unfold removeTaskRegistration taskRegistrationOf
  split
  · rfl
  · rename_i alloc hget
    simp only
    by_cases ha : a = allocID
    · subst ha
      have ht : t ≠ taskName := by
        rcases h with h | h
        · exact absurd rfl h
        · exact h
      rw [hget]
      simp only [Option.bind]
      split_ifs with hlen
      · rw [GoMap.get?_delete, if_pos rfl]
        have := GoMap.get?_of_length_zero hlen t
        rw [GoMap.get?_delete, if_neg ht] at this
        rw [this]
      · rw [GoMap.get?_set, if_pos rfl]
        simp only
        rw [GoMap.get?_delete, if_neg ht]
    · split_ifs
      · rw [GoMap.get?_delete, if_neg ha]
      · rw [GoMap.get?_set, if_neg ha]

end Remove

/-- C29 (removed workloads are evicted despite probation). `RemoveTask` hands
`commit` one batch that holds a service deregistration for every service id
of the task, a check deregistration for every check id of these services and
no registration; the batch is queued while `shutdownCh` is open, and once it
is closed it is queued or dropped, as the `select` of `commit` chooses.
`RemoveTask` removes the task from the allocation index (the other tasks
stay).  After that batch is merged, a `sync` of a client agent in which no
catalog call fails calls `ServiceDeregister` for every one of these service
ids that the catalog holds and that is not the sidecar of a service still
desired, whatever the current time, so also inside the probation window. -/
theorem RemoveTask_evicts_despite_probation (send : Bool) (lib : Lib) (c : Lifecycle)
    (store : ServiceClient) (now : Nat) (cat : Catalog) (task : TaskServices)
    (hclient : store.isClientAgent = true) :
    ∃ ops : operations,
      (RemoveTask send lib c task).opCh = (commit send c ops).opCh ∧
      (c.shutdownCh = false → (RemoveTask send lib c task).opCh = c.opCh ++ [ops]) ∧
      ((RemoveTask send lib c task).opCh = c.opCh ++ [ops] ∨
        ((RemoveTask send lib c task).opCh = c.opCh ∧ c.shutdownCh = true)) ∧
      ops.deregServices = task.Services.map (MakeTaskServiceID task.AllocID task.Name) ∧
      ops.deregChecks =
        task.Services.flatMap (fun s => s.Checks.map
          (MakeCheckID lib (MakeTaskServiceID task.AllocID task.Name s))) ∧
      ops.regServices = [] ∧ ops.regChecks = [] ∧
      taskRegistrationOf (RemoveTask send lib c task).allocRegistrations task.AllocID task.Name =
        none ∧
      (∀ a t, (a ≠ task.AllocID ∨ t ≠ task.Name) →
        taskRegistrationOf (RemoveTask send lib c task).allocRegistrations a t =
          taskRegistrationOf c.allocRegistrations a t) ∧
      ∀ service ∈ task.Services,
        MakeTaskServiceID task.AllocID task.Name service ∈ cat.services.keys →
        isNomadSidecar (MakeTaskServiceID task.AllocID task.Name service)
          (merge store ops).services = false →
        Call.ServiceDeregister (MakeTaskServiceID task.AllocID task.Name service) ∈
          (sync reliableCatalog (merge store ops) now cat).calls := by
  have hindex : (RemoveTask send lib c task).allocRegistrations =
      removeTaskRegistration c.allocRegistrations task.AllocID task.Name := by
    unfold RemoveTask
    simp only [commit_allocRegistrations]
  have hq : (RemoveTask send lib c task).opCh = (commit send c (removeTaskOps lib task)).opCh := by
    unfold RemoveTask commit
    simp only
    split_ifs <;> rfl
  refine ⟨removeTaskOps lib task, hq, fun hopen => hq.trans (commit_opCh_of_open send c _ hopen),
    hq ▸ commit_opCh_cases send c _, rfl, rfl, rfl, rfl, ?_, ?_, ?_⟩
  · rw [hindex]
    exact removeTaskRegistration_self _ _ _
  · intro a t h
    rw [hindex]
    exact removeTaskRegistration_other _ _ _ a t h
  · intro service hmem hcat hside
    rw [sync_reliable_calls]
    apply List.mem_append_right
    rw [mem_planned_serviceDeregister]
    refine ⟨hcat, ?_⟩
    have hin : MakeTaskServiceID task.AllocID task.Name service ∈
        (removeTaskOps lib task).deregServices := List.mem_map_of_mem _ hmem
    have hm := mergeDereg_get? (removeTaskOps lib task).deregServices
      (mergeRegServices store.services (removeTaskOps lib task).regServices)
      store.explicitlyDeregisteredServices (MakeTaskServiceID task.AllocID task.Name service)
    rw [if_pos hin, if_pos hin] at hm
    have hs : (merge store (removeTaskOps lib task)).services.get?
        (MakeTaskServiceID task.AllocID task.Name service) = none := hm.1
    have he : lookupBool (merge store (removeTaskOps lib task)).explicitlyDeregisteredServices
        (MakeTaskServiceID task.AllocID task.Name service) = true := hm.2
    have hcl : (merge store (removeTaskOps lib task)).isClientAgent = true := hclient
    simp [evictService, GoMap.contains, hs, he, hcl, hside, isNomadService_MakeTaskServiceID]

/-- Witness of C29: inside the probation window (time 5, expiry 60) the service
of the removed task `web` is deregistered. -/
theorem RemoveTask_evicts_despite_probation_witness :
    5 < webStore.deregisterProbationExpiry ∧
      ∃ ops : operations,
        (RemoveTask true pathLib {} webTask).opCh = [ops] ∧
        ops.deregServices = ["_nomad-task-a1-web-frontend-http"] ∧
        ops.deregChecks = ["_nomad-check-_nomad-task-a1-web-frontend-http/alive/health"] ∧
        ops.regServices = [] ∧ ops.regChecks = [] ∧
        taskRegistrationOf (RemoveTask true pathLib webIndex webTask).allocRegistrations "a1"
          "web" = none ∧
        Call.ServiceDeregister "_nomad-task-a1-web-frontend-http" ∈
          (sync reliableCatalog (merge webStore ops) 5 webCatalog).calls := by
  obtain ⟨ops, -, hq, -, h1, h2, h3, h4, -, -, hsync⟩ :=
    RemoveTask_evicts_despite_probation true pathLib {} webStore 5 webCatalog webTask rfl
  obtain ⟨_, -, -, -, -, -, -, -, hidx, -, -⟩ :=
    RemoveTask_evicts_despite_probation true pathLib webIndex webStore 5 webCatalog webTask rfl
  have hops : ops =
      { deregServices := ["_nomad-task-a1-web-frontend-http"],
        deregChecks := ["_nomad-check-_nomad-task-a1-web-frontend-http/alive/health"] } := by
    obtain ⟨rs, rc, ds, dc⟩ := ops
    simp only at h1 h2 h3 h4
    subst h1 h2 h3 h4
    rfl
  refine ⟨by decide, ops, hq rfl, ?_, ?_, h3, h4, hidx, ?_⟩
  · rw [hops]
  · rw [hops]
  · exact hsync webService (by decide) (by decide) (by rw [hops]; decide)

section Alloc

theorem GoMap.get?_map_values {α β : Type} (f : String → α → β) (m : GoMap α) (k : String) :
    GoMap.get? (m.map (fun e => (e.1, f e.1 e.2))) k = (m.get? k).map (f k) := by
  induction m with
  | nil => rfl
  | cons e rest ih =>
    obtain ⟨a, v⟩ := e
    rw [List.map_cons, GoMap.get?_cons, GoMap.get?_cons, ih]
    by_cases h : k = a
    · subst h; simp
    · simp [h]

theorem GoMap.keys_map_values {α β : Type} (f : String → α → β) (m : GoMap α) :
    GoMap.keys (m.map (fun e => (e.1, f e.1 e.2))) = m.keys := by
  simp [GoMap.keys, List.map_map, Function.comp]

theorem populate_checks (services : GoMap AgentService) (checks : GoMap AgentCheck)
    (serviceID : String) (sreg : ServiceRegistration) (chk : AgentCheck) :
    chk ∈ (populate services checks serviceID sreg.copy).Checks ↔
      ∃ cid ∈ sreg.checkIDs.keys, checks.get? cid = some chk := by
  simp only [populate, ServiceRegistration.copy, List.nil_append, List.mem_filterMap,
    GoMap.keys, List.mem_map]
  constructor
  · rintro ⟨e, he, hg⟩
    exact ⟨e.1, ⟨e, he, rfl⟩, hg⟩
  · rintro ⟨cid, ⟨e, he, rfl⟩, hg⟩
    exact ⟨e, he, hg⟩

end Alloc

/-- C30 (`AllocRegistrations`). The state of the client, and with it the
allocation index, is left as it was.  For an allocation id that the index does
not hold, the result is nil without error and no catalog call is made.  For an
allocation the index holds, the result is the error of `Services`, or else of
`Checks`, when one of the two reads fails; otherwise it is a structure with the
same task names and, for every task, the same service ids, in which the entry
of every service has the recorded id and check ids, its `Service` is the
catalog service stored under its service id (nil if there is none) and its
`Checks` are exactly the catalog checks stored under an id in its recorded
check id set. -/
theorem AllocRegistrations_materialises {σ : Type} (api : AgentAPI σ) (c : Lifecycle)
    (allocID : String) (st : σ) :
    (AllocRegistrations api c allocID st).client = c ∧
    (c.allocRegistrations.get? allocID = none →
      (AllocRegistrations api c allocID st).result = .ok none ∧
      (AllocRegistrations api c allocID st).calls = [] ∧
      (AllocRegistrations api c allocID st).st = st) ∧
    (∀ reg, c.allocRegistrations.get? allocID = some reg →
      (∀ err st1, api.Services st = (.error err, st1) →
        (AllocRegistrations api c allocID st).result = .error err) ∧
      (∀ svcs st1 err st2, api.Services st = (.ok svcs, st1) →
        api.Checks st1 = (.error err, st2) →
        (AllocRegistrations api c allocID st).result = .error err) ∧
      (∀ svcs st1 chks st2, api.Services st = (.ok svcs, st1) →
        api.Checks st1 = (.ok chks, st2) →
        ∃ view : AllocRegistration,
          (AllocRegistrations api c allocID st).result = .ok (some view) ∧
          view.Tasks.keys = reg.Tasks.keys ∧
          ∀ taskName treg, reg.Tasks.get? taskName = some treg →
            ∃ tview, view.Tasks.get? taskName = some tview ∧
              tview.Services.keys = treg.Services.keys ∧
              ∀ serviceID sreg, treg.Services.get? serviceID = some sreg →
                ∃ sview, tview.Services.get? serviceID = some sview ∧
                  sview.serviceID = sreg.serviceID ∧
                  sview.checkIDs = sreg.checkIDs ∧
                  sview.Service = svcs.get? serviceID ∧
                  ∀ chk, chk ∈ sview.Checks ↔
                    ∃ cid ∈ sreg.checkIDs.keys, chks.get? cid = some chk)) := by
  refine ⟨?_, ?_, ?_⟩
  · unfold AllocRegistrations
    split
    · rfl
    · simp only
      split
      · rfl
      · split <;> rfl
  · intro h
    unfold AllocRegistrations
    rw [h]
    exact ⟨rfl, rfl, rfl⟩
  · intro reg h
    refine ⟨?_, ?_, ?_⟩
    · intro err st1 hs
      unfold AllocRegistrations
      rw [h]
      simp only [hs]
    · intro svcs st1 err st2 hs hc
      unfold AllocRegistrations
      rw [h]
      simp only [hs, hc]
    · intro svcs st1 chks st2 hs hc
      refine ⟨populateAll svcs chks reg.copy, ?_, ?_, ?_⟩
      · unfold AllocRegistrations
        rw [h]
        simp only [hs, hc]
      · simp only [populateAll, AllocRegistration.copy, List.map_map, GoMap.keys]
        rfl
      · intro taskName treg ht
        have hcopy : reg.copy.Tasks.get? taskName = some treg.copy :=
          (GoMap.get?_map_values (fun (_ : String) (t : TaskRegistration) => t.copy)
            reg.Tasks taskName).trans (by rw [ht]; rfl)
        have hview : (populateAll svcs chks reg.copy).Tasks.get? taskName =
            some (TaskRegistration.mk (treg.copy.Services.map
              (fun (e : String × ServiceRegistration) =>
                (e.1, populate svcs chks e.1 e.2)))) :=
          (GoMap.get?_map_values (fun (_ : String) (t : TaskRegistration) =>
            TaskRegistration.mk (t.Services.map (fun (e : String × ServiceRegistration) =>
              (e.1, populate svcs chks e.1 e.2))))
            reg.copy.Tasks taskName).trans (by rw [hcopy]; rfl)
        refine ⟨_, hview, ?_, ?_⟩
        · simp only [TaskRegistration.copy, List.map_map, GoMap.keys]
          rfl
        · intro serviceID sreg hsreg
          have hc1 : treg.copy.Services.get? serviceID = some sreg.copy :=
            (GoMap.get?_map_values (fun (_ : String) (s : ServiceRegistration) => s.copy)
              treg.Services serviceID).trans (by rw [hsreg]; rfl)
          have hc2 : GoMap.get?
              (treg.copy.Services.map (fun e => (e.1, populate svcs chks e.1 e.2))) serviceID =
              some (populate svcs chks serviceID sreg.copy) :=
            (GoMap.get?_map_values (fun (k : String) (s : ServiceRegistration) =>
              populate svcs chks k s) treg.copy.Services serviceID).trans (by rw [hc1]; rfl)
          exact ⟨populate svcs chks serviceID sreg.copy, hc2, rfl, rfl, rfl,
            populate_checks svcs chks serviceID sreg⟩

/-- Witness of C30: the allocation `a1` against a catalog that holds its service
and its check, and the unknown allocation `zz`. -/
theorem AllocRegistrations_materialises_witness :
    ((AllocRegistrations reliableCatalog webIndex "zz" webCatalog).result = .ok none ∧
      (AllocRegistrations reliableCatalog webIndex "zz" webCatalog).calls = [] ∧
      (AllocRegistrations reliableCatalog webIndex "zz" webCatalog).st = webCatalog) ∧
    ∃ view : AllocRegistration,
      (AllocRegistrations reliableCatalog webIndex "a1" webCatalog).result = .ok (some view) ∧
      view.Tasks.keys = webAllocRegistration.Tasks.keys ∧
      ∀ taskName treg, webAllocRegistration.Tasks.get? taskName = some treg →
        ∃ tview, view.Tasks.get? taskName = some tview ∧
          tview.Services.keys = treg.Services.keys ∧
          ∀ serviceID sreg, treg.Services.get? serviceID = some sreg →
            ∃ sview, tview.Services.get? serviceID = some sview ∧
              sview.serviceID = sreg.serviceID ∧
              sview.checkIDs = sreg.checkIDs ∧
              sview.Service = webCatalog.services.get? serviceID ∧
              ∀ chk, chk ∈ sview.Checks ↔
                ∃ cid ∈ sreg.checkIDs.keys, webCatalog.checks.get? cid = some chk :=
  ⟨(AllocRegistrations_materialises reliableCatalog webIndex "zz" webCatalog).2.1 rfl,
    ((AllocRegistrations_materialises reliableCatalog webIndex "a1" webCatalog).2.2
      webAllocRegistration rfl).2.2 webCatalog.services webCatalog webCatalog.checks webCatalog
      rfl rfl⟩

/-! ## Shutdown, the connect block and the state machine of Run -/

/-! ## Shutdown -/

theorem registerAgentChecks_ok (lib : Lib) (id : String) (service : Service)
    (serviceReg : AgentServiceRegistration) :
    ∀ (checks : List ServiceCheck) (ops ops1 : operations),
      registerAgentChecks lib id service serviceReg checks ops = .ok ops1 →
      ops1.regServices = ops.regServices ∧
        ops1.regChecks.map (fun r => r.ID) =
          ops.regChecks.map (fun r => r.ID) ++ checks.map (MakeCheckID lib id) := by
  intro checks
  induction checks with
  | nil =>
    intro ops ops1 h
    simp only [registerAgentChecks, Except.ok.injEq] at h
    subst h
    simp
  | cons check rest ih =>
    intro ops ops1 h
    unfold registerAgentChecks at h
    simp only at h
    split_ifs at h <;> (repeat' split at h) <;>
      first
      | (obtain ⟨h1, h2⟩ := ih _ _ h
         have hid := (createCheckReg_ids lib ‹_›).1
         refine ⟨h1, ?_⟩
         rw [h2]
         simp [hid])
      | cases h

theorem registerAgentLoop_ok (lib : Lib) (role : String) :
    ∀ (services : List Service) (ops ops1 : operations),
      registerAgentLoop lib role services ops = .ok ops1 →
      ops1.regServices.map (fun r => r.ID) =
          ops.regServices.map (fun r => r.ID) ++ services.map (makeAgentServiceID lib role) ∧
        ops1.regChecks.map (fun r => r.ID) =
          ops.regChecks.map (fun r => r.ID) ++
            services.flatMap (fun s => s.Checks.map (MakeCheckID lib (makeAgentServiceID lib role s))) := by
  intro services
  induction services with
  | nil =>
    intro ops ops1 h
    simp only [registerAgentLoop, Except.ok.injEq] at h
    subst h
    simp
  | cons service rest ih =>
    intro ops ops1 h
    unfold registerAgentLoop at h
    simp only at h
    rcases he : splitHostPort service.PortLabel with e | ⟨host, rawport⟩
    · simp only [he] at h; cases h
    · simp only [he] at h
      cases ha : strconvAtoi rawport with
      | none => simp only [ha] at h; cases h
      | some port =>
        simp only [ha] at h
        split at h
        · cases h
        · rename_i ops2 hc
          obtain ⟨c1, c2⟩ := registerAgentChecks_ok lib _ _ _ _ _ _ hc
          obtain ⟨h1, h2⟩ := ih _ _ h
          rw [h1, h2, c1, c2]
          simp

theorem recordIDs_contains (ids : List String) (m : GoMap Unit) (id : String) :
    (recordIDs m ids).contains id = (decide (id ∈ ids) || m.contains id) := by
  induction ids generalizing m with
  | nil => simp [recordIDs]
  | cons x rest ih =>
    unfold recordIDs
    rw [ih]
    unfold GoMap.contains
    rw [GoMap.get?_set]
    by_cases h : id = x
    · subst h; simp
    · simp [h]

theorem recordIDs_keys (ids : List String) (m : GoMap Unit) (id : String) :
    id ∈ (recordIDs m ids).keys ↔ id ∈ ids ∨ id ∈ m.keys := by
  rw [← GoMap.contains_iff_mem_keys, recordIDs_contains, ← GoMap.contains_iff_mem_keys]
  simp

theorem deregisterAgentIDs_calls {σ : Type} (call : String → σ → Option String × σ)
    (mk : String → Call) (ids : List String) (st : σ) :
    (deregisterAgentIDs call mk ids st).2 = ids.map mk := by
  induction ids generalizing st with
  | nil => rfl
  | cons id rest ih => simp [deregisterAgentIDs, ih]

theorem Shutdown_err {σ : Type} (api : AgentAPI σ) (c : Lifecycle) (st : σ) :
    (Shutdown api c st).err = none := by
  unfold Shutdown
  dsimp only
  split_ifs <;> rfl

theorem Shutdown_calls {σ : Type} (api : AgentAPI σ) (c : Lifecycle) (st : σ)
    (h : c.shutdownCh = false) :
    (Shutdown api c st).calls =
      if c.seen then c.agentServices.keys.map Call.ServiceDeregister ++
        c.agentChecks.keys.map Call.CheckDeregister
      else [] := by
  unfold Shutdown
  rw [h]
  cases hs : c.seen <;> simp [hs, deregisterAgentIDs_calls]

theorem RegisterAgent_ids (lib : Lib) (c : Lifecycle) (role : String) (services : List Service)
    (hopen : c.shutdownCh = false) (hreg : (RegisterAgent lib c role services).1 = none) :
    (∀ service ∈ services,
      makeAgentServiceID lib role service ∈ (RegisterAgent lib c role services).2.agentServices.keys ∧
      ∀ check ∈ service.Checks,
        MakeCheckID lib (makeAgentServiceID lib role service) check ∈
          (RegisterAgent lib c role services).2.agentChecks.keys) ∧
      (RegisterAgent lib c role services).2.shutdownCh = false := by
  unfold RegisterAgent at hreg ⊢
  cases hl : registerAgentLoop lib role services {} with
  | error err => rw [hl] at hreg; cases hreg
  | ok ops =>
    obtain ⟨h1, h2⟩ := registerAgentLoop_ok lib role services _ _ hl
    simp only [hopen, Bool.false_eq_true, if_false]
    refine ⟨fun service hs => ⟨?_, fun check hc => ?_⟩, ?_⟩
    · rw [recordIDs_keys, h1]
      exact Or.inl (by simp; exact ⟨service, hs, rfl⟩)
    · rw [recordIDs_keys, h2]
      refine Or.inl ?_
      simp only [List.mem_append, List.mem_flatMap, List.mem_map]
      exact Or.inr ⟨service, hs, check, hc, rfl⟩
    · unfold commit
      simp [hopen]

/-- C31 (agent teardown on shutdown). `RegisterAgent` succeeded on `c`, before
shutdown, for `services`; `c2` is any later state before shutdown whose
agent-owned sets still hold the ids of the state `RegisterAgent` left.  The
first `Shutdown` then returns nil and closes `shutdownCh`, whatever the catalog
client `api` answers.  If the catalog has been seen it calls
`ServiceDeregister` for every id of the agent-owned services and then
`CheckDeregister` for every id of the agent-owned checks, whether or not
earlier calls failed, and among these are the id of every service of
`services` and of every check of theirs.  If the catalog was never seen it
makes no call. -/
theorem Shutdown_deregisters_agent {σ : Type} (lib : Lib) (api : AgentAPI σ) (c c2 : Lifecycle)
    (role : String) (services : List Service) (st : σ)
    (hopen : c.shutdownCh = false)
    (hreg : (RegisterAgent lib c role services).1 = none)
    (hopen2 : c2.shutdownCh = false)
    (hs : ∀ id ∈ (RegisterAgent lib c role services).2.agentServices.keys,
      id ∈ c2.agentServices.keys)
    (hc : ∀ id ∈ (RegisterAgent lib c role services).2.agentChecks.keys,
      id ∈ c2.agentChecks.keys) :
    (Shutdown api c2 st).err = none ∧
      (Shutdown api c2 st).client.shutdownCh = true ∧
      (c2.seen = true →
        (Shutdown api c2 st).calls =
            c2.agentServices.keys.map Call.ServiceDeregister ++
              c2.agentChecks.keys.map Call.CheckDeregister ∧
          ∀ service ∈ services,
            Call.ServiceDeregister (makeAgentServiceID lib role service) ∈
                (Shutdown api c2 st).calls ∧
              ∀ check ∈ service.Checks,
                Call.CheckDeregister (MakeCheckID lib (makeAgentServiceID lib role service) check)
                  ∈ (Shutdown api c2 st).calls) ∧
      (c2.seen = false → (Shutdown api c2 st).calls = []) := by
  obtain ⟨hids, -⟩ := RegisterAgent_ids lib c role services hopen hreg
  refine ⟨Shutdown_err api c2 st, ?_, fun hseen => ?_, fun hseen => ?_⟩
  · unfold Shutdown
    rw [hopen2]
    dsimp only
    simp only [Bool.false_eq_true, if_false]
    split_ifs <;> rfl
  · rw [Shutdown_calls api c2 st hopen2, hseen]
    simp only [if_true]
    refine ⟨trivial, fun service hsv => ⟨?_, fun check hck => ?_⟩⟩
    · exact List.mem_append_left _ (List.mem_map_of_mem _ (hs _ (hids service hsv).1))
    · exact List.mem_append_right _ (List.mem_map_of_mem _ (hc _ ((hids service hsv).2 check hck)))
  · rw [Shutdown_calls api c2 st hopen2, hseen]
    rfl

/-- Witness of C31: an agent service with one check is registered, contact is
made, and `Shutdown` runs against a catalog all of whose calls fail. -/
theorem Shutdown_deregisters_agent_witness :
    (Shutdown deadCatalog
        { (RegisterAgent plainLib {} "client" [httpAgentService]).2 with seen := true } {}).err
        = none ∧
      (Shutdown deadCatalog
        { (RegisterAgent plainLib {} "client" [httpAgentService]).2 with seen := true } {}).calls =
        [Call.ServiceDeregister "_nomad-client-client//nomad-client/false",
         Call.CheckDeregister "_nomad-check-_nomad-client-client//nomad-client/false/alive"] := by
  have h := Shutdown_deregisters_agent plainLib deadCatalog {}
    { (RegisterAgent plainLib {} "client" [httpAgentService]).2 with seen := true }
    "client" [httpAgentService] {} rfl (by decide) (by decide) (fun _ h => h) (fun _ h => h)
  refine ⟨h.1, ?_⟩
  rw [(h.2.2.1 rfl).1]
  decide

theorem Shutdown_of_closed {σ : Type} (api : AgentAPI σ) (c : Lifecycle) (st : σ)
    (h : c.shutdownCh = true) : Shutdown api c st = ⟨none, c, st, []⟩ := by
  unfold Shutdown
  rw [if_pos h]

theorem Shutdown_closes {σ : Type} (api : AgentAPI σ) (c : Lifecycle) (st : σ) :
    (Shutdown api c st).client.shutdownCh = true := by
  unfold Shutdown
  dsimp only
  split_ifs with h1 h2
  · exact h1
  · rfl
  · rfl

/-- Counterexample to C32: shutdown has started and `RegisterAgent` is called
with a service whose port is not a number; it returns the error of the
validation, not nil. -/
theorem RegisterAgent_after_shutdown_returns_error :
    ({ shutdownCh := true } : Lifecycle).shutdownCh = true ∧
      (RegisterAgent plainLib { shutdownCh := true } "client" agentServices).1 ≠ none := by
  refine ⟨rfl, ?_⟩
  obtain ⟨err, he⟩ := registerAgentLoop_error plainLib "client" agentServices {}
    ⟨{ Name := "nomad-rpc", PortLabel := "127.0.0.1:rpc" }, by decide, Or.inl (by decide)⟩
  unfold RegisterAgent
  rw [he]
  simp

/-- C32, amended. `Shutdown` closes `shutdownCh`.  Once `shutdownCh` is closed,
every `Shutdown` returns nil, makes no catalog call and changes nothing; every
`RegisterAgent` leaves the state as it is (no batch is committed, no id is
added to the agent-owned sets) and returns nil when every service and check
passes the validation, the error of the validation otherwise. -/
theorem Shutdown_idempotent_closes_registration {σ : Type} (lib : Lib) (api : AgentAPI σ)
    (c : Lifecycle) (st : σ) (role : String) (services : List Service)
    (hsd : c.shutdownCh = true) :
    (∀ (c0 : Lifecycle) (st0 : σ), (Shutdown api c0 st0).client.shutdownCh = true) ∧
      Shutdown api c st = ⟨none, c, st, []⟩ ∧
      (RegisterAgent lib c role services).2 = c ∧
      (RegisterAgent lib c role services).1 =
        (match registerAgentLoop lib role services {} with
         | .error err => some err
         | .ok _ => none) := by
  refine ⟨fun c0 st0 => Shutdown_closes api c0 st0, Shutdown_of_closed api c st hsd, ?_, ?_⟩
  · unfold RegisterAgent
    cases registerAgentLoop lib role services {} with
    | error err => rfl
    | ok ops => simp only [hsd, if_true]
  · unfold RegisterAgent
    cases registerAgentLoop lib role services {} with
    | error err => rfl
    | ok ops => simp only [hsd, if_true]

/-- Witness of the amended C32: the state a first `Shutdown` leaves, a second
`Shutdown` and a `RegisterAgent` with valid services. -/
theorem Shutdown_idempotent_closes_registration_witness :
    Shutdown reliableCatalog { shutdownCh := true, agentServices := [("_nomad-client-x", ())] }
        strayCatalog =
        ⟨none, { shutdownCh := true, agentServices := [("_nomad-client-x", ())] },
          strayCatalog, []⟩ ∧
      (RegisterAgent plainLib { shutdownCh := true, agentServices := [("_nomad-client-x", ())] }
        "client" [httpAgentService]) =
        (none, { shutdownCh := true, agentServices := [("_nomad-client-x", ())] }) := by
  have h := Shutdown_idempotent_closes_registration plainLib reliableCatalog
    { shutdownCh := true, agentServices := [("_nomad-client-x", ())] } strayCatalog
    "client" [httpAgentService] rfl
  refine ⟨h.2.1, Prod.ext ?_ h.2.2.1⟩
  rw [h.2.2.2]
  decide

theorem getConnectPort_error (lib : Lib) (serviceName : String) (networks : Networks)
    (hno : ¬ ∃ n port, networks = [n] ∧ lib.portForService n serviceName = some port) :
    ∃ err, getConnectPort lib serviceName networks = .error err := by
  unfold getConnectPort
  match networks, hno with
  | [], _ => exact ⟨_, rfl⟩
  | [n], hno =>
    cases hp : lib.portForService n serviceName with
    | none =>
      refine ⟨"No Connect port defined for service " ++ quote serviceName, ?_⟩
      simp only [hp]
    | some port => exact absurd ⟨n, port, rfl, hp⟩ hno
  | _ :: _ :: _, _ => exact ⟨_, rfl⟩

/-- C33 (connect block). `newConnect` returns no record when the service has
no connect block, and a record that carries only the flag `Native` when the
block has no sidecar.  With a sidecar it returns an error unless `networks` is
exactly one network and that network has a port for the service; when it is,
it returns a sidecar registration whose address is the IP of the network,
whose port is the `Value` of the port, and whose proxy configuration maps
`bind_address` to "0.0.0.0" and `bind_port` to the `To` of the port, maps every
other key to what the job supplied for it, and has one upstream for each
upstream of the job, with its destination name and local bind port. -/
theorem newConnect_spec (lib : Lib) (serviceName : String) (networks : Networks) :
    newConnect lib serviceName none networks = .ok none ∧
      (∀ native : Bool,
        newConnect lib serviceName (some { Native := native, SidecarService := none }) networks =
          .ok (some { Native := native, SidecarService := none })) ∧
      (∀ (native : Bool) (sidecar : ConsulSidecarService),
        (¬ (∃ n port, networks = [n] ∧ lib.portForService n serviceName = some port) →
          ∃ err, newConnect lib serviceName
            (some { Native := native, SidecarService := some sidecar }) networks = .error err) ∧
        ∀ n port, networks = [n] → lib.portForService n serviceName = some port →
          ∃ reg proxy, newConnect lib serviceName
              (some { Native := native, SidecarService := some sidecar }) networks =
              .ok (some { Native := native, SidecarService := some reg }) ∧
            reg.Address = n.IP ∧ reg.Port = port.Value ∧ reg.Proxy = some proxy ∧
            proxy.Config.get? "bind_address" = some (ConfigValue.str "0.0.0.0") ∧
            proxy.Config.get? "bind_port" = some (ConfigValue.int port.To) ∧
            (∀ k, k ≠ "bind_address" → k ≠ "bind_port" →
              proxy.Config.get? k = (((sidecar.Proxy.bind (fun p => p.Config)).getD []).get? k)) ∧
            proxy.Upstreams.getD [] =
              ((sidecar.Proxy.map (fun p => p.Upstreams)).getD []).map
                (fun nu => { DestinationName := nu.DestinationName,
                             LocalBindPort := nu.LocalBindPort })) := by
  refine ⟨rfl, fun native => rfl, fun native sidecar => ⟨fun hno => ?_, fun n port hn hp => ?_⟩⟩
  · obtain ⟨err, he⟩ := getConnectPort_error lib serviceName networks hno
    unfold newConnect
    simp only [he]
    exact ⟨_, rfl⟩
  · subst hn
    unfold newConnect getConnectPort
    simp only [hp]
    refine ⟨_, _, rfl, rfl, rfl, rfl, ?_, ?_, ?_, ?_⟩
    · rw [GoMap.get?_set, if_neg (by decide), GoMap.get?_set, if_pos rfl]
    · rw [GoMap.get?_set, if_pos rfl]
    · intro k h1 h2
      rw [GoMap.get?_set, if_neg h2, GoMap.get?_set, if_neg h1]
      cases sidecar.Proxy <;> rfl
    · cases hpx : sidecar.Proxy with
      | none => rfl
      | some proxy =>
        simp only [Option.map_some', Option.getD_some]
        split_ifs with hlen
        · have : proxy.Upstreams = [] := List.eq_nil_of_length_eq_zero hlen
          rw [this]
          rfl
        · rfl

/-- Witness of C33: the sidecar of the service `db` on a network with the port
`connect-proxy-db`. -/
theorem newConnect_spec_witness :
    (∃ err, newConnect plainLib "db" (some sidecarConnect) [hostNetwork] = .error err) ∧
      newConnect plainLib "db" (some sidecarConnect) [sidecarNetwork] =
        .ok (some { SidecarService := some dbSidecarRegistration }) := by
  refine ⟨((newConnect_spec plainLib "db" [hostNetwork]).2.2 false dbSidecar).1 ?_, rfl⟩
  rintro ⟨n, port, hn, hp⟩
  cases hn
  have hnone : plainLib.portForService hostNetwork "db" = none := by decide
  rw [hnone] at hp
  cases hp

/-! ## Order of writes and the comparison with the catalog -/

/-! ## Order of the writes of a cycle -/

theorem plannedWrites_sorted (c : ServiceClient) (ip : Bool) (svcs : GoMap AgentService)
    (chks : GoMap AgentCheck) :
    (plannedWrites c ip svcs chks).Pairwise (fun a b => a.stage ≤ b.stage) := by
  have key : ∀ (l : List Call) (n : Nat), (∀ x ∈ l, x.stage = n) →
      l.Pairwise (fun a b => a.stage ≤ b.stage) := by
    intro l n h
    rw [List.pairwise_iff_forall_sublist]
    intro a b hab
    have ha := h a (hab.subset (by simp))
    have hb := h b (hab.subset (by simp))
    omega
  have h1 : ∀ x ∈ deregServiceCalls c ip svcs, x.stage = 1 := by
    intro x hx
    simp only [deregServiceCalls, List.mem_map] at hx
    obtain ⟨e, _, rfl⟩ := hx
    rfl
  have h2 : ∀ x ∈ regServiceCalls c svcs, x.stage = 2 := by
    intro x hx
    simp only [regServiceCalls, List.mem_map] at hx
    obtain ⟨e, _, rfl⟩ := hx
    rfl
  have h3 : ∀ x ∈ deregCheckCalls c ip chks, x.stage = 3 := by
    intro x hx
    simp only [deregCheckCalls, List.mem_map] at hx
    obtain ⟨e, _, rfl⟩ := hx
    rfl
  have h4 : ∀ x ∈ regCheckCalls c chks, x.stage = 4 := by
    intro x hx
    simp only [regCheckCalls, List.mem_map] at hx
    obtain ⟨e, _, rfl⟩ := hx
    rfl
  unfold plannedWrites
  simp only [List.pairwise_append, List.mem_append]
  refine ⟨key _ 1 h1, ⟨key _ 2 h2, ⟨key _ 3 h3, key _ 4 h4, ?_⟩, ?_⟩, ?_⟩
  · intro a ha b hb
    rw [h3 a ha, h4 b hb]
    omega
  · intro a ha b hb
    rw [h2 a ha]
    rcases hb with hb | hb
    · rw [h3 b hb]; omega
    · rw [h4 b hb]; omega
  · intro a ha b hb
    rw [h1 a ha]
    rcases hb with hb | hb | hb
    · rw [h2 b hb]; omega
    · rw [h3 b hb]; omega
    · rw [h4 b hb]; omega

theorem sync_calls_sorted {σ : Type} (api : AgentAPI σ) (c : ServiceClient) (now : Nat) (st : σ) :
    (sync api c now st).calls.Pairwise (fun a b => a.stage ≤ b.stage) := by
  rcases hs : api.Services st with ⟨_ | svcs, st1⟩
  · unfold sync
    rw [hs]
    simp
  · rcases hc : api.Checks st1 with ⟨_ | chks, st2⟩
    · unfold sync
      rw [hs]
      simp only
      rw [hc]
      simp [Call.stage]
    · rw [sync_of_reads api c now st hs hc]
      simp only
      rw [List.pairwise_append]
      refine ⟨by simp [Call.stage], ?_, ?_⟩
      · exact (plannedWrites_sorted c _ svcs chks).sublist
          (syncLoops_initial api c _ svcs chks st2).sublist
      · intro a ha b _
        have : a.stage = 0 := by
          simp only [List.mem_cons, List.mem_singleton, List.not_mem_nil, or_false] at ha
          rcases ha with rfl | rfl <;> rfl
        omega

/-- What precedes a `CheckRegister` in the writes of a cycle holds every
`ServiceRegister` of the plan. -/
theorem regServiceCalls_before_checkRegister {σ : Type} (api : AgentAPI σ) (c : ServiceClient)
    (ip : Bool) (svcs : GoMap AgentService) (chks : GoMap AgentCheck) (st : σ)
    (l1 l2 : List Call) (chk : AgentCheckRegistration)
    (h : (syncLoops api c ip svcs chks st).calls = l1 ++ Call.CheckRegister chk :: l2) :
    ∀ x ∈ regServiceCalls c svcs, x ∈ l1 := by
  obtain ⟨t, ht⟩ := syncLoops_initial api c ip svcs chks st
  rw [h] at ht
  have hsorted := plannedWrites_sorted c ip svcs chks
  rw [← ht, List.append_assoc, List.pairwise_append] at hsorted
  have htail : ∀ b ∈ (Call.CheckRegister chk :: l2) ++ t, Call.isServiceRegister b = false := by
    intro b hb
    rw [List.cons_append, List.mem_cons] at hb
    rcases hb with rfl | hb
    · rfl
    · have h4 := (List.pairwise_cons.mp hsorted.2.1).1 b hb
      cases b <;> first | rfl | (simp [Call.stage] at h4)
  have hf := planned_filter_serviceRegister c ip svcs chks
  have hnil : List.filter Call.isServiceRegister (Call.CheckRegister chk :: l2 ++ t) = [] :=
    List.filter_eq_nil_iff.mpr (fun b hb => by simp [htail b hb])
  rw [← ht, List.append_assoc, List.filter_append, hnil, List.append_nil] at hf
  intro x hx
  rw [← hf] at hx
  exact (List.mem_filter.mp hx).1

/-- C36 (write order within one cycle). In the calls of one `sync`, no call of
a later stage precedes a call of an earlier stage, the stages being the reads,
`ServiceDeregister`, `ServiceRegister`, `CheckDeregister`, `CheckRegister`, in
this order.  In particular, when the read of the services returned `svcs`,
what precedes any `CheckRegister` in the calls holds the `ServiceRegister` of
every desired service that needs registering against `svcs`. -/
theorem sync_write_order {σ : Type} (api : AgentAPI σ) (c : ServiceClient) (now : Nat) (st : σ) :
    (sync api c now st).calls.Pairwise (fun a b => a.stage ≤ b.stage) ∧
      ∀ (svcs : GoMap AgentService) (st1 : σ), api.Services st = (.ok svcs, st1) →
        ∀ (l1 l2 : List Call) (chk : AgentCheckRegistration),
          (sync api c now st).calls = l1 ++ Call.CheckRegister chk :: l2 →
          ∀ e ∈ c.services, serviceNeedsRegister svcs e = true →
            Call.ServiceRegister e.2 ∈ l1 := by
  refine ⟨sync_calls_sorted api c now st, ?_⟩
  intro svcs st1 hs l1 l2 chk hcalls e he hneeds
  rcases hc : api.Checks st1 with ⟨_ | chks, st2⟩
  · unfold sync at hcalls
    rw [hs] at hcalls
    simp only at hcalls
    rw [hc] at hcalls
    simp only at hcalls
    have : Call.CheckRegister chk ∈ [Call.Services, Call.Checks] := by
      rw [hcalls]; simp
    simp at this
  · rw [sync_of_reads api c now st hs hc] at hcalls
    simp only at hcalls
    match l1, hcalls with
    | [], hcalls => simp at hcalls
    | [_], hcalls => simp at hcalls
    | a :: b :: l1a, hcalls =>
      simp only [List.cons_append, List.nil_append, List.cons.injEq] at hcalls
      obtain ⟨-, -, hrest⟩ := hcalls
      have := regServiceCalls_before_checkRegister api c _ svcs chks st2 l1a l2 chk hrest
        (Call.ServiceRegister e.2)
        (by
          simp only [regServiceCalls, List.mem_map, List.mem_filter]
          exact ⟨e, ⟨he, hneeds⟩, rfl⟩)
      exact List.mem_cons_of_mem _ (List.mem_cons_of_mem _ this)

/-- Witness of C36: a cycle that registers one service and its check. -/
theorem sync_write_order_witness :
    (sync reliableCatalog orderClient 100 {}).calls =
        [Call.Services, Call.Checks,
          Call.ServiceRegister { ID := "_nomad-task-b", Name := "web", Port := 8080 }] ++
          Call.CheckRegister { ID := "_nomad-check-b", ServiceID := "_nomad-task-b" } :: [] ∧
      Call.ServiceRegister { ID := "_nomad-task-b", Name := "web", Port := 8080 } ∈
        [Call.Services, Call.Checks,
          Call.ServiceRegister { ID := "_nomad-task-b", Name := "web", Port := 8080 }] :=
  ⟨by decide,
    (sync_write_order reliableCatalog orderClient 100 {}).2 [] {} rfl _ []
      { ID := "_nomad-check-b", ServiceID := "_nomad-task-b" } (by decide)
      ("_nomad-task-b", { ID := "_nomad-task-b", Name := "web", Port := 8080 })
      (by decide) (by decide)⟩

/-! ## What the comparison with the catalog ignores and what it sees -/

/-- C37 (metadata and connect drift is not repaired). The desired service map
is keyed by id and its keys are distinct; the read of the services returned
`svcs`.  For every desired registration `reg` under `id` whose catalog entry
`svc` agrees with it on kind, id, port, address, name and tag list, `sync`
issues no `ServiceRegister` that carries this id, and none that carries `reg`,
whatever the metadata and the connect block of `reg` and of `svc` are. -/
theorem sync_ignores_meta_and_connect {σ : Type} (api : AgentAPI σ) (c : ServiceClient)
    (now : Nat) (st st1 : σ) (svcs : GoMap AgentService)
    (hwf : c.services.WF) (hkey : ServicesKeyedByID c.services)
    (hs : api.Services st = (.ok svcs, st1))
    (id : String) (reg : AgentServiceRegistration) (svc : AgentService)
    (hd : c.services.get? id = some reg) (hc : svcs.get? id = some svc)
    (hagree : reg.Kind = svc.Kind ∧ reg.ID = svc.ID ∧ reg.Port = svc.Port ∧
      reg.Address = svc.Address ∧ reg.Name = svc.Service ∧ reg.Tags = svc.Tags) :
    ∀ r, Call.ServiceRegister r ∈ (sync api c now st).calls → r.ID ≠ id ∧ r ≠ reg := by
  have hno : agentServiceUpdateRequired reg svc = false := by
    obtain ⟨h1, h2, h3, h4, h5, h6⟩ := hagree
    unfold agentServiceUpdateRequired deepEqualTags
    simp [h1, h2, h3, h4, h5, h6]
  have hidreg : reg.ID = id := hkey _ (GoMap.mem_of_get?_eq_some hd)
  have main : ∀ r, Call.ServiceRegister r ∈ (sync api c now st).calls → r.ID ≠ id := by
    intro r hr hid
    rcases sync_call_cases api c now st _ hr with h | h | ⟨svcs2, chks, s1, s2, hs2, -, hmem⟩
    · cases h
    · cases h
    · rw [hs] at hs2
      injection hs2 with hs2 _
      injection hs2 with hs2
      subst hs2
      obtain ⟨k, hk, hneeds⟩ := (mem_planned_serviceRegister c _ svcs chks r).mp hmem
      have hkid : r.ID = k := hkey _ hk
      have hk2 : k = id := hkid.symm.trans hid
      subst hk2
      have hreg : r = reg := by
        have := GoMap.get?_eq_some_of_mem hwf hk
        rw [hd] at this
        injection this with this
        exact this.symm
      subst hreg
      unfold serviceNeedsRegister at hneeds
      simp only [hc] at hneeds
      rw [hno] at hneeds
      cases hneeds
  intro r hr
  refine ⟨main r hr, ?_⟩
  rintro rfl
  exact main _ hr hidreg

/-- Witness of C37: the desired registration has metadata and a sidecar, the
catalog entry has neither, and the cycle makes no write. -/
theorem sync_ignores_meta_and_connect_witness :
    regWithMeta.Meta ≠ svcNilTags.Meta ∧ regWithMeta.Connect ≠ svcNilTags.Connect ∧
      (sync reliableCatalog metaClient 100 plainEntryCatalog).calls =
        [Call.Services, Call.Checks] ∧
      ∀ r, Call.ServiceRegister r ∈ (sync reliableCatalog metaClient 100 plainEntryCatalog).calls →
        r.ID ≠ "_nomad-task-a" ∧ r ≠ regWithMeta :=
  ⟨by decide, by decide, by decide,
    sync_ignores_meta_and_connect reliableCatalog metaClient 100 plainEntryCatalog
      plainEntryCatalog plainEntryCatalog.services (by decide) (by decide) rfl
      "_nomad-task-a" regWithMeta svcNilTags rfl rfl (by decide)⟩

theorem serviceRegs_tags_present (lib : Lib) (ops ops2 : operations) (service : Service)
    (task : TaskServices) (sreg : ServiceRegistration)
    (h : serviceRegs lib ops service task = (ops2, .ok sreg)) :
    ∃ reg tags, ops2.regServices = ops.regServices ++ [reg] ∧ reg.Tags = some tags ∧
      (tagElements service.Tags = [] →
        (task.Canary = false ∨ tagElements service.CanaryTags = []) → tags = []) := by
  unfold serviceRegs at h
  simp only at h
  split at h
  · cases h
  · rename_i ip port hga
    split at h
    · cases h
    · rename_i connect hnc
      split at h
      · cases h
      · rename_i ops3 checkIDs hcr
        have hreg := checkRegs_regServices lib
          { ops with regServices := ops.regServices ++
            [{ ID := MakeTaskServiceID task.AllocID task.Name service, Name := service.Name,
               Tags := some (if task.Canary ∧ (tagElements service.CanaryTags).length > 0 then
                 tagElements service.CanaryTags else tagElements service.Tags),
               Address := ip, Port := port,
               Meta := (copyMeta [] service.Meta).set "external-source" "nomad",
               Connect := connect }] }
          (MakeTaskServiceID task.AllocID task.Name service) service task
        rw [hcr] at hreg
        simp only at hreg
        injection h with h1 h2
        subst h1
        refine ⟨_, _, hreg, rfl, ?_⟩
        intro ht hor
        rcases hor with hc | he
        · simp [hc, ht]
        · simp [he, ht]

/-- C38 (absent versus empty tags). `agentServiceUpdateRequired reg svc` is
true when the tag list of one side is absent and that of the other is present
and empty, whatever the other fields are, so also when kind, id, port, address
and name are equal.  The registration `serviceRegs` builds has a present tag
list, which is empty for a service without tags (and, on a canary, without
canary tags).  Hence, when both catalog reads succeed and no
`ServiceDeregister` and no `ServiceRegister` call fails, every `sync` issues
`ServiceRegister` for a desired registration with present, empty tags whose
catalog entry reports absent tags. -/
theorem absent_tags_reregistered {σ : Type} (lib : Lib) (api : AgentAPI σ) (c : ServiceClient) :
    (∀ (reg : AgentServiceRegistration) (svc : AgentService),
      (reg.Tags = none ∧ svc.Tags = some []) ∨ (reg.Tags = some [] ∧ svc.Tags = none) →
        agentServiceUpdateRequired reg svc = true) ∧
      (∀ (ops ops2 : operations) (service : Service) (task : TaskServices)
        (sreg : ServiceRegistration),
        serviceRegs lib ops service task = (ops2, .ok sreg) →
        ∃ reg tags, ops2.regServices = ops.regServices ++ [reg] ∧ reg.Tags = some tags ∧
          (tagElements service.Tags = [] →
            (task.Canary = false ∨ tagElements service.CanaryTags = []) → tags = [])) ∧
      (∀ (now : Nat) (st st1 st2 : σ) (svcs : GoMap AgentService) (chks : GoMap AgentCheck)
        (id : String) (reg : AgentServiceRegistration) (svc : AgentService),
        api.Services st = (.ok svcs, st1) → api.Checks st1 = (.ok chks, st2) →
        (∀ i s, (api.ServiceDeregister i s).1 = none) →
        (∀ r s, (api.ServiceRegister r s).1 = none) →
        (id, reg) ∈ c.services → svcs.get? id = some svc →
        reg.Tags = some [] → svc.Tags = none →
        Call.ServiceRegister reg ∈ (sync api c now st).calls) := by
  have part1 : ∀ (reg : AgentServiceRegistration) (svc : AgentService),
      (reg.Tags = none ∧ svc.Tags = some []) ∨ (reg.Tags = some [] ∧ svc.Tags = none) →
        agentServiceUpdateRequired reg svc = true := by
    intro reg svc h
    unfold agentServiceUpdateRequired deepEqualTags
    rcases h with ⟨h1, h2⟩ | ⟨h1, h2⟩ <;> rw [h1, h2] <;> simp
  refine ⟨part1, fun ops ops2 service task sreg h =>
    serviceRegs_tags_present lib ops ops2 service task sreg h, ?_⟩
  intro now st st1 st2 svcs chks id reg svc hs hc hsd hsr hmem hget hrt hst
  rw [sync_of_reads api c now st hs hc]
  simp only
  apply List.mem_append_right
  have h12 := loop12_prefix_of_syncLoops api c
    (decide (now < c.deregisterProbationExpiry)) svcs chks st2
  have h1ok : (forEach (deregServiceBody api c (decide (now < c.deregisterProbationExpiry)))
      svcs st2).err = none :=
    forEach_err_none _ _ (fun e _ s => deregServiceBody_err_none api c _ hsd e s) st2
  have h2ok : ∀ s, (forEach (regServiceBody api svcs) c.services s).err = none := fun s =>
    forEach_err_none _ _ (fun e _ s => regServiceBody_err_none api svcs hsr e s) s
  refine h12.subset ?_
  rw [andThen_calls, h1ok]
  simp only
  apply List.mem_append_right
  rw [loop2_ok api c svcs _ (h2ok _)]
  simp only [regServiceCalls, List.mem_map, List.mem_filter]
  refine ⟨(id, reg), ⟨hmem, ?_⟩, rfl⟩
  unfold serviceNeedsRegister
  simp only [hget]
  exact part1 reg svc (Or.inr ⟨hrt, hst⟩)

/-- Witness of C38: against a catalog whose reports leave empty tag lists out,
two cycles in a row register the service without tags. -/
theorem absent_tags_reregistered_witness :
    Call.ServiceRegister regEmptyTags ∈
        (sync omitEmptyCatalog emptyTagsClient 100 {}).calls ∧
      (sync omitEmptyCatalog emptyTagsClient 100 {}).st =
        { services := [("_nomad-task-a", toAgentService regEmptyTags)] } ∧
      Call.ServiceRegister regEmptyTags ∈
        (sync omitEmptyCatalog emptyTagsClient 101
          { services := [("_nomad-task-a", toAgentService regEmptyTags)] }).calls :=
  ⟨by decide, by decide,
    (absent_tags_reregistered plainLib omitEmptyCatalog emptyTagsClient).2.2 101
      { services := [("_nomad-task-a", toAgentService regEmptyTags)] }
      { services := [("_nomad-task-a", toAgentService regEmptyTags)] }
      { services := [("_nomad-task-a", toAgentService regEmptyTags)] }
      [("_nomad-task-a", svcNilTags)] [] "_nomad-task-a" regEmptyTags svcNilTags
      rfl rfl (fun _ _ => rfl) (fun _ _ => rfl) (by decide) rfl rfl rfl⟩

/-! ## Shutdown drain and the check watcher -/

/-! ## Shutdown drain of the loop of Run -/

section Drain

variable {σ : Type} (api : AgentAPI σ)

theorem mergedOps_append (t u : List RunAction) :
    mergedOps (t ++ u) = mergedOps t ++ mergedOps u := by
  induction t with
  | nil => rfl
  | cons a rest ih => cases a <;> simp [mergedOps, ih]

theorem mergedOps_map_merged (q : List operations) :
    mergedOps (q.map RunAction.merged) = q := by
  induction q with
  | nil => rfl
  | cons a rest ih => simp [mergedOps, ih]

theorem replayStore_append (t u : List RunAction) (c : ServiceClient) :
    replayStore (t ++ u) c = replayStore u (replayStore t c) := by
  induction t generalizing c with
  | nil => rfl
  | cons a rest ih =>
    cases a with
    | merged ops => simp [replayStore, ih]
    | synced err => cases err <;> simp [replayStore, ih]

theorem drainOps_client (q : List operations) (rs : RunState) :
    (drainOps rs q).client = replayStore (q.map RunAction.merged) rs.client := by
  induction q generalizing rs with
  | nil => rfl
  | cons a rest ih => simp [drainOps, replayStore, ih, runSelect]

theorem runSync_client (rs : RunState) (now : Nat) (st : σ) :
    (runSync api rs now st).1.client =
      replayStore [RunAction.synced (runSync api rs now st).2.err] rs.client := by
  unfold runSync
  dsimp only
  cases h : (sync api rs.client now st).err <;> simp [replayStore, h]

theorem endsWithSync_concat (t : List RunAction) (err : Option String) :
    endsWithSync (t ++ [RunAction.synced err]) = true := by
  unfold endsWithSync
  rw [List.getLast?_concat]

theorem sentBatches_cons (now : Nat) (ch : RunChoice) (rest : List (Nat × RunChoice)) :
    sentBatches ((now, ch) :: rest) = sentBatches [(now, ch)] ++ sentBatches rest := by
  cases ch with
  | commit ops send => cases send <;> rfl
  | _ => rfl

/-- A step of a caller's `commit`: the batch is put at the end of the queue,
or it is dropped, which needs `shutdownCh` closed; nothing else changes. -/
theorem runStep_commit_some (now : Nat) (ops : operations) (send : Bool) (m m1 : RunMachine σ)
    (h : runStep api now (.commit ops send) m = some m1) :
    (send = true ∧ m1 = { m with life := { m.life with opCh := m.life.opCh ++ [ops] } }) ∨
      (send = false ∧ m.life.shutdownCh = true ∧ m1 = m) := by
  cases send with
  | true =>
    left
    by_cases hroom : m.life.opCh.length < opChCap
    · simp [runStep, hroom, commit] at h
      exact ⟨rfl, h.symm⟩
    · simp [runStep, hroom] at h
  | false =>
    right
    cases hs : m.life.shutdownCh with
    | false => simp [runStep, hs] at h
    | true =>
      simp [runStep, hs, commit] at h
      exact ⟨rfl, rfl, h.symm⟩

theorem runStep_init_some (now : Nat) (m m1 : RunMachine σ)
    (h : runStep api now .init m = some m1) :
    m.phase = .init ∧ m1 = { m with life := { m.life with seen := true }, phase := .loop } := by
  cases hp : m.phase <;> simp [runStep, hp] at h
  exact ⟨rfl, h.symm⟩

theorem runStep_timer_some (now : Nat) (m m1 : RunMachine σ)
    (h : runStep api now .timer m = some m1) :
    m.phase = .loop ∧ m1 = runSyncStep api now m := by
  cases hp : m.phase <;> simp [runStep, hp] at h
  exact ⟨rfl, h.symm⟩

theorem runStep_shutdown_some (now : Nat) (m m1 : RunMachine σ)
    (h : runStep api now .shutdown m = some m1) :
    m.life.shutdownCh = true ∧
      ((m.phase = .init ∧ m1 = { m with phase := .exited }) ∨
        (m.phase = .loop ∧ m1 = runSyncStep api now m)) := by
  cases hp : m.phase <;> simp [runStep, hp] at h
  · exact ⟨h.1, Or.inl ⟨rfl, h.2.symm⟩⟩
  · exact ⟨h.1, Or.inr ⟨rfl, h.2.symm⟩⟩

theorem runStep_ops_some (now : Nat) (m m1 : RunMachine σ)
    (h : runStep api now .ops m = some m1) :
    ∃ ops rest, m.life.opCh = ops :: rest ∧
      ((m.phase = .init ∧
          m1 = { m with life := { m.life with opCh := rest },
                        rs := runSelect m.rs (.ops ops),
                        trace := m.trace ++ [RunAction.merged ops] }) ∨
        (m.phase = .loop ∧
          m1 = runSyncStep api now
            { m with life := { m.life with opCh := rest },
                     rs := runSelect m.rs (.ops ops),
                     trace := m.trace ++ [RunAction.merged ops] })) := by
  cases hq : m.life.opCh with
  | nil => simp [runStep, hq] at h
  | cons ops rest =>
    refine ⟨ops, rest, rfl, ?_⟩
    cases hp : m.phase <;> simp [runStep, hp, hq] at h
    · exact Or.inl ⟨rfl, h.symm⟩
    · exact Or.inr ⟨rfl, h.symm⟩

theorem runStep_check_some (now : Nat) (m m1 : RunMachine σ)
    (h : runStep api now .check m = some m1) :
    m.phase = .check ∧
      ((m.life.shutdownCh = false ∧ m1 = { m with phase := .loop }) ∨
        (m.life.shutdownCh = true ∧ m.life.opCh = [] ∧ m1 = { m with phase := .exited }) ∨
        (m.life.shutdownCh = true ∧ m.life.opCh ≠ [] ∧
          m1 = { m with life := { m.life with opCh := [] }, rs := drainOps m.rs m.life.opCh,
                        trace := m.trace ++ m.life.opCh.map RunAction.merged,
                        phase := .loop })) := by
  cases hp : m.phase <;> simp [runStep, hp] at h
  refine ⟨rfl, ?_⟩
  cases hs : m.life.shutdownCh with
  | false =>
    simp [hs] at h
    exact Or.inl ⟨rfl, h.symm⟩
  | true =>
    cases hq : m.life.opCh with
    | nil =>
      simp [hs, hq] at h
      exact Or.inr (Or.inl ⟨rfl, rfl, h.symm⟩)
    | cons a rest =>
      simp [hs, hq] at h
      refine Or.inr (Or.inr ⟨rfl, by simp, ?_⟩)
      rw [← h]
      simp [hs]

/-- At the `select` that ends an iteration, the last thing `Run` did was a
`sync`. -/
theorem runStep_check_sync (now : Nat) (ch : RunChoice) (m m1 : RunMachine σ)
    (h : runStep api now ch m = some m1)
    (hm : m.phase = .check → endsWithSync m.trace = true) :
    m1.phase = .check → endsWithSync m1.trace = true := by
  cases ch with
  | commit ops send =>
    obtain ⟨-, rfl⟩ | ⟨-, -, rfl⟩ := runStep_commit_some api now ops send m m1 h
    · exact hm
    · exact hm
  | close =>
    simp only [runStep, Option.some.injEq] at h
    subst h
    exact hm
  | init =>
    obtain ⟨-, rfl⟩ := runStep_init_some api now m m1 h
    intro hc
    cases hc
  | timer =>
    obtain ⟨-, rfl⟩ := runStep_timer_some api now m m1 h
    intro _
    exact endsWithSync_concat _ _
  | shutdown =>
    obtain ⟨-, ⟨-, rfl⟩ | ⟨-, rfl⟩⟩ := runStep_shutdown_some api now m m1 h
    · intro hc
      cases hc
    · intro _
      exact endsWithSync_concat _ _
  | ops =>
    obtain ⟨ops, rest, -, ⟨hp, rfl⟩ | ⟨-, rfl⟩⟩ := runStep_ops_some api now m m1 h
    · intro hc
      change m.phase = .check at hc
      rw [hp] at hc
      cases hc
    · intro _
      exact endsWithSync_concat _ _
  | check =>
    obtain ⟨-, ⟨-, rfl⟩ | ⟨-, -, rfl⟩ | ⟨-, -, rfl⟩⟩ := runStep_check_some api now m m1 h <;>
      intro hc <;> cases hc

theorem runSteps_check_sync (sch : List (Nat × RunChoice)) :
    ∀ (m m1 : RunMachine σ), runSteps api sch m = some m1 →
      (m.phase = .check → endsWithSync m.trace = true) →
      m1.phase = .check → endsWithSync m1.trace = true := by
  induction sch with
  | nil =>
    intro m m1 h hm
    simp only [runSteps, Option.some.injEq] at h
    subst h
    exact hm
  | cons s rest ih =>
    intro m m1 h hm
    obtain ⟨now, ch⟩ := s
    unfold runSteps at h
    split at h
    · cases h
    · rename_i m2 h2
      exact ih m2 m1 h (runStep_check_sync api now ch m m2 h2 hm)

/-- One step in the main loop after shutdown was raised.  `q0` is the queue at
the state the count starts from and `Q` is `q0` followed by the batches sent
since: what `Run` has merged since, followed by the batches still queued, is
`Q`, the store is what the actions of `Run` make of it, and once `Run` has
returned it has merged all of `q0`. -/
theorem runStep_drain (now : Nat) (ch : RunChoice) (m m1 : RunMachine σ)
    (T : List RunAction) (q0 Q : List operations) (c0 : ServiceClient)
    (h : runStep api now ch m = some m1)
    (hQ : q0 <+: Q)
    (hsd : m.life.shutdownCh = true) (hph : m.phase ≠ .init)
    (htr : ∃ t, m.trace = T ++ t ∧ mergedOps t ++ m.life.opCh = Q ∧
      m.rs.client = replayStore t c0 ∧ (m.phase = .exited → q0 <+: mergedOps t))
    (hsy : m.phase = .check ∨ m.phase = .exited → endsWithSync m.trace = true) :
    m1.life.shutdownCh = true ∧ m1.phase ≠ .init ∧
      (∃ t, m1.trace = T ++ t ∧ mergedOps t ++ m1.life.opCh = Q ++ sentBatches [(now, ch)] ∧
        m1.rs.client = replayStore t c0 ∧ (m1.phase = .exited → q0 <+: mergedOps t)) ∧
      (m1.phase = .check ∨ m1.phase = .exited → endsWithSync m1.trace = true) := by
  obtain ⟨t, ht1, ht2, ht3, ht4⟩ := htr
  have hsync : ∀ (m2 : RunMachine σ) (t2 : List RunAction), m2.life.shutdownCh = true →
      m2.trace = T ++ t2 → mergedOps t2 ++ m2.life.opCh = Q →
      m2.rs.client = replayStore t2 c0 →
      (runSyncStep api now m2).life.shutdownCh = true ∧ (runSyncStep api now m2).phase ≠ .init ∧
      (∃ t, (runSyncStep api now m2).trace = T ++ t ∧
        mergedOps t ++ (runSyncStep api now m2).life.opCh = Q ++ [] ∧
        (runSyncStep api now m2).rs.client = replayStore t c0 ∧
        ((runSyncStep api now m2).phase = .exited → q0 <+: mergedOps t)) ∧
      ((runSyncStep api now m2).phase = .check ∨ (runSyncStep api now m2).phase = .exited →
        endsWithSync (runSyncStep api now m2).trace = true) := by
    intro m2 t2 h1 h2 h3 h4
    refine ⟨h1, by simp [runSyncStep], ⟨t2 ++ [RunAction.synced (runSync api m2.rs now m2.st).2.err],
      ?_, ?_, ?_, fun hc => by simp [runSyncStep] at hc⟩, fun _ => endsWithSync_concat _ _⟩
    · simp [runSyncStep, h2]
    · rw [mergedOps_append]
      simpa [runSyncStep, mergedOps] using h3
    · rw [replayStore_append, ← h4]
      exact runSync_client api m2.rs now m2.st
  cases ch with
  | commit ops send =>
    obtain ⟨rfl, rfl⟩ | ⟨rfl, -, hm⟩ := runStep_commit_some api now ops send m m1 h
    · refine ⟨hsd, hph, ⟨t, ht1, ?_, ht3, ht4⟩, hsy⟩
      change mergedOps t ++ (m.life.opCh ++ [ops]) = Q ++ [ops]
      rw [← List.append_assoc, ht2]
    · rw [hm]
      refine ⟨hsd, hph, ⟨t, ht1, ?_, ht3, ht4⟩, hsy⟩
      change mergedOps t ++ m.life.opCh = Q ++ []
      rw [List.append_nil, ht2]
  | close =>
    simp only [runStep, Option.some.injEq] at h
    subst h
    exact ⟨rfl, hph, ⟨t, ht1, by simpa [sentBatches] using ht2, ht3, ht4⟩, hsy⟩
  | init =>
    exact absurd (runStep_init_some api now m m1 h).1 hph
  | timer =>
    obtain ⟨-, rfl⟩ := runStep_timer_some api now m m1 h
    exact hsync m t hsd ht1 ht2 ht3
  | shutdown =>
    obtain ⟨-, ⟨hi, -⟩ | ⟨-, rfl⟩⟩ := runStep_shutdown_some api now m m1 h
    · exact absurd hi hph
    · exact hsync m t hsd ht1 ht2 ht3
  | ops =>
    obtain ⟨ops, rest, hq, ⟨hi, -⟩ | ⟨-, rfl⟩⟩ := runStep_ops_some api now m m1 h
    · exact absurd hi hph
    · refine hsync _ (t ++ [RunAction.merged ops]) hsd ?_ ?_ ?_
      · simp [ht1]
      · rw [mergedOps_append]
        rw [hq] at ht2
        simpa [mergedOps] using ht2
      · rw [replayStore_append, ← ht3]
        rfl
  | check =>
    obtain ⟨hc, ⟨hf, -⟩ | ⟨-, hnil, rfl⟩ | ⟨-, -, rfl⟩⟩ := runStep_check_some api now m m1 h
    · rw [hsd] at hf
      cases hf
    · refine ⟨hsd, by simp, ⟨t, ht1, by simpa [sentBatches] using ht2, ht3, fun _ => ?_⟩,
        fun _ => hsy (Or.inl hc)⟩
      rw [hnil, List.append_nil] at ht2
      rw [ht2]
      exact hQ
    · refine ⟨hsd, by simp, ⟨t ++ m.life.opCh.map RunAction.merged, ?_, ?_, ?_,
        fun hc2 => by simp at hc2⟩, fun hc2 => by simp at hc2⟩
      · simp [ht1]
      · rw [mergedOps_append, mergedOps_map_merged]
        simpa [sentBatches] using ht2
      · rw [replayStore_append, ← ht3]
        exact drainOps_client _ _

theorem runSteps_drain (T : List RunAction) (q0 : List operations) (c0 : ServiceClient)
    (sch : List (Nat × RunChoice)) :
    ∀ (m m1 : RunMachine σ) (Q : List operations), runSteps api sch m = some m1 →
      q0 <+: Q → m.life.shutdownCh = true → m.phase ≠ .init →
      (∃ t, m.trace = T ++ t ∧ mergedOps t ++ m.life.opCh = Q ∧
        m.rs.client = replayStore t c0 ∧ (m.phase = .exited → q0 <+: mergedOps t)) →
      (m.phase = .check ∨ m.phase = .exited → endsWithSync m.trace = true) →
      (∃ t, m1.trace = T ++ t ∧ mergedOps t ++ m1.life.opCh = Q ++ sentBatches sch ∧
        m1.rs.client = replayStore t c0 ∧ (m1.phase = .exited → q0 <+: mergedOps t)) ∧
      (m1.phase = .check ∨ m1.phase = .exited → endsWithSync m1.trace = true) := by
  induction sch with
  | nil =>
    intro m m1 Q h _ _ _ h3 h4
    simp only [runSteps, Option.some.injEq] at h
    subst h
    obtain ⟨t, a, b, c, d⟩ := h3
    exact ⟨⟨t, a, by simpa [sentBatches] using b, c, d⟩, h4⟩
  | cons s rest ih =>
    intro m m1 Q h hQ h1 h2 h3 h4
    obtain ⟨now, ch⟩ := s
    unfold runSteps at h
    split at h
    · cases h
    · rename_i m2 hstep
      obtain ⟨a1, a2, a3, a4⟩ := runStep_drain api now ch m m2 T q0 Q c0 hstep hQ h1 h2 h3 h4
      have := ih m2 m1 (Q ++ sentBatches [(now, ch)]) h
        (hQ.trans (List.prefix_append _ _)) a1 a2 a3 a4
      rw [sentBatches_cons, ← List.append_assoc]
      exact this

theorem runSteps_cons (now : Nat) (ch : RunChoice) (rest : List (Nat × RunChoice))
    (m m2 : RunMachine σ) (h : runStep api now ch m = some m2) :
    runSteps api ((now, ch) :: rest) m = runSteps api rest m2 := by
  simp only [runSteps, h]

theorem runStep_shutdown_loop (now : Nat) (m : RunMachine σ) (hsd : m.life.shutdownCh = true)
    (hph : m.phase = .loop) : runStep api now .shutdown m = some (runSyncStep api now m) := by
  simp [runStep, hph, hsd]

theorem runStep_check_exit (now : Nat) (m : RunMachine σ) (hsd : m.life.shutdownCh = true)
    (hph : m.phase = .check) (hq : m.life.opCh = []) :
    runStep api now .check m = some { m with phase := .exited } := by
  simp [runStep, hph, hsd, hq]

theorem runStep_check_drain (now : Nat) (m : RunMachine σ) (hsd : m.life.shutdownCh = true)
    (hph : m.phase = .check) (hq : m.life.opCh ≠ []) :
    runStep api now .check m =
      some { m with life := { m.life with opCh := [] }, rs := drainOps m.rs m.life.opCh,
                    trace := m.trace ++ m.life.opCh.map RunAction.merged, phase := .loop } := by
  have : m.life.opCh.length > 0 := List.length_pos.mpr hq
  simp only [runStep, hph, hsd, if_true, this]

/-- After shutdown was raised, `Run` can leave the `select` that ends an
iteration and return within three steps. -/
theorem exit_from_check (now : Nat) (m : RunMachine σ) (hsd : m.life.shutdownCh = true)
    (hph : m.phase = .check) :
    ∃ sch m1, runSteps api sch m = some m1 ∧ m1.phase = .exited := by
  by_cases hq : m.life.opCh = []
  · refine ⟨[(now, .check)], { m with phase := .exited }, ?_, rfl⟩
    rw [runSteps_cons api now .check [] m _ (runStep_check_exit api now m hsd hph hq)]
    rfl
  · let m2 : RunMachine σ :=
      { m with life := { m.life with opCh := [] }, rs := drainOps m.rs m.life.opCh,
               trace := m.trace ++ m.life.opCh.map RunAction.merged, phase := .loop }
    have e1 : runStep api now .check m = some m2 := runStep_check_drain api now m hsd hph hq
    have e2 : runStep api now .shutdown m2 = some (runSyncStep api now m2) :=
      runStep_shutdown_loop api now m2 hsd rfl
    have e3 : runStep api now .check (runSyncStep api now m2) =
        some { runSyncStep api now m2 with phase := .exited } :=
      runStep_check_exit api now (runSyncStep api now m2) hsd rfl rfl
    have e : runSteps api [(now, .check), (now, .shutdown), (now, .check)] m =
        some { runSyncStep api now m2 with phase := .exited } := by
      rw [runSteps_cons api now .check _ m m2 e1,
        runSteps_cons api now .shutdown _ m2 _ e2,
        runSteps_cons api now .check _ (runSyncStep api now m2) _ e3]
      rfl
    exact ⟨_, _, e, rfl⟩

theorem exit_from_loop (now : Nat) (m : RunMachine σ) (hsd : m.life.shutdownCh = true)
    (hph : m.phase = .loop) :
    ∃ sch m1, runSteps api sch m = some m1 ∧ m1.phase = .exited := by
  obtain ⟨sch, m1, h2, h3⟩ := exit_from_check api now (runSyncStep api now m) hsd rfl
  exact ⟨(now, .shutdown) :: sch, m1,
    by rw [runSteps_cons api now .shutdown sch m _ (runStep_shutdown_loop api now m hsd hph), h2],
    h3⟩

end Drain

/-- Counterexample to C34: `Run` waits for contact with the catalog, a batch is
queued and shutdown is raised; this state is reached from the start of `Run`.
`Run` takes the case of the shutdown signal and returns: the batch stays in
the queue, the desired store is as it was, and no `sync` was attempted. -/
theorem Run_waiting_exits_without_drain :
    runSteps reliableCatalog [(0, .commit webBatch true), (0, .close)] startMachine =
        some waitingMachine ∧
      waitingMachine.life.shutdownCh = true ∧ waitingMachine.life.opCh = [webBatch] ∧
      runSteps reliableCatalog [(0, .shutdown)] waitingMachine =
        some { waitingMachine with phase := .exited } ∧
      ({ waitingMachine with phase := .exited } : RunMachine Catalog).trace = [] ∧
      ({ waitingMachine with phase := .exited } : RunMachine Catalog).rs.client = freshClient :=
  ⟨rfl, rfl, rfl, rfl, rfl, rfl⟩

/-- C34, amended (shutdown drain of the main loop). `Run` is a state machine
over the phase, the queue and the desired store, started in the phase that
waits for contact.  For every reachable state `m` of the main loop (at either
`select`) in which shutdown is raised, `Run` can return, and whenever it has
returned, what it did since `m` begins with the merges of the batches that
were in the queue at `m`, each once and in the order of the queue; the
batches it merged and the batches still queued are those of the queue at `m`
followed by the batches that commits have sent since; the desired store is
the result of these actions; and the last action of `Run` is an attempt to
sync, which comes after every merge.  The phase that waits for contact is left
out: there `Run` may return on shutdown with batches in the queue and without
a `sync`. -/
theorem Run_drains_on_shutdown {σ : Type} (api : AgentAPI σ) (m0 m : RunMachine σ)
    (sch0 : List (Nat × RunChoice))
    (h0 : m0.phase = .init) (hreach : runSteps api sch0 m0 = some m)
    (hsd : m.life.shutdownCh = true) (hph : m.phase = .loop ∨ m.phase = .check) :
    (∃ sch m1, runSteps api sch m = some m1 ∧ m1.phase = .exited) ∧
      ∀ sch m1, runSteps api sch m = some m1 → m1.phase = .exited →
        ∃ t, m1.trace = m.trace ++ t ∧ m.life.opCh <+: mergedOps t ∧
          mergedOps t ++ m1.life.opCh = m.life.opCh ++ sentBatches sch ∧
          m1.rs.client = replayStore t m.rs.client ∧
          endsWithSync m1.trace = true := by
  have hR : m.phase = .check → endsWithSync m.trace = true :=
    runSteps_check_sync api sch0 m0 m hreach (fun hc => by rw [h0] at hc; cases hc)
  refine ⟨?_, ?_⟩
  · rcases hph with hph | hph
    · exact exit_from_loop api 0 m hsd hph
    · exact exit_from_check api 0 m hsd hph
  · intro sch m1 hrun hex
    have hne : m.phase ≠ .init := by
      rcases hph with hph | hph <;> rw [hph] <;> decide
    obtain ⟨⟨t, ht1, ht2, ht3, ht4⟩, h4⟩ := runSteps_drain api m.trace m.life.opCh m.rs.client
      sch m m1 m.life.opCh hrun (List.prefix_refl _) hsd hne
      ⟨[], by simp, by simp [mergedOps], rfl,
        fun hc => by rcases hph with hph | hph <;> rw [hph] at hc <;> cases hc⟩
      (fun hc => by
        rcases hc with hc | hc
        · exact hR hc
        · rcases hph with hph | hph <;> rw [hph] at hc <;> cases hc)
    exact ⟨t, ht1, ht4 hex, ht2, ht3, h4 (Or.inr hex)⟩

/-- Witness of the amended C34: a batch is committed, contact is made and
shutdown is raised; from there every schedule in which `Run` returns has
merged that batch and ends with a `sync`. -/
theorem Run_drains_on_shutdown_witness :
    runSteps reliableCatalog [(0, .commit webBatch true), (0, .init), (0, .close)]
        startMachine = some runningMachine ∧
      (∃ sch m1, runSteps reliableCatalog sch runningMachine = some m1 ∧ m1.phase = .exited) ∧
      ∀ sch m1, runSteps reliableCatalog sch runningMachine = some m1 → m1.phase = .exited →
        ∃ t, m1.trace = runningMachine.trace ++ t ∧ [webBatch] <+: mergedOps t ∧
          mergedOps t ++ m1.life.opCh = [webBatch] ++ sentBatches sch ∧
          m1.rs.client = replayStore t freshClient ∧
          endsWithSync m1.trace = true :=
  ⟨rfl, Run_drains_on_shutdown reliableCatalog startMachine runningMachine
    [(0, .commit webBatch true), (0, .init), (0, .close)] rfl rfl rfl (Or.inl rfl)⟩

/-- A run in which a commit sends a batch after shutdown was raised, while
`Run` is still in its main loop, and another after `Run` has returned: the
first is merged before `Run` returns, the second stays in the queue. -/
theorem Run_late_commits :
    (runSteps reliableCatalog
        [(0, .commit healthzBatch true), (0, .shutdown), (0, .check), (0, .shutdown),
          (0, .check), (0, .commit healthzBatch true)] runningMachine).map
        (fun m => (m.phase, mergedOps m.trace, m.life.opCh, endsWithSync m.trace)) =
      some (.exited, [webBatch, healthzBatch], [healthzBatch], true) := by
  decide

/-! ## UpdateTask and the check watcher -/

section UpdateError

variable (lib : Lib) (ord : RangeOrder)

/-- When `UpdateTask` returns an error it has sent no batch and has left the
allocation index as it was: only calls on the check watcher were made. -/
theorem UpdateTask_error_state (send : Bool) (c : Lifecycle) (old newTask : TaskServices)
    (err : String)
    (h : (UpdateTask send lib ord c old newTask).1 = some err) :
    ∃ w, (UpdateTask send lib ord c old newTask).2 = { c with checkWatcher := c.checkWatcher ++ w } := by
  unfold UpdateTask at h ⊢
  dsimp only at h ⊢
  split
  · exact ⟨_, rfl⟩
  · rename_i s hs
    rw [hs] at h
    dsimp only at h ⊢
    split
    · exact ⟨_, rfl⟩
    · rename_i ops taskReg hl
      rw [hl] at h
      cases h

/-- What `UpdateTask` returns and leaves when the one service of the old task
is kept with a check of another id, and the new task has a second service that
does not build: the calls on the check watcher for the kept service are made
before the error is returned. -/
theorem UpdateTask_later_service_fails (send : Bool) (c : Lifecycle)
    (old newTask : TaskServices)
    (svc svc2 bad : Service) (chk chk2 : ServiceCheck) (o1 : operations)
    (ids : Option (List String))
    (hold : old.Services = [svc]) (hnew : newTask.Services = [svc2, bad])
    (hid : MakeTaskServiceID newTask.AllocID newTask.Name svc2 =
      MakeTaskServiceID old.AllocID old.Name svc)
    (hbadid : MakeTaskServiceID old.AllocID old.Name svc ≠
      MakeTaskServiceID newTask.AllocID newTask.Name bad)
    (hhash : lib.serviceHash svc old.AllocID old.Name old.Canary =
      lib.serviceHash svc2 newTask.AllocID newTask.Name newTask.Canary)
    (hc : svc.Checks = [chk]) (hc2 : svc2.Checks = [chk2])
    (hne : MakeCheckID lib (MakeTaskServiceID old.AllocID old.Name svc) chk2 ≠
      MakeCheckID lib (MakeTaskServiceID old.AllocID old.Name svc) chk)
    (hbuild : checkRegs lib {} (MakeTaskServiceID old.AllocID old.Name svc) svc2 newTask =
      (o1, .ok ids))
    (hbad : serviceBuilds lib newTask bad = false) :
    ∃ err, UpdateTask send lib ord c old newTask =
      (some err, { c with checkWatcher := c.checkWatcher ++
        ((if chk2.TriggersRestarts then
             [WatchCall.Watch newTask.AllocID newTask.Name
               (MakeCheckID lib (MakeTaskServiceID old.AllocID old.Name svc) chk2) chk2]
           else []) ++
           (if chk.TriggersRestarts then
             [WatchCall.Unwatch (MakeCheckID lib (MakeTaskServiceID old.AllocID old.Name svc) chk)]
           else [])) }) := by
  have hcont : GoMap.contains
      [(MakeCheckID lib (MakeTaskServiceID old.AllocID old.Name svc) chk, chk)]
      (MakeCheckID lib (MakeTaskServiceID old.AllocID old.Name svc) chk2) = false := by
    simp [GoMap.contains, GoMap.get?_cons, GoMap.get?_nil, hne]
  have hset : GoMap.set [(MakeTaskServiceID old.AllocID old.Name svc, svc2)]
      (MakeTaskServiceID newTask.AllocID newTask.Name bad) bad =
      [(MakeTaskServiceID newTask.AllocID newTask.Name bad, bad),
        (MakeTaskServiceID old.AllocID old.Name svc, svc2)] := by
    simp [GoMap.set, GoMap.delete, hbadid]
  have hget : GoMap.get? [(MakeTaskServiceID newTask.AllocID newTask.Name bad, bad),
      (MakeTaskServiceID old.AllocID old.Name svc, svc2)]
      (MakeTaskServiceID old.AllocID old.Name svc) = some svc2 := by
    rw [GoMap.get?_cons, if_neg hbadid, GoMap.get?_cons, if_pos rfl]
  have hdel : GoMap.delete [(MakeTaskServiceID newTask.AllocID newTask.Name bad, bad),
      (MakeTaskServiceID old.AllocID old.Name svc, svc2)]
      (MakeTaskServiceID old.AllocID old.Name svc) =
      [(MakeTaskServiceID newTask.AllocID newTask.Name bad, bad)] := by
    simp [GoMap.delete, Ne.symm hbadid]
  have hE : updateExistingLoop lib ord old newTask
      [(MakeTaskServiceID old.AllocID old.Name svc, svc)]
      { newIDs := [(MakeTaskServiceID newTask.AllocID newTask.Name bad, bad),
          (MakeTaskServiceID old.AllocID old.Name svc, svc2)] } =
      ({ ops := { o1 with
                  deregChecks := o1.deregChecks ++
                    [MakeCheckID lib (MakeTaskServiceID old.AllocID old.Name svc) chk] },
         taskReg := (GoMap.set [] (MakeTaskServiceID old.AllocID old.Name svc)
            { serviceID := MakeTaskServiceID old.AllocID old.Name svc,
              checkIDs := addCheckIDs [] (ids.getD []) }),
         newIDs := [(MakeTaskServiceID newTask.AllocID newTask.Name bad, bad)],
         watcher := (if chk2.TriggersRestarts then
             [WatchCall.Watch newTask.AllocID newTask.Name
               (MakeCheckID lib (MakeTaskServiceID old.AllocID old.Name svc) chk2) chk2]
           else []) ++
           (if chk.TriggersRestarts then
             [WatchCall.Unwatch (MakeCheckID lib (MakeTaskServiceID old.AllocID old.Name svc) chk)]
           else []) }, none) := by
    cases h2 : chk2.TriggersRestarts <;> cases h1 : chk.TriggersRestarts <;>
      simp only [updateExistingLoop, hget, hhash, if_true, hdel, hc, hc2, checkIDMap,
        GoMap.set_nil, updateChecksLoop, hcont, Bool.false_eq_true, if_false, hbuild,
        RangeOrder.range_singleton, GoMap.keys, List.map_cons, List.map_nil, List.filter_cons,
        List.filter_nil, List.nil_append, List.append_nil, h1, h2]
  obtain ⟨err, herr⟩ := serviceRegsLoop_error lib newTask [bad]
    { o1 with deregChecks := o1.deregChecks ++
        [MakeCheckID lib (MakeTaskServiceID old.AllocID old.Name svc) chk] }
    [(MakeTaskServiceID old.AllocID old.Name svc,
      { serviceID := MakeTaskServiceID old.AllocID old.Name svc,
        checkIDs := addCheckIDs [] (ids.getD []) })]
    ⟨bad, List.mem_singleton_self _, hbad⟩
  refine ⟨err, ?_⟩
  simp only [UpdateTask, hold, hnew, serviceIDs, hid, GoMap.set_nil, hset,
    RangeOrder.range_singleton, hE, List.map_cons, List.map_nil, herr]

end UpdateError

/-- C35, at a failing input. The task `webTask` is updated to `brokenTask`: the
path of the check of its service has changed, and a service that does not
build (it asks for the address of a driver network the task does not have) was
added.  `UpdateTask` returns an error, sends no batch and leaves the
allocation index as it was, yet it has called `Watch` for the new check, which
is never registered, and `Unwatch` for the old one, which stays registered. -/
theorem UpdateTask_error_after_watch_calls (send : Bool) :
    (∃ err, (UpdateTask send pathLib listOrder webIndex webTask brokenTask).1 = some err) ∧
      (UpdateTask send pathLib listOrder webIndex webTask brokenTask).2.opCh = [] ∧
      (UpdateTask send pathLib listOrder webIndex webTask brokenTask).2.allocRegistrations =
        webIndex.allocRegistrations ∧
      (UpdateTask send pathLib listOrder webIndex webTask brokenTask).2.checkWatcher =
        [WatchCall.Watch "a1" "web" "_nomad-check-_nomad-task-a1-web-frontend-http/alive/healthz"
            { httpCheck with Path := "/healthz" },
          WatchCall.Unwatch "_nomad-check-_nomad-task-a1-web-frontend-http/alive/health"] := by
  have hb : checkRegs pathLib {} (MakeTaskServiceID webTask.AllocID webTask.Name webService)
      { webService with Checks := [{ httpCheck with Path := "/healthz" }] } brokenTask =
      ({ regChecks := [healthzRegistration] },
        .ok (some ["_nomad-check-_nomad-task-a1-web-frontend-http/alive/healthz"])) := by
    simp only [checkRegs, checkRegsLoop, webService, httpCheck, brokenTask, webTask,
      getAddress_eq]
    rfl
  have hbad : serviceBuilds pathLib brokenTask adminService = false := by
    simp only [serviceBuilds, serviceRegs, adminService, brokenTask, webTask, getAddress_eq]
    rfl
  obtain ⟨err, he⟩ := UpdateTask_later_service_fails pathLib listOrder send webIndex
    webTask brokenTask webService
    { webService with Checks := [{ httpCheck with Path := "/healthz" }] }
    adminService httpCheck { httpCheck with Path := "/healthz" } _ _ rfl rfl rfl (by decide)
    rfl rfl rfl (by decide) hb hbad
  rw [he]
  exact ⟨⟨err, rfl⟩, rfl, rfl, rfl⟩

end Consul
